import Mathlib

/-!
# updaterd: storage layer

A shallow embedding of `storage/store.go` and `storage/setup.go`.

The database (PostgreSQL reached through `database/sql`), the block and
transaction codecs, the Merkle tree and the hash functions live outside the
repository; they enter the embedding as the fields of `Lib` (pure library
functions) and `Database` (the server, as a transition function on an abstract
state).  Every call that reaches the server is appended to a trace.
-/

namespace Updaterd

/-- Byte strings (`[]byte`); each element is one byte. -/
abbrev Bytes := List Nat

/-- Values of `blockdigest.Digest` and `merkle.Digest` (32 bytes). -/
abbrev Digest := Bytes

/-- Values of `account.Account`. -/
abbrev Account := Bytes

/-- Values of `account.Signature`. -/
abbrev Signature := Bytes

/-- Values of `merkle.Digest` used as a link to a previous record. -/
abbrev Link := Bytes

/-- Values of `transactionrecord.AssetIdentifier`. -/
abbrev AssetIdentifier := Bytes

/-- Values of `currency.Map`: currency name to payment address. -/
abbrev CurrencyMap := List (String × String)

/-- Two to the 64: the modulus of `uint64` arithmetic. -/
def u64 : Nat := 2 ^ 64

/-- Subtraction of `uint64` values (both below `u64`), wrapping as in Go. -/
def subU64 (a b : Nat) : Nat := if b ≤ a then a - b else a + u64 - b

/-- Addition of `uint64` values, wrapping as in Go. -/
def addU64 (a b : Nat) : Nat := (a + b) % u64

/-- Addition of Go `int` values, 64 bits wide, wrapping as in Go: the sum is
brought back into the range from minus two to the 63 up to two to the 63
minus one. -/
def addInt (a b : Int) : Int := (a + b + 2 ^ 63) % 2 ^ 64 - 2 ^ 63

/-- Error values that the storage layer returns or passes on. -/
inductive Error
  | ErrNotInitialised
  | ErrAlreadyInitialised
  | ErrPreviousBlockDigestDoesNotMatch
  | ErrMerkleRootDoesNotMatch
  | ErrBlockNotFound
  | ErrNoConnectionsAvailable
  | ErrConnectingToSelfForbidden
  | ErrInvalidPeerResponse
  /-- The value `sql.ErrNoRows` of `database/sql`. -/
  | sqlErrNoRows
  /-- An error of dynamic type `*pq.Error`; the argument is `err.Code.Name()`. -/
  | pq (codeName : String)
  /-- Any other error value (driver, network, codec or marshalling). -/
  | other (msg : String)
  deriving DecidableEq, Repr

deriving instance DecidableEq for Except

/-- Result of a call that may return an error or panic. -/
inductive Outcome (α : Type)
  | ok (a : α)
  | err (e : Error)
  | panic (msg : String)
  deriving DecidableEq, Repr

/-- PostgreSQL error code name tested by `insertTransfer`. -/
def not_null_violation : String := "not_null_violation"

/-- Type for indicating record status. -/
inductive statusType
  | statusPending
  | statusVerified
  | statusConfirmed
  deriving DecidableEq, Repr

/-- Number of blocks subtracted from the height when reverting. -/
def blockRevertLimit : Nat := 5

/-- Decoded block header (`blockrecord.Header`). -/
structure Header where
  Version : Nat
  TransactionCount : Nat
  Number : Nat
  PreviousBlock : Digest
  MerkleRoot : Digest
  Timestamp : Nat
  Difficulty : Nat
  Nonce : Nat
  deriving DecidableEq, Repr

/-- Record `transactionrecord.OldBaseData`. -/
structure OldBaseData where
  Currency : String
  PaymentAddress : String
  Owner : Account
  Nonce : Nat
  Signature : Signature
  deriving DecidableEq, Repr

/-- Record `transactionrecord.AssetData`. -/
structure AssetData where
  Name : String
  Fingerprint : String
  Metadata : String
  Registrant : Account
  Signature : Signature
  deriving DecidableEq, Repr

/-- Record `transactionrecord.BitmarkIssue`. -/
structure BitmarkIssue where
  AssetId : AssetIdentifier
  Owner : Account
  Nonce : Nat
  Signature : Signature
  deriving DecidableEq, Repr

/-- The view of a transfer record through the interface
`transactionrecord.BitmarkTransfer`: the values of `GetLink`, `GetOwner`,
`GetCurrencies` (`none` for a nil map), `GetSignature` and
`GetCountersignature`. -/
structure BitmarkTransfer where
  Link : Link
  Owner : Account
  Currencies : Option CurrencyMap
  Signature : Signature
  Countersignature : Updaterd.Signature
  deriving DecidableEq, Repr

/-- Record `transactionrecord.BitmarkShare`. -/
structure BitmarkShare where
  Link : Link
  Quantity : Nat
  Signature : Signature
  deriving DecidableEq, Repr

/-- Record `transactionrecord.ShareGrant`. -/
structure ShareGrant where
  ShareId : Link
  Quantity : Nat
  Owner : Account
  Recipient : Account
  BeforeBlock : Nat
  Signature : Signature
  Countersignature : Updaterd.Signature
  deriving DecidableEq, Repr

/-- Record `transactionrecord.ShareSwap`. -/
structure ShareSwap where
  ShareIdOne : Link
  QuantityOne : Nat
  OwnerOne : Account
  ShareIdTwo : Link
  QuantityTwo : Nat
  OwnerTwo : Account
  BeforeBlock : Nat
  Signature : Signature
  Countersignature : Updaterd.Signature
  deriving DecidableEq, Repr

/-- Record `transactionrecord.BlockFoundation`. -/
structure BlockFoundation where
  Version : Nat
  Payments : CurrencyMap
  Owner : Account
  Nonce : Nat
  Signature : Signature
  deriving DecidableEq, Repr

/-- The record variants that `Unpack` returns. -/
inductive Transaction
  | OldBaseData (tx : Updaterd.OldBaseData)
  | AssetData (tx : Updaterd.AssetData)
  | BitmarkIssue (tx : Updaterd.BitmarkIssue)
  | BitmarkTransferUnratified (tx : Updaterd.BitmarkTransfer)
  | BitmarkTransferCountersigned (tx : Updaterd.BitmarkTransfer)
  | BlockOwnerTransfer (tx : Updaterd.BitmarkTransfer)
  | BitmarkShare (tx : Updaterd.BitmarkShare)
  | ShareGrant (tx : Updaterd.ShareGrant)
  | ShareSwap (tx : Updaterd.ShareSwap)
  | BlockFoundation (tx : Updaterd.BlockFoundation)
  deriving DecidableEq, Repr

/-- The library functions that `storage` calls (packages `blockrecord`,
`transactionrecord`, `merkle`, `genesis`, `mode`, `sha3`, `encoding/json`,
`fmt`, `time`).  They are parameters of the embedding. -/
structure Lib where
  /-- Value of `mode.IsTesting()`. -/
  testnet : Bool
  /-- Constant `genesis.BlockNumber`. -/
  genesisBlockNumber : Nat
  /-- Constant `genesis.TestGenesisDigest`. -/
  TestGenesisDigest : Digest
  /-- Constant `genesis.LiveGenesisDigest`. -/
  LiveGenesisDigest : Digest
  /-- Function `blockrecord.ExtractHeader(block, checkHeight)`: header, block
  digest and the remaining bytes. -/
  ExtractHeader : Bytes → Nat → Except Error (Header × Digest × Bytes)
  /-- Function `blockrecord.FoundationTxId(header, digest)`. -/
  FoundationTxId : Header → Digest → Digest
  /-- Method `transactionrecord.Packed(data).Unpack(testnet)`: the first record
  and the number of bytes it occupies. -/
  Unpack : Bytes → Bool → Except Error (Transaction × Nat)
  /-- Method `transactionrecord.Packed(data).MakeLink()`. -/
  MakeLink : Bytes → Digest
  /-- Function `merkle.NewDigest(data)`. -/
  NewDigest : Bytes → Digest
  /-- Function `merkle.FullMerkleTree(txIds)`. -/
  FullMerkleTree : List Digest → List Digest
  /-- Function `sha3.Sum384(data)`. -/
  Sum384 : Bytes → Bytes
  /-- Method `MarshalText` of `merkle.Digest`. -/
  digestMarshalText : Digest → Except Error String
  /-- Method `String` of `blockdigest.Digest`. -/
  blockDigestString : Digest → String
  /-- Method `MarshalText` of a link. -/
  linkMarshalText : Link → Except Error String
  /-- Method `MarshalText` of `account.Signature`. -/
  signatureMarshalText : Signature → Except Error String
  /-- Method `String` of `account.Account`. -/
  accountString : Account → String
  /-- Method `AssetId` of an asset record. -/
  AssetId : AssetData → AssetIdentifier
  /-- Method `MarshalText` of an asset identifier. -/
  assetIdMarshalText : AssetIdentifier → Except Error String
  /-- Method `String` of an asset identifier. -/
  assetIdString : AssetIdentifier → String
  /-- Function `json.Marshal` on a map from strings to strings (asset
  metadata, payment currencies). -/
  jsonMarshalMap : List (String × String) → Except Error String
  /-- Function `json.Marshal` on the share information of a grant: share id,
  from, to, quantity. -/
  jsonMarshalGrant : String → Account → Account → Nat → Except Error String
  /-- Function `json.Marshal` on the share information of a swap. -/
  jsonMarshalSwap : Link → Nat → Account → Link → Nat → Account → Except Error String
  /-- Function `fmt.Sscan(stringDigest, digest)`: the count of items scanned,
  the digest written, and the error. -/
  Sscan : String → Nat × Digest × Option Error
  /-- Reading of `time.Now()` in nanoseconds since the epoch. -/
  nowNanoseconds : Int

/-- Calls that reach the database server, with the arguments passed. -/
inductive Call
  | getBlockHeight
  | getBlockDigest (blockNumber : Nat)
  | deleteDownToBlock (startBlockNumber : Nat)
  | deleteExpiredRecords
  | begin
  | commit
  | rollback
  | insertBlock (blockNumber : Nat) (hash : String) (createdOn : Nat)
  | insertAsset (id name fingerprint metadata registrant signature : String)
      (status : statusType) (blockNumber blockOffset : Nat)
  | insertTransaction (id owner signature countersignature : String)
      (assetId previousTxid : Option String) (status : statusType)
      (payments : Option String) (payId : String) (blockNumber blockOffset : Nat)
  | insertShare (id : String) (quantity : Nat) (signature previousTxid payId : String)
      (status : statusType) (blockNumber blockOffset : Nat)
  | insertGrant (id shareId : String) (quantity : Nat)
      (owner recipient signature countersignature payId shares : String)
      (status : statusType) (blockNumber blockOffset : Nat)
  | insertSwap (id shareOne : String) (quantityOne : Nat) (ownerOne shareTwo : String)
      (quantityTwo : Nat) (ownerTwo signature countersignature payId shares : String)
      (status : statusType) (blockNumber blockOffset : Nat)
  | updateEditions (blockNumber : Nat)
  | notifyBlock (number : String)
  | notifyAsset (ids : String)
  | notifyIssue (ids : String)
  | notifyTransfer (ids : String)
  | notifyPendingTx (id : String)
  deriving DecidableEq, Repr

/-- The database server seen through `database/sql`: how each statement
changes the server state and what it reports. -/
structure Database (σ : Type) where
  /-- Statements run with `Exec`, and `Begin`, `Commit`, `Rollback`: the error
  reported (`none` for success) and the next state. -/
  exec : σ → Call → Option Error × σ
  /-- Statement `get_block_height()` followed by `Scan` into a `uint64`. -/
  queryHeight : σ → Except Error Nat × σ
  /-- Statement `get_block_digest(n)` followed by `Scan` into a string. -/
  queryDigest : σ → Nat → Except Error String × σ

/-- The package variable `globalData`: whether the database handle is set,
the server behind it, and the calls made so far. -/
structure GlobalData (σ : Type) where
  initialised : Bool
  db : σ
  trace : List Call
  deriving DecidableEq, Repr

variable {σ : Type}

/-- Run one statement and record it. -/
def execCall (D : Database σ) (c : Call) (g : GlobalData σ) : Option Error × GlobalData σ :=
  ((D.exec g.db c).1, { g with db := (D.exec g.db c).2, trace := g.trace ++ [c] })

/-- Assignment `m[k] = v` on a Go map kept as an association list. -/
def mapSet : List (String × String) → String → String → List (String × String)
  | [], k, v => [(k, v)]
  | (k1, v1) :: rest, k, v => if k1 = k then (k, v) :: rest else (k1, v1) :: mapSet rest k v

/-- Function `strings.Join(ids, ",")`. -/
def joinComma (ids : List String) : String := ",".intercalate ids

/-- Notify a block record. -/
def notifyBlock (D : Database σ) (blockNumber : Nat) (g : GlobalData σ) :
    Option Error × GlobalData σ :=
  execCall D (.notifyBlock (toString blockNumber)) g

/-- Notify asset records. -/
def notifyAsset (D : Database σ) (assetIds : List String) (g : GlobalData σ) :
    Option Error × GlobalData σ :=
  execCall D (.notifyAsset (joinComma assetIds)) g

/-- The loop of `notifyIssue`: one statement for each group of 20 ids; the
first argument bounds the number of rounds. -/
def notifyIssueLoop (D : Database σ) : Nat → List String → GlobalData σ →
    Option Error × GlobalData σ
  | 0, _, g => (none, g)
  | fuel + 1, issueIds, g =>
    if issueIds.isEmpty then (none, g)
    else
      match execCall D (.notifyIssue (joinComma (issueIds.take 20))) g with
      | (some e, g1) => (some e, g1)
      | (none, g1) => notifyIssueLoop D fuel (issueIds.drop 20) g1

/-- Notify issue records. -/
def notifyIssue (D : Database σ) (issueIds : List String) (g : GlobalData σ) :
    Option Error × GlobalData σ :=
  notifyIssueLoop D issueIds.length issueIds g

/-- Notify transfer records. -/
def notifyTransfer (D : Database σ) (transferIds : List String) (g : GlobalData σ) :
    Option Error × GlobalData σ :=
  execCall D (.notifyTransfer (joinComma transferIds)) g

/-- Notify one incoming pending transaction. -/
def notifyPendingTx (D : Database σ) (txId : String) (g : GlobalData σ) :
    Option Error × GlobalData σ :=
  execCall D (.notifyPendingTx txId) g

/-- Store a block record. -/
def insertBlock (L : Lib) (D : Database σ) (blockNumber : Nat) (digest : Digest)
    (createdOn : Nat) (g : GlobalData σ) : Option Error × GlobalData σ :=
  execCall D (.insertBlock blockNumber (L.blockDigestString digest) createdOn) g

/-- Function `strings.Split(s, "\u0000")`. -/
def splitNul (s : String) : List String :=
  (s.data.splitOn (Char.ofNat 0)).map String.mk

/-- The loop of `insertAsset` that fills the metadata map from the list of
alternating keys and values. -/
def metaMapOf : List String → List (String × String) → List (String × String)
  | k :: v :: rest, m => metaMapOf rest (mapSet m k v)
  | _, m => m

/-- Store an asset record; returns the asset id. -/
def insertAsset (L : Lib) (D : Database σ) (asset : AssetData) (status : statusType)
    (blockNumber blockOffset : Nat) (g : GlobalData σ) : Outcome String × GlobalData σ :=
  let assetId := L.AssetId asset
  match L.assetIdMarshalText assetId with
  | .error e => (.err e, g)
  | .ok id =>
    match L.signatureMarshalText asset.Signature with
    | .error e => (.err e, g)
    | .ok signature =>
      let m := splitNul asset.Metadata
      let m := if m.length % 2 = 1 then m.take (m.length - 1) else m
      match L.jsonMarshalMap (metaMapOf m []) with
      | .error e => (.err e, g)
      | .ok metadata =>
        match execCall D (.insertAsset id asset.Name asset.Fingerprint metadata
            (L.accountString asset.Registrant) signature status blockNumber blockOffset) g with
        | (some e, g1) => (.err e, g1)
        | (none, g1) => (.ok (L.assetIdString assetId), g1)

/-- Store an issue record; returns the text of the transaction id. -/
def insertIssue (L : Lib) (D : Database σ) (txId : Digest) (issue : BitmarkIssue)
    (status : statusType) (blockNumber blockOffset : Nat) (payId : String)
    (g : GlobalData σ) : Outcome String × GlobalData σ :=
  match L.digestMarshalText txId with
  | .error e => (.err e, g)
  | .ok id =>
    match L.signatureMarshalText issue.Signature with
    | .error e => (.err e, g)
    | .ok signature =>
      match L.assetIdMarshalText issue.AssetId with
      | .error e => (.err e, g)
      | .ok asset_id =>
        match execCall D (.insertTransaction id (L.accountString issue.Owner) signature ""
            (some asset_id) none status none payId blockNumber blockOffset) g with
        | (some e, g1) => (.err e, g1)
        | (none, g1) => (.ok id, g1)

/-- Store a foundation record; returns the text of the transaction id. -/
def insertFoundation (L : Lib) (D : Database σ) (txId : Digest) (issue : BlockFoundation)
    (status : statusType) (blockNumber blockOffset : Nat) (payId : String)
    (g : GlobalData σ) : Outcome String × GlobalData σ :=
  match L.digestMarshalText txId with
  | .error e => (.err e, g)
  | .ok id =>
    match L.signatureMarshalText issue.Signature with
    | .error e => (.err e, g)
    | .ok signature =>
      match L.jsonMarshalMap issue.Payments with
      | .error e => (.err e, g)
      | .ok currencies =>
        match execCall D (.insertTransaction id (L.accountString issue.Owner) signature ""
            none none status (some currencies) payId blockNumber blockOffset) g with
        | (some e, g1) => (.err e, g1)
        | (none, g1) => (.ok id, g1)

/-- The payments argument of `insertTransfer`: absent for a nil map, a panic
when the map marshals to `null` or to the empty object. -/
def transferCurrencies (L : Lib) : Option CurrencyMap → Outcome (Option String)
  | none => .ok none
  | some payments =>
    match L.jsonMarshalMap payments with
    | .error e => .err e
    | .ok c1 =>
      if c1 = "null" ∨ c1 = "{}" then .panic "currencies has unxpected value"
      else .ok (some c1)

/-- Store a transfer record; returns the text of the transaction id.  Only an
error of type `*pq.Error` is returned; a missing previous record is a panic. -/
def insertTransfer (L : Lib) (D : Database σ) (txId : Digest) (transfer : BitmarkTransfer)
    (status : statusType) (blockNumber blockOffset : Nat) (payId : String)
    (g : GlobalData σ) : Outcome String × GlobalData σ :=
  match L.digestMarshalText txId with
  | .error e => (.err e, g)
  | .ok id =>
    match L.signatureMarshalText transfer.Countersignature with
    | .error e => (.err e, g)
    | .ok countersignature =>
      match L.signatureMarshalText transfer.Signature with
      | .error e => (.err e, g)
      | .ok signature =>
        match L.linkMarshalText transfer.Link with
        | .error e => (.err e, g)
        | .ok previous_id =>
          match transferCurrencies L transfer.Currencies with
          | .err e => (.err e, g)
          | .panic msg => (.panic msg, g)
          | .ok currencies =>
            match execCall D (.insertTransaction id (L.accountString transfer.Owner) signature
                countersignature none (some previous_id) status currencies payId
                blockNumber blockOffset) g with
            | (some (.pq codeName), g1) =>
              if codeName = not_null_violation then (.panic "Database is corrupt", g1)
              else (.err (.pq codeName), g1)
            | (_, g1) => (.ok id, g1)

/-- Store a share record; returns the text of the transaction id. -/
def insertShare (L : Lib) (D : Database σ) (txId : Digest) (share : BitmarkShare)
    (status : statusType) (blockNumber blockOffset : Nat) (payId : String)
    (g : GlobalData σ) : Outcome String × GlobalData σ :=
  match L.digestMarshalText txId with
  | .error e => (.err e, g)
  | .ok id =>
    match L.signatureMarshalText share.Signature with
    | .error e => (.err e, g)
    | .ok signature =>
      match L.linkMarshalText share.Link with
      | .error e => (.err e, g)
      | .ok previous_id =>
        match execCall D (.insertShare id share.Quantity signature previous_id payId status
            blockNumber blockOffset) g with
        | (some e, g1) => (.err e, g1)
        | (none, g1) => (.ok id, g1)

/-- Store a grant record; returns the text of the transaction id. -/
def insertShareGrant (L : Lib) (D : Database σ) (txId : Digest) (grant : ShareGrant)
    (status : statusType) (blockNumber blockOffset : Nat) (payId : String)
    (g : GlobalData σ) : Outcome String × GlobalData σ :=
  match L.digestMarshalText txId with
  | .error e => (.err e, g)
  | .ok id =>
    match L.linkMarshalText grant.ShareId with
    | .error e => (.err e, g)
    | .ok shareId =>
      match L.signatureMarshalText grant.Signature with
      | .error e => (.err e, g)
      | .ok signature =>
        match L.signatureMarshalText grant.Countersignature with
        | .error e => (.err e, g)
        | .ok countersignature =>
          match L.jsonMarshalGrant shareId grant.Owner grant.Recipient grant.Quantity with
          | .error e => (.err e, g)
          | .ok shareInfo =>
            match execCall D (.insertGrant id shareId grant.Quantity
                (L.accountString grant.Owner) (L.accountString grant.Recipient)
                signature countersignature payId shareInfo status blockNumber blockOffset) g with
            | (some e, g1) => (.err e, g1)
            | (none, g1) => (.ok id, g1)

/-- Store a swap record; returns the text of the transaction id. -/
def insertSwapTransaction (L : Lib) (D : Database σ) (txId : Digest) (swap : ShareSwap)
    (status : statusType) (blockNumber blockOffset : Nat) (payId : String)
    (g : GlobalData σ) : Outcome String × GlobalData σ :=
  match L.digestMarshalText txId with
  | .error e => (.err e, g)
  | .ok id =>
    match L.linkMarshalText swap.ShareIdOne with
    | .error e => (.err e, g)
    | .ok shareOne =>
      match L.linkMarshalText swap.ShareIdTwo with
      | .error e => (.err e, g)
      | .ok shareTwo =>
        match L.signatureMarshalText swap.Signature with
        | .error e => (.err e, g)
        | .ok signature =>
          match L.signatureMarshalText swap.Countersignature with
          | .error e => (.err e, g)
          | .ok countersignature =>
            match L.jsonMarshalSwap swap.ShareIdOne swap.QuantityOne swap.OwnerOne
                swap.ShareIdTwo swap.QuantityTwo swap.OwnerTwo with
            | .error e => (.err e, g)
            | .ok swapInfo =>
              match execCall D (.insertSwap id shareOne swap.QuantityOne
                  (L.accountString swap.OwnerOne) shareTwo swap.QuantityTwo
                  (L.accountString swap.OwnerTwo) signature countersignature payId swapInfo
                  status blockNumber blockOffset) g with
              | (some e, g1) => (.err e, g1)
              | (none, g1) => (.ok id, g1)

/-- Statement `update_editions(block_number)` inside the transaction. -/
def updateEditions (D : Database σ) (blockNumber : Nat) (g : GlobalData σ) :
    Option Error × GlobalData σ :=
  execCall D (.updateEditions blockNumber) g

/-- Return the number of the highest block, never below the genesis number. -/
def GetBlockHeight (L : Lib) (D : Database σ) (g : GlobalData σ) :
    Except Error Nat × GlobalData σ :=
  let g1 : GlobalData σ :=
    { g with db := (D.queryHeight g.db).2, trace := g.trace ++ [Call.getBlockHeight] }
  match (D.queryHeight g.db).1 with
  | .error e => (.error e, g1)
  | .ok blockNumber =>
    if blockNumber ≤ L.genesisBlockNumber then
      if L.testnet then (.ok L.genesisBlockNumber, g1) else (.ok L.genesisBlockNumber, g1)
    else (.ok blockNumber, g1)

/-- Delete all blocks up from and including the start value. -/
def DeleteDownToBlock (D : Database σ) (startBlockNumber : Nat) (g : GlobalData σ) :
    Option Error × GlobalData σ :=
  execCall D (.deleteDownToBlock startBlockNumber) g

/-- Get the digest for a specific block. -/
def DigestForBlock (L : Lib) (D : Database σ) (blockNumber : Nat) (g : GlobalData σ) :
    Except Error Digest × GlobalData σ :=
  if blockNumber ≤ L.genesisBlockNumber then
    if L.testnet then (.ok L.TestGenesisDigest, g) else (.ok L.LiveGenesisDigest, g)
  else
    let g1 : GlobalData σ :=
      { g with db := (D.queryDigest g.db blockNumber).2,
               trace := g.trace ++ [Call.getBlockDigest blockNumber] }
    match (D.queryDigest g.db blockNumber).1 with
    | .error e => (.error e, g1)
    | .ok stringDigest =>
      match L.Sscan stringDigest with
      | (_, _, some e) => (.error e, g1)
      | (n, digest, none) =>
        if n ≠ 1 then (.error .ErrBlockNotFound, g1) else (.ok digest, g1)

/-- Clean out any expired records. -/
def deleteExpiredRecords (D : Database σ) (g : GlobalData σ) : Option Error × GlobalData σ :=
  execCall D .deleteExpiredRecords g

/-- The loop of `StoreBlock` that unpacks `count` records from `data`, pairing
each record with its transaction id, the digest of its packed bytes. -/
def unpackTransactions (L : Lib) : Nat → Bytes → Outcome (List (Transaction × Digest))
  | 0, _ => .ok []
  | count + 1, data =>
    match L.Unpack data L.testnet with
    | .error e => .err e
    | .ok (transaction, n) =>
      if n > data.length then .panic "slice bounds out of range"
      else
        match unpackTransactions L count (data.drop n) with
        | .ok txs => .ok ((transaction, L.NewDigest (data.take n)) :: txs)
        | .err e => .err e
        | .panic msg => .panic msg

/-- The loop `scan_oldbase` of `StoreBlock`: build a foundation record from
the leading old base records. -/
def scanOldBase : List (Transaction × Digest) → Option BlockFoundation → Option BlockFoundation
  | (.OldBaseData tx, _) :: rest, f =>
    let f1 : BlockFoundation :=
      match f with
      | none =>
        { Version := 0, Payments := [], Owner := tx.Owner, Nonce := tx.Nonce,
          Signature := tx.Signature }
      | some f0 => f0
    scanOldBase rest
      (some { f1 with Payments := mapSet f1.Payments tx.Currency tx.PaymentAddress })
  | _, f => f

/-- The id lists `newAssets`, `newIssues` and `newTransfers` of `StoreBlock`. -/
structure NewIds where
  newAssets : List String
  newIssues : List String
  newTransfers : List String
  deriving DecidableEq, Repr

/-- The statement of `StoreBlock` for one record at index `i`. -/
def storeBlockRecord (L : Lib) (D : Database σ) (foundationTxId : Digest)
    (assetStatus transferStatus : statusType) (blockNumber : Nat)
    (item : Transaction) (txId : Digest) (i : Nat) (ids : NewIds) (g : GlobalData σ) :
    Outcome NewIds × GlobalData σ :=
  let blockOffset := i
  match item with
  | .OldBaseData _ => (.ok ids, g)
  | .AssetData tx =>
    match insertAsset L D tx assetStatus blockNumber blockOffset g with
    | (.ok id, g1) => (.ok { ids with newAssets := ids.newAssets ++ [id] }, g1)
    | (.err e, g1) => (.err e, g1)
    | (.panic msg, g1) => (.panic msg, g1)
  | .BitmarkIssue tx =>
    match insertIssue L D txId tx transferStatus blockNumber blockOffset "" g with
    | (.ok id, g1) => (.ok { ids with newIssues := ids.newIssues ++ [id] }, g1)
    | (.err e, g1) => (.err e, g1)
    | (.panic msg, g1) => (.panic msg, g1)
  | .BitmarkTransferUnratified tx | .BitmarkTransferCountersigned tx | .BlockOwnerTransfer tx =>
    match insertTransfer L D txId tx transferStatus blockNumber blockOffset "" g with
    | (.ok id, g1) => (.ok { ids with newTransfers := ids.newTransfers ++ [id] }, g1)
    | (.err e, g1) => (.err e, g1)
    | (.panic msg, g1) => (.panic msg, g1)
  | .BitmarkShare tx =>
    match insertShare L D txId tx transferStatus blockNumber blockOffset "" g with
    | (.ok _, g1) => (.ok ids, g1)
    | (.err e, g1) => (.err e, g1)
    | (.panic msg, g1) => (.panic msg, g1)
  | .ShareGrant tx =>
    match insertShareGrant L D txId tx transferStatus blockNumber blockOffset "" g with
    | (.ok _, g1) => (.ok ids, g1)
    | (.err e, g1) => (.err e, g1)
    | (.panic msg, g1) => (.panic msg, g1)
  | .ShareSwap tx =>
    match insertSwapTransaction L D txId tx transferStatus blockNumber blockOffset "" g with
    | (.ok _, g1) => (.ok ids, g1)
    | (.err e, g1) => (.err e, g1)
    | (.panic msg, g1) => (.panic msg, g1)
  | .BlockFoundation tx =>
    match insertFoundation L D foundationTxId tx transferStatus blockNumber 0 "" g with
    | (.ok id, g1) => (.ok { ids with newIssues := ids.newIssues ++ [id] }, g1)
    | (.err e, g1) => (.err e, g1)
    | (.panic msg, g1) => (.panic msg, g1)

/-- The loop `store transactions` of `StoreBlock`, from index `i` on; it stops
at the first error. -/
def storeBlockRecords (L : Lib) (D : Database σ) (foundationTxId : Digest)
    (assetStatus transferStatus : statusType) (blockNumber : Nat) :
    List (Transaction × Digest) → Nat → NewIds → GlobalData σ → Outcome NewIds × GlobalData σ
  | [], _, ids, g => (.ok ids, g)
  | (item, txId) :: rest, i, ids, g =>
    match storeBlockRecord L D foundationTxId assetStatus transferStatus blockNumber
        item txId i ids g with
    | (.ok ids1, g1) =>
      storeBlockRecords L D foundationTxId assetStatus transferStatus blockNumber
        rest (i + 1) ids1 g1
    | (.err e, g1) => (.err e, g1)
    | (.panic msg, g1) => (.panic msg, g1)

/-- The label `rollback` of `StoreBlock` and `StoreTransactions`. -/
def rollback (D : Database σ) (errX : Error) (g : GlobalData σ) : Outcome Unit × GlobalData σ :=
  (.err errX, (execCall D .rollback g).2)

/-- The block `extract data from old base records` of `StoreBlock`: insert
the foundation record built by `scan_oldbase`, if there is one. -/
def storeBlockOldBase (L : Lib) (D : Database σ) (foundationTxId : Digest)
    (transferStatus : statusType) (blockNumber : Nat) (txs : List (Transaction × Digest))
    (g : GlobalData σ) : Outcome String × GlobalData σ :=
  match scanOldBase txs none with
  | some f => insertFoundation L D foundationTxId f transferStatus blockNumber 0 "" g
  | none => (.ok "", g)

/-- The notifications of `StoreBlock` after the commit; their errors are only
logged. -/
def storeBlockNotify (D : Database σ) (blockNumber : Nat) (ids : NewIds) (g : GlobalData σ) :
    GlobalData σ :=
  let g1 := if ids.newAssets.length ≠ 0 then (notifyAsset D ids.newAssets g).2 else g
  let g2 := if ids.newIssues.length ≠ 0 then (notifyIssue D ids.newIssues g1).2 else g1
  let g3 := if ids.newTransfers.length ≠ 0 then (notifyTransfer D ids.newTransfers g2).2 else g2
  (notifyBlock D blockNumber g3).2

/-- The part of `StoreBlock` from `Begin` on: the database transaction and the
notifications.  The header carries the clamped timestamp. -/
def storeBlockWrite (L : Lib) (D : Database σ) (header : Header) (digest : Digest)
    (txs : List (Transaction × Digest)) (g : GlobalData σ) : Outcome Unit × GlobalData σ :=
  let blockNumber := header.Number
  let createdOn := header.Timestamp
  let assetStatus := if blockNumber ≠ 0 then statusType.statusConfirmed else .statusPending
  let transferStatus := if blockNumber ≠ 0 then statusType.statusConfirmed else .statusPending
  match execCall D .begin g with
  | (some e, g1) => (.err e, g1)
  | (none, g1) =>
    let foundationTxId := L.FoundationTxId header digest
    match insertBlock L D blockNumber digest createdOn g1 with
    | (some e, g2) => rollback D e g2
    | (none, g2) =>
      match storeBlockOldBase L D foundationTxId transferStatus blockNumber txs g2 with
      | (.err e, g3) => rollback D e g3
      | (.panic msg, g3) => (.panic msg, g3)
      | (.ok _, g3) =>
        match storeBlockRecords L D foundationTxId assetStatus transferStatus blockNumber
            txs 0 ⟨[], [], []⟩ g3 with
        | (.err e, g4) => rollback D e g4
        | (.panic msg, g4) => (.panic msg, g4)
        | (.ok ids, g4) =>
          match updateEditions D blockNumber g4 with
          | (some e, g5) => rollback D e g5
          | (none, g5) =>
            match execCall D .commit g5 with
            | (some e, g6) => rollback D e g6
            | (none, g6) =>
              if L.nowNanoseconds - (createdOn : Int) * 1000000000 < 72 * 3600 * 1000000000 then
                (.ok (), storeBlockNotify D blockNumber ids g6)
              else (.ok (), g6)

/-- The part of `StoreBlock` after the check of the previous digest: unpack
the records, check the Merkle root, clamp the timestamp, then write. -/
def storeBlockVerify (L : Lib) (D : Database σ) (header : Header) (digest : Digest)
    (data : Bytes) (g : GlobalData σ) : Outcome Unit × GlobalData σ :=
  match unpackTransactions L header.TransactionCount data with
  | .err e => (.err e, g)
  | .panic msg => (.panic msg, g)
  | .ok txs =>
    match (L.FullMerkleTree (txs.map Prod.snd)).getLast? with
    | none => (.panic "index out of range", g)
    | some merkleRoot =>
      if merkleRoot ≠ header.MerkleRoot then (.err .ErrMerkleRootDoesNotMatch, g)
      else
        storeBlockWrite L D
          { header with
            Timestamp :=
              if header.Timestamp > 9224318015999 then 9224318015999 else header.Timestamp }
          digest txs g

/-- Store an incoming block, checking first that it is valid. -/
def StoreBlock (L : Lib) (D : Database σ) (packedBlock : Bytes) (g : GlobalData σ) :
    Outcome Unit × GlobalData σ :=
  if g.initialised = false then (.err .ErrNotInitialised, g)
  else
    match GetBlockHeight L D g with
    | (.error _, g1) => (.panic "GetBlockHeight failed", g1)
    | (.ok h, g1) =>
      match L.ExtractHeader packedBlock (addU64 h 1) with
      | .error e => (.err e, g1)
      | .ok (header, digest, data) =>
        match DigestForBlock L D (subU64 header.Number 1) g1 with
        | (.error e, g2) => (.err e, g2)
        | (.ok previousBlock, g2) =>
          if previousBlock ≠ header.PreviousBlock then
            (.err .ErrPreviousBlockDigestDoesNotMatch,
              (DeleteDownToBlock D (subU64 h blockRevertLimit) g2).2)
          else storeBlockVerify L D header digest data g2

/-- Function `hex.EncodeToString`: two lower-case hexadecimal digits for each
byte. -/
def hexEncode (d : Bytes) : String :=
  String.mk (d.flatMap fun b => [Nat.digitChar (b / 16 % 16), Nat.digitChar (b % 16)])

/-- The statement of `StoreTransactions` for one unpacked record. -/
def storeTransactionsRecord (L : Lib) (D : Database σ) (payId : String)
    (transaction : Transaction) (txId : Digest) (g : GlobalData σ) :
    Outcome Unit × GlobalData σ :=
  let blockNumber := 0
  let blockOffset := 0
  let assetStatus := statusType.statusPending
  let transferStatus := statusType.statusPending
  match transaction with
  | .OldBaseData _ => (.ok (), g)
  | .AssetData tx =>
    match insertAsset L D tx assetStatus blockNumber blockOffset g with
    | (.ok _, g1) => (.ok (), g1)
    | (.err e, g1) => (.err e, g1)
    | (.panic msg, g1) => (.panic msg, g1)
  | .BitmarkIssue tx =>
    match insertIssue L D txId tx transferStatus blockNumber blockOffset "" g with
    | (.err e, g1) => (.err e, g1)
    | (.panic msg, g1) => (.panic msg, g1)
    | (.ok _, g1) =>
      match L.digestMarshalText txId with
      | .ok id => (.ok (), (notifyPendingTx D id g1).2)
      | .error _ => (.ok (), g1)
  | .BitmarkTransferUnratified tx | .BitmarkTransferCountersigned tx | .BlockOwnerTransfer tx =>
    match insertTransfer L D txId tx transferStatus blockNumber blockOffset payId g with
    | (.err e, g1) => (.err e, g1)
    | (.panic msg, g1) => (.panic msg, g1)
    | (.ok _, g1) =>
      match L.digestMarshalText txId with
      | .ok id => (.ok (), (notifyPendingTx D id g1).2)
      | .error _ => (.ok (), g1)
  | .BitmarkShare tx =>
    match insertShare L D txId tx transferStatus blockNumber blockOffset payId g with
    | (.ok _, g1) => (.ok (), g1)
    | (.err e, g1) => (.err e, g1)
    | (.panic msg, g1) => (.panic msg, g1)
  | .ShareGrant tx =>
    match insertShareGrant L D txId tx transferStatus blockNumber blockOffset payId g with
    | (.ok _, g1) => (.ok (), g1)
    | (.err e, g1) => (.err e, g1)
    | (.panic msg, g1) => (.panic msg, g1)
  | .ShareSwap tx =>
    match insertSwapTransaction L D txId tx transferStatus blockNumber blockOffset payId g with
    | (.ok _, g1) => (.ok (), g1)
    | (.err e, g1) => (.err e, g1)
    | (.panic msg, g1) => (.panic msg, g1)
  | .BlockFoundation _ => (.ok (), g)

/-- The loop `for 0 != len(packedTransactions)` of `StoreTransactions`.  The
first argument bounds the number of rounds; `none` means the bound was reached
with bytes still to process. -/
def storeTransactionsLoop (L : Lib) (D : Database σ) (payId : String) :
    Nat → Bytes → GlobalData σ → Option (Outcome Unit × GlobalData σ)
  | _, [], g => some (.ok (), g)
  | 0, _ :: _, _ => none
  | fuel + 1, b :: bs, g =>
    let packedTransactions := b :: bs
    match L.Unpack packedTransactions L.testnet with
    | .error e => some (.err e, g)
    | .ok (transaction, n) =>
      if n > packedTransactions.length then some (.panic "slice bounds out of range", g)
      else
        let txId := L.MakeLink (packedTransactions.take n)
        match storeTransactionsRecord L D payId transaction txId g with
        | (.err e, g1) => some (.err e, g1)
        | (.panic msg, g1) => some (.panic msg, g1)
        | (.ok _, g1) => storeTransactionsLoop L D payId fuel (packedTransactions.drop n) g1

/-- Store loose transactions.  The argument `fuel` bounds the rounds of the
loop over the records. -/
def StoreTransactions (L : Lib) (D : Database σ) (fuel : Nat) (packedTransactions : Bytes)
    (g : GlobalData σ) : Option (Outcome Unit × GlobalData σ) :=
  if g.initialised = false then some (.err .ErrNotInitialised, g)
  else
    match execCall D .begin g with
    | (some e, g1) => some (.err e, g1)
    | (none, g1) =>
      let payId := hexEncode (L.Sum384 packedTransactions)
      match storeTransactionsLoop L D payId fuel packedTransactions g1 with
      | none => none
      | some (.err e, g2) => some (rollback D e g2)
      | some (.panic msg, g2) => some (.panic msg, g2)
      | some (.ok _, g2) =>
        match execCall D .commit g2 with
        | (some e, g3) => some (rollback D e g3)
        | (none, g3) => some (.ok (), g3)

/-- Configuration of the database server. -/
structure Configuration where
  Database : String
  User : String
  Password : String
  Host : String
  Port : String
  SslMode : String
  Fallback : String
  Timeout : String
  SslCert : String
  SslKey : String
  SslRootCert : String
  deriving DecidableEq, Repr

/-- The call `strings.Replace(value, "'", "\\'", -1)` on the characters of the
value: a backslash goes before every single quote. -/
def escapeQuotes : List Char → List Char
  | [] => []
  | c :: cs =>
    if c = Char.ofNat 39 then Char.ofNat 92 :: Char.ofNat 39 :: escapeQuotes cs
    else c :: escapeQuotes cs

/-- Produce ` name='value'`, or nothing when the name or the value is empty. -/
def quote (name : String) (value : String) : String :=
  if "" = name ∨ "" = value then ""
  else
    let v := String.mk (escapeQuotes value.data)
    " " ++ name ++ "='" ++ v ++ "'"

/-- The value of `connectionString` computed by `Initialise`. -/
def connectionString (database : Configuration) : String :=
  quote "dbname" database.Database ++
    quote "host" database.Host ++
    quote "port" database.Port ++
    quote "user" database.User ++
    quote "password" database.Password ++
    quote "sslmode" database.SslMode ++
    quote "fallback_application_name" database.Fallback ++
    quote "connect_timeout" database.Timeout ++
    quote "sslcert" database.SslCert ++
    quote "sslkey" database.SslKey ++
    quote "sslrootcert" database.SslRootCert

/-! ## The connection string, as the specification words it -/

/-- The value with every single quote replaced by a backslash and a single
quote, as the specification words it. -/
def specEscape (value : String) : String :=
  String.mk (value.data.flatMap fun c =>
    if c = Char.ofNat 39 then [Char.ofNat 92, Char.ofNat 39] else [c])

/-- One item of the connection string, as the specification words it: a space,
the name, `='`, the escaped value and a closing single quote. -/
def specItem (name value : String) : String :=
  " " ++ name ++ "='" ++ specEscape value ++ "'"

/-- The keys of the connection string in their fixed order, each with its
configuration value. -/
def specKeys (c : Configuration) : List (String × String) :=
  [("dbname", c.Database), ("host", c.Host), ("port", c.Port), ("user", c.User),
   ("password", c.Password), ("sslmode", c.SslMode),
   ("fallback_application_name", c.Fallback), ("connect_timeout", c.Timeout),
   ("sslcert", c.SslCert), ("sslkey", c.SslKey), ("sslrootcert", c.SslRootCert)]

/-- Concatenation of a list of strings. -/
def concatStrings (l : List String) : String := l.foldr (fun a b => a ++ b) ""

/-! ## Observations on traces -/

/-- The calls made on the way from state `g` to state `g1`. -/
def callsSince (g g1 : GlobalData σ) : List Call := g1.trace.drop g.trace.length

/-- Whether a call is one of the `insert_*` statements. -/
def Call.isInsert : Call → Bool
  | .insertBlock _ _ _ => true
  | .insertAsset _ _ _ _ _ _ _ _ _ => true
  | .insertTransaction _ _ _ _ _ _ _ _ _ _ _ => true
  | .insertShare _ _ _ _ _ _ _ _ => true
  | .insertGrant _ _ _ _ _ _ _ _ _ _ _ _ => true
  | .insertSwap _ _ _ _ _ _ _ _ _ _ _ _ _ _ => true
  | _ => false

/-- Whether a call is `delete_down_to_block`. -/
def Call.isDelete : Call → Bool
  | .deleteDownToBlock _ => true
  | _ => false

/-- Whether a call is one of the `notify_*` statements. -/
def Call.isNotify : Call → Bool
  | .notifyBlock _ => true
  | .notifyAsset _ => true
  | .notifyIssue _ => true
  | .notifyTransfer _ => true
  | .notifyPendingTx _ => true
  | _ => false

/-- The kinds of `insert_*` statements. -/
inductive InsertKind
  | block
  | asset
  | transaction
  | share
  | grant
  | swap
  deriving DecidableEq, Repr

/-- The kind of an `insert_*` call. -/
def Call.insertKind? : Call → Option InsertKind
  | .insertBlock _ _ _ => some .block
  | .insertAsset _ _ _ _ _ _ _ _ _ => some .asset
  | .insertTransaction _ _ _ _ _ _ _ _ _ _ _ => some .transaction
  | .insertShare _ _ _ _ _ _ _ _ => some .share
  | .insertGrant _ _ _ _ _ _ _ _ _ _ _ _ => some .grant
  | .insertSwap _ _ _ _ _ _ _ _ _ _ _ _ _ _ => some .swap
  | _ => none

/-- The first parameter of an `insert_*` call for a record: the text of the
transaction id or of the asset id. -/
def Call.id? : Call → Option String
  | .insertAsset id _ _ _ _ _ _ _ _ => some id
  | .insertTransaction id _ _ _ _ _ _ _ _ _ _ => some id
  | .insertShare id _ _ _ _ _ _ _ => some id
  | .insertGrant id _ _ _ _ _ _ _ _ _ _ _ => some id
  | .insertSwap id _ _ _ _ _ _ _ _ _ _ _ _ _ => some id
  | _ => none

/-- The `status` parameter of an `insert_*` call for a record. -/
def Call.status? : Call → Option statusType
  | .insertAsset _ _ _ _ _ _ status _ _ => some status
  | .insertTransaction _ _ _ _ _ _ status _ _ _ _ => some status
  | .insertShare _ _ _ _ _ status _ _ => some status
  | .insertGrant _ _ _ _ _ _ _ _ _ status _ _ => some status
  | .insertSwap _ _ _ _ _ _ _ _ _ _ _ status _ _ => some status
  | _ => none

/-- The `block_number` parameter of an `insert_*` call. -/
def Call.blockNumber? : Call → Option Nat
  | .insertBlock n _ _ => some n
  | .insertAsset _ _ _ _ _ _ _ n _ => some n
  | .insertTransaction _ _ _ _ _ _ _ _ _ n _ => some n
  | .insertShare _ _ _ _ _ _ n _ => some n
  | .insertGrant _ _ _ _ _ _ _ _ _ _ n _ => some n
  | .insertSwap _ _ _ _ _ _ _ _ _ _ _ _ n _ => some n
  | _ => none

/-- The `block_offset` parameter of an `insert_*` call for a record. -/
def Call.blockOffset? : Call → Option Nat
  | .insertAsset _ _ _ _ _ _ _ _ o => some o
  | .insertTransaction _ _ _ _ _ _ _ _ _ _ o => some o
  | .insertShare _ _ _ _ _ _ _ o => some o
  | .insertGrant _ _ _ _ _ _ _ _ _ _ _ o => some o
  | .insertSwap _ _ _ _ _ _ _ _ _ _ _ _ _ o => some o
  | _ => none

/-- The `pay_id` parameter of a transaction insert (issue, transfer, share,
grant, swap). -/
def Call.payId? : Call → Option String
  | .insertTransaction _ _ _ _ _ _ _ _ payId _ _ => some payId
  | .insertShare _ _ _ _ payId _ _ _ => some payId
  | .insertGrant _ _ _ _ _ _ _ payId _ _ _ _ => some payId
  | .insertSwap _ _ _ _ _ _ _ _ _ payId _ _ _ _ => some payId
  | _ => none

/-- A call is the insert of a record: its kind, id, status, block number,
block offset and pay id (absent for an asset). -/
def Call.isRecordInsert (c : Call) (kind : InsertKind) (id : String) (status : statusType)
    (blockNumber blockOffset : Nat) (payId : Option String) : Prop :=
  c.insertKind? = some kind ∧ c.id? = some id ∧ c.status? = some status ∧
    c.blockNumber? = some blockNumber ∧ c.blockOffset? = some blockOffset ∧ c.payId? = payId

instance (c : Call) (kind : InsertKind) (id : String) (status : statusType)
    (blockNumber blockOffset : Nat) (payId : Option String) :
    Decidable (c.isRecordInsert kind id status blockNumber blockOffset payId) := by
  unfold Call.isRecordInsert
  infer_instance

/-- The result an insert function makes of the report of its statement: the
error when there is one, else the id. -/
def insertResult (report : Option Error) (id : String) : Outcome String :=
  match report with
  | some e => .err e
  | none => .ok id

/-- The result `insertTransfer` makes of the report of its statement: a panic
for a not-null violation, the error for another `*pq.Error`, else the id. -/
def transferResult (report : Option Error) (id : String) : Outcome String :=
  match report with
  | some (.pq codeName) =>
    if codeName = not_null_violation then .panic "Database is corrupt" else .err (.pq codeName)
  | _ => .ok id

/-- The kind of statement a record variant is stored with by `StoreBlock`;
an old base record has no statement of its own. -/
def Transaction.insertKind? : Transaction → Option InsertKind
  | .OldBaseData _ => none
  | .AssetData _ => some .asset
  | .BitmarkIssue _ => some .transaction
  | .BitmarkTransferUnratified _ => some .transaction
  | .BitmarkTransferCountersigned _ => some .transaction
  | .BlockOwnerTransfer _ => some .transaction
  | .BitmarkShare _ => some .share
  | .ShareGrant _ => some .grant
  | .ShareSwap _ => some .swap
  | .BlockFoundation _ => some .transaction

/-- Whether a record is a `BlockFoundation`. -/
def Transaction.isFoundation : Transaction → Bool
  | .BlockFoundation _ => true
  | _ => false

/-- Whether a record is an `OldBaseData`. -/
def Transaction.isOldBase : Transaction → Bool
  | .OldBaseData _ => true
  | _ => false

/-- The text of the id under which `StoreBlock` stores a record: the asset id
for an asset, the foundation id for a foundation record, else the transaction
id. -/
def recordId (L : Lib) (foundationTxId : Digest) (item : Transaction) (txId : Digest) :
    Except Error String :=
  match item with
  | .AssetData tx => L.assetIdMarshalText (L.AssetId tx)
  | .BlockFoundation _ => L.digestMarshalText foundationTxId
  | _ => L.digestMarshalText txId

/-- The pay id an insert of the given kind carries when the caller passes
`payId`: an asset insert has none. -/
def kindPayId (kind : InsertKind) (payId : String) : Option String :=
  match kind with
  | .asset => none
  | .block => none
  | _ => some payId

/-- The block offset the claim expects for the record at index `i`. -/
def indexOffset (_item : Transaction) (i : Nat) : Nat := i

/-- The block offset `StoreBlock` passes for the record at index `i`: zero for
a foundation record, else the index. -/
def storedOffset (item : Transaction) (i : Nat) : Nat := if item.isFoundation then 0 else i

/-- Whether call `c` is the insert that `StoreBlock` derives from the record
`item` at index `i`, with the block offset given by `offsetOf`. -/
def blockRecordCall (offsetOf : Transaction → Nat → Nat) (L : Lib) (status : statusType)
    (blockNumber : Nat) (foundationTxId : Digest) (item : Transaction) (txId : Digest)
    (i : Nat) (c : Call) : Bool :=
  match item.insertKind?, recordId L foundationTxId item txId with
  | some kind, .ok id =>
    decide (c.isRecordInsert kind id status blockNumber (offsetOf item i) (kindPayId kind ""))
  | _, _ => false

/-- Match the calls against the records in order, from index `i` on: every
record other than an old base record takes one call.  The result is the list
of the calls left over, or `none` when a call does not fit its record. -/
def matchRecords (offsetOf : Transaction → Nat → Nat) (L : Lib) (status : statusType)
    (blockNumber : Nat) (foundationTxId : Digest) :
    List (Transaction × Digest) → Nat → List Call → Option (List Call)
  | [], _, cs => some cs
  | (item, txId) :: rest, i, cs =>
    match item.insertKind? with
    | none => matchRecords offsetOf L status blockNumber foundationTxId rest (i + 1) cs
    | some _ =>
      match cs with
      | [] => none
      | c :: cs1 =>
        if blockRecordCall offsetOf L status blockNumber foundationTxId item txId i c then
          matchRecords offsetOf L status blockNumber foundationTxId rest (i + 1) cs1
        else none

/-- The status `StoreBlock` stores the records of block `blockNumber` with. -/
def blockStatus (blockNumber : Nat) : statusType :=
  if blockNumber ≠ 0 then .statusConfirmed else .statusPending

/-- The timestamp `StoreBlock` keeps: at most 9224318015999. -/
def clampTimestamp (t : Nat) : Nat := if t > 9224318015999 then 9224318015999 else t

/-- Whether a call is the insert of a record (any `insert_*` other than
`insert_block`). -/
def Call.isRecordKind (c : Call) : Bool :=
  match c.insertKind? with
  | some .block => false
  | some _ => true
  | none => false

/-- The state after a sequence of statements run with `Exec`, `Begin`,
`Commit` or `Rollback`. -/
def runCalls (D : Database σ) : List Call → GlobalData σ → GlobalData σ
  | [], g => g
  | c :: cs, g => runCalls D cs (execCall D c g).2

/-- Whether a call belongs to the body of the transaction of `StoreBlock`:
`Begin`, an `insert_*` or `update_editions`. -/
def Call.inTransaction : Call → Bool
  | .begin => true
  | .updateEditions _ => true
  | c => c.isInsert

/-- Whether the list of records starts with an old base record. -/
def startsWithOldBase : List (Transaction × Digest) → Bool
  | (item, _) :: _ => item.isOldBase
  | [] => false

/-- The calls `StoreBlock` makes for the synthesised foundation record: one
transaction insert at block offset 0 under the foundation id when the records
start with an old base record, none otherwise. -/
def synthCalls (L : Lib) (header : Header) (digest : Digest)
    (txs : List (Transaction × Digest)) (synth : List Call) : Prop :=
  if startsWithOldBase txs = true then
    ∃ c id, synth = [c] ∧ L.digestMarshalText (L.FoundationTxId header digest) = .ok id ∧
      c.isRecordInsert .transaction id (blockStatus header.Number) header.Number 0 (some "")
  else synth = []

/-! ## Loose transactions, as the specification words them -/

/-- The kind of statement `StoreTransactions` stores a record variant with:
none for an old base record and for a foundation record. -/
def Transaction.looseKind? (tx : Transaction) : Option InsertKind :=
  if tx.isFoundation then none else tx.insertKind?

/-- Whether a record is a transfer (unratified, countersigned or block-owner). -/
def Transaction.isTransfer : Transaction → Bool
  | .BitmarkTransferUnratified _ => true
  | .BitmarkTransferCountersigned _ => true
  | .BlockOwnerTransfer _ => true
  | _ => false

/-- Whether a record is an issue. -/
def Transaction.isIssue : Transaction → Bool
  | .BitmarkIssue _ => true
  | _ => false

/-- Whether `StoreTransactions` notifies the pending transaction after the
insert of the record: issues and transfers. -/
def Transaction.notifies (tx : Transaction) : Bool := tx.isIssue || tx.isTransfer

/-- The pay id `StoreTransactions` passes to the insert of a record when the
payment identifier of the payload is `payId`: none for an asset, the empty
string for an issue, `payId` for a transfer, share, grant or swap. -/
def loosePayId (tx : Transaction) (payId : String) : Option String :=
  match tx with
  | .AssetData _ => none
  | .BitmarkIssue _ => some ""
  | _ => some payId

/-- The calls the walk over loose transactions makes for one record that is
stored without error: nothing for an old base or foundation record; else one
insert with status pending, block number 0 and block offset 0, followed for an
issue or a transfer by `notify_pending_transaction` of the transaction id. -/
def looseCalls (L : Lib) (r : Transaction × Digest) (cs : List Call) : Prop :=
  match r.1.looseKind? with
  | none => cs = []
  | some kind =>
    ∃ c id, recordId L [] r.1 r.2 = .ok id ∧
      c.isRecordInsert kind id .statusPending 0 0 c.payId? ∧
      cs = if r.1.notifies = true then [c, Call.notifyPendingTx id] else [c]

/-- Forget the id an insert function returns. -/
def unitOutcome : Outcome String → Outcome Unit
  | .ok _ => .ok ()
  | .err e => .err e
  | .panic msg => .panic msg

/-- The records that the loop of `StoreTransactions` unpacks from `data` when
no insert fails, and how the unpacking ends: `ok` when the bytes are used up,
the error of `Unpack`, a panic when a record claims more bytes than there
are, and `none` when the bound on the rounds is reached. -/
def unpackRecords (L : Lib) : Nat → Bytes → List (Transaction × Digest) × Option (Outcome Unit)
  | _, [] => ([], some (.ok ()))
  | 0, _ :: _ => ([], none)
  | fuel + 1, b :: bs =>
    match L.Unpack (b :: bs) L.testnet with
    | .error e => ([], some (.err e))
    | .ok (transaction, n) =>
      if n > (b :: bs).length then ([], some (.panic "slice bounds out of range"))
      else
        ((transaction, L.MakeLink ((b :: bs).take n)) ::
            (unpackRecords L fuel ((b :: bs).drop n)).1,
          (unpackRecords L fuel ((b :: bs).drop n)).2)

/-- Walk the records in order, storing each with `storeTransactionsRecord`, and
stop at the first record that is not stored. -/
def walkRecords (L : Lib) (D : Database σ) (payId : String) :
    List (Transaction × Digest) → GlobalData σ → Outcome Unit × GlobalData σ
  | [], g => (.ok (), g)
  | (transaction, txId) :: rest, g =>
    match storeTransactionsRecord L D payId transaction txId g with
    | (.ok _, g1) => walkRecords L D payId rest g1
    | (.err e, g1) => (.err e, g1)
    | (.panic msg, g1) => (.panic msg, g1)

/-! ## A model of the server -/

/-- Modelled from the spec: the database schema and its stored procedures are
not part of the sources.  The server keeps the committed block rows (number
and hash), the rows inserted by the open transaction, and the count of
statements received. -/
structure Server where
  blocks : List (Nat × String)
  pending : Option (List (Nat × String))
  clock : Nat
  deriving DecidableEq, Repr

/-- Modelled from the spec: the height `get_block_height()` reports is the
highest stored block number, zero for an empty table. -/
def Server.height (s : Server) : Nat := (s.blocks.map Prod.fst).foldr max 0

/-- Modelled from the spec: the effect of a statement that succeeds.
`insert_block` adds a row inside the transaction, `Commit` makes the rows of the
transaction visible, `Rollback` drops them, and `delete_down_to_block(n)`
removes every stored block numbered `n` or higher. -/
def Server.apply (s : Server) : Call → Server
  | .begin => { s with pending := some [] }
  | .insertBlock n hash _ => { s with pending := s.pending.map fun rows => rows ++ [(n, hash)] }
  | .commit => { s with blocks := s.blocks ++ s.pending.getD [], pending := none }
  | .rollback => { s with pending := none }
  | .deleteDownToBlock n => { s with blocks := s.blocks.filter fun row => decide (row.1 < n) }
  | _ => s

/-- Modelled from the spec: the server as a `Database`.  The function `faults`
tells for each statement, by its position in the sequence of statements
received, whether it fails and with which error; a failing statement has no
effect, except that `Rollback` always closes the transaction. -/
def specDatabase (faults : Nat → Option Error) : Database Server where
  exec s c :=
    match faults s.clock, c with
    | some e, .rollback => (some e, { s with pending := none, clock := s.clock + 1 })
    | some e, _ => (some e, { s with clock := s.clock + 1 })
    | none, _ => (none, { s.apply c with clock := s.clock + 1 })
  queryHeight s :=
    match faults s.clock with
    | some e => (.error e, { s with clock := s.clock + 1 })
    | none => (.ok s.height, { s with clock := s.clock + 1 })
  queryDigest s n :=
    match faults s.clock with
    | some e => (.error e, { s with clock := s.clock + 1 })
    | none =>
      match s.blocks.find? fun row => decide (row.1 = n) with
      | some row => (.ok row.2, { s with clock := s.clock + 1 })
      | none => (.error .sqlErrNoRows, { s with clock := s.clock + 1 })

/-- A server on which no statement fails. -/
def noFaults : Nat → Option Error := fun _ => none

/-- The height `GetBlockHeight` returns for a server state when the query
succeeds. -/
def heightOf (L : Lib) (s : Server) : Nat :=
  if s.height ≤ L.genesisBlockNumber then L.genesisBlockNumber else s.height

/-- A server on which the statement at position `k` fails with error `e`. -/
def faultAt (k : Nat) (e : Error) : Nat → Option Error :=
  fun n => if n = k then some e else none

/-- The shape of the calls of an accepted block with header `header` (its
timestamp clamped), block digest `digest` and records `txs`: queries, then
`Begin` and `insert_block`, the insert of the synthesised foundation record if
the records start with an old base record, the inserts of the records in
record order with block offsets given by `offsetOf`, then `update_editions`
and `Commit`, then notifications only. -/
def blockCallShape (offsetOf : Transaction → Nat → Nat) (L : Lib) (header : Header)
    (digest : Digest) (txs : List (Transaction × Digest)) (calls : List Call) : Prop :=
  ∃ pre synth recs notes,
    calls = pre ++ [Call.begin,
      Call.insertBlock header.Number (L.blockDigestString digest) header.Timestamp] ++
      synth ++ recs ++ [Call.updateEditions header.Number, Call.commit] ++ notes ∧
    (∀ c ∈ pre, c.isInsert = false ∧ c ≠ Call.begin) ∧
    synthCalls L header digest txs synth ∧
    matchRecords offsetOf L (blockStatus header.Number) header.Number
      (L.FoundationTxId header digest) txs 0 recs = some [] ∧
    (∀ c ∈ notes, c.isNotify = true)

/-! ## A small instance of the library, for concrete evaluations

Blocks are packed as five header bytes (record count, block number, previous
digest, Merkle root, timestamp) followed by two bytes for each record (variant
tag and one payload byte). -/

/-- A record of the toy codec from its tag and payload byte. -/
def demoRecord (tag v : Nat) : Transaction :=
  match tag with
  | 0 => .OldBaseData ⟨"BTC", "addr", [v], 0, [v]⟩
  | 1 => .AssetData ⟨"name", "fp", "", [v], [v]⟩
  | 2 => .BitmarkIssue ⟨[v], [v], 0, [v]⟩
  | 3 => .BitmarkTransferUnratified ⟨[v], [v], none, [v], []⟩
  | 4 => .BitmarkTransferCountersigned ⟨[v], [v], none, [v], [v]⟩
  | 5 => .BlockOwnerTransfer ⟨[v], [v], some [("BTC", "addr")], [v], [v]⟩
  | 6 => .BitmarkShare ⟨[v], 1, [v]⟩
  | 7 => .ShareGrant ⟨[v], 1, [v], [v], 0, [v], [v]⟩
  | 8 => .ShareSwap ⟨[v], 1, [v], [v], 1, [v], 0, [v], [v]⟩
  | _ => .BlockFoundation ⟨1, [("BTC", "addr")], [v], 0, [v]⟩

/-- Text form of a byte string in the toy library: one character per byte,
byte 0 as the digit 0. -/
def demoText (d : Bytes) : String := String.mk (d.map fun b => Char.ofNat (b + 48))

/-- Text form of a block digest in the toy library: the character with the
code of each byte. -/
def demoDigestText (d : Bytes) : String := String.mk (d.map Char.ofNat)

/-- A small instance of the library with genesis block number 1. -/
def demoLib : Lib where
  testnet := false
  genesisBlockNumber := 1
  TestGenesisDigest := [84]
  LiveGenesisDigest := [76]
  ExtractHeader block checkHeight :=
    match block with
    | count :: number :: previous :: root :: timestamp :: data =>
      if number = checkHeight then
        .ok (⟨1, count, number, [previous], [root], timestamp, 0, 0⟩, [number + 64], data)
      else .error (.other "height")
    | _ => .error (.other "short header")
  FoundationTxId := fun header _ => [header.Number, 70]
  Unpack data _ :=
    match data with
    | tag :: v :: _ => if tag < 10 then .ok (demoRecord tag v, 2) else .error (.other "tag")
    | _ => .error (.other "short record")
  MakeLink := fun data => data
  NewDigest := fun data => data
  FullMerkleTree := fun txIds => txIds ++ [[txIds.flatten.sum]]
  Sum384 := fun data => [data.sum % 256]
  digestMarshalText := fun d => .ok (demoText d)
  blockDigestString := demoDigestText
  linkMarshalText := fun d => .ok (demoText d)
  signatureMarshalText := fun d => .ok (demoText d)
  accountString := demoText
  AssetId := fun asset => asset.Registrant
  assetIdMarshalText := fun d => .ok (demoText d)
  assetIdString := demoText
  jsonMarshalMap := fun m => .ok (toString m.length)
  jsonMarshalGrant := fun _ _ _ _ => .ok "grant"
  jsonMarshalSwap := fun _ _ _ _ _ _ => .ok "swap"
  Sscan := fun s => (1, s.data.map Char.toNat, none)
  nowNanoseconds := 0

/-- A server holding the blocks numbered 2 to 8 above the genesis block 1; the
hash of block `n` is the text of the digest `[n + 64]`. -/
def demoServer : Server :=
  { blocks := [(2, "B"), (3, "C"), (4, "D"), (5, "E"), (6, "F"), (7, "G"), (8, "H")],
    pending := none, clock := 0 }

/-- The initialised store over `demoServer` with an empty trace. -/
def demoStore : GlobalData Server := { initialised := true, db := demoServer, trace := [] }

/-! ## The peer package: the connector -/

/-- Values of `mode.Mode` that the program sets or reads. -/
inductive Mode
  | Stopped
  | Resynchronise
  | Normal
  deriving DecidableEq, Repr

/-- A state type for the thread (an `int` in the source). -/
abbrev connectorState := Nat

/-- Register to nodes and make outgoing connections. -/
def cStateConnecting : connectorState := 0

/-- Locate node(s) with highest block number. -/
def cStateHighestBlock : connectorState := 1

/-- Read block hashes to check for possible fork. -/
def cStateForkDetect : connectorState := 2

/-- Fetch blocks from current or fork point. -/
def cStateFetchBlocks : connectorState := 3

/-- Rebuild database from fork point. -/
def cStateRebuild : connectorState := 4

/-- Signal resync complete and sample nodes to see if out of sync occurs. -/
def cStateSampling : connectorState := 5

/-- Number of cycles to be 1 block out of sync before resync. -/
def samplelingLimit : Int := 10

/-- Number of blocks to fetch in one set. -/
def fetchBlocksPerCycle : Nat := 500

/-- Length in bytes of a block digest (`blockdigest.Length`). -/
def digestLength : Nat := 32

/-- Type to hold server info. -/
structure serverInfo where
  Version : String
  Chain : String
  Normal : Bool
  Height : Nat
  deriving DecidableEq, Repr

/-- Modelled from the spec: the package `zmqutil` is not part of the sources.
Of a transport client (section 4.1) the connector only sees whether it is
connected. -/
structure Client where
  connected : Bool
  deriving DecidableEq, Repr

/-- Data for the connector.  A client is named by its position in `clients`;
`theClient` is `none` for the nil pointer; `samples` is a Go `int`, to which
`addInt` adds. -/
structure connector where
  clients : List Client
  state : connectorState
  theClient : Option Nat
  startBlockNumber : Nat
  highestBlockNumber : Nat
  samples : Int
  deriving DecidableEq, Repr

/-- What a connector step does to the world outside the connector record, in
order: writes of the mode, operations on clients, and the calls of the storage
package and of the request functions, each entered when the call returns with
`ok` telling that it returned no error. -/
inductive Event
  | modeSet (m : Mode)
  | send (client : Nat) (command : String) (parameters : List Bytes)
  | receive (client : Nat)
  | reconnect (client : Nat)
  | getBlockHeight
  | digestForBlock (blockNumber : Nat) (ok : Bool)
  | blockDigest (blockNumber : Nat) (ok : Bool)
  | deleteDownToBlock (startBlockNumber : Nat) (ok : Bool)
  | blockData (blockNumber : Nat) (ok : Bool)
  | storeBlock (packedBlock : Bytes) (ok : Bool)
  deriving DecidableEq, Repr

/-- Functions of libraries outside the repository that the peer package calls. -/
structure PeerLib where
  /-- Value of `mode.ChainName()`. -/
  ChainName : String
  /-- Function `json.Unmarshal` into a `serverInfo`. -/
  Unmarshal : Bytes → Except Error serverInfo
  /-- Function `blockdigest.DigestFromBytes`. -/
  DigestFromBytes : Bytes → Except Error Digest
  /-- Function `util.NewConnection`: parse an address. -/
  NewConnection : String → Except Error String
  /-- Function `hex.DecodeString`. -/
  DecodeString : String → Except Error Bytes

/-- Modelled from the spec: the package `zmqutil` is not part of the sources.
The peers and the network decide the result of every operation on a client;
the first argument is the number of operations performed before it, the second
the client.  A request socket alternates strictly between send and receive, so
`receive` is also given the request that is outstanding. -/
structure Transport where
  send : Nat → Nat → String → List Bytes → Option Error
  receive : Nat → Nat → String → List Bytes → Except Error (List Bytes)
  reconnect : Nat → Nat → Bool
  newClient : Nat → Option Error
  connect : Nat → Option Error

/-- Everything a connector step reads or writes: the connector record, the
storage package, the mode, the count of operations on clients so far, and the
events so far. -/
structure World (σ : Type) where
  conn : connector
  store : GlobalData σ
  mode : Mode
  clock : Nat
  events : List Event

/-- Append an event. -/
def logEvent (e : Event) (w : World σ) : World σ := { w with events := w.events ++ [e] }

/-- Assign `conn.state`. -/
def setState (s : connectorState) (w : World σ) : World σ :=
  { w with conn := { w.conn with state := s } }

/-- Function `mode.Set`. -/
def modeSet (m : Mode) (w : World σ) : World σ :=
  { w with mode := m, events := w.events ++ [Event.modeSet m] }

/-- Modelled from the spec: `client.IsConnected()`. -/
def IsConnected (w : World σ) (i : Nat) : Bool :=
  match w.conn.clients.get? i with
  | some c => c.connected
  | none => false

/-- Modelled from the spec: `client.Send(command, parameters…)`. -/
def Send (T : Transport) (i : Nat) (command : String) (parameters : List Bytes)
    (w : World σ) : Option Error × World σ :=
  (T.send w.clock i command parameters,
   { w with clock := w.clock + 1, events := w.events ++ [Event.send i command parameters] })

/-- Modelled from the spec: `client.Receive(0)`, the reply to the outstanding
request `command`, `parameters`. -/
def Receive (T : Transport) (i : Nat) (command : String) (parameters : List Bytes)
    (w : World σ) : Except Error (List Bytes) × World σ :=
  (T.receive w.clock i command parameters,
   { w with clock := w.clock + 1, events := w.events ++ [Event.receive i] })

/-- Modelled from the spec: `client.Reconnect()`; the network decides whether
the client is connected afterwards. -/
def Reconnect (T : Transport) (i : Nat) (w : World σ) : World σ :=
  { w with conn := { w.conn with clients := w.conn.clients.set i ⟨T.reconnect w.clock i⟩ },
           clock := w.clock + 1, events := w.events ++ [Event.reconnect i] }

/-- The one-byte frame `"E"`. -/
def frameE : Bytes := [69]

/-- The one-byte frame `"I"`. -/
def frameI : Bytes := [73]

/-- The one-byte frame `"N"`. -/
def frameN : Bytes := [78]

/-- The one-byte frame `"H"`. -/
def frameH : Bytes := [72]

/-- The one-byte frame `"B"`. -/
def frameB : Bytes := [66]

/-- Function `binary.BigEndian.Uint64`. -/
def Uint64 (b : Bytes) : Nat := b.foldl (fun a x => a * 256 + x % 256) 0

/-- Function `binary.BigEndian.PutUint64` on a fresh slice of 8 bytes. -/
def PutUint64 (n : Nat) : Bytes :=
  [n / 256 ^ 7 % 256, n / 256 ^ 6 % 256, n / 256 ^ 5 % 256, n / 256 ^ 4 % 256,
   n / 256 ^ 3 % 256, n / 256 ^ 2 % 256, n / 256 % 256, n % 256]

/-- Function `fault.ErrorFromRunes`. -/
def ErrorFromRunes (b : Bytes) : Error := .other (String.mk (b.map Char.ofNat))

/-- The part of the loop of `checkNodes` after the receive: the switch on the
reply.  Indexing a frame that is not there panics. -/
def checkNodesReply (P : PeerLib) (data : List Bytes) (clientCount : Nat) : Outcome Nat :=
  match data with
  | [] => .panic "index out of range"
  | [_] => .panic "index out of range"
  | d0 :: d1 :: _ =>
    if d0 = frameE then .ok clientCount
    else if d0 = frameI then
      match P.Unmarshal d1 with
      | .error _ => .ok clientCount
      | .ok info =>
        if info.Chain ≠ P.ChainName then .ok clientCount
        else .ok (clientCount + 1)
    else .ok clientCount

/-- Body of the loop of `checkNodes` for one client. -/
def checkNodesClient (P : PeerLib) (T : Transport) (i clientCount : Nat) (w : World σ) :
    Outcome Nat × World σ :=
  if IsConnected w i = false then (.ok clientCount, w)
  else
    match Send T i "I" [] w with
    | (some _, w1) => (.ok clientCount, Reconnect T i w1)
    | (none, w1) =>
      match Receive T i "I" [] w1 with
      | (.error _, w2) => (.ok clientCount, Reconnect T i w2)
      | (.ok data, w2) => (checkNodesReply P data clientCount, w2)

/-- Loop `scan_clients` of `checkNodes`. -/
def checkNodesLoop (P : PeerLib) (T : Transport) :
    List Nat → Nat → World σ → Outcome Nat × World σ
  | [], clientCount, w => (.ok clientCount, w)
  | i :: rest, clientCount, w =>
    match checkNodesClient P T i clientCount w with
    | (.ok n, w1) => checkNodesLoop P T rest n w1
    | (.err e, w1) => (.err e, w1)
    | (.panic m, w1) => (.panic m, w1)

/-- Check all nodes are on the same chain as this program. -/
def checkNodes (P : PeerLib) (T : Transport) (w : World σ) : Outcome Unit × World σ :=
  match checkNodesLoop P T (List.range w.conn.clients.length) 0 w with
  | (.ok clientCount, w1) =>
    if clientCount = 0 then (.err .ErrNoConnectionsAvailable, w1) else (.ok (), w1)
  | (.err e, w1) => (.err e, w1)
  | (.panic m, w1) => (.panic m, w1)

/-- The part of the loop of `highestBlock` after the receive: the checks on the
reply and the update of the highest number `h` and its client `c`. -/
def highestBlockReply (data : List Bytes) (i h : Nat) (c : Option Nat) : Nat × Option Nat :=
  match data with
  | [d0, d1] =>
    if d0 = frameE then (h, c)
    else if d0 = frameN then
      if d1.length ≠ 8 then (h, c)
      else if Uint64 d1 > h then (Uint64 d1, some i)
      else (h, c)
    else (h, c)
  | _ => (h, c)

/-- Body of the loop of `highestBlock` for one client. -/
def highestBlockClient (T : Transport) (i h : Nat) (c : Option Nat) (w : World σ) :
    (Nat × Option Nat) × World σ :=
  if IsConnected w i = false then ((h, c), w)
  else
    match Send T i "N" [] w with
    | (some _, w1) => ((h, c), Reconnect T i w1)
    | (none, w1) =>
      match Receive T i "N" [] w1 with
      | (.error _, w2) => ((h, c), Reconnect T i w2)
      | (.ok data, w2) => (highestBlockReply data i h c, w2)

/-- Loop `scan_clients` of `highestBlock`. -/
def highestBlockLoop (T : Transport) :
    List Nat → Nat → Option Nat → World σ → (Nat × Option Nat) × World σ
  | [], h, c, w => ((h, c), w)
  | i :: rest, h, c, w =>
    match highestBlockClient T i h c w with
    | ((h1, c1), w1) => highestBlockLoop T rest h1 c1 w1

/-- Determine client with highest block. -/
def highestBlock (T : Transport) (w : World σ) : (Nat × Option Nat) × World σ :=
  highestBlockLoop T (List.range w.conn.clients.length) 0 none w

/-- The part of `blockDigest` after the receive: the checks on the reply. -/
def blockDigestReply (P : PeerLib) (data : List Bytes) : Outcome Digest :=
  match data with
  | [d0, d1] =>
    if d0 = frameE then .err (ErrorFromRunes d1)
    else if d0 = frameH then
      if digestLength = d1.length then
        match P.DigestFromBytes d1 with
        | .ok d => .ok d
        | .error e => .err e
      else .err .ErrInvalidPeerResponse
    else .err .ErrInvalidPeerResponse
  | _ => .err .ErrInvalidPeerResponse

/-- Fetch block digest. -/
def blockDigest (P : PeerLib) (T : Transport) (client : Option Nat) (blockNumber : Nat)
    (w : World σ) : Outcome Digest × World σ :=
  match client with
  | none => (.panic "nil pointer dereference", w)
  | some i =>
    match Send T i "H" [PutUint64 blockNumber] w with
    | (some e, w1) => (.err e, Reconnect T i w1)
    | (none, w1) =>
      match Receive T i "H" [PutUint64 blockNumber] w1 with
      | (.error e, w2) => (.err e, Reconnect T i w2)
      | (.ok data, w2) => (blockDigestReply P data, w2)

/-- The part of `blockData` after the receive: the checks on the reply. -/
def blockDataReply (data : List Bytes) : Outcome Bytes :=
  match data with
  | [d0, d1] =>
    if d0 = frameE then .err (ErrorFromRunes d1)
    else if d0 = frameB then .ok d1
    else .err .ErrInvalidPeerResponse
  | _ => .err .ErrInvalidPeerResponse

/-- Fetch block data. -/
def blockData (T : Transport) (client : Option Nat) (blockNumber : Nat)
    (w : World σ) : Outcome Bytes × World σ :=
  match client with
  | none => (.panic "nil pointer dereference", w)
  | some i =>
    match Send T i "B" [PutUint64 blockNumber] w with
    | (some e, w1) => (.err e, Reconnect T i w1)
    | (none, w1) =>
      match Receive T i "B" [PutUint64 blockNumber] w1 with
      | (.error e, w2) => (.err e, Reconnect T i w2)
      | (.ok data, w2) => (blockDataReply data, w2)

/-- Whether an optional error is nil. -/
def noError (e : Option Error) : Bool := e.isNone

/-- Whether a result carries no error. -/
def exceptOk {α : Type} : Except Error α → Bool
  | .ok _ => true
  | .error _ => false

/-- Whether a call returned, and returned no error. -/
def outcomeOk {α : Type} : Outcome α → Bool
  | .ok _ => true
  | _ => false

/-- Call `storage.GetBlockHeight` from the connector. -/
def callGetBlockHeight (L : Lib) (D : Database σ) (w : World σ) :
    Except Error Nat × World σ :=
  ((GetBlockHeight L D w.store).1,
   { w with store := (GetBlockHeight L D w.store).2,
            events := w.events ++ [Event.getBlockHeight] })

/-- Call `storage.DigestForBlock` from the connector. -/
def callDigestForBlock (L : Lib) (D : Database σ) (blockNumber : Nat) (w : World σ) :
    Except Error Digest × World σ :=
  ((DigestForBlock L D blockNumber w.store).1,
   { w with store := (DigestForBlock L D blockNumber w.store).2,
            events := w.events ++
              [Event.digestForBlock blockNumber
                (exceptOk (DigestForBlock L D blockNumber w.store).1)] })

/-- Call `blockDigest` from the connector. -/
def callBlockDigest (P : PeerLib) (T : Transport) (client : Option Nat) (blockNumber : Nat)
    (w : World σ) : Outcome Digest × World σ :=
  ((blockDigest P T client blockNumber w).1,
   logEvent (Event.blockDigest blockNumber (outcomeOk (blockDigest P T client blockNumber w).1))
     (blockDigest P T client blockNumber w).2)

/-- Call `storage.DeleteDownToBlock` from the connector. -/
def callDeleteDownToBlock (D : Database σ) (startBlockNumber : Nat) (w : World σ) :
    Option Error × World σ :=
  ((DeleteDownToBlock D startBlockNumber w.store).1,
   { w with store := (DeleteDownToBlock D startBlockNumber w.store).2,
            events := w.events ++
              [Event.deleteDownToBlock startBlockNumber
                (noError (DeleteDownToBlock D startBlockNumber w.store).1)] })

/-- Call `blockData` from the connector. -/
def callBlockData (T : Transport) (client : Option Nat) (blockNumber : Nat)
    (w : World σ) : Outcome Bytes × World σ :=
  ((blockData T client blockNumber w).1,
   logEvent (Event.blockData blockNumber (outcomeOk (blockData T client blockNumber w).1))
     (blockData T client blockNumber w).2)

/-- Call `storage.StoreBlock` from the connector. -/
def callStoreBlock (L : Lib) (D : Database σ) (packedBlock : Bytes) (w : World σ) :
    Outcome Unit × World σ :=
  ((StoreBlock L D packedBlock w.store).1,
   { w with store := (StoreBlock L D packedBlock w.store).2,
            events := w.events ++
              [Event.storeBlock packedBlock (outcomeOk (StoreBlock L D packedBlock w.store).1)] })

/-- Body of the loop `check_digests` of `process` at height `h`; the result
`true` continues with the next lower height, `false` leaves the loop. -/
def checkDigest (L : Lib) (P : PeerLib) (T : Transport) (D : Database σ) (h : Nat)
    (w : World σ) : Outcome Bool × World σ :=
  match callDigestForBlock L D h w with
  | (.error _, w1) => (.ok false, setState cStateHighestBlock w1)
  | (.ok digest, w1) =>
    match callBlockDigest P T w1.conn.theClient h w1 with
    | (.panic m, w2) => (.panic m, w2)
    | (.err _, w2) => (.ok false, setState cStateHighestBlock w2)
    | (.ok remoteDigest, w2) =>
      if remoteDigest = digest then
        let w3 : World σ :=
          { w2 with conn := { w2.conn with startBlockNumber := addU64 h 1 } }
        match callDeleteDownToBlock D w3.conn.startBlockNumber w3 with
        | (some _, w4) => (.ok false, setState cStateHighestBlock w4)
        | (none, w4) => (.ok false, w4)
      else (.ok true, w2)

/-- Loop `check_digests` of `process`: check digests of descending blocks,
from `h` down to the block above the genesis block. -/
def checkDigests (L : Lib) (P : PeerLib) (T : Transport) (D : Database σ) :
    Nat → World σ → Outcome Unit × World σ
  | 0, w => (.ok (), w)
  | h + 1, w =>
    if h + 1 > L.genesisBlockNumber then
      match checkDigest L P T D (h + 1) w with
      | (.ok true, w1) => checkDigests L P T D h w1
      | (.ok false, w1) => (.ok (), w1)
      | (.err e, w1) => (.err e, w1)
      | (.panic m, w1) => (.panic m, w1)
    else (.ok (), w)

/-- Body of the loop `fetch_some_blocks` of `process`; the result `true`
continues with the next block, `false` leaves the loop. -/
def fetchBlock (L : Lib) (T : Transport) (D : Database σ) (w : World σ) :
    Outcome Bool × World σ :=
  if w.conn.startBlockNumber > w.conn.highestBlockNumber then
    (.ok false, setState cStateHighestBlock w)
  else
    match callBlockData T w.conn.theClient w.conn.startBlockNumber w with
    | (.panic m, w1) => (.panic m, w1)
    | (.err _, w1) => (.ok false, setState cStateHighestBlock w1)
    | (.ok packedBlock, w1) =>
      match callStoreBlock L D packedBlock w1 with
      | (.panic m, w2) => (.panic m, w2)
      | (.err _, w2) => (.ok false, setState cStateHighestBlock w2)
      | (.ok _, w2) =>
        (.ok true,
         { w2 with conn := { w2.conn with
             startBlockNumber := addU64 w2.conn.startBlockNumber 1 } })

/-- Loop `fetch_some_blocks` of `process`; the first argument is the number of
iterations left. -/
def fetchSomeBlocks (L : Lib) (T : Transport) (D : Database σ) :
    Nat → World σ → Outcome Unit × World σ
  | 0, w => (.ok (), w)
  | n + 1, w =>
    match fetchBlock L T D w with
    | (.ok true, w1) => fetchSomeBlocks L T D n w1
    | (.ok false, w1) => (.ok (), w1)
    | (.err e, w1) => (.err e, w1)
    | (.panic m, w1) => (.panic m, w1)

/-- Case `cStateConnecting` of `process`. -/
def processConnecting (P : PeerLib) (T : Transport) (w : World σ) : Outcome Unit × World σ :=
  match checkNodes P T (modeSet .Resynchronise w) with
  | (.ok _, w1) => (.ok (), setState (w1.conn.state + 1) w1)
  | (.err _, w1) => (.panic "connection to node failed", w1)
  | (.panic m, w1) => (.panic m, w1)

/-- Case `cStateHighestBlock` of `process`. -/
def processHighestBlock (T : Transport) (w : World σ) : Outcome Unit × World σ :=
  match highestBlock T w with
  | ((h, c), w1) =>
    let w2 : World σ := { w1 with conn := { w1.conn with highestBlockNumber := h, theClient := c } }
    if h > 0 ∧ c ≠ none then (.ok (), setState (w2.conn.state + 1) w2)
    else (.ok (), w2)

/-- Case `cStateForkDetect` of `process`. -/
def processForkDetect (L : Lib) (P : PeerLib) (T : Transport) (D : Database σ)
    (w : World σ) : Outcome Unit × World σ :=
  match callGetBlockHeight L D w with
  | (.error _, w1) => (.panic "GetBlockHeight failed", w1)
  | (.ok h, w1) =>
    if w1.conn.highestBlockNumber ≤ h then (.ok (), setState cStateRebuild w1)
    else
      checkDigests L P T D h
        { w1 with conn := { w1.conn with
            startBlockNumber := addU64 L.genesisBlockNumber 1,
            state := w1.conn.state + 1 } }

/-- Case `cStateFetchBlocks` of `process`. -/
def processFetchBlocks (L : Lib) (T : Transport) (D : Database σ) (w : World σ) :
    Outcome Unit × World σ :=
  fetchSomeBlocks L T D fetchBlocksPerCycle w

/-- Case `cStateRebuild` of `process`: return to normal operations. -/
def processRebuild (w : World σ) : Outcome Unit × World σ :=
  (.ok (), modeSet .Normal
    { w with conn := { w.conn with state := w.conn.state + 1, samples := 0 } })

/-- Case `cStateSampling` of `process`: check peers. -/
def processSampling (L : Lib) (T : Transport) (D : Database σ) (w : World σ) :
    Outcome Unit × World σ :=
  match highestBlock T w with
  | ((r, c), w1) =>
    let w2 : World σ := { w1 with conn := { w1.conn with highestBlockNumber := r, theClient := c } }
    if c = none then (.ok (), setState cStateHighestBlock w2)
    else
      match callGetBlockHeight L D w2 with
      | (.error _, w3) => (.panic "GetBlockHeight failed", w3)
      | (.ok height, w3) =>
        if w3.conn.highestBlockNumber > height then
          if subU64 w3.conn.highestBlockNumber height ≥ 2 then
            (.ok (), setState cStateForkDetect w3)
          else
            let w4 : World σ :=
              { w3 with conn := { w3.conn with samples := addInt w3.conn.samples 1 } }
            if w4.conn.samples > samplelingLimit then (.ok (), setState cStateForkDetect w4)
            else (.ok (), w4)
        else (.ok (), w3)

/-- Process the connect and return response: one step of the state machine. -/
def process (L : Lib) (P : PeerLib) (T : Transport) (D : Database σ) (w : World σ) :
    Outcome Unit × World σ :=
  if w.conn.state = cStateConnecting then processConnecting P T w
  else if w.conn.state = cStateHighestBlock then processHighestBlock T w
  else if w.conn.state = cStateForkDetect then processForkDetect L P T D w
  else if w.conn.state = cStateFetchBlocks then processFetchBlocks L T D w
  else if w.conn.state = cStateRebuild then processRebuild w
  else if w.conn.state = cStateSampling then processSampling L T D w
  else (.ok (), w)


/-! ## The peer package: initialisation of the connector -/

/-- A configured peer (`Connection` of setup.go). -/
structure Connection where
  PublicKey : String
  Subscribe : String
  Connect : String
  deriving DecidableEq, Repr

/-- Operations on client sockets during initialisation, in order: a call of
`zmqutil.NewClient` for the peer at position `i`, a call of `client.Connect`
for it, and the call of `zmqutil.CloseClients` with the clients created. -/
inductive SocketEvent
  | newClient (i : Nat)
  | connect (i : Nat) (address : String) (serverPublicKey : Bytes)
  | closeClients (clients : List Nat)
  deriving DecidableEq, Repr

/-- Loop of `connector.initialise`: initially connect all static sockets.  The
arguments after the connections left are the position of the first of them,
the clients created so far and the socket events so far. -/
def initialiseLoop (P : PeerLib) (T : Transport) (publicKey : Bytes) :
    List Connection → Nat → List Nat → List SocketEvent →
      Option Error × List Nat × List SocketEvent
  | [], _, clients, ev => (none, clients, ev)
  | c :: rest, i, clients, ev =>
    match P.NewConnection c.Connect with
    | .error e => (some e, clients, ev)
    | .ok address =>
      match P.DecodeString c.PublicKey with
      | .error e => (some e, clients, ev)
      | .ok serverPublicKey =>
        if publicKey = serverPublicKey then
          (some .ErrConnectingToSelfForbidden, clients, ev)
        else
          match T.newClient i with
          | some e => (some e, clients, ev ++ [SocketEvent.newClient i])
          | none =>
            match T.connect i with
            | some e =>
              (some e, clients ++ [i],
               ev ++ [SocketEvent.newClient i, SocketEvent.connect i address serverPublicKey])
            | none =>
              initialiseLoop P T publicKey rest (i + 1) (clients ++ [i])
                (ev ++ [SocketEvent.newClient i, SocketEvent.connect i address serverPublicKey])

/-- Initialise the connector (`connector.initialise`); the private key is only
handed on to `zmqutil.NewClient`.  On failure the clients created are closed
and the error is returned. -/
def initialise (P : PeerLib) (T : Transport) (publicKey : Bytes)
    (connections : List Connection) (conn : connector) :
    Option Error × connector × List SocketEvent :=
  if connections.length = 0 then (some .ErrNoConnectionsAvailable, conn, [])
  else
    match initialiseLoop P T publicKey connections 0 [] [] with
    | (none, clients, ev) =>
      (none, { conn with clients := clients.map fun _ => ⟨true⟩, state := cStateConnecting }, ev)
    | (some e, clients, ev) => (some e, conn, ev ++ [SocketEvent.closeClients clients])

/-! ## Observations on the events of a connector step -/

/-- An operation on a client: send, receive or reconnect. -/
def Event.isClientOp : Event → Bool
  | .send _ _ _ => true
  | .receive _ => true
  | .reconnect _ => true
  | _ => false

/-- A call that returned an error. -/
def Event.isFailure : Event → Bool
  | .digestForBlock _ ok => !ok
  | .blockDigest _ ok => !ok
  | .deleteDownToBlock _ ok => !ok
  | .blockData _ ok => !ok
  | .storeBlock _ ok => !ok
  | _ => false

/-- A call of `StoreBlock`. -/
def Event.isStoreBlock : Event → Bool
  | .storeBlock _ _ => true
  | _ => false

/-- A call of `StoreBlock` that succeeded. -/
def Event.isStoreBlockOk : Event → Bool
  | .storeBlock _ ok => ok
  | _ => false

/-- A write of the mode. -/
def Event.isModeSet : Event → Bool
  | .modeSet _ => true
  | _ => false

/-- A call of `DigestForBlock`, `blockDigest` or `DeleteDownToBlock`: the
digest comparisons and the delete of a fork detection. -/
def Event.isForkOp : Event → Bool
  | .digestForBlock _ _ => true
  | .blockDigest _ _ => true
  | .deleteDownToBlock _ _ => true
  | _ => false

/-- The parameters of the requests sent with the given command, in order. -/
def sentParameters (command : String) (ev : List Event) : List (List Bytes) :=
  ev.filterMap fun e =>
    match e with
    | .send _ c parameters => if c = command then some parameters else none
    | _ => none

/-- Number of calls of `StoreBlock`. -/
def storeCalls (ev : List Event) : Nat := ev.countP Event.isStoreBlock

/-- Number of calls of `StoreBlock` that succeeded. -/
def storesOk (ev : List Event) : Nat := ev.countP Event.isStoreBlockOk

/-- The heights from `h` down to `k`, in that order. -/
def descending (h k : Nat) : List Nat := (List.range (h + 1 - k)).map fun m => h - m

/-- The events of an error-free comparison of the local and the remote digest
at height `j` through client `c`. -/
def compareEvents (c j : Nat) : List Event :=
  [Event.digestForBlock j true, Event.send c "H" [PutUint64 j], Event.receive c,
   Event.blockDigest j true]

/-- The world `w1` arises from `w` by the operations `ev` on clients and by
nothing else: the store, the mode and the connector record apart from the
connected flags of its clients are the same. -/
def clientOps (w w1 : World σ) (ev : List Event) : Prop :=
  w1.events = w.events ++ ev ∧ (∀ e ∈ ev, e.isClientOp = true) ∧
  w1.store = w.store ∧ w1.mode = w.mode ∧
  w1.conn.state = w.conn.state ∧ w1.conn.theClient = w.conn.theClient ∧
  w1.conn.startBlockNumber = w.conn.startBlockNumber ∧
  w1.conn.highestBlockNumber = w.conn.highestBlockNumber ∧
  w1.conn.samples = w.conn.samples ∧
  w1.conn.clients.length = w.conn.clients.length

/-! ## The scan of `highestBlock`, as the specification words it -/

/-- The block number carried by a well-formed `N` reply: two frames, the first
`N`, the second exactly 8 bytes read as a big-endian number. -/
def wellFormedN (data : List Bytes) : Option Nat :=
  match data with
  | [d0, d1] => if d0 = frameN ∧ d1.length = 8 then some (Uint64 d1) else none
  | _ => none

/-- Ask client `i` for its block number: a client that is not connected is not
asked, a failed send or receive reconnects the client, and the reply counts if
it is well formed. -/
def report (T : Transport) (i : Nat) (w : World σ) : Option Nat × World σ :=
  if IsConnected w i = false then (none, w)
  else if (Send T i "N" [] w).1 ≠ none then (none, Reconnect T i (Send T i "N" [] w).2)
  else
    match Receive T i "N" [] (Send T i "N" [] w).2 with
    | (.error _, w2) => (none, Reconnect T i w2)
    | (.ok data, w2) => (wellFormedN data, w2)

/-- The well-formed reports of the clients `is` asked in order: pairs of client
and block number. -/
def reports (T : Transport) : List Nat → World σ → List (Nat × Nat)
  | [], _ => []
  | i :: rest, w =>
    match (report T i w).1 with
    | some n => (i, n) :: reports T rest (report T i w).2
    | none => reports T rest (report T i w).2

/-- The world after the clients `is` have been asked in order. -/
def asked (T : Transport) : List Nat → World σ → World σ
  | [], w => w
  | i :: rest, w => asked T rest (report T i w).2

/-- The highest block number among reports, zero if there is none. -/
def maxReport (rs : List (Nat × Nat)) : Nat := (rs.map Prod.snd).foldr max 0

/-- The first client among the reports whose block number is `n`. -/
def firstWith (n : Nat) (rs : List (Nat × Nat)) : Option Nat :=
  (rs.find? fun r => decide (r.2 = n)).map Prod.fst

/-- Run `process` for `n` cycles, stopping at a panic. -/
def cycles (L : Lib) (P : PeerLib) (T : Transport) (D : Database σ) :
    Nat → World σ → Outcome Unit × World σ
  | 0, w => (.ok (), w)
  | n + 1, w =>
    match process L P T D w with
    | (.ok _, w1) => cycles L P T D n w1
    | r => r

/-! ## A small instance of the peers, for concrete evaluations -/

/-- A small instance of the peer library on the chain "testing": the info
`[1]` names the chain "testing", the info `[2]` the chain "bitmark"; a digest
is the first byte of its 32 bytes; a key is the codes of its characters. -/
def demoPeerLib : PeerLib where
  ChainName := "testing"
  Unmarshal := fun b =>
    if b = [1] then .ok ⟨"v", "testing", true, 0⟩
    else if b = [2] then .ok ⟨"v", "bitmark", true, 0⟩
    else .error (.other "json")
  DigestFromBytes := fun b => .ok (b.take 1)
  NewConnection := fun s => .ok s
  DecodeString := fun s => .ok (s.data.map Char.toNat)

/-- A network without failures on which client `i` receives `reply i command
parameters` in reply to a request. -/
def demoTransport (reply : Nat → String → List Bytes → List Bytes) : Transport where
  send := fun _ _ _ _ => none
  receive := fun _ i command parameters => .ok (reply i command parameters)
  reconnect := fun _ _ => true
  newClient := fun _ => none
  connect := fun _ => none

/-- The 32 bytes of the digest that the toy library reads as `[b]`. -/
def demoDigestBytes (b : Nat) : Bytes := b :: List.replicate 31 0

/-- A world with `n` connected clients in the given state over the given
store, with the first client as the block source. -/
def demoWorld (n : Nat) (state : connectorState) (start highest : Nat)
    (store : GlobalData Server) : World Server :=
  { conn := { clients := List.replicate n ⟨true⟩, state := state, theClient := some 0,
              startBlockNumber := start, highestBlockNumber := highest, samples := 0 },
    store := store, mode := .Resynchronise, clock := 0, events := [] }

/-- Two peers: the first is on the local chain and reports block 3, the second
is on another chain and reports block 9. -/
def demoTwoChains : Transport :=
  demoTransport fun i command _ =>
    if command = "I" then [frameI, if i = 0 then [1] else [2]]
    else if command = "N" then [frameN, PutUint64 (if i = 0 then 3 else 9)]
    else []

/-- One peer that reports block number 0. -/
def demoZeroPeer : Transport :=
  demoTransport fun _ command _ =>
    if command = "N" then [frameN, PutUint64 0] else []

/-- A server holding the blocks numbered 2 to 10. -/
def demoServerTen : Server :=
  { blocks := [(2, "B"), (3, "C"), (4, "D"), (5, "E"), (6, "F"), (7, "G"), (8, "H"),
               (9, "I"), (10, "J")],
    pending := none, clock := 0 }

/-- The block number in a request parameter. -/
def demoParameter (parameters : List Bytes) : Nat :=
  match parameters with
  | [p] => Uint64 p
  | _ => 0

/-- A peer with tip 12 whose chain has the digest `[n + 64]` at every height
`n` up to `fork` and the digest `[n + 128]` above. -/
def demoForkPeer (fork : Nat) : Transport :=
  demoTransport fun _ command parameters =>
    if command = "N" then [frameN, PutUint64 12]
    else if command = "H" then
      [frameH, demoDigestBytes
        (if demoParameter parameters ≤ fork then demoParameter parameters + 64
         else demoParameter parameters + 128)]
    else if command = "B" then
      [frameB, [0, demoParameter parameters, demoParameter parameters + 63, 0, 0]]
    else []

/-- The connector in state ForkDetect over `demoServerTen`, the remote tip
being 12. -/
def demoForkWorld : World Server :=
  demoWorld 1 cStateForkDetect 0 12 { initialised := true, db := demoServerTen, trace := [] }

/-- One peer that reports block number 9, one above the tip of `demoStore`. -/
def demoAheadPeer : Transport :=
  demoTransport fun _ command _ =>
    if command = "N" then [frameN, PutUint64 9] else []

/-- The connector in state Sampling over `demoStore`, with samples 0. -/
def demoSamplingWorld : World Server := demoWorld 1 cStateSampling 0 0 demoStore

/-- The toy library with block numbers of 8 bytes: a packed block is the block
number followed by the digest of the previous block, both of 8 bytes; the
digest of block `n` is the 8 bytes of `n`; a block has no records. -/
def demoWideLib : Lib :=
  { demoLib with
    ExtractHeader := fun block checkHeight =>
      if block.length = 16 ∧ Uint64 (block.take 8) = checkHeight then
        .ok (⟨1, 0, checkHeight, block.drop 8, [0], 0, 0, 0⟩, PutUint64 checkHeight, [])
      else .error (.other "height") }

/-- A database that keeps only the height of the chain and never fails; the
hash of block `n` is the text of the 8 bytes of `n`. -/
def heightDatabase : Database Nat where
  exec s c :=
    match c with
    | .insertBlock n _ _ => (none, max s n)
    | .deleteDownToBlock n => (none, min s (n - 1))
    | _ => (none, s)
  queryHeight s := (.ok s, s)
  queryDigest s n :=
    if 0 < n ∧ n ≤ s then (.ok (demoDigestText (PutUint64 n)), s) else (.error .sqlErrNoRows, s)

/-- A peer with tip 508 that sends block `n` of the wide toy codec. -/
def demoWidePeer : Transport :=
  demoTransport fun _ command parameters =>
    if command = "N" then [frameN, PutUint64 508]
    else if command = "B" then
      [frameB, PutUint64 (demoParameter parameters) ++ PutUint64 (demoParameter parameters - 1)]
    else []

/-- The connector in state FetchBlocks with local tip 8, start 9 and remote tip
508: exactly 500 blocks remain to fetch. -/
def demoFetchWorld : World Nat :=
  { conn := { clients := [⟨true⟩], state := cStateFetchBlocks, theClient := some 0,
              startBlockNumber := 9, highestBlockNumber := 508, samples := 0 },
    store := { initialised := true, db := 8, trace := [] },
    mode := .Resynchronise, clock := 0, events := [] }

/-- The connector in state FetchBlocks over `demoStore` (local tip 8) with
start 9 and remote tip 10. -/
def demoFetchTwo : World Server := demoWorld 1 cStateFetchBlocks 9 10 demoStore

/-- The connector in state Rebuild over `demoStore`. -/
def demoRebuildWorld : World Server := demoWorld 1 cStateRebuild 0 8 demoStore

/-- The connector in state ForkDetect over `demoStore` with the remote tip 8
equal to the local tip. -/
def demoLevelWorld : World Server := demoWorld 1 cStateForkDetect 0 8 demoStore

/-- One peer that answers every block request with an error reply. -/
def demoErrorPeer : Transport :=
  demoTransport fun _ command _ =>
    if command = "B" then [frameE, [110, 111]] else []

/-- The update of the highest number and its client by one report. -/
def pick (hc : Nat × Option Nat) (r : Nat × Nat) : Nat × Option Nat :=
  if r.2 > hc.1 then (r.2, some r.1) else hc

/-- The connector in state HighestBlock with one connected client. -/
def demoHighestWorld : World Server := demoWorld 1 cStateHighestBlock 0 0 demoStore

/-- The connector in state Connecting with two connected clients. -/
def demoPairWorld : World Server := demoWorld 2 cStateConnecting 0 0 demoStore

/-- The socket events of creating and connecting a client for each of the
given connections, the first of them at position `i`. -/
def connectEvents (addr : Connection → String) (key : Connection → Bytes) :
    Nat → List Connection → List SocketEvent
  | _, [] => []
  | i, c :: rest =>
    SocketEvent.newClient i :: SocketEvent.connect i (addr c) (key c) ::
      connectEvents addr key (i + 1) rest

/-- A connector before initialisation. -/
def demoConnector : connector :=
  { clients := [], state := cStateConnecting, theClient := none, startBlockNumber := 0,
    highestBlockNumber := 0, samples := 0 }

/-- The hypotheses of an error-free walk: in every state of the database that
satisfies `I` the height is `h` and the stored block at each height `j` from
`k` to `h` has the digest `loc j`; the peer behind client `c` answers every
digest request for such a height with the digest `rem j`; and the queries keep
the database in `I`. -/
structure WalkOk (L : Lib) (P : PeerLib) (T : Transport) (D : Database σ) (I : σ → Prop)
    (c h k : Nat) (loc rem : Nat → Digest) : Prop where
  height : ∀ s, I s → (D.queryHeight s).1 = .ok h ∧ I (D.queryHeight s).2
  localDigest : ∀ s j, I s → k ≤ j → j ≤ h →
    (∃ txt, (D.queryDigest s j).1 = .ok txt ∧ L.Sscan txt = (1, loc j, none)) ∧
      I (D.queryDigest s j).2
  send : ∀ t j, k ≤ j → j ≤ h → T.send t c "H" [PutUint64 j] = none
  receive : ∀ t j, k ≤ j → j ≤ h →
    ∃ b, T.receive t c "H" [PutUint64 j] = .ok [frameH, b] ∧ b.length = digestLength ∧
      P.DigestFromBytes b = .ok (rem j)

/-- A server holding the blocks numbered 2 and 3. -/
def demoServerTwo : Server :=
  { blocks := [(2, "B"), (3, "C")], pending := none, clock := 0 }

/-- The connector in state ForkDetect over `demoServerTwo`, the remote tip
being 12. -/
def demoDivergedWorld : World Server :=
  demoWorld 1 cStateForkDetect 0 12 { initialised := true, db := demoServerTwo, trace := [] }

/-! ## The subscriber, scenarios and further observations -/

/-- The bytes of a Go string: the UTF-8 encoding of its characters. -/
def stringBytes (s : String) : Bytes :=
  s.data.flatMap fun c => (String.utf8EncodeChar c).map UInt8.toNat

/-- The category frame `"block"`. -/
def frameBlock : Bytes := [98, 108, 111, 99, 107]

/-- The category frame `"assets"`. -/
def frameAssets : Bytes := [97, 115, 115, 101, 116, 115]

/-- The category frame `"issues"`. -/
def frameIssues : Bytes := [105, 115, 115, 117, 101, 115]

/-- The category frame `"transfer"`. -/
def frameTransfer : Bytes := [116, 114, 97, 110, 115, 102, 101, 114]

/-- The category frame `"heart"`. -/
def frameHeart : Bytes := [104, 101, 97, 114, 116]

/-- What `subscriber.process` makes of the result of a store call: an error is
logged and dropped, a panic is not caught. -/
def logged : Outcome Unit → Outcome Unit
  | .panic m => .panic m
  | _ => .ok ()

/-- The cases `assets`, `issues` and `transfer` of `subscriber.process`: store
the transactions of the payload `data[1]`; an error is only logged.  The
argument `fuel` bounds the rounds of the loop of `StoreTransactions`. -/
def processTransactions (L : Lib) (D : Database σ) (fuel : Nat) (rest : List Bytes)
    (w : World σ) : Option (Outcome Unit × World σ) :=
  match rest with
  | [] => some (.panic "index out of range", w)
  | d1 :: _ =>
    (StoreTransactions L D fuel d1 w.store).map fun r =>
      (logged r.1, { w with store := r.2 })

/-- Process the received subscription (`subscriber.process`); `data` holds the
frames after the chain name.  Indexing a frame that is not there panics. -/
def subscriberProcess (L : Lib) (D : Database σ) (fuel : Nat) (data : List Bytes)
    (w : World σ) : Option (Outcome Unit × World σ) :=
  match data with
  | [] => some (.panic "index out of range", w)
  | d0 :: rest =>
    if d0 = frameBlock then
      match rest with
      | [] => some (.panic "index out of range", w)
      | d1 :: _ =>
        if w.mode = .Normal then
          match callStoreBlock L D d1 w with
          | (.panic m, w1) => some (.panic m, w1)
          | (.err e, w1) =>
            if e = .ErrPreviousBlockDigestDoesNotMatch then
              some (.ok (), setState cStateHighestBlock (modeSet .Resynchronise w1))
            else some (.ok (), w1)
          | (.ok _, w1) => some (.ok (), w1)
        else some (.ok (), w)
    else if d0 = frameAssets then processTransactions L D fuel rest w
    else if d0 = frameIssues then processTransactions L D fuel rest w
    else if d0 = frameTransfer then processTransactions L D fuel rest w
    else if d0 = frameHeart then
      match rest with
      | [] => some (.panic "index out of range", w)
      | _ :: _ => some (.ok (), w)
    else some (.ok (), w)

/-- The case of a subscribe socket in the loop over the polled sockets of
`subscriber.Run`, for a message `data` received without error: a message whose
first frame is not the local chain name is logged and dropped, the frames after
the chain name of any other message go to `process`.  The sockets, the poller
and the expiry register belong to packages outside the repository. -/
def subscriberReceive (L : Lib) (P : PeerLib) (D : Database σ) (fuel : Nat)
    (data : List Bytes) (w : World σ) : Option (Outcome Unit × World σ) :=
  match data with
  | [] => some (.panic "index out of range", w)
  | d0 :: rest =>
    if d0 ≠ stringBytes P.ChainName then some (.ok (), w)
    else subscriberProcess L D fuel rest w

/-- A world in state Sampling over `demoStore` in mode Normal. -/
def demoNormalWorld : World Server :=
  { demoWorld 1 cStateSampling 0 8 demoStore with mode := .Normal }

/-- Value `m[k]` of a Go map kept as an association list, `none` for a key that
is not in the map. -/
def mapGet : List (String × String) → String → Option String
  | [], _ => none
  | (k1, v1) :: rest, k => if k1 = k then some v1 else mapGet rest k

/-- The leading run of old base records of a list of records, as the
specification words it. -/
def leadingOldBase : List (Transaction × Digest) → List OldBaseData
  | (.OldBaseData tx, _) :: rest => tx :: leadingOldBase rest
  | _ => []

/-- The payment address of the last record of a run with the given currency, as
the specification words the payments of the synthesised record; `none` when no
record of the run has the currency. -/
def lastAddress : List OldBaseData → String → Option String
  | [], _ => none
  | tx :: rest, currency =>
    match lastAddress rest currency with
    | some address => some address
    | none => if tx.Currency = currency then some tx.PaymentAddress else none

/-- The insert of the foundation record that `StoreBlock` synthesises from the
records `txs` of a block with the given header (its timestamp clamped) and
digest, as the specification words it: when the first record is an old base
record, one `insert_transaction` under the foundation id at block offset 0
for a record with version 0, the owner, nonce and signature of that first
record and as payments, for each currency, the address of the last record of
the leading run with that currency; no call otherwise. -/
def foundationCalls (L : Lib) (header : Header) (digest : Digest)
    (txs : List (Transaction × Digest)) (synth : List Call) : Prop :=
  match txs with
  | (.OldBaseData first, _) :: _ =>
    ∃ (f : BlockFoundation) (id signature currencies : String),
      f.Version = 0 ∧ f.Owner = first.Owner ∧ f.Nonce = first.Nonce ∧
      f.Signature = first.Signature ∧
      (∀ currency, mapGet f.Payments currency = lastAddress (leadingOldBase txs) currency) ∧
      L.digestMarshalText (L.FoundationTxId header digest) = .ok id ∧
      L.signatureMarshalText f.Signature = .ok signature ∧
      L.jsonMarshalMap f.Payments = .ok currencies ∧
      synth = [Call.insertTransaction id (L.accountString f.Owner) signature "" none none
        (blockStatus header.Number) (some currencies) "" header.Number 0]
  | _ => synth = []

/-- The slice `issueIds[i:j]` of the round with index `k` of the loop of
`notifyIssue`, where `i` is `20 * k` and `j` is `i + 20` or the number of ids if
that is less. -/
def issueBatch (issueIds : List String) (k : Nat) : List String :=
  (issueIds.drop (20 * k)).take 20

/-- The calls of the first `n` rounds of the loop of `notifyIssue`. -/
def issueCalls (issueIds : List String) (n : Nat) : List Call :=
  (List.range n).map fun k => Call.notifyIssue (joinComma (issueBatch issueIds k))

/-- What the database reports for the call of round `k` of `notifyIssue`, made
after the calls of the rounds before it. -/
def issueReport (D : Database σ) (issueIds : List String) (g : GlobalData σ) (k : Nat) :
    Option Error :=
  (execCall D (Call.notifyIssue (joinComma (issueBatch issueIds k)))
    (runCalls D (issueCalls issueIds k) g)).1

/-- Conversion `int64(x)` of a `uint64` value `x`: the values from two to the
63 on wrap to negative numbers. -/
def int64 (x : Nat) : Int := if x < 2 ^ 63 then (x : Int) else (x : Int) - (u64 : Int)

/-- The changes of state that the claim of closure allows. -/
def claimedTransitions : List (connectorState × connectorState) :=
  [(cStateConnecting, cStateHighestBlock), (cStateHighestBlock, cStateForkDetect),
   (cStateForkDetect, cStateRebuild), (cStateForkDetect, cStateFetchBlocks),
   (cStateForkDetect, cStateHighestBlock), (cStateFetchBlocks, cStateHighestBlock),
   (cStateFetchBlocks, cStateRebuild), (cStateRebuild, cStateSampling),
   (cStateSampling, cStateForkDetect), (cStateSampling, cStateHighestBlock)]

/-- The changes of state that a call of `process` makes: those of the claim
apart from FetchBlocks to Rebuild. -/
def transitions : List (connectorState × connectorState) :=
  [(cStateConnecting, cStateHighestBlock), (cStateHighestBlock, cStateForkDetect),
   (cStateForkDetect, cStateRebuild), (cStateForkDetect, cStateFetchBlocks),
   (cStateForkDetect, cStateHighestBlock), (cStateFetchBlocks, cStateHighestBlock),
   (cStateRebuild, cStateSampling),
   (cStateSampling, cStateForkDetect), (cStateSampling, cStateHighestBlock)]

/-- One peer that answers every request with the single frame `I`. -/
def demoShortPeer : Transport := demoTransport fun _ _ _ => [frameI]

/-- The scenario of a fresh synchronisation through the one client 0: every
send succeeds; the peer names the local chain in reply to `I`, reports the
block number `tip` in reply to `N` and sends the packed block `blk n` in reply
to `B` for every `n` above the genesis block up to `tip`; and in the states `g`
of the store in which the local tip is `n` (`H n g`), `GetBlockHeight` returns
`n` and `StoreBlock` accepts the block `blk (n + 1)`, which makes `n + 1` the
local tip. -/
structure FreshSync (L : Lib) (P : PeerLib) (T : Transport) (D : Database σ)
    (H : Nat → GlobalData σ → Prop) (tip : Nat) (blk : Nat → Bytes) : Prop where
  send : ∀ t command parameters, T.send t 0 command parameters = none
  info : ∀ t, ∃ d info, T.receive t 0 "I" [] = .ok [frameI, d] ∧
    P.Unmarshal d = .ok info ∧ info.Chain = P.ChainName
  number : ∀ t, T.receive t 0 "N" [] = .ok [frameN, PutUint64 tip]
  block : ∀ t n, L.genesisBlockNumber < n → n ≤ tip →
    T.receive t 0 "B" [PutUint64 n] = .ok [frameB, blk n]
  height : ∀ n g, H n g → (GetBlockHeight L D g).1 = .ok n ∧ H n (GetBlockHeight L D g).2
  store : ∀ n g, L.genesisBlockNumber ≤ n → n < tip → H n g →
    (StoreBlock L D (blk (n + 1)) g).1 = .ok () ∧ H (n + 1) (StoreBlock L D (blk (n + 1)) g).2

/-- The ids of 45 issues: the one-letter texts with the codes 48 to 92. -/
def demoIssueIds : List String := (List.range 45).map fun i => String.singleton (Char.ofNat (48 + i))

/-- A server that holds no block above the genesis block. -/
def demoServerFresh : Server := { blocks := [], pending := none, clock := 0 }

/-- The packed block numbered `n` of a chain of three blocks in the toy codec:
no records, and the previous digest is that of the genesis block for block 2
and that of block `n - 1` above. -/
def demoFreshBlock (n : Nat) : Bytes := [0, n, if n = 2 then 76 else n + 63, 0, 0]

/-- One peer on the local chain with tip 3 that sends the blocks
`demoFreshBlock`. -/
def demoFreshPeer : Transport :=
  demoTransport fun _ command parameters =>
    if command = "I" then [frameI, [1]]
    else if command = "N" then [frameN, PutUint64 3]
    else if command = "B" then [frameB, demoFreshBlock (demoParameter parameters)]
    else []

/-- The states of the store over the model of the server in which the blocks
of `demoFreshPeer` up to the number `n` are stored and no transaction is open. -/
def demoFreshAt (n : Nat) (g : GlobalData Server) : Prop :=
  g.initialised = true ∧ g.db.pending = none ∧
  ((n = 1 ∧ g.db.blocks = []) ∨ (n = 2 ∧ g.db.blocks = [(2, "B")]) ∨
    (n = 3 ∧ g.db.blocks = [(2, "B"), (3, "C")]))

/-- The connector after initialisation with one peer, over a store whose tip
is the genesis block. -/
def demoFreshWorld : World Server :=
  { conn := { clients := [⟨true⟩], state := cStateConnecting, theClient := none,
              startBlockNumber := 0, highestBlockNumber := 0, samples := 0 },
    store := { initialised := true, db := demoServerFresh, trace := [] },
    mode := .Resynchronise, clock := 0, events := [] }

/-- The toy library with old base records whose payment address is the text of
the payload byte, and with the payments map marshalled entry by entry. -/
def demoBaseLib : Lib :=
  { demoLib with
    Unpack := fun data _ =>
      match data with
      | tag :: v :: _ =>
        if tag = 0 then .ok (.OldBaseData ⟨"BTC", demoText [v], [v], 0, [v]⟩, 2)
        else if tag < 10 then .ok (demoRecord tag v, 2)
        else .error (.other "tag")
      | _ => .error (.other "short record")
    jsonMarshalMap := fun m => .ok (String.join (m.map fun p => p.1 ++ ":" ++ p.2 ++ ";")) }

/-- The two handles a statement can be sent on: the database handle
(`*sql.DB`, the variable `globalData.database`) and the open transaction
(`*sql.Tx`, the result of `Begin`). -/
inductive Handle
  | database
  | transaction
  deriving DecidableEq, Repr

/-- The handle each statement is sent on, read off the parameter `db` of the
function that sends it: `*sql.Tx` for the inserts and `update_editions`, on
which also `Commit` and `Rollback` are called; `*sql.DB` for the notifications,
the queries, the deletes and `Begin`. -/
def Call.handle : Call → Handle
  | .commit => .transaction
  | .rollback => .transaction
  | .insertBlock _ _ _ => .transaction
  | .insertAsset _ _ _ _ _ _ _ _ _ => .transaction
  | .insertTransaction _ _ _ _ _ _ _ _ _ _ _ => .transaction
  | .insertShare _ _ _ _ _ _ _ _ => .transaction
  | .insertGrant _ _ _ _ _ _ _ _ _ _ _ _ => .transaction
  | .insertSwap _ _ _ _ _ _ _ _ _ _ _ _ _ _ => .transaction
  | .updateEditions _ => .transaction
  | _ => .database

/-- The database `D` with every report of `notify_pending_transaction`
replaced by success; the effect of the statement on the server is kept. -/
def muteNotify (D : Database σ) : Database σ :=
  { D with
    exec := fun s c =>
      match c with
      | .notifyPendingTx _ => (none, (D.exec s c).2)
      | _ => D.exec s c }

/-- The storing of the records `recs` of a payload by `StoreTransactions`,
after `Begin`. -/
def looseWalk (L : Lib) (D : Database σ) (payload : Bytes)
    (recs : List (Transaction × Digest)) (g : GlobalData σ) : Outcome Unit × GlobalData σ :=
  walkRecords L D (hexEncode (L.Sum384 payload)) recs (execCall D Call.begin g).2

/-- The calls from state `g` to state `g1` are `Begin`, then the calls of the
records `stored`, each with its insert and, for an issue or a transfer, the
`notify_pending_transaction` of its id right after the insert, then the calls
`extra` and `tail`. -/
def storedCalls (L : Lib) (stored : List (Transaction × Digest)) (extra : List Call)
    (g g1 : GlobalData σ) (tail : List Call) : Prop :=
  ∃ css,
    List.Forall₂ (looseCalls L) stored css ∧
    callsSince g g1 = [Call.begin] ++ css.flatten ++ extra ++ tail ∧
    ∀ r ∈ stored, r.1.notifies = true →
      ∃ c id, recordId L [] r.1 r.2 = .ok id ∧ c.id? = some id ∧
        [c, Call.notifyPendingTx id] <:+: css.flatten

/-- A database handle that refuses the argument of `delete_down_to_block` when
it is a `uint64` value with the high bit set, without sending the statement: the
server stays as it is and an error is reported, as the argument conversion of
`database/sql` does for such a value. -/
def refusesHighBit (D : Database σ) : Prop :=
  ∀ s n, 2 ^ 63 ≤ n → ∃ e, D.exec s (Call.deleteDownToBlock n) = (some e, s)

/-- The database `D` behind a handle that refuses the argument of
`delete_down_to_block` when its high bit is set. -/
def checkedArguments (D : Database σ) : Database σ :=
  { D with
    exec := fun s c =>
      match c with
      | .deleteDownToBlock n =>
        if 2 ^ 63 ≤ n then (some (.other "uint64 values with high bit set are not supported"), s)
        else D.exec s c
      | _ => D.exec s c }

/-- The initialised store over `demoServerTwo` with an empty trace: the local
tip is 3. -/
def demoStoreTwo : GlobalData Server :=
  { initialised := true, db := demoServerTwo, trace := [] }

/-- The connector of `demoFetchWorld` with the remote tip two to the 64 minus
one, the highest number a peer can report. -/
def demoFetchMax : World Nat :=
  { conn := { clients := [⟨true⟩], state := cStateFetchBlocks, theClient := some 0,
              startBlockNumber := 9, highestBlockNumber := 18446744073709551615,
              samples := 0 },
    store := { initialised := true, db := 8, trace := [] },
    mode := .Resynchronise, clock := 0, events := [] }

/-! ## Theorems -/

theorem execCall_trace (D : Database σ) (c : Call) (g : GlobalData σ) :
    (execCall D c g).2.trace = g.trace ++ [c] := rfl

theorem execCall_initialised (D : Database σ) (c : Call) (g : GlobalData σ) :
    (execCall D c g).2.initialised = g.initialised := rfl

theorem isRecordInsert_iff (c : Call) (kind : InsertKind) (id : String) (status : statusType)
    (blockNumber blockOffset : Nat) (payId : Option String) :
    c.isRecordInsert kind id status blockNumber blockOffset payId ↔
      (c.insertKind? = some kind ∧ c.id? = some id ∧ c.status? = some status ∧
        c.blockNumber? = some blockNumber ∧ c.blockOffset? = some blockOffset ∧
        c.payId? = payId) := Iff.rfl

/-- The two components of the tail of an insert function. -/
theorem insert_tail (D : Database σ) (c : Call) (g : GlobalData σ) (id : String)
    (r : Outcome String × GlobalData σ)
    (h : ∀ x : Option Error × GlobalData σ, x = execCall D c g →
      r = (insertResult x.1 id, x.2)) :
    r.2 = (execCall D c g).2 ∧ r.1 = insertResult (execCall D c g).1 id := by
  rw [h _ rfl]
  exact ⟨rfl, rfl⟩

theorem insertAsset_cases (L : Lib) (D : Database σ) (asset : AssetData)
    (status : statusType) (blockNumber blockOffset : Nat) (g : GlobalData σ) :
    ((∃ e, (insertAsset L D asset status blockNumber blockOffset g).1 = .err e) ∧
      (insertAsset L D asset status blockNumber blockOffset g).2 = g) ∨
    (∃ c id, L.assetIdMarshalText (L.AssetId asset) = .ok id ∧
      c.isRecordInsert .asset id status blockNumber blockOffset none ∧
      (insertAsset L D asset status blockNumber blockOffset g).2 = (execCall D c g).2 ∧
      (insertAsset L D asset status blockNumber blockOffset g).1 =
        insertResult (execCall D c g).1 (L.assetIdString (L.AssetId asset))) := by
  unfold insertAsset
  simp only
  split
  · exact Or.inl ⟨⟨_, rfl⟩, rfl⟩
  · split
    · exact Or.inl ⟨⟨_, rfl⟩, rfl⟩
    · split
      · exact Or.inl ⟨⟨_, rfl⟩, rfl⟩
      · rename_i _ id hid _ signature hs _ metadata hm
        refine Or.inr ⟨Call.insertAsset id asset.Name asset.Fingerprint metadata
          (L.accountString asset.Registrant) signature status blockNumber blockOffset,
          id, hid, ?_, ?_⟩
        · simp [isRecordInsert_iff, Call.insertKind?, Call.id?, Call.status?,
            Call.blockNumber?, Call.blockOffset?, Call.payId?]
        · apply insert_tail
          intro x hx
          rw [← hx]
          rcases x with ⟨_ | e, g1⟩ <;> rfl

theorem insertIssue_cases (L : Lib) (D : Database σ) (txId : Digest) (issue : BitmarkIssue)
    (status : statusType) (blockNumber blockOffset : Nat) (payId : String) (g : GlobalData σ) :
    ((∃ e, (insertIssue L D txId issue status blockNumber blockOffset payId g).1 = .err e) ∧
      (insertIssue L D txId issue status blockNumber blockOffset payId g).2 = g) ∨
    (∃ c id, L.digestMarshalText txId = .ok id ∧
      c.isRecordInsert .transaction id status blockNumber blockOffset (some payId) ∧
      (insertIssue L D txId issue status blockNumber blockOffset payId g).2 = (execCall D c g).2 ∧
      (insertIssue L D txId issue status blockNumber blockOffset payId g).1 =
        insertResult (execCall D c g).1 id) := by
  unfold insertIssue
  split
  · exact Or.inl ⟨⟨_, rfl⟩, rfl⟩
  · split
    · exact Or.inl ⟨⟨_, rfl⟩, rfl⟩
    · split
      · exact Or.inl ⟨⟨_, rfl⟩, rfl⟩
      · rename_i _ id hid _ signature hs _ asset_id ha
        refine Or.inr ⟨Call.insertTransaction id (L.accountString issue.Owner) signature ""
          (some asset_id) none status none payId blockNumber blockOffset, id, hid, ?_, ?_⟩
        · simp [isRecordInsert_iff, Call.insertKind?, Call.id?, Call.status?,
            Call.blockNumber?, Call.blockOffset?, Call.payId?]
        · apply insert_tail
          intro x hx
          rw [← hx]
          rcases x with ⟨_ | e, g1⟩ <;> rfl

theorem insertFoundation_cases (L : Lib) (D : Database σ) (txId : Digest)
    (issue : BlockFoundation) (status : statusType) (blockNumber blockOffset : Nat)
    (payId : String) (g : GlobalData σ) :
    ((∃ e, (insertFoundation L D txId issue status blockNumber blockOffset payId g).1 = .err e) ∧
      (insertFoundation L D txId issue status blockNumber blockOffset payId g).2 = g) ∨
    (∃ c id, L.digestMarshalText txId = .ok id ∧
      c.isRecordInsert .transaction id status blockNumber blockOffset (some payId) ∧
      (insertFoundation L D txId issue status blockNumber blockOffset payId g).2
        = (execCall D c g).2 ∧
      (insertFoundation L D txId issue status blockNumber blockOffset payId g).1 =
        insertResult (execCall D c g).1 id) := by
  unfold insertFoundation
  split
  · exact Or.inl ⟨⟨_, rfl⟩, rfl⟩
  · split
    · exact Or.inl ⟨⟨_, rfl⟩, rfl⟩
    · split
      · exact Or.inl ⟨⟨_, rfl⟩, rfl⟩
      · rename_i _ id hid _ signature hs _ currencies hc
        refine Or.inr ⟨Call.insertTransaction id (L.accountString issue.Owner) signature ""
          none none status (some currencies) payId blockNumber blockOffset, id, hid, ?_, ?_⟩
        · simp [isRecordInsert_iff, Call.insertKind?, Call.id?, Call.status?,
            Call.blockNumber?, Call.blockOffset?, Call.payId?]
        · apply insert_tail
          intro x hx
          rw [← hx]
          rcases x with ⟨_ | e, g1⟩ <;> rfl

theorem insertTransfer_cases (L : Lib) (D : Database σ) (txId : Digest)
    (transfer : BitmarkTransfer) (status : statusType) (blockNumber blockOffset : Nat)
    (payId : String) (g : GlobalData σ) :
    ((∀ a, (insertTransfer L D txId transfer status blockNumber blockOffset payId g).1 ≠ .ok a) ∧
      (insertTransfer L D txId transfer status blockNumber blockOffset payId g).2 = g) ∨
    (∃ c id, L.digestMarshalText txId = .ok id ∧
      c.isRecordInsert .transaction id status blockNumber blockOffset (some payId) ∧
      (insertTransfer L D txId transfer status blockNumber blockOffset payId g).2
        = (execCall D c g).2 ∧
      (insertTransfer L D txId transfer status blockNumber blockOffset payId g).1 =
        transferResult (execCall D c g).1 id) := by
  unfold insertTransfer
  split
  · exact Or.inl ⟨fun a h => (by cases h), rfl⟩
  · split
    · exact Or.inl ⟨fun a h => (by cases h), rfl⟩
    · split
      · exact Or.inl ⟨fun a h => (by cases h), rfl⟩
      · split
        · exact Or.inl ⟨fun a h => (by cases h), rfl⟩
        · split
          · exact Or.inl ⟨fun a h => (by cases h), rfl⟩
          · exact Or.inl ⟨fun a h => (by cases h), rfl⟩
          · rename_i _ id hid _ countersignature hcs _ signature hs _ previous_id hp _ currencies hc
            refine Or.inr ⟨Call.insertTransaction id (L.accountString transfer.Owner) signature
              countersignature none (some previous_id) status currencies payId blockNumber
              blockOffset, id, hid, ?_, ?_⟩
            · simp [isRecordInsert_iff, Call.insertKind?, Call.id?, Call.status?,
                Call.blockNumber?, Call.blockOffset?, Call.payId?]
            · generalize execCall D (Call.insertTransaction id (L.accountString transfer.Owner)
                signature countersignature none (some previous_id) status currencies payId
                blockNumber blockOffset) g = x
              rcases x with ⟨_ | e, g1⟩
              · exact ⟨rfl, rfl⟩
              · cases e <;> first | exact ⟨rfl, rfl⟩ | (simp only [transferResult]; split <;> exact ⟨rfl, rfl⟩)

theorem insertShare_cases (L : Lib) (D : Database σ) (txId : Digest) (share : BitmarkShare)
    (status : statusType) (blockNumber blockOffset : Nat) (payId : String) (g : GlobalData σ) :
    ((∃ e, (insertShare L D txId share status blockNumber blockOffset payId g).1 = .err e) ∧
      (insertShare L D txId share status blockNumber blockOffset payId g).2 = g) ∨
    (∃ c id, L.digestMarshalText txId = .ok id ∧
      c.isRecordInsert .share id status blockNumber blockOffset (some payId) ∧
      (insertShare L D txId share status blockNumber blockOffset payId g).2 = (execCall D c g).2 ∧
      (insertShare L D txId share status blockNumber blockOffset payId g).1 =
        insertResult (execCall D c g).1 id) := by
  unfold insertShare
  split
  · exact Or.inl ⟨⟨_, rfl⟩, rfl⟩
  · split
    · exact Or.inl ⟨⟨_, rfl⟩, rfl⟩
    · split
      · exact Or.inl ⟨⟨_, rfl⟩, rfl⟩
      · rename_i _ id hid _ signature hs _ previous_id hp
        refine Or.inr ⟨Call.insertShare id share.Quantity signature previous_id payId status
          blockNumber blockOffset, id, hid, ?_, ?_⟩
        · simp [isRecordInsert_iff, Call.insertKind?, Call.id?, Call.status?,
            Call.blockNumber?, Call.blockOffset?, Call.payId?]
        · apply insert_tail
          intro x hx
          rw [← hx]
          rcases x with ⟨_ | e, g1⟩ <;> rfl

theorem insertShareGrant_cases (L : Lib) (D : Database σ) (txId : Digest) (grant : ShareGrant)
    (status : statusType) (blockNumber blockOffset : Nat) (payId : String) (g : GlobalData σ) :
    ((∃ e, (insertShareGrant L D txId grant status blockNumber blockOffset payId g).1 = .err e) ∧
      (insertShareGrant L D txId grant status blockNumber blockOffset payId g).2 = g) ∨
    (∃ c id, L.digestMarshalText txId = .ok id ∧
      c.isRecordInsert .grant id status blockNumber blockOffset (some payId) ∧
      (insertShareGrant L D txId grant status blockNumber blockOffset payId g).2
        = (execCall D c g).2 ∧
      (insertShareGrant L D txId grant status blockNumber blockOffset payId g).1 =
        insertResult (execCall D c g).1 id) := by
  unfold insertShareGrant
  split
  · exact Or.inl ⟨⟨_, rfl⟩, rfl⟩
  · split
    · exact Or.inl ⟨⟨_, rfl⟩, rfl⟩
    · split
      · exact Or.inl ⟨⟨_, rfl⟩, rfl⟩
      · split
        · exact Or.inl ⟨⟨_, rfl⟩, rfl⟩
        · split
          · exact Or.inl ⟨⟨_, rfl⟩, rfl⟩
          · rename_i _ id hid _ shareId hsi _ signature hs _ countersignature hcs _ shareInfo hj
            refine Or.inr ⟨Call.insertGrant id shareId grant.Quantity
              (L.accountString grant.Owner) (L.accountString grant.Recipient) signature
              countersignature payId shareInfo status blockNumber blockOffset, id, hid, ?_, ?_⟩
            · simp [isRecordInsert_iff, Call.insertKind?, Call.id?, Call.status?,
                Call.blockNumber?, Call.blockOffset?, Call.payId?]
            · apply insert_tail
              intro x hx
              rw [← hx]
              rcases x with ⟨_ | e, g1⟩ <;> rfl

theorem insertSwapTransaction_cases (L : Lib) (D : Database σ) (txId : Digest)
    (swap : ShareSwap) (status : statusType) (blockNumber blockOffset : Nat) (payId : String)
    (g : GlobalData σ) :
    ((∃ e, (insertSwapTransaction L D txId swap status blockNumber blockOffset payId g).1
        = .err e) ∧
      (insertSwapTransaction L D txId swap status blockNumber blockOffset payId g).2 = g) ∨
    (∃ c id, L.digestMarshalText txId = .ok id ∧
      c.isRecordInsert .swap id status blockNumber blockOffset (some payId) ∧
      (insertSwapTransaction L D txId swap status blockNumber blockOffset payId g).2
        = (execCall D c g).2 ∧
      (insertSwapTransaction L D txId swap status blockNumber blockOffset payId g).1 =
        insertResult (execCall D c g).1 id) := by
  unfold insertSwapTransaction
  split
  · exact Or.inl ⟨⟨_, rfl⟩, rfl⟩
  · split
    · exact Or.inl ⟨⟨_, rfl⟩, rfl⟩
    · split
      · exact Or.inl ⟨⟨_, rfl⟩, rfl⟩
      · split
        · exact Or.inl ⟨⟨_, rfl⟩, rfl⟩
        · split
          · exact Or.inl ⟨⟨_, rfl⟩, rfl⟩
          · split
            · exact Or.inl ⟨⟨_, rfl⟩, rfl⟩
            · rename_i _ id hid _ shareOne h1 _ shareTwo h2 _ signature hs _ countersignature
                hcs _ swapInfo hj
              refine Or.inr ⟨Call.insertSwap id shareOne swap.QuantityOne
                (L.accountString swap.OwnerOne) shareTwo swap.QuantityTwo
                (L.accountString swap.OwnerTwo) signature countersignature payId swapInfo
                status blockNumber blockOffset, id, hid, ?_, ?_⟩
              · simp [isRecordInsert_iff, Call.insertKind?, Call.id?, Call.status?,
                  Call.blockNumber?, Call.blockOffset?, Call.payId?]
              · apply insert_tail
                intro x hx
                rw [← hx]
                rcases x with ⟨_ | e, g1⟩ <;> rfl

theorem insertResult_ok {report : Option Error} {id a : String}
    (h : insertResult report id = .ok a) : report = none ∧ a = id := by
  cases report with
  | none => simp [insertResult] at h; exact ⟨rfl, h.symm⟩
  | some e => simp [insertResult] at h

theorem insertResult_err {report : Option Error} {id : String} {e : Error}
    (h : insertResult report id = .err e) : report = some e := by
  cases report with
  | none => simp [insertResult] at h
  | some e1 => simp [insertResult] at h; rw [h]

theorem insertResult_not_panic {report : Option Error} {id msg : String} :
    insertResult report id ≠ .panic msg := by
  cases report <;> simp [insertResult]

/-- What one round of the record loop of `StoreBlock` does: nothing for an old
base record; for another record either no call and no success, or the one
call derived from the record. -/
theorem storeBlockRecord_cases (L : Lib) (D : Database σ) (foundationTxId : Digest)
    (status : statusType) (blockNumber : Nat) (item : Transaction) (txId : Digest) (i : Nat)
    (ids : NewIds) (g : GlobalData σ) :
    ((storeBlockRecord L D foundationTxId status status blockNumber item txId i ids g).2 = g ∧
      ((item.insertKind? = none ∧
          (storeBlockRecord L D foundationTxId status status blockNumber item txId i ids g).1
            = .ok ids) ∨
        (item.insertKind? ≠ none ∧
          ∀ a, (storeBlockRecord L D foundationTxId status status blockNumber item txId i ids g).1
            ≠ .ok a))) ∨
    (item.insertKind? ≠ none ∧ ∃ c,
      blockRecordCall storedOffset L status blockNumber foundationTxId item txId i c = true ∧
      (storeBlockRecord L D foundationTxId status status blockNumber item txId i ids g).2
        = (execCall D c g).2) := by
  cases item with
  | OldBaseData tx => exact Or.inl ⟨rfl, Or.inl ⟨rfl, rfl⟩⟩
  | AssetData tx =>
    rcases insertAsset_cases L D tx status blockNumber i g with ⟨⟨e, he⟩, hg⟩ | ⟨c, id, hid, hc, hg, hr⟩
    · refine Or.inl ⟨?_, Or.inr ⟨by simp [Transaction.insertKind?], ?_⟩⟩
      · simp only [storeBlockRecord]; split <;> simp_all
      · intro a; simp only [storeBlockRecord]; split <;> simp_all
    · refine Or.inr ⟨by simp [Transaction.insertKind?], c, ?_, ?_⟩
      · simp [blockRecordCall, Transaction.insertKind?, recordId, hid, storedOffset,
          Transaction.isFoundation, kindPayId, hc]
      · simp only [storeBlockRecord]; split <;> simp_all
  | BitmarkIssue tx =>
    rcases insertIssue_cases L D txId tx status blockNumber i "" g with ⟨⟨e, he⟩, hg⟩ | ⟨c, id, hid, hc, hg, hr⟩
    · refine Or.inl ⟨?_, Or.inr ⟨by simp [Transaction.insertKind?], ?_⟩⟩
      · simp only [storeBlockRecord]; split <;> simp_all
      · intro a; simp only [storeBlockRecord]; split <;> simp_all
    · refine Or.inr ⟨by simp [Transaction.insertKind?], c, ?_, ?_⟩
      · simp [blockRecordCall, Transaction.insertKind?, recordId, hid, storedOffset,
          Transaction.isFoundation, kindPayId, hc]
      · simp only [storeBlockRecord]; split <;> simp_all
  | BitmarkTransferUnratified tx =>
    rcases insertTransfer_cases L D txId tx status blockNumber i "" g with ⟨he, hg⟩ | ⟨c, id, hid, hc, hg, hr⟩
    · refine Or.inl ⟨?_, Or.inr ⟨by simp [Transaction.insertKind?], ?_⟩⟩
      · simp only [storeBlockRecord]; split <;> simp_all
      · intro a; simp only [storeBlockRecord]; split <;> simp_all
    · refine Or.inr ⟨by simp [Transaction.insertKind?], c, ?_, ?_⟩
      · simp [blockRecordCall, Transaction.insertKind?, recordId, hid, storedOffset,
          Transaction.isFoundation, kindPayId, hc]
      · simp only [storeBlockRecord]; split <;> simp_all
  | BitmarkTransferCountersigned tx =>
    rcases insertTransfer_cases L D txId tx status blockNumber i "" g with ⟨he, hg⟩ | ⟨c, id, hid, hc, hg, hr⟩
    · refine Or.inl ⟨?_, Or.inr ⟨by simp [Transaction.insertKind?], ?_⟩⟩
      · simp only [storeBlockRecord]; split <;> simp_all
      · intro a; simp only [storeBlockRecord]; split <;> simp_all
    · refine Or.inr ⟨by simp [Transaction.insertKind?], c, ?_, ?_⟩
      · simp [blockRecordCall, Transaction.insertKind?, recordId, hid, storedOffset,
          Transaction.isFoundation, kindPayId, hc]
      · simp only [storeBlockRecord]; split <;> simp_all
  | BlockOwnerTransfer tx =>
    rcases insertTransfer_cases L D txId tx status blockNumber i "" g with ⟨he, hg⟩ | ⟨c, id, hid, hc, hg, hr⟩
    · refine Or.inl ⟨?_, Or.inr ⟨by simp [Transaction.insertKind?], ?_⟩⟩
      · simp only [storeBlockRecord]; split <;> simp_all
      · intro a; simp only [storeBlockRecord]; split <;> simp_all
    · refine Or.inr ⟨by simp [Transaction.insertKind?], c, ?_, ?_⟩
      · simp [blockRecordCall, Transaction.insertKind?, recordId, hid, storedOffset,
          Transaction.isFoundation, kindPayId, hc]
      · simp only [storeBlockRecord]; split <;> simp_all
  | BitmarkShare tx =>
    rcases insertShare_cases L D txId tx status blockNumber i "" g with ⟨⟨e, he⟩, hg⟩ | ⟨c, id, hid, hc, hg, hr⟩
    · refine Or.inl ⟨?_, Or.inr ⟨by simp [Transaction.insertKind?], ?_⟩⟩
      · simp only [storeBlockRecord]; split <;> simp_all
      · intro a; simp only [storeBlockRecord]; split <;> simp_all
    · refine Or.inr ⟨by simp [Transaction.insertKind?], c, ?_, ?_⟩
      · simp [blockRecordCall, Transaction.insertKind?, recordId, hid, storedOffset,
          Transaction.isFoundation, kindPayId, hc]
      · simp only [storeBlockRecord]; split <;> simp_all
  | ShareGrant tx =>
    rcases insertShareGrant_cases L D txId tx status blockNumber i "" g with ⟨⟨e, he⟩, hg⟩ | ⟨c, id, hid, hc, hg, hr⟩
    · refine Or.inl ⟨?_, Or.inr ⟨by simp [Transaction.insertKind?], ?_⟩⟩
      · simp only [storeBlockRecord]; split <;> simp_all
      · intro a; simp only [storeBlockRecord]; split <;> simp_all
    · refine Or.inr ⟨by simp [Transaction.insertKind?], c, ?_, ?_⟩
      · simp [blockRecordCall, Transaction.insertKind?, recordId, hid, storedOffset,
          Transaction.isFoundation, kindPayId, hc]
      · simp only [storeBlockRecord]; split <;> simp_all
  | ShareSwap tx =>
    rcases insertSwapTransaction_cases L D txId tx status blockNumber i "" g with ⟨⟨e, he⟩, hg⟩ | ⟨c, id, hid, hc, hg, hr⟩
    · refine Or.inl ⟨?_, Or.inr ⟨by simp [Transaction.insertKind?], ?_⟩⟩
      · simp only [storeBlockRecord]; split <;> simp_all
      · intro a; simp only [storeBlockRecord]; split <;> simp_all
    · refine Or.inr ⟨by simp [Transaction.insertKind?], c, ?_, ?_⟩
      · simp [blockRecordCall, Transaction.insertKind?, recordId, hid, storedOffset,
          Transaction.isFoundation, kindPayId, hc]
      · simp only [storeBlockRecord]; split <;> simp_all
  | BlockFoundation tx =>
    rcases insertFoundation_cases L D foundationTxId tx status blockNumber 0 "" g with ⟨⟨e, he⟩, hg⟩ | ⟨c, id, hid, hc, hg, hr⟩
    · refine Or.inl ⟨?_, Or.inr ⟨by simp [Transaction.insertKind?], ?_⟩⟩
      · simp only [storeBlockRecord]; split <;> simp_all
      · intro a; simp only [storeBlockRecord]; split <;> simp_all
    · refine Or.inr ⟨by simp [Transaction.insertKind?], c, ?_, ?_⟩
      · simp [blockRecordCall, Transaction.insertKind?, recordId, hid, storedOffset,
          Transaction.isFoundation, kindPayId, hc]
      · simp only [storeBlockRecord]; split <;> simp_all

theorem runCalls_append (D : Database σ) (cs ds : List Call) (g : GlobalData σ) :
    runCalls D (cs ++ ds) g = runCalls D ds (runCalls D cs g) := by
  induction cs generalizing g with
  | nil => rfl
  | cons c cs ih => simp [runCalls, ih]

theorem runCalls_trace (D : Database σ) (cs : List Call) (g : GlobalData σ) :
    (runCalls D cs g).trace = g.trace ++ cs := by
  induction cs generalizing g with
  | nil => simp [runCalls]
  | cons c cs ih => simp [runCalls, ih, execCall_trace]

theorem runCalls_initialised (D : Database σ) (cs : List Call) (g : GlobalData σ) :
    (runCalls D cs g).initialised = g.initialised := by
  induction cs generalizing g with
  | nil => simp [runCalls]
  | cons c cs ih => simp [runCalls, ih, execCall_initialised]

theorem callsSince_of_trace {g g1 : GlobalData σ} {cs : List Call}
    (h : g1.trace = g.trace ++ cs) : callsSince g g1 = cs := by
  simp [callsSince, h]

theorem callsSince_runCalls (D : Database σ) (cs : List Call) (g : GlobalData σ) :
    callsSince g (runCalls D cs g) = cs :=
  callsSince_of_trace (runCalls_trace D cs g)

theorem blockRecordCall_kind {offsetOf : Transaction → Nat → Nat} {L : Lib}
    {status : statusType} {blockNumber : Nat} {foundationTxId : Digest} {item : Transaction}
    {txId : Digest} {i : Nat} {c : Call}
    (h : blockRecordCall offsetOf L status blockNumber foundationTxId item txId i c = true) :
    c.isRecordKind = true := by
  unfold blockRecordCall at h
  split at h
  · rename_i kind id hk hid
    simp only [decide_eq_true_eq, isRecordInsert_iff] at h
    have hc := h.1
    cases item <;> simp [Transaction.insertKind?] at hk <;> subst hk <;>
      simp [Call.isRecordKind, hc]
  · simp at h

/-- The record loop of `StoreBlock` runs a sequence of record inserts; when it
succeeds the calls are those derived from the records, in order. -/
theorem storeBlockRecords_calls (L : Lib) (D : Database σ) (foundationTxId : Digest)
    (status : statusType) (blockNumber : Nat) (txs : List (Transaction × Digest)) (i : Nat)
    (ids : NewIds) (g : GlobalData σ) :
    ∃ cs,
      (storeBlockRecords L D foundationTxId status status blockNumber txs i ids g).2
        = runCalls D cs g ∧
      (∀ c ∈ cs, c.isRecordKind = true) ∧
      ((∃ ids1, (storeBlockRecords L D foundationTxId status status blockNumber txs i ids g).1
          = .ok ids1) →
        ∀ tail, matchRecords storedOffset L status blockNumber foundationTxId txs i (cs ++ tail)
          = some tail) := by
  induction txs generalizing i ids g with
  | nil => exact ⟨[], rfl, by simp, fun _ tail => rfl⟩
  | cons p rest ih =>
    obtain ⟨item, txId⟩ := p
    rcases storeBlockRecord_cases L D foundationTxId status blockNumber item txId i ids g with
      ⟨hg, ⟨hk, hr⟩ | ⟨hk, hr⟩⟩ | ⟨hk, c, hc, hg⟩
    · -- old base record: no call, the loop goes on
      obtain ⟨cs, h1, h2, h3⟩ := ih (i + 1) ids g
      refine ⟨cs, ?_, h2, ?_⟩
      · simp only [storeBlockRecords]
        split <;> simp_all
      · intro hok tail
        simp only [matchRecords, hk]
        apply h3
        obtain ⟨ids1, hok⟩ := hok
        refine ⟨ids1, ?_⟩
        simp only [storeBlockRecords] at hok
        split at hok <;> simp_all
    · -- early failure: no call
      refine ⟨[], ?_, by simp, ?_⟩
      · simp only [storeBlockRecords]
        split <;> simp_all [runCalls]
      · rintro ⟨ids1, hok⟩
        simp only [storeBlockRecords] at hok
        split at hok <;> simp_all
    · -- one call
      cases hres : (storeBlockRecord L D foundationTxId status status blockNumber
          item txId i ids g).1 with
      | ok ids2 =>
        obtain ⟨cs, h1, h2, h3⟩ := ih (i + 1) ids2 (execCall D c g).2
        refine ⟨c :: cs, ?_, ?_, ?_⟩
        · simp only [storeBlockRecords, runCalls]
          split <;> simp_all
        · intro x hx
          rcases List.mem_cons.mp hx with rfl | hx
          · exact blockRecordCall_kind hc
          · exact h2 x hx
        · rintro ⟨ids1, hok⟩ tail
          cases hkk : item.insertKind? with
          | none => exact absurd hkk hk
          | some kind =>
            simp only [matchRecords, hkk, List.cons_append, hc, if_true]
            apply h3
            refine ⟨ids1, ?_⟩
            simp only [storeBlockRecords] at hok
            split at hok <;> simp_all
      | err e =>
        refine ⟨[c], ?_, ?_, ?_⟩
        · simp only [storeBlockRecords, runCalls]
          split <;> simp_all
        · intro x hx
          simp only [List.mem_singleton] at hx
          subst hx
          exact blockRecordCall_kind hc
        · rintro ⟨ids1, hok⟩
          simp only [storeBlockRecords] at hok
          split at hok <;> simp_all
      | panic msg =>
        refine ⟨[c], ?_, ?_, ?_⟩
        · simp only [storeBlockRecords, runCalls]
          split <;> simp_all
        · intro x hx
          simp only [List.mem_singleton] at hx
          subst hx
          exact blockRecordCall_kind hc
        · rintro ⟨ids1, hok⟩
          simp only [storeBlockRecords] at hok
          split at hok <;> simp_all


theorem runCalls_singleton (D : Database σ) (c : Call) (g : GlobalData σ) :
    runCalls D [c] g = (execCall D c g).2 := rfl

theorem notifyIssueLoop_calls (D : Database σ) (fuel : Nat) (issueIds : List String)
    (g : GlobalData σ) :
    ∃ notes, (notifyIssueLoop D fuel issueIds g).2 = runCalls D notes g ∧
      ∀ c ∈ notes, c.isNotify = true := by
  induction fuel generalizing issueIds g with
  | zero => exact ⟨[], rfl, by simp⟩
  | succ fuel ih =>
    simp only [notifyIssueLoop]
    split
    · exact ⟨[], rfl, by simp⟩
    · split
      · rename_i e g1 hx
        refine ⟨[Call.notifyIssue (joinComma (issueIds.take 20))], ?_, by simp [Call.isNotify]⟩
        simp [runCalls, hx]
      · rename_i g1 hx
        obtain ⟨notes, h1, h2⟩ := ih (issueIds.drop 20) g1
        refine ⟨Call.notifyIssue (joinComma (issueIds.take 20)) :: notes, ?_, ?_⟩
        · simp [runCalls, hx, h1]
        · intro c hc
          rcases List.mem_cons.mp hc with rfl | hc
          · rfl
          · exact h2 c hc

theorem storeBlockNotify_calls (D : Database σ) (blockNumber : Nat) (ids : NewIds)
    (g : GlobalData σ) :
    ∃ notes, storeBlockNotify D blockNumber ids g = runCalls D notes g ∧
      ∀ c ∈ notes, c.isNotify = true := by
  unfold storeBlockNotify
  have hA : ∃ n1, (if ids.newAssets.length ≠ 0 then (notifyAsset D ids.newAssets g).2 else g)
      = runCalls D n1 g ∧ ∀ c ∈ n1, c.isNotify = true := by
    split
    · exact ⟨[Call.notifyAsset (joinComma ids.newAssets)], rfl, by simp [Call.isNotify]⟩
    · exact ⟨[], rfl, by simp⟩
  obtain ⟨n1, hA1, hA2⟩ := hA
  simp only [hA1]
  have hB : ∃ n2, (if ids.newIssues.length ≠ 0 then
      (notifyIssue D ids.newIssues (runCalls D n1 g)).2 else runCalls D n1 g)
      = runCalls D n2 (runCalls D n1 g) ∧ ∀ c ∈ n2, c.isNotify = true := by
    split
    · exact notifyIssueLoop_calls D _ _ _
    · exact ⟨[], rfl, by simp⟩
  obtain ⟨n2, hB1, hB2⟩ := hB
  simp only [hB1]
  have hC : ∃ n3, (if ids.newTransfers.length ≠ 0 then
      (notifyTransfer D ids.newTransfers (runCalls D n2 (runCalls D n1 g))).2
      else runCalls D n2 (runCalls D n1 g))
      = runCalls D n3 (runCalls D n2 (runCalls D n1 g)) ∧ ∀ c ∈ n3, c.isNotify = true := by
    split
    · exact ⟨[Call.notifyTransfer (joinComma ids.newTransfers)], rfl, by simp [Call.isNotify]⟩
    · exact ⟨[], rfl, by simp⟩
  obtain ⟨n3, hC1, hC2⟩ := hC
  simp only [hC1]
  refine ⟨n1 ++ n2 ++ n3 ++ [Call.notifyBlock (toString blockNumber)], ?_, ?_⟩
  · simp [runCalls_append, runCalls, notifyBlock]
  · intro c hc
    simp only [List.mem_append, List.mem_singleton] at hc
    rcases hc with ((hc | hc) | hc) | hc
    · exact hA2 c hc
    · exact hB2 c hc
    · exact hC2 c hc
    · subst hc; rfl

theorem scanOldBase_some (txs : List (Transaction × Digest)) (f : BlockFoundation) :
    ∃ f1, scanOldBase txs (some f) = some f1 := by
  induction txs generalizing f with
  | nil => exact ⟨f, rfl⟩
  | cons p rest ih =>
    obtain ⟨item, txId⟩ := p
    cases item <;> first | exact ⟨f, rfl⟩ | exact ih _

theorem scanOldBase_none_iff (txs : List (Transaction × Digest)) :
    scanOldBase txs none = none ↔ startsWithOldBase txs = false := by
  cases txs with
  | nil => simp [scanOldBase, startsWithOldBase]
  | cons p rest =>
    obtain ⟨item, txId⟩ := p
    cases item <;> simp [scanOldBase, startsWithOldBase, Transaction.isOldBase]
    rename_i tx
    obtain ⟨f1, h⟩ := scanOldBase_some rest
      { Version := 0, Payments := mapSet [] tx.Currency tx.PaymentAddress, Owner := tx.Owner,
        Nonce := tx.Nonce, Signature := tx.Signature }
    rw [h]
    simp

theorem storeBlockOldBase_cases (L : Lib) (D : Database σ) (header : Header)
    (digest : Digest) (txs : List (Transaction × Digest)) (g : GlobalData σ) :
    ∃ synth,
      (storeBlockOldBase L D (L.FoundationTxId header digest) (blockStatus header.Number)
        header.Number txs g).2 = runCalls D synth g ∧
      (∀ c ∈ synth, c.isRecordKind = true) ∧
      ((∃ a, (storeBlockOldBase L D (L.FoundationTxId header digest)
          (blockStatus header.Number) header.Number txs g).1 = .ok a) →
        synthCalls L header digest txs synth) ∧
      (∀ msg, (storeBlockOldBase L D (L.FoundationTxId header digest)
          (blockStatus header.Number) header.Number txs g).1 ≠ .panic msg) := by
  unfold storeBlockOldBase
  cases hs : scanOldBase txs none with
  | none =>
    refine ⟨[], rfl, by simp, fun _ => ?_, fun msg h => by cases h⟩
    have := (scanOldBase_none_iff txs).mp hs
    simp [synthCalls, this]
  | some f =>
    have hstart : startsWithOldBase txs = true := by
      by_contra hcon
      have := (scanOldBase_none_iff txs).mpr (by simpa using hcon)
      rw [this] at hs
      cases hs
    simp only
    rcases insertFoundation_cases L D (L.FoundationTxId header digest) f
        (blockStatus header.Number) header.Number 0 "" g with
      ⟨⟨e, he⟩, hg⟩ | ⟨c, id, hid, hc, hg, hr⟩
    · refine ⟨[], hg, by simp, ?_, ?_⟩
      · rintro ⟨a, ha⟩
        rw [he] at ha
        cases ha
      · intro msg hm
        rw [he] at hm
        cases hm
    · refine ⟨[c], hg, ?_, ?_, ?_⟩
      · intro x hx
        simp only [List.mem_singleton] at hx
        subst hx
        simp [Call.isRecordKind, hc.1]
      · intro _
        simp only [synthCalls, hstart, if_true]
        exact ⟨c, id, rfl, hid, hc⟩
      · intro msg hm
        rw [hr] at hm
        exact insertResult_not_panic hm


theorem blockStatus_eq (n : Nat) :
    (if n ≠ 0 then statusType.statusConfirmed else statusType.statusPending) = blockStatus n :=
  rfl

/-- The calls of an accepted block from `Begin` on: `Begin`, `insert_block`,
the synthesised foundation insert if any, the inserts of the records in order,
`update_editions`, `Commit`, then notifications only. -/
theorem storeBlockWrite_ok (L : Lib) (D : Database σ) (header : Header) (digest : Digest)
    (txs : List (Transaction × Digest)) (g : GlobalData σ)
    (hok : (storeBlockWrite L D header digest txs g).1 = .ok ()) :
    ∃ synth recs notes,
      (storeBlockWrite L D header digest txs g).2 =
        runCalls D
          ([Call.begin,
            Call.insertBlock header.Number (L.blockDigestString digest) header.Timestamp] ++
            synth ++ recs ++ [Call.updateEditions header.Number, Call.commit] ++ notes) g ∧
      synthCalls L header digest txs synth ∧
      matchRecords storedOffset L (blockStatus header.Number) header.Number
        (L.FoundationTxId header digest) txs 0 recs = some [] ∧
      (∀ c ∈ recs, c.isRecordKind = true) ∧
      (∀ c ∈ notes, c.isNotify = true) := by
  unfold storeBlockWrite at hok ⊢
  simp only [blockStatus_eq] at hok ⊢
  rcases hb : execCall D Call.begin g with ⟨_ | e, g1⟩
  swap
  · simp [hb] at hok
  simp only [hb] at hok ⊢
  have hg1 : g1 = runCalls D [Call.begin] g := by simp [runCalls, hb]
  rcases hib : insertBlock L D header.Number digest header.Timestamp g1 with ⟨_ | e, g2⟩
  swap
  · simp [hib, rollback] at hok
  simp only [hib] at hok ⊢
  have hg2 : g2 = runCalls D [Call.insertBlock header.Number (L.blockDigestString digest)
      header.Timestamp] g1 := by
    simp only [insertBlock] at hib
    simp [runCalls, hib]
  obtain ⟨synth, hs1, hs2, hs3, hs4⟩ := storeBlockOldBase_cases L D header digest txs g2
  rcases hob : storeBlockOldBase L D (L.FoundationTxId header digest)
      (blockStatus header.Number) header.Number txs g2 with ⟨r3, g3⟩
  rw [hob] at hs1 hs3 hs4
  simp only [hob] at hok ⊢
  cases r3 with
  | err e => simp [rollback] at hok
  | panic msg => simp at hok
  | ok a =>
    simp only at hok hs1 ⊢
    have hsynth := hs3 ⟨a, rfl⟩
    obtain ⟨recs, hr1, hr2, hr3⟩ := storeBlockRecords_calls L D (L.FoundationTxId header digest)
      (blockStatus header.Number) header.Number txs 0 ⟨[], [], []⟩ g3
    rcases hrec : storeBlockRecords L D (L.FoundationTxId header digest)
        (blockStatus header.Number) (blockStatus header.Number) header.Number txs 0
        ⟨[], [], []⟩ g3 with ⟨r4, g4⟩
    rw [hrec] at hr1 hr3
    simp only [hrec] at hok ⊢
    cases r4 with
    | err e => simp [rollback] at hok
    | panic msg => simp at hok
    | ok ids =>
      simp only at hok hr1 ⊢
      have hmatch := hr3 ⟨ids, rfl⟩ []
      simp only [List.append_nil] at hmatch
      rcases hue : updateEditions D header.Number g4 with ⟨_ | e, g5⟩
      swap
      · simp [hue, rollback] at hok
      simp only [hue] at hok ⊢
      have hg5 : g5 = runCalls D [Call.updateEditions header.Number] g4 := by
        simp only [updateEditions] at hue
        simp [runCalls, hue]
      rcases hcm : execCall D Call.commit g5 with ⟨_ | e, g6⟩
      swap
      · simp [hcm, rollback] at hok
      simp only [hcm] at hok ⊢
      have hg6 : g6 = runCalls D [Call.commit] g5 := by simp [runCalls, hcm]
      have hall : g6 = runCalls D ([Call.begin,
            Call.insertBlock header.Number (L.blockDigestString digest) header.Timestamp] ++
            synth ++ recs ++ [Call.updateEditions header.Number, Call.commit]) g := by
        rw [hg6, hg5, hr1, hs1, hg2, hg1]
        simp [runCalls_append, runCalls]
      split
      · obtain ⟨notes, hn1, hn2⟩ := storeBlockNotify_calls D header.Number ids g6
        refine ⟨synth, recs, notes, ?_, hsynth, hmatch, hr2, hn2⟩
        show storeBlockNotify D header.Number ids g6 = _
        rw [hn1, hall, ← runCalls_append]
      · refine ⟨synth, recs, [], ?_, hsynth, hmatch, hr2, by simp⟩
        show g6 = _
        rw [hall, List.append_nil]

theorem inTransaction_of_isRecordKind {c : Call} (h : c.isRecordKind = true) :
    c.inTransaction = true := by
  cases c <;> simp_all [Call.isRecordKind, Call.insertKind?, Call.inTransaction, Call.isInsert]

/-- The error paths of `StoreBlock` from `Begin` on: `Begin` fails; or calls of
the transaction body followed by `Rollback`; or calls of the body, a `Commit`
that fails, and `Rollback`. -/
theorem storeBlockWrite_err (L : Lib) (D : Database σ) (header : Header) (digest : Digest)
    (txs : List (Transaction × Digest)) (g : GlobalData σ) (e : Error)
    (herr : (storeBlockWrite L D header digest txs g).1 = .err e) :
    ((execCall D Call.begin g).1 = some e ∧
      (storeBlockWrite L D header digest txs g).2 = (execCall D Call.begin g).2) ∨
    (∃ pre, (∀ c ∈ pre, c.inTransaction = true) ∧
      (storeBlockWrite L D header digest txs g).2 = runCalls D (pre ++ [Call.rollback]) g) ∨
    (∃ pre, (∀ c ∈ pre, c.inTransaction = true) ∧
      (execCall D Call.commit (runCalls D pre g)).1 = some e ∧
      (storeBlockWrite L D header digest txs g).2 =
        runCalls D (pre ++ [Call.commit, Call.rollback]) g) := by
  unfold storeBlockWrite at herr ⊢
  simp only [blockStatus_eq] at herr ⊢
  rcases hb : execCall D Call.begin g with ⟨_ | e1, g1⟩
  swap
  · left
    simp only [hb, Outcome.err.injEq] at herr
    subst herr
    simp [hb]
  simp only [hb] at herr ⊢
  have hg1 : g1 = runCalls D [Call.begin] g := by simp [runCalls, hb]
  rcases hib : insertBlock L D header.Number digest header.Timestamp g1 with ⟨_ | e1, g2⟩
  all_goals
    have hg2 : g2 = runCalls D [Call.insertBlock header.Number (L.blockDigestString digest)
        header.Timestamp] g1 := by
      simp only [insertBlock] at hib
      simp [runCalls, hib]
  swap
  · refine Or.inr (Or.inl ⟨[Call.begin, Call.insertBlock header.Number
      (L.blockDigestString digest) header.Timestamp], ?_, ?_⟩)
    · simp [Call.inTransaction, Call.isInsert]
    · simp only [hib, rollback]
      rw [hg2, hg1]
      simp [runCalls]
  simp only [hib] at herr ⊢
  obtain ⟨synth, hs1, hs2, hs3, hs4⟩ := storeBlockOldBase_cases L D header digest txs g2
  rcases hob : storeBlockOldBase L D (L.FoundationTxId header digest)
      (blockStatus header.Number) header.Number txs g2 with ⟨r3, g3⟩
  rw [hob] at hs1 hs3 hs4
  simp only [hob] at herr ⊢
  simp only at hs1
  have hpre3 : ∀ c ∈ [Call.begin, Call.insertBlock header.Number
      (L.blockDigestString digest) header.Timestamp] ++ synth, c.inTransaction = true := by
    intro c hc
    simp only [List.mem_append, List.mem_cons, List.mem_singleton, List.not_mem_nil,
      or_false] at hc
    rcases hc with (rfl | rfl) | hc
    · rfl
    · rfl
    · exact inTransaction_of_isRecordKind (hs2 c hc)
  have hg3 : g3 = runCalls D ([Call.begin, Call.insertBlock header.Number
      (L.blockDigestString digest) header.Timestamp] ++ synth) g := by
    rw [hs1, hg2, hg1]
    simp [runCalls_append, runCalls]
  cases r3 with
  | err e1 =>
    refine Or.inr (Or.inl ⟨_, hpre3, ?_⟩)
    show (execCall D Call.rollback g3).2 = _
    rw [runCalls_append, ← hg3]
    rfl
  | panic msg => simp at herr
  | ok a =>
    simp only at herr ⊢
    obtain ⟨recs, hr1, hr2, hr3⟩ := storeBlockRecords_calls L D (L.FoundationTxId header digest)
      (blockStatus header.Number) header.Number txs 0 ⟨[], [], []⟩ g3
    rcases hrec : storeBlockRecords L D (L.FoundationTxId header digest)
        (blockStatus header.Number) (blockStatus header.Number) header.Number txs 0
        ⟨[], [], []⟩ g3 with ⟨r4, g4⟩
    rw [hrec] at hr1 hr3
    simp only [hrec] at herr ⊢
    simp only at hr1
    have hpre4 : ∀ c ∈ [Call.begin, Call.insertBlock header.Number
        (L.blockDigestString digest) header.Timestamp] ++ synth ++ recs,
        c.inTransaction = true := by
      intro c hc
      rcases List.mem_append.mp hc with hc | hc
      · exact hpre3 c hc
      · exact inTransaction_of_isRecordKind (hr2 c hc)
    have hg4 : g4 = runCalls D ([Call.begin, Call.insertBlock header.Number
        (L.blockDigestString digest) header.Timestamp] ++ synth ++ recs) g := by
      rw [hr1, hg3, ← runCalls_append]
    cases r4 with
    | err e1 =>
      refine Or.inr (Or.inl ⟨_, hpre4, ?_⟩)
      show (execCall D Call.rollback g4).2 = _
      rw [runCalls_append, ← hg4]
      rfl
    | panic msg => simp at herr
    | ok ids =>
      simp only at herr ⊢
      have hpre5 : ∀ c ∈ [Call.begin, Call.insertBlock header.Number
          (L.blockDigestString digest) header.Timestamp] ++ synth ++ recs ++
          [Call.updateEditions header.Number], c.inTransaction = true := by
        intro c hc
        rcases List.mem_append.mp hc with hc | hc
        · exact hpre4 c hc
        · simp only [List.mem_singleton] at hc
          subst hc
          rfl
      rcases hue : updateEditions D header.Number g4 with ⟨_ | e1, g5⟩
      all_goals
        have hg5 : g5 = runCalls D ([Call.begin, Call.insertBlock header.Number
            (L.blockDigestString digest) header.Timestamp] ++ synth ++ recs ++
            [Call.updateEditions header.Number]) g := by
          simp only [updateEditions] at hue
          rw [runCalls_append, ← hg4]
          simp [runCalls, hue]
      swap
      · refine Or.inr (Or.inl ⟨_, hpre5, ?_⟩)
        simp only [hue, rollback]
        rw [runCalls_append, ← hg5]
        rfl
      simp only [hue] at herr ⊢
      rcases hcm : execCall D Call.commit g5 with ⟨_ | e1, g6⟩
      · simp only [hcm] at herr
        split at herr <;> cases herr
      · simp only [hcm, rollback] at herr ⊢
        simp only [Outcome.err.injEq] at herr
        refine Or.inr (Or.inr ⟨_, hpre5, ?_, ?_⟩)
        · rw [← hg5, hcm, herr]
        · have hg6 : g6 = (execCall D Call.commit g5).2 := by rw [hcm]
          rw [hg6, runCalls_append, ← hg5]
          rfl

theorem GetBlockHeight_trace (L : Lib) (D : Database σ) (g : GlobalData σ) :
    (GetBlockHeight L D g).2.trace = g.trace ++ [Call.getBlockHeight] := by
  unfold GetBlockHeight
  repeat' split
  all_goals rfl

theorem GetBlockHeight_initialised (L : Lib) (D : Database σ) (g : GlobalData σ) :
    (GetBlockHeight L D g).2.initialised = g.initialised := by
  unfold GetBlockHeight
  repeat' split
  all_goals rfl

theorem DigestForBlock_trace (L : Lib) (D : Database σ) (n : Nat) (g : GlobalData σ) :
    (DigestForBlock L D n g).2.trace =
      g.trace ++ (if n ≤ L.genesisBlockNumber then [] else [Call.getBlockDigest n]) := by
  unfold DigestForBlock
  repeat' split
  all_goals simp_all

/-- The paths of `StoreBlock` up to the check of the previous digest. -/
theorem StoreBlock_cases (L : Lib) (D : Database σ) (packedBlock : Bytes) (g : GlobalData σ) :
    (g.initialised = false ∧ StoreBlock L D packedBlock g = (.err .ErrNotInitialised, g)) ∨
    (g.initialised = true ∧ ∃ e, (GetBlockHeight L D g).1 = .error e ∧
      StoreBlock L D packedBlock g = (.panic "GetBlockHeight failed", (GetBlockHeight L D g).2)) ∨
    (g.initialised = true ∧ ∃ h, (GetBlockHeight L D g).1 = .ok h ∧
      ((∃ e, L.ExtractHeader packedBlock (addU64 h 1) = .error e ∧
          StoreBlock L D packedBlock g = (.err e, (GetBlockHeight L D g).2)) ∨
       (∃ header digest data,
          L.ExtractHeader packedBlock (addU64 h 1) = .ok (header, digest, data) ∧
          ((∃ e, (DigestForBlock L D (subU64 header.Number 1) (GetBlockHeight L D g).2).1
                = .error e ∧
              StoreBlock L D packedBlock g =
                (.err e, (DigestForBlock L D (subU64 header.Number 1)
                  (GetBlockHeight L D g).2).2)) ∨
           (∃ previousBlock,
              (DigestForBlock L D (subU64 header.Number 1) (GetBlockHeight L D g).2).1
                = .ok previousBlock ∧
              ((previousBlock ≠ header.PreviousBlock ∧
                  StoreBlock L D packedBlock g =
                    (.err .ErrPreviousBlockDigestDoesNotMatch,
                      (DeleteDownToBlock D (subU64 h blockRevertLimit)
                        (DigestForBlock L D (subU64 header.Number 1)
                          (GetBlockHeight L D g).2).2).2)) ∨
               (previousBlock = header.PreviousBlock ∧
                  StoreBlock L D packedBlock g =
                    storeBlockVerify L D header digest data
                      (DigestForBlock L D (subU64 header.Number 1)
                        (GetBlockHeight L D g).2).2))))))) := by
  unfold StoreBlock
  split
  · rename_i hi
    exact Or.inl ⟨hi, rfl⟩
  · rename_i hi
    have hi1 : g.initialised = true := by simpa using hi
    split
    · rename_i e g1 hH
      refine Or.inr (Or.inl ⟨hi1, e, ?_, ?_⟩) <;> simp [hH]
    · rename_i h g1 hH
      refine Or.inr (Or.inr ⟨hi1, h, by simp [hH], ?_⟩)
      split
      · rename_i e hE
        exact Or.inl ⟨e, hE, by simp [hH]⟩
      · rename_i header digest data hE
        refine Or.inr ⟨header, digest, data, hE, ?_⟩
        simp only [hH]
        split
        · rename_i e g2 hD
          exact Or.inl ⟨e, by simp [hD], by simp [hD]⟩
        · rename_i previousBlock g2 hD
          refine Or.inr ⟨previousBlock, by simp [hD], ?_⟩
          split
          · rename_i hp
            exact Or.inl ⟨hp, by simp [hD]⟩
          · rename_i hp
            exact Or.inr ⟨by simpa using hp, by simp [hD]⟩

/-- The paths of `StoreBlock` from the unpacking of the records to the check
of the Merkle root. -/
theorem storeBlockVerify_cases (L : Lib) (D : Database σ) (header : Header) (digest : Digest)
    (data : Bytes) (g : GlobalData σ) :
    (∃ e, unpackTransactions L header.TransactionCount data = .err e ∧
      storeBlockVerify L D header digest data g = (.err e, g)) ∨
    (∃ msg, unpackTransactions L header.TransactionCount data = .panic msg ∧
      storeBlockVerify L D header digest data g = (.panic msg, g)) ∨
    (∃ txs, unpackTransactions L header.TransactionCount data = .ok txs ∧
      (((L.FullMerkleTree (txs.map Prod.snd)).getLast? = none ∧
          storeBlockVerify L D header digest data g = (.panic "index out of range", g)) ∨
       (∃ merkleRoot, (L.FullMerkleTree (txs.map Prod.snd)).getLast? = some merkleRoot ∧
          ((merkleRoot ≠ header.MerkleRoot ∧
              storeBlockVerify L D header digest data g = (.err .ErrMerkleRootDoesNotMatch, g)) ∨
           (merkleRoot = header.MerkleRoot ∧
              storeBlockVerify L D header digest data g =
                storeBlockWrite L D
                  { header with Timestamp := clampTimestamp header.Timestamp }
                  digest txs g))))) := by
  unfold storeBlockVerify
  split
  · rename_i e he
    exact Or.inl ⟨e, he, rfl⟩
  · rename_i msg he
    exact Or.inr (Or.inl ⟨msg, he, rfl⟩)
  · rename_i txs he
    refine Or.inr (Or.inr ⟨txs, he, ?_⟩)
    split
    · rename_i hl
      exact Or.inl ⟨hl, rfl⟩
    · rename_i merkleRoot hl
      refine Or.inr ⟨merkleRoot, hl, ?_⟩
      split
      · rename_i hm
        exact Or.inl ⟨hm, rfl⟩
      · rename_i hm
        exact Or.inr ⟨by simpa using hm, rfl⟩

theorem unpackTransactions_length (L : Lib) (count : Nat) (data : Bytes)
    (txs : List (Transaction × Digest)) (h : unpackTransactions L count data = .ok txs) :
    txs.length = count := by
  induction count generalizing data txs with
  | zero =>
    simp only [unpackTransactions, Outcome.ok.injEq] at h
    subst h
    rfl
  | succ count ih =>
    simp only [unpackTransactions] at h
    split at h
    · cases h
    · split at h
      · cases h
      · split at h
        · rename_i rest hrest
          simp only [Outcome.ok.injEq] at h
          subst h
          simp [ih _ _ hrest]
        · cases h
        · cases h

theorem callsSince_self (g : GlobalData σ) : callsSince g g = [] := by
  simp [callsSince]

/-- The calls of `StoreBlock` on the path where the previous digest differs:
the height query, the digest query when the number is above the genesis
number, and one `delete_down_to_block`. -/
theorem StoreBlock_mismatch (L : Lib) (D : Database σ) (packedBlock : Bytes)
    (g : GlobalData σ) (h : Nat) (header : Header) (digest : Digest) (data : Bytes)
    (previousBlock : Digest)
    (hi : g.initialised = true)
    (hH : (GetBlockHeight L D g).1 = .ok h)
    (hE : L.ExtractHeader packedBlock (addU64 h 1) = .ok (header, digest, data))
    (hD : (DigestForBlock L D (subU64 header.Number 1) (GetBlockHeight L D g).2).1
      = .ok previousBlock)
    (hne : previousBlock ≠ header.PreviousBlock) :
    (StoreBlock L D packedBlock g).1 = .err .ErrPreviousBlockDigestDoesNotMatch ∧
    (StoreBlock L D packedBlock g).2 =
      (DeleteDownToBlock D (subU64 h blockRevertLimit)
        (DigestForBlock L D (subU64 header.Number 1) (GetBlockHeight L D g).2).2).2 ∧
    callsSince g (StoreBlock L D packedBlock g).2 =
      [Call.getBlockHeight] ++
        (if subU64 header.Number 1 ≤ L.genesisBlockNumber then []
          else [Call.getBlockDigest (subU64 header.Number 1)]) ++
        [Call.deleteDownToBlock (subU64 h blockRevertLimit)] := by
  rcases StoreBlock_cases L D packedBlock g with ⟨h0, _⟩ | ⟨_, e, h1, _⟩ | ⟨_, h', hH', hrest⟩
  · rw [hi] at h0; cases h0
  · rw [hH] at h1; cases h1
  · rw [hH] at hH'
    cases hH'
    rcases hrest with ⟨e, h1, _⟩ | ⟨header', digest', data', hE', hrest⟩
    · rw [hE] at h1; cases h1
    · rw [hE] at hE'
      cases hE'
      rcases hrest with ⟨e, h1, _⟩ | ⟨previousBlock', hD', hrest⟩
      · rw [hD] at h1; cases h1
      · rw [hD] at hD'
        cases hD'
        rcases hrest with ⟨_, hS⟩ | ⟨heq, _⟩
        · refine ⟨by rw [hS], by rw [hS], ?_⟩
          apply callsSince_of_trace
          rw [hS]
          simp only [DeleteDownToBlock, execCall_trace, DigestForBlock_trace,
            GetBlockHeight_trace, List.append_assoc]
        · exact absurd heq hne

/-- C1 (prefix-consistency): when `StoreBlock` returns success, the digest that
`DigestForBlock` returned for `header.Number - 1` during the call equals the
header's previous block digest; when the two differ, `StoreBlock` does not
succeed, begins no database transaction and calls no `insert_block`. -/
theorem C1_prefix_consistency (L : Lib) (D : Database σ) (packedBlock : Bytes)
    (g : GlobalData σ) :
    ((StoreBlock L D packedBlock g).1 = .ok () →
      ∃ h header digest data,
        (GetBlockHeight L D g).1 = .ok h ∧
        L.ExtractHeader packedBlock (addU64 h 1) = .ok (header, digest, data) ∧
        (DigestForBlock L D (subU64 header.Number 1) (GetBlockHeight L D g).2).1
          = .ok header.PreviousBlock) ∧
    (∀ h header digest data previousBlock,
        (GetBlockHeight L D g).1 = .ok h →
        L.ExtractHeader packedBlock (addU64 h 1) = .ok (header, digest, data) →
        (DigestForBlock L D (subU64 header.Number 1) (GetBlockHeight L D g).2).1
          = .ok previousBlock →
        previousBlock ≠ header.PreviousBlock →
        (StoreBlock L D packedBlock g).1 ≠ .ok () ∧
        ∀ c ∈ callsSince g (StoreBlock L D packedBlock g).2,
          c ≠ Call.begin ∧ c.insertKind? ≠ some .block) := by
  constructor
  · intro hok
    rcases StoreBlock_cases L D packedBlock g with ⟨_, hS⟩ | ⟨_, e, _, hS⟩ | ⟨_, h, hH, hrest⟩
    · rw [hS] at hok; cases hok
    · rw [hS] at hok; cases hok
    · rcases hrest with ⟨e, _, hS⟩ | ⟨header, digest, data, hE, hrest⟩
      · rw [hS] at hok; cases hok
      · rcases hrest with ⟨e, _, hS⟩ | ⟨previousBlock, hD, hrest⟩
        · rw [hS] at hok; cases hok
        · rcases hrest with ⟨_, hS⟩ | ⟨heq, _⟩
          · rw [hS] at hok; cases hok
          · exact ⟨h, header, digest, data, hH, hE, by rw [hD, heq]⟩
  · intro h header digest data previousBlock hH hE hD hne
    cases hi : g.initialised with
    | false =>
      rcases StoreBlock_cases L D packedBlock g with ⟨_, hS⟩ | ⟨h1, _⟩ | ⟨h1, _⟩
      · rw [hS]
        refine ⟨fun hc => (by cases hc), ?_⟩
        simp [callsSince_self]
      · rw [hi] at h1; cases h1
      · rw [hi] at h1; cases h1
    | true =>
      obtain ⟨h1, _, h3⟩ := StoreBlock_mismatch L D packedBlock g h header digest data
        previousBlock hi hH hE hD hne
      refine ⟨(by rw [h1]; intro hc; cases hc), ?_⟩
      rw [h3]
      intro c hc
      simp only [List.mem_append, List.mem_singleton] at hc
      rcases hc with (rfl | hc) | rfl
      · exact ⟨(by intro hx; cases hx), (by simp [Call.insertKind?])⟩
      · split at hc
        · cases hc
        · simp only [List.mem_singleton] at hc
          subst hc
          exact ⟨(by intro hx; cases hx), (by simp [Call.insertKind?])⟩
      · exact ⟨(by intro hx; cases hx), (by simp [Call.insertKind?])⟩

theorem subU64_succ_one (h : Nat) : subU64 (h + 1) 1 = h := by
  simp [subU64]

/-- C2 (Merkle soundness): `StoreBlock` returns success only if the last entry
of the full Merkle tree over the transaction ids of the `TransactionCount`
records unpacked from the block equals the header's Merkle root.  When the
root differs, `StoreBlock` does not succeed and issues no `Begin`, no insert
and no `Commit`; when the checks before it pass, the error returned is
`ErrMerkleRootDoesNotMatch`. -/
theorem C2_merkle_soundness (L : Lib) (D : Database σ) (packedBlock : Bytes)
    (g : GlobalData σ) :
    ((StoreBlock L D packedBlock g).1 = .ok () →
      ∃ h header digest data txs,
        (GetBlockHeight L D g).1 = .ok h ∧
        L.ExtractHeader packedBlock (addU64 h 1) = .ok (header, digest, data) ∧
        unpackTransactions L header.TransactionCount data = .ok txs ∧
        txs.length = header.TransactionCount ∧
        (L.FullMerkleTree (txs.map Prod.snd)).getLast? = some header.MerkleRoot) ∧
    (∀ h header digest data txs merkleRoot,
        (GetBlockHeight L D g).1 = .ok h →
        L.ExtractHeader packedBlock (addU64 h 1) = .ok (header, digest, data) →
        unpackTransactions L header.TransactionCount data = .ok txs →
        (L.FullMerkleTree (txs.map Prod.snd)).getLast? = some merkleRoot →
        merkleRoot ≠ header.MerkleRoot →
        (StoreBlock L D packedBlock g).1 ≠ .ok () ∧
        (∀ c ∈ callsSince g (StoreBlock L D packedBlock g).2,
          c ≠ Call.begin ∧ c.isInsert = false ∧ c ≠ Call.commit) ∧
        (g.initialised = true →
          (DigestForBlock L D (subU64 header.Number 1) (GetBlockHeight L D g).2).1
            = .ok header.PreviousBlock →
          (StoreBlock L D packedBlock g).1 = .err .ErrMerkleRootDoesNotMatch)) := by
  constructor
  · intro hok
    rcases StoreBlock_cases L D packedBlock g with ⟨_, hS⟩ | ⟨_, e, _, hS⟩ | ⟨_, h, hH, hrest⟩
    · rw [hS] at hok; cases hok
    · rw [hS] at hok; cases hok
    · rcases hrest with ⟨e, _, hS⟩ | ⟨header, digest, data, hE, hrest⟩
      · rw [hS] at hok; cases hok
      · rcases hrest with ⟨e, _, hS⟩ | ⟨previousBlock, hD, hrest⟩
        · rw [hS] at hok; cases hok
        · rcases hrest with ⟨_, hS⟩ | ⟨heq, hS⟩
          · rw [hS] at hok; cases hok
          · rw [hS] at hok
            rcases storeBlockVerify_cases L D header digest data
                (DigestForBlock L D (subU64 header.Number 1) (GetBlockHeight L D g).2).2 with
              ⟨e, _, hV⟩ | ⟨msg, _, hV⟩ | ⟨txs, hU, ⟨_, hV⟩ | ⟨root, hR, ⟨_, hV⟩ | ⟨hroot, _⟩⟩⟩
            · rw [hV] at hok; cases hok
            · rw [hV] at hok; cases hok
            · rw [hV] at hok; cases hok
            · rw [hV] at hok; cases hok
            · exact ⟨h, header, digest, data, txs, hH, hE, hU,
                unpackTransactions_length L _ _ _ hU, by rw [hR, hroot]⟩
  · intro h header digest data txs merkleRoot hH hE hU hR hne
    have hnone : ∀ c ∈ ([] : List Call),
        c ≠ Call.begin ∧ c.isInsert = false ∧ c ≠ Call.commit := by simp
    have hquery : ∀ g0 : GlobalData σ,
        g0.trace = g.trace ++ ([Call.getBlockHeight] ++
          (if subU64 header.Number 1 ≤ L.genesisBlockNumber then []
            else [Call.getBlockDigest (subU64 header.Number 1)])) →
        ∀ c ∈ callsSince g g0, c ≠ Call.begin ∧ c.isInsert = false ∧ c ≠ Call.commit := by
      intro g0 hg0 c hc
      rw [callsSince_of_trace hg0] at hc
      simp only [List.mem_append, List.mem_singleton] at hc
      rcases hc with rfl | hc
      · exact ⟨(by intro hx; cases hx), rfl, (by intro hx; cases hx)⟩
      · split at hc
        · cases hc
        · simp only [List.mem_singleton] at hc
          subst hc
          exact ⟨(by intro hx; cases hx), rfl, (by intro hx; cases hx)⟩
    have htr2 : (DigestForBlock L D (subU64 header.Number 1) (GetBlockHeight L D g).2).2.trace =
        g.trace ++ ([Call.getBlockHeight] ++
          (if subU64 header.Number 1 ≤ L.genesisBlockNumber then []
            else [Call.getBlockDigest (subU64 header.Number 1)])) := by
      rw [DigestForBlock_trace, GetBlockHeight_trace, List.append_assoc]
    rcases StoreBlock_cases L D packedBlock g with ⟨hi, hS⟩ | ⟨_, e, h1, _⟩ | ⟨hi, h', hH', hrest⟩
    · rw [hS]
      refine ⟨fun hc => (by cases hc), ?_, fun hi1 => ?_⟩
      · rw [callsSince_self]; exact hnone
      · rw [hi] at hi1; cases hi1
    · rw [hH] at h1; cases h1
    · rw [hH] at hH'
      cases hH'
      rcases hrest with ⟨e, h1, _⟩ | ⟨header', digest', data', hE', hrest⟩
      · rw [hE] at h1; cases h1
      · rw [hE] at hE'
        cases hE'
        rcases hrest with ⟨e, hD, hS⟩ | ⟨previousBlock, hD, hrest⟩
        · rw [hS]
          refine ⟨fun hc => (by cases hc), hquery _ htr2, fun _ hD1 => ?_⟩
          rw [hD] at hD1; cases hD1
        · rcases hrest with ⟨hp, hS⟩ | ⟨heq, hS⟩
          · rw [hS]
            refine ⟨fun hc => (by cases hc), ?_, fun _ hD1 => ?_⟩
            · intro c hc
              have hcs : callsSince g (DeleteDownToBlock D (subU64 h blockRevertLimit)
                  (DigestForBlock L D (subU64 header.Number 1) (GetBlockHeight L D g).2).2).2 =
                  [Call.getBlockHeight] ++
                    (if subU64 header.Number 1 ≤ L.genesisBlockNumber then []
                      else [Call.getBlockDigest (subU64 header.Number 1)]) ++
                    [Call.deleteDownToBlock (subU64 h blockRevertLimit)] :=
                callsSince_of_trace
                  (by simp only [DeleteDownToBlock, execCall_trace, htr2, List.append_assoc])
              rw [hcs] at hc
              rcases List.mem_append.mp hc with hc | hc
              · exact hquery _ htr2 c (by rw [callsSince_of_trace htr2]; exact hc)
              · simp only [List.mem_singleton] at hc
                subst hc
                exact ⟨(by intro hx; cases hx), rfl, (by intro hx; cases hx)⟩
            · rw [hD] at hD1
              cases hD1
              exact absurd rfl hp
          · rcases storeBlockVerify_cases L D header digest data
                (DigestForBlock L D (subU64 header.Number 1) (GetBlockHeight L D g).2).2 with
              ⟨e, hU', _⟩ | ⟨msg, hU', _⟩ | ⟨txs', hU', ⟨hR', _⟩ | ⟨root, hR', ⟨_, hV⟩ | ⟨hroot, _⟩⟩⟩
            · rw [hU] at hU'; cases hU'
            · rw [hU] at hU'; cases hU'
            · rw [hU] at hU'; cases hU'
              rw [hR] at hR'; cases hR'
            · rw [hS, hV]
              exact ⟨fun hc => (by cases hc), hquery _ htr2, fun _ _ => rfl⟩
            · rw [hU] at hU'; cases hU'
              rw [hR] at hR'; cases hR'
              exact absurd hroot hne

/-- C3: when the header parses with number `h + 1` for the local tip `h` and
its previous digest differs from the local digest of block `h`, `StoreBlock`
returns `ErrPreviousBlockDigestDoesNotMatch` whatever the delete call reports,
issues no insert and calls `DeleteDownToBlock` exactly once, which passes the
`uint64` value of `h - blockRevertLimit` to `Exec`.  From `h = 5` on that value is
`h - 5`.  For a local tip below 5 the subtraction wraps: the argument is
`2^64 + h - 5`, which is not `h - 5` and has the high bit set, and on a database
handle that refuses such an argument the server is left as the two queries
left it, so nothing is reverted. -/
theorem C3_revert_on_mismatch (L : Lib) (D : Database σ) (packedBlock : Bytes)
    (g : GlobalData σ) (h : Nat) (header : Header) (digest : Digest) (data : Bytes)
    (previousBlock : Digest)
    (hi : g.initialised = true)
    (hH : (GetBlockHeight L D g).1 = .ok h)
    (hE : L.ExtractHeader packedBlock (addU64 h 1) = .ok (header, digest, data))
    (hnum : header.Number = h + 1)
    (hD : (DigestForBlock L D h (GetBlockHeight L D g).2).1 = .ok previousBlock)
    (hne : previousBlock ≠ header.PreviousBlock) :
    (StoreBlock L D packedBlock g).1 = .err .ErrPreviousBlockDigestDoesNotMatch ∧
    (callsSince g (StoreBlock L D packedBlock g).2).filter Call.isDelete =
      [Call.deleteDownToBlock (subU64 h blockRevertLimit)] ∧
    (∀ c ∈ callsSince g (StoreBlock L D packedBlock g).2, c.isInsert = false) ∧
    (5 ≤ h → subU64 h blockRevertLimit = h - 5) ∧
    (h < 5 →
      subU64 h blockRevertLimit = u64 + h - 5 ∧
      ((subU64 h blockRevertLimit : Nat) : Int) ≠ (h : Int) - 5 ∧
      2 ^ 63 ≤ subU64 h blockRevertLimit ∧
      (refusesHighBit D →
        (StoreBlock L D packedBlock g).2.db =
          (DigestForBlock L D h (GetBlockHeight L D g).2).2.db)) := by
  have hsub : subU64 header.Number 1 = h := by rw [hnum, subU64_succ_one]
  obtain ⟨h1, h2, h3⟩ := StoreBlock_mismatch L D packedBlock g h header digest data
    previousBlock hi hH hE (by rw [hsub]; exact hD) hne
  refine ⟨h1, ?_, ?_, ?_, ?_⟩
  · rw [h3]
    split <;> simp [Call.isDelete]
  · rw [h3]
    intro c hc
    simp only [List.mem_append, List.mem_singleton] at hc
    rcases hc with (rfl | hc) | rfl
    · rfl
    · split at hc
      · cases hc
      · simp only [List.mem_singleton] at hc
        subst hc
        rfl
    · rfl
  · intro h5
    simp [subU64, blockRevertLimit, h5]
  · intro h5
    have hval : subU64 h blockRevertLimit = u64 + h - 5 := by
      unfold subU64 blockRevertLimit
      rw [if_neg (by omega)]
      omega
    have hbig : 2 ^ 63 ≤ subU64 h blockRevertLimit := by
      rw [hval]
      unfold u64
      omega
    refine ⟨hval, ?_, hbig, ?_⟩
    · have : (2 : Int) ^ 63 ≤ ((subU64 h blockRevertLimit : Nat) : Int) := by
        exact_mod_cast hbig
      omega
    · intro hr
      rw [h2, hsub]
      obtain ⟨e, he⟩ := hr (DigestForBlock L D h (GetBlockHeight L D g).2).2.db _ hbig
      simp only [DeleteDownToBlock, execCall, he]

/-! ### The server model keeps its block rows unless a commit or a delete succeeds -/

theorem execCall_db (D : Database σ) (c : Call) (g : GlobalData σ) :
    (execCall D c g).2.db = (D.exec g.db c).2 := rfl

theorem execCall_report (D : Database σ) (c : Call) (g : GlobalData σ) :
    (execCall D c g).1 = (D.exec g.db c).1 := rfl

theorem specDatabase_exec_blocks (faults : Nat → Option Error) (s : Server) (c : Call)
    (hc : c ≠ Call.commit) (hd : c.isDelete = false) :
    ((specDatabase faults).exec s c).2.blocks = s.blocks := by
  cases hf : faults s.clock <;> cases c <;>
    simp_all [specDatabase, Server.apply, Call.isDelete]

theorem specDatabase_commit_failed (faults : Nat → Option Error) (s : Server) (e : Error)
    (h : ((specDatabase faults).exec s Call.commit).1 = some e) :
    ((specDatabase faults).exec s Call.commit).2.blocks = s.blocks := by
  simp only [specDatabase] at h ⊢
  split
  · rfl
  · rfl
  · rename_i hf
    simp [hf] at h

theorem specDatabase_runCalls_blocks (faults : Nat → Option Error) (cs : List Call)
    (g : GlobalData Server) (hcs : ∀ c ∈ cs, c ≠ Call.commit ∧ c.isDelete = false) :
    (runCalls (specDatabase faults) cs g).db.blocks = g.db.blocks := by
  induction cs generalizing g with
  | nil => rfl
  | cons c cs ih =>
    simp only [runCalls]
    rw [ih _ (fun x hx => hcs x (List.mem_cons_of_mem _ hx)), execCall_db]
    exact specDatabase_exec_blocks faults g.db c (hcs c (List.mem_cons_self _ _)).1
      (hcs c (List.mem_cons_self _ _)).2

theorem inTransaction_not_commit {c : Call} (h : c.inTransaction = true) :
    c ≠ Call.commit ∧ c.isDelete = false := by
  cases c <;> simp_all [Call.inTransaction, Call.isInsert, Call.isDelete]

theorem specDatabase_GetBlockHeight_blocks (L : Lib) (faults : Nat → Option Error)
    (g : GlobalData Server) :
    (GetBlockHeight L (specDatabase faults) g).2.db.blocks = g.db.blocks := by
  unfold GetBlockHeight
  have : ((specDatabase faults).queryHeight g.db).2.blocks = g.db.blocks := by
    simp only [specDatabase]
    split <;> rfl
  repeat' split
  all_goals exact this

theorem specDatabase_DigestForBlock_blocks (L : Lib) (faults : Nat → Option Error) (n : Nat)
    (g : GlobalData Server) :
    (DigestForBlock L (specDatabase faults) n g).2.db.blocks = g.db.blocks := by
  unfold DigestForBlock
  have : ((specDatabase faults).queryDigest g.db n).2.blocks = g.db.blocks := by
    simp only [specDatabase]
    split
    · rfl
    · split <;> rfl
  repeat' split
  all_goals first | rfl | exact this

theorem specDatabase_storeBlockWrite_blocks (L : Lib) (faults : Nat → Option Error)
    (header : Header) (digest : Digest) (txs : List (Transaction × Digest))
    (g : GlobalData Server) (e : Error)
    (herr : (storeBlockWrite L (specDatabase faults) header digest txs g).1 = .err e) :
    (storeBlockWrite L (specDatabase faults) header digest txs g).2.db.blocks = g.db.blocks := by
  rcases storeBlockWrite_err L (specDatabase faults) header digest txs g e herr with
    ⟨_, h2⟩ | ⟨pre, hpre, h2⟩ | ⟨pre, hpre, hcm, h2⟩
  · rw [h2, execCall_db]
    exact specDatabase_exec_blocks faults g.db Call.begin (by intro h; cases h) rfl
  · rw [h2]
    apply specDatabase_runCalls_blocks
    intro c hc
    rcases List.mem_append.mp hc with hc | hc
    · exact inTransaction_not_commit (hpre c hc)
    · simp only [List.mem_singleton] at hc
      subst hc
      exact ⟨(by intro h; cases h), rfl⟩
  · rw [h2, runCalls_append]
    simp only [runCalls, execCall_db]
    rw [specDatabase_exec_blocks faults _ Call.rollback (by intro h; cases h) rfl]
    have hpre' := specDatabase_runCalls_blocks faults pre g
      (fun c hc => inTransaction_not_commit (hpre c hc))
    rw [← hpre']
    exact specDatabase_commit_failed faults _ e hcm

/-- C5, as amended (atomicity): on the server model, when `StoreBlock` returns
an error other than `ErrPreviousBlockDigestDoesNotMatch`, the stored block
rows, and with them the height `get_block_height()` reports, are the same
after the call as before, whichever statements fail. -/
theorem C5_atomicity_amended (L : Lib) (faults : Nat → Option Error) (packedBlock : Bytes)
    (g : GlobalData Server) (e : Error)
    (herr : (StoreBlock L (specDatabase faults) packedBlock g).1 = .err e)
    (hne : e ≠ .ErrPreviousBlockDigestDoesNotMatch) :
    (StoreBlock L (specDatabase faults) packedBlock g).2.db.blocks = g.db.blocks ∧
    heightOf L (StoreBlock L (specDatabase faults) packedBlock g).2.db = heightOf L g.db := by
  have hblocks : (StoreBlock L (specDatabase faults) packedBlock g).2.db.blocks
      = g.db.blocks := by
    have hq1 := specDatabase_GetBlockHeight_blocks L faults g
    rcases StoreBlock_cases L (specDatabase faults) packedBlock g with
      ⟨_, hS⟩ | ⟨_, e1, _, hS⟩ | ⟨_, h, hH, hrest⟩
    · rw [hS]
    · rw [hS] at herr; cases herr
    · rcases hrest with ⟨e1, _, hS⟩ | ⟨header, digest, data, hE, hrest⟩
      · rw [hS]; exact hq1
      · have hq2 := specDatabase_DigestForBlock_blocks L faults (subU64 header.Number 1)
          (GetBlockHeight L (specDatabase faults) g).2
        rcases hrest with ⟨e1, _, hS⟩ | ⟨previousBlock, hD, hrest⟩
        · rw [hS]
          exact hq2.trans hq1
        · rcases hrest with ⟨_, hS⟩ | ⟨_, hS⟩
          · rw [hS] at herr
            simp only [Outcome.err.injEq] at herr
            exact absurd herr.symm hne
          · rw [hS] at herr ⊢
            rcases storeBlockVerify_cases L (specDatabase faults) header digest data
                (DigestForBlock L (specDatabase faults) (subU64 header.Number 1)
                  (GetBlockHeight L (specDatabase faults) g).2).2 with
              ⟨e1, _, hV⟩ | ⟨msg, _, hV⟩ | ⟨txs, hU, ⟨_, hV⟩ | ⟨root, hR, ⟨_, hV⟩ | ⟨_, hV⟩⟩⟩
            · rw [hV]; exact hq2.trans hq1
            · rw [hV]; exact hq2.trans hq1
            · rw [hV]; exact hq2.trans hq1
            · rw [hV]; exact hq2.trans hq1
            · rw [hV] at herr ⊢
              exact (specDatabase_storeBlockWrite_blocks L faults _ digest txs _ e herr).trans
                (hq2.trans hq1)
  refine ⟨hblocks, ?_⟩
  simp only [heightOf, Server.height, hblocks]

/-- C4 (fork window), evaluated at a failing input: with blocks 2 to 8 stored
above genesis 1 the local tip is 8; a block 9 whose previous digest does not
match makes `StoreBlock` call `delete_down_to_block(3)`, which removes the six
blocks 3 to 8, and the height afterwards is 2, below `8 - 5`. -/
theorem C4_fork_window_at_tip_8 :
    (GetBlockHeight demoLib (specDatabase noFaults) demoStore).1 = .ok 8 ∧
    (StoreBlock demoLib (specDatabase noFaults) [0, 9, 99, 0, 5] demoStore).1
      = .err .ErrPreviousBlockDigestDoesNotMatch ∧
    callsSince demoStore (StoreBlock demoLib (specDatabase noFaults) [0, 9, 99, 0, 5] demoStore).2
      = [Call.getBlockHeight, Call.getBlockDigest 8, Call.deleteDownToBlock 3] ∧
    (GetBlockHeight demoLib (specDatabase noFaults)
      (StoreBlock demoLib (specDatabase noFaults) [0, 9, 99, 0, 5] demoStore).2).1 = .ok 2 ∧
    2 < 8 - blockRevertLimit := by
  refine ⟨rfl, rfl, rfl, rfl, by decide⟩

/-- C5 fails as stated: a block whose previous digest does not match makes
`StoreBlock` return an error, and the height falls from 8 to 2. -/
theorem C5_atomicity_counterexample :
    (StoreBlock demoLib (specDatabase noFaults) [0, 9, 98, 0, 7] demoStore).1
      = .err .ErrPreviousBlockDigestDoesNotMatch ∧
    (GetBlockHeight demoLib (specDatabase noFaults) demoStore).1 = .ok 8 ∧
    (GetBlockHeight demoLib (specDatabase noFaults)
      (StoreBlock demoLib (specDatabase noFaults) [0, 9, 98, 0, 7] demoStore).2).1 = .ok 2 ∧
    heightOf demoLib (StoreBlock demoLib (specDatabase noFaults) [0, 9, 98, 0, 7] demoStore).2.db
      ≠ heightOf demoLib demoStore.db := by
  refine ⟨rfl, rfl, rfl, by decide⟩

/-- Witness for C5 as amended: `insert_block` fails inside the transaction, the
error comes back after the rollback and the block rows are as before. -/
theorem C5_atomicity_amended_witness :
    (StoreBlock demoLib (specDatabase (faultAt 3 (.pq "unique_violation"))) [2, 9, 72, 15, 5, 1, 1, 9, 4] demoStore).1
      = .err (.pq "unique_violation") ∧
    (StoreBlock demoLib (specDatabase (faultAt 3 (.pq "unique_violation"))) [2, 9, 72, 15, 5, 1, 1, 9, 4]
      demoStore).2.db.blocks = demoStore.db.blocks ∧
    heightOf demoLib (StoreBlock demoLib (specDatabase (faultAt 3 (.pq "unique_violation")))
      [2, 9, 72, 15, 5, 1, 1, 9, 4] demoStore).2.db = heightOf demoLib demoStore.db :=
  ⟨rfl, C5_atomicity_amended demoLib (faultAt 3 (.pq "unique_violation")) [2, 9, 72, 15, 5, 1, 1, 9, 4] demoStore
    (.pq "unique_violation") rfl (by decide)⟩

/-- C9, as amended: at or below the genesis number `DigestForBlock` returns
the genesis digest of the chain and leaves the store as it was (no query);
above it, an error of the row scan (as for a missing row) is returned as it
is, an error of scanning the digest text is returned as it is,
`ErrBlockNotFound` is returned when that scan reports no error but a count
other than one, and otherwise the digest scanned from the text is returned. -/
theorem C9_digest_for_block_amended (L : Lib) (D : Database σ) (n : Nat) (g : GlobalData σ) :
    (n ≤ L.genesisBlockNumber →
      DigestForBlock L D n g =
        (.ok (if L.testnet = true then L.TestGenesisDigest else L.LiveGenesisDigest), g)) ∧
    (L.genesisBlockNumber < n →
      (∀ e, (D.queryDigest g.db n).1 = .error e → (DigestForBlock L D n g).1 = .error e) ∧
      (∀ stringDigest, (D.queryDigest g.db n).1 = .ok stringDigest →
        (∀ e, (L.Sscan stringDigest).2.2 = some e → (DigestForBlock L D n g).1 = .error e) ∧
        ((L.Sscan stringDigest).2.2 = none → (L.Sscan stringDigest).1 ≠ 1 →
          (DigestForBlock L D n g).1 = .error .ErrBlockNotFound) ∧
        ((L.Sscan stringDigest).2.2 = none → (L.Sscan stringDigest).1 = 1 →
          (DigestForBlock L D n g).1 = .ok (L.Sscan stringDigest).2.1))) := by
  constructor
  · intro hn
    unfold DigestForBlock
    rw [if_pos hn]
    split <;> simp_all
  · intro hn
    have hn' : ¬ n ≤ L.genesisBlockNumber := Nat.not_le.mpr hn
    constructor
    · intro e he
      unfold DigestForBlock
      rw [if_neg hn']
      simp only [he]
    · intro stringDigest hs
      rcases hscan : L.Sscan stringDigest with ⟨k, d, r⟩
      refine ⟨?_, ?_, ?_⟩
      · intro e he
        simp only at he
        subst he
        unfold DigestForBlock
        rw [if_neg hn']
        simp only [hs, hscan]
      · intro he hk
        simp only at he hk
        subst he
        unfold DigestForBlock
        rw [if_neg hn']
        simp only [hs, hscan]
        rw [if_pos hk]
      · intro he hk
        simp only at he hk
        subst he
        unfold DigestForBlock
        rw [if_neg hn']
        simp only [hs, hscan]
        rw [if_neg (by simpa using hk)]

/-- C9 fails as stated: for a block number above genesis with no stored row the
scan reports `sql.ErrNoRows`, and that error is what `DigestForBlock` returns,
not `ErrBlockNotFound`. -/
theorem C9_missing_row_counterexample :
    demoLib.genesisBlockNumber < 42 ∧
    ((specDatabase noFaults).queryDigest demoStore.db 42).1 = .error .sqlErrNoRows ∧
    (DigestForBlock demoLib (specDatabase noFaults) 42 demoStore).1 = .error .sqlErrNoRows ∧
    (DigestForBlock demoLib (specDatabase noFaults) 42 demoStore).1
      ≠ .error .ErrBlockNotFound := by
  refine ⟨by decide, rfl, rfl, by decide⟩

/-- Witness for C9 as amended: the genesis case, and a stored block whose digest
text scans to a digest. -/
theorem C9_digest_for_block_amended_witness :
    DigestForBlock demoLib (specDatabase noFaults) 1 demoStore = (.ok [76], demoStore) ∧
    (DigestForBlock demoLib (specDatabase noFaults) 42 demoStore).1 = .error .sqlErrNoRows ∧
    (DigestForBlock demoLib (specDatabase noFaults) 8 demoStore).1 = .ok [72] :=
  ⟨(C9_digest_for_block_amended demoLib (specDatabase noFaults) 1 demoStore).1 (by decide),
   ((C9_digest_for_block_amended demoLib (specDatabase noFaults) 42 demoStore).2
      (by decide)).1 .sqlErrNoRows rfl,
   (((C9_digest_for_block_amended demoLib (specDatabase noFaults) 8 demoStore).2
      (by decide)).2 "H" rfl).2.2 rfl rfl⟩

/-- C6, as amended: for every block accepted by `StoreBlock` the calls are, in
order: queries only (no insert and no `Begin`), then `Begin`, `insert_block`,
one insert of the synthesised foundation record at block offset 0 when the
records start with an old base record, the inserts of the records in record
order (none for an old base record) where the call for the record at index `i`
carries block offset `i`, except that the call for a `BlockFoundation` record
carries block offset 0, then `update_editions(block_number)`, then `Commit`,
and after it notifications only. -/
theorem C6_call_sequence_amended (L : Lib) (D : Database σ) (packedBlock : Bytes)
    (g : GlobalData σ) (hok : (StoreBlock L D packedBlock g).1 = .ok ()) :
    ∃ h header digest data txs,
      (GetBlockHeight L D g).1 = .ok h ∧
      L.ExtractHeader packedBlock (addU64 h 1) = .ok (header, digest, data) ∧
      unpackTransactions L header.TransactionCount data = .ok txs ∧
      blockCallShape storedOffset L
        { header with Timestamp := clampTimestamp header.Timestamp } digest txs
        (callsSince g (StoreBlock L D packedBlock g).2) := by
  rcases StoreBlock_cases L D packedBlock g with ⟨_, hS⟩ | ⟨_, e, _, hS⟩ | ⟨_, h, hH, hrest⟩
  · rw [hS] at hok; cases hok
  · rw [hS] at hok; cases hok
  · rcases hrest with ⟨e, _, hS⟩ | ⟨header, digest, data, hE, hrest⟩
    · rw [hS] at hok; cases hok
    · rcases hrest with ⟨e, _, hS⟩ | ⟨previousBlock, hD, hrest⟩
      · rw [hS] at hok; cases hok
      · rcases hrest with ⟨_, hS⟩ | ⟨heq, hS⟩
        · rw [hS] at hok; cases hok
        · rw [hS] at hok
          rcases storeBlockVerify_cases L D header digest data
              (DigestForBlock L D (subU64 header.Number 1) (GetBlockHeight L D g).2).2 with
            ⟨e, _, hV⟩ | ⟨msg, _, hV⟩ | ⟨txs, hU, ⟨_, hV⟩ | ⟨root, hR, ⟨_, hV⟩ | ⟨hroot, hV⟩⟩⟩
          · rw [hV] at hok; cases hok
          · rw [hV] at hok; cases hok
          · rw [hV] at hok; cases hok
          · rw [hV] at hok; cases hok
          · rw [hV] at hok
            obtain ⟨synth, recs, notes, hW, hsy, hm, _, hn⟩ := storeBlockWrite_ok L D _ digest txs _ hok
            refine ⟨h, header, digest, data, txs, hH, hE, hU,
              [Call.getBlockHeight] ++
                (if subU64 header.Number 1 ≤ L.genesisBlockNumber then []
                  else [Call.getBlockDigest (subU64 header.Number 1)]),
              synth, recs, notes, ?_, ?_, hsy, hm, hn⟩
            · apply callsSince_of_trace
              rw [hS, hV, hW, runCalls_trace, DigestForBlock_trace, GetBlockHeight_trace]
              simp only [List.append_assoc]
            · intro c hc
              simp only [List.mem_append, List.mem_singleton] at hc
              rcases hc with rfl | hc
              · exact ⟨rfl, (by intro hx; cases hx)⟩
              · split at hc
                · cases hc
                · simp only [List.mem_singleton] at hc
                  subst hc
                  exact ⟨rfl, (by intro hx; cases hx)⟩

/-- Witness for C6 as amended: an accepted block with an asset record and a
foundation record. -/
theorem C6_call_sequence_amended_witness :
    ∃ h header digest data txs,
      (GetBlockHeight demoLib (specDatabase noFaults) demoStore).1 = .ok h ∧
      demoLib.ExtractHeader [2, 9, 72, 15, 5, 1, 1, 9, 4] (addU64 h 1)
        = .ok (header, digest, data) ∧
      unpackTransactions demoLib header.TransactionCount data = .ok txs ∧
      blockCallShape storedOffset demoLib
        { header with Timestamp := clampTimestamp header.Timestamp } digest txs
        (callsSince demoStore
          (StoreBlock demoLib (specDatabase noFaults) [2, 9, 72, 15, 5, 1, 1, 9, 4]
            demoStore).2) :=
  C6_call_sequence_amended demoLib (specDatabase noFaults) [2, 9, 72, 15, 5, 1, 1, 9, 4]
    demoStore rfl

/-- C6 fails as stated: the block with an asset record at index 0 and a
foundation record at index 1 is accepted, and the insert for the record at
index 1 carries block offset 0; the calls do not have the claimed shape, in
which the call for the record at index `i` carries block offset `i`. -/
theorem C6_block_offset_counterexample :
    (StoreBlock demoLib (specDatabase noFaults) [2, 9, 72, 15, 5, 1, 1, 9, 4] demoStore).1
      = .ok () ∧
    callsSince demoStore
      (StoreBlock demoLib (specDatabase noFaults) [2, 9, 72, 15, 5, 1, 1, 9, 4] demoStore).2 =
      [Call.getBlockHeight, Call.getBlockDigest 8, Call.begin, Call.insertBlock 9 "I" 5,
       Call.insertAsset "1" "name" "fp" "0" "1" "1" .statusConfirmed 9 0,
       Call.insertTransaction "9v" "4" "4" "" none none .statusConfirmed (some "1") "" 9 0,
       Call.updateEditions 9, Call.commit,
       Call.notifyAsset "1", Call.notifyIssue "9v", Call.notifyBlock "9"] ∧
    ¬ blockCallShape indexOffset demoLib ⟨1, 2, 9, [72], [15], 5, 0, 0⟩ [73]
      [(demoRecord 1 1, [1, 1]), (demoRecord 9 4, [9, 4])]
      (callsSince demoStore
        (StoreBlock demoLib (specDatabase noFaults) [2, 9, 72, 15, 5, 1, 1, 9, 4]
          demoStore).2) := by
  have hcalls : callsSince demoStore
      (StoreBlock demoLib (specDatabase noFaults) [2, 9, 72, 15, 5, 1, 1, 9, 4] demoStore).2 =
      [Call.getBlockHeight, Call.getBlockDigest 8, Call.begin, Call.insertBlock 9 "I" 5,
       Call.insertAsset "1" "name" "fp" "0" "1" "1" .statusConfirmed 9 0,
       Call.insertTransaction "9v" "4" "4" "" none none .statusConfirmed (some "1") "" 9 0,
       Call.updateEditions 9, Call.commit,
       Call.notifyAsset "1", Call.notifyIssue "9v", Call.notifyBlock "9"] := rfl
  refine ⟨rfl, hcalls, ?_⟩
  rw [hcalls]
  rintro ⟨pre, synth, recs, notes, heq, hpre, hsynth, hmatch, hnotes⟩
  have hs : synth = [] := by
    simpa [synthCalls, startsWithOldBase, demoRecord, Transaction.isOldBase] using hsynth
  subst hs
  rcases pre with _ | ⟨p0, _ | ⟨p1, _ | ⟨p2, pre⟩⟩⟩
  · simp at heq
  · simp at heq
  · simp only [List.cons_append, List.nil_append, List.append_nil, List.cons.injEq,
      true_and] at heq
    obtain ⟨-, -, -, heq⟩ := heq
    rcases recs with _ | ⟨r0, _ | ⟨r1, recs⟩⟩
    · simp [matchRecords, demoRecord, Transaction.insertKind?] at hmatch
    · simp [matchRecords, demoRecord, Transaction.insertKind?] at hmatch
    · simp only [List.cons_append, List.cons.injEq] at heq
      obtain ⟨h0, h1, -⟩ := heq
      subst h0 h1
      revert hmatch
      simp [matchRecords, demoRecord, Transaction.insertKind?, blockRecordCall, recordId,
        demoLib, isRecordInsert_iff, Call.insertKind?, Call.id?, Call.status?,
        Call.blockNumber?, Call.blockOffset?, Call.payId?, indexOffset, kindPayId,
        blockStatus, demoText]
  · have := (hpre p2 (by simp)).2
    simp only [List.cons_append, List.cons.injEq] at heq
    exact this heq.2.2.1.symm

theorem unitOutcome_insertResult (report : Option Error) (a b : String) :
    unitOutcome (insertResult report a) = unitOutcome (insertResult report b) := by
  cases report <;> rfl

theorem unitOutcome_ok_iff (r : Outcome String) :
    unitOutcome r = .ok () ↔ ∃ a, r = .ok a := by
  cases r <;> simp [unitOutcome]

/-- The shape shared by the cases of `storeTransactionsRecord_cases` for the
records stored with one insert and no notification. -/
theorem looseRecord_simple (D : Database σ) (g : GlobalData σ) (c : Call) (id a : String)
    (notifies : Bool) (hn : notifies = false)
    (r : Outcome Unit × GlobalData σ) (x : Outcome String × GlobalData σ)
    (hr : r = (unitOutcome x.1, x.2))
    (hx2 : x.2 = (execCall D c g).2) (hx1 : x.1 = insertResult (execCall D c g).1 a) :
    r.1 = unitOutcome (insertResult (execCall D c g).1 id) ∧
    r.2 = runCalls D (if r.1 = .ok () ∧ notifies = true then [c, Call.notifyPendingTx id]
      else [c]) g := by
  subst hr hn
  simp only [hx1, hx2, Bool.false_eq_true, and_false, if_false, runCalls_singleton, and_true]
  exact unitOutcome_insertResult _ _ _

/-- The shape shared by the cases of `storeTransactionsRecord_cases` for the
records stored with one insert followed by a notification. -/
theorem looseRecord_notify (L : Lib) (D : Database σ) (g : GlobalData σ) (c : Call)
    (id : String) (txId : Digest) (hid : L.digestMarshalText txId = .ok id)
    (r : Outcome Unit × GlobalData σ) (x : Outcome String × GlobalData σ)
    (hr : r = match x with
      | (.err e, g1) => (.err e, g1)
      | (.panic msg, g1) => (.panic msg, g1)
      | (.ok _, g1) =>
        match L.digestMarshalText txId with
        | .ok id => (.ok (), (notifyPendingTx D id g1).2)
        | .error _ => (.ok (), g1))
    (hx2 : x.2 = (execCall D c g).2) :
    r.1 = unitOutcome x.1 ∧
    r.2 = runCalls D (if r.1 = .ok () ∧ true = true then [c, Call.notifyPendingTx id]
      else [c]) g := by
  subst hr
  rcases x with ⟨_ | _ | _, g1⟩
  · simp only at hx2
    subst hx2
    simp only [hid]
    exact ⟨rfl, rfl⟩
  · simp only at hx2
    subst hx2
    exact ⟨rfl, rfl⟩
  · simp only at hx2
    subst hx2
    exact ⟨rfl, rfl⟩

/-- The early-failure case of a record stored with a notification. -/
theorem looseRecord_notify_early (L : Lib) (D : Database σ) (g : GlobalData σ)
    (txId : Digest) (r : Outcome Unit × GlobalData σ) (x : Outcome String × GlobalData σ)
    (hr : r = match x with
      | (.err e, g1) => (.err e, g1)
      | (.panic msg, g1) => (.panic msg, g1)
      | (.ok _, g1) =>
        match L.digestMarshalText txId with
        | .ok id => (.ok (), (notifyPendingTx D id g1).2)
        | .error _ => (.ok (), g1))
    (hx2 : x.2 = g) (hx1 : ∀ a, x.1 ≠ .ok a) :
    r.2 = g ∧ ∀ a, r.1 ≠ .ok a := by
  subst hr
  rcases x with ⟨a | e | msg, g1⟩
  · exact absurd rfl (hx1 a)
  · exact ⟨hx2, fun a h => (by cases h)⟩
  · exact ⟨hx2, fun a h => (by cases h)⟩

/-- What `StoreTransactions` does for one record: nothing for an old base or
foundation record; else either a failure before any call, or one insert with
status pending, block number 0 and block offset 0 whose report decides the
result, followed by the notification when an issue or transfer was stored. -/
theorem storeTransactionsRecord_cases (L : Lib) (D : Database σ) (payId : String)
    (tx : Transaction) (txId : Digest) (g : GlobalData σ) :
    (tx.looseKind? = none ∧ storeTransactionsRecord L D payId tx txId g = (.ok (), g)) ∨
    (tx.looseKind? ≠ none ∧ (storeTransactionsRecord L D payId tx txId g).2 = g ∧
      ∀ a, (storeTransactionsRecord L D payId tx txId g).1 ≠ .ok a) ∨
    (∃ kind c id, tx.looseKind? = some kind ∧ recordId L [] tx txId = .ok id ∧
      c.isRecordInsert kind id .statusPending 0 0 (loosePayId tx payId) ∧
      (storeTransactionsRecord L D payId tx txId g).1 =
        unitOutcome (if tx.isTransfer = true then transferResult (execCall D c g).1 id
          else insertResult (execCall D c g).1 id) ∧
      (storeTransactionsRecord L D payId tx txId g).2 =
        runCalls D
          (if (storeTransactionsRecord L D payId tx txId g).1 = .ok () ∧ tx.notifies = true
            then [c, Call.notifyPendingTx id] else [c]) g) := by
  cases tx with
  | OldBaseData tx => exact Or.inl ⟨rfl, rfl⟩
  | BlockFoundation tx => exact Or.inl ⟨rfl, rfl⟩
  | AssetData tx =>
    have key : storeTransactionsRecord L D payId (.AssetData tx) txId g =
        (unitOutcome (insertAsset L D tx .statusPending 0 0 g).1,
          (insertAsset L D tx .statusPending 0 0 g).2) := by
      simp only [storeTransactionsRecord]
      generalize insertAsset L D tx .statusPending 0 0 g = x
      rcases x with ⟨_ | _ | _, _⟩ <;> rfl
    rcases insertAsset_cases L D tx .statusPending 0 0 g with
      ⟨⟨e, he⟩, hg⟩ | ⟨c, id, hid, hc, hg, hr⟩
    · refine Or.inr (Or.inl ⟨by simp [Transaction.looseKind?, Transaction.isFoundation,
        Transaction.insertKind?], ?_, ?_⟩)
      · rw [key]; exact hg
      · intro a; rw [key, he]; simp [unitOutcome]
    · obtain ⟨h1, h2⟩ := looseRecord_simple D g c id _ false rfl _ _ key hg hr
      exact Or.inr (Or.inr ⟨.asset, c, id, rfl, hid, hc, h1, h2⟩)
  | BitmarkShare tx =>
    have key : storeTransactionsRecord L D payId (.BitmarkShare tx) txId g =
        (unitOutcome (insertShare L D txId tx .statusPending 0 0 payId g).1,
          (insertShare L D txId tx .statusPending 0 0 payId g).2) := by
      simp only [storeTransactionsRecord]
      generalize insertShare L D txId tx .statusPending 0 0 payId g = x
      rcases x with ⟨_ | _ | _, _⟩ <;> rfl
    rcases insertShare_cases L D txId tx .statusPending 0 0 payId g with
      ⟨⟨e, he⟩, hg⟩ | ⟨c, id, hid, hc, hg, hr⟩
    · refine Or.inr (Or.inl ⟨by simp [Transaction.looseKind?, Transaction.isFoundation,
        Transaction.insertKind?], ?_, ?_⟩)
      · rw [key]; exact hg
      · intro a; rw [key, he]; simp [unitOutcome]
    · obtain ⟨h1, h2⟩ := looseRecord_simple D g c id _ false rfl _ _ key hg hr
      exact Or.inr (Or.inr ⟨.share, c, id, rfl, hid, hc, h1, h2⟩)
  | ShareGrant tx =>
    have key : storeTransactionsRecord L D payId (.ShareGrant tx) txId g =
        (unitOutcome (insertShareGrant L D txId tx .statusPending 0 0 payId g).1,
          (insertShareGrant L D txId tx .statusPending 0 0 payId g).2) := by
      simp only [storeTransactionsRecord]
      generalize insertShareGrant L D txId tx .statusPending 0 0 payId g = x
      rcases x with ⟨_ | _ | _, _⟩ <;> rfl
    rcases insertShareGrant_cases L D txId tx .statusPending 0 0 payId g with
      ⟨⟨e, he⟩, hg⟩ | ⟨c, id, hid, hc, hg, hr⟩
    · refine Or.inr (Or.inl ⟨by simp [Transaction.looseKind?, Transaction.isFoundation,
        Transaction.insertKind?], ?_, ?_⟩)
      · rw [key]; exact hg
      · intro a; rw [key, he]; simp [unitOutcome]
    · obtain ⟨h1, h2⟩ := looseRecord_simple D g c id _ false rfl _ _ key hg hr
      exact Or.inr (Or.inr ⟨.grant, c, id, rfl, hid, hc, h1, h2⟩)
  | ShareSwap tx =>
    have key : storeTransactionsRecord L D payId (.ShareSwap tx) txId g =
        (unitOutcome (insertSwapTransaction L D txId tx .statusPending 0 0 payId g).1,
          (insertSwapTransaction L D txId tx .statusPending 0 0 payId g).2) := by
      simp only [storeTransactionsRecord]
      generalize insertSwapTransaction L D txId tx .statusPending 0 0 payId g = x
      rcases x with ⟨_ | _ | _, _⟩ <;> rfl
    rcases insertSwapTransaction_cases L D txId tx .statusPending 0 0 payId g with
      ⟨⟨e, he⟩, hg⟩ | ⟨c, id, hid, hc, hg, hr⟩
    · refine Or.inr (Or.inl ⟨by simp [Transaction.looseKind?, Transaction.isFoundation,
        Transaction.insertKind?], ?_, ?_⟩)
      · rw [key]; exact hg
      · intro a; rw [key, he]; simp [unitOutcome]
    · obtain ⟨h1, h2⟩ := looseRecord_simple D g c id _ false rfl _ _ key hg hr
      exact Or.inr (Or.inr ⟨.swap, c, id, rfl, hid, hc, h1, h2⟩)
  | BitmarkIssue tx =>
    have key : storeTransactionsRecord L D payId (.BitmarkIssue tx) txId g =
        match insertIssue L D txId tx .statusPending 0 0 "" g with
        | (.err e, g1) => (.err e, g1)
        | (.panic msg, g1) => (.panic msg, g1)
        | (.ok _, g1) =>
          match L.digestMarshalText txId with
          | .ok id => (.ok (), (notifyPendingTx D id g1).2)
          | .error _ => (.ok (), g1) := by
      simp only [storeTransactionsRecord]
    rcases insertIssue_cases L D txId tx .statusPending 0 0 "" g with
      ⟨⟨e, he⟩, hg⟩ | ⟨c, id, hid, hc, hg, hr⟩
    · obtain ⟨h1, h2⟩ := looseRecord_notify_early L D g txId _ _ key hg
        (fun a h => (by rw [he] at h; cases h))
      exact Or.inr (Or.inl ⟨by simp [Transaction.looseKind?, Transaction.isFoundation,
        Transaction.insertKind?], h1, h2⟩)
    · obtain ⟨h1, h2⟩ := looseRecord_notify L D g c id txId hid _ _ key hg
      refine Or.inr (Or.inr ⟨.transaction, c, id, rfl, hid, hc, ?_, ?_⟩)
      · rw [h1, hr]
        all_goals rfl
      · exact h2
  | BitmarkTransferUnratified tx =>
    have key : storeTransactionsRecord L D payId (.BitmarkTransferUnratified tx) txId g =
        match insertTransfer L D txId tx .statusPending 0 0 payId g with
        | (.err e, g1) => (.err e, g1)
        | (.panic msg, g1) => (.panic msg, g1)
        | (.ok _, g1) =>
          match L.digestMarshalText txId with
          | .ok id => (.ok (), (notifyPendingTx D id g1).2)
          | .error _ => (.ok (), g1) := by
      simp only [storeTransactionsRecord]
    rcases insertTransfer_cases L D txId tx .statusPending 0 0 payId g with
      ⟨he, hg⟩ | ⟨c, id, hid, hc, hg, hr⟩
    · obtain ⟨h1, h2⟩ := looseRecord_notify_early L D g txId _ _ key hg he
      exact Or.inr (Or.inl ⟨by simp [Transaction.looseKind?, Transaction.isFoundation,
        Transaction.insertKind?], h1, h2⟩)
    · obtain ⟨h1, h2⟩ := looseRecord_notify L D g c id txId hid _ _ key hg
      refine Or.inr (Or.inr ⟨.transaction, c, id, rfl, hid, hc, ?_, ?_⟩)
      · rw [h1, hr]
        all_goals rfl
      · exact h2
  | BitmarkTransferCountersigned tx =>
    have key : storeTransactionsRecord L D payId (.BitmarkTransferCountersigned tx) txId g =
        match insertTransfer L D txId tx .statusPending 0 0 payId g with
        | (.err e, g1) => (.err e, g1)
        | (.panic msg, g1) => (.panic msg, g1)
        | (.ok _, g1) =>
          match L.digestMarshalText txId with
          | .ok id => (.ok (), (notifyPendingTx D id g1).2)
          | .error _ => (.ok (), g1) := by
      simp only [storeTransactionsRecord]
    rcases insertTransfer_cases L D txId tx .statusPending 0 0 payId g with
      ⟨he, hg⟩ | ⟨c, id, hid, hc, hg, hr⟩
    · obtain ⟨h1, h2⟩ := looseRecord_notify_early L D g txId _ _ key hg he
      exact Or.inr (Or.inl ⟨by simp [Transaction.looseKind?, Transaction.isFoundation,
        Transaction.insertKind?], h1, h2⟩)
    · obtain ⟨h1, h2⟩ := looseRecord_notify L D g c id txId hid _ _ key hg
      refine Or.inr (Or.inr ⟨.transaction, c, id, rfl, hid, hc, ?_, ?_⟩)
      · rw [h1, hr]
        all_goals rfl
      · exact h2
  | BlockOwnerTransfer tx =>
    have key : storeTransactionsRecord L D payId (.BlockOwnerTransfer tx) txId g =
        match insertTransfer L D txId tx .statusPending 0 0 payId g with
        | (.err e, g1) => (.err e, g1)
        | (.panic msg, g1) => (.panic msg, g1)
        | (.ok _, g1) =>
          match L.digestMarshalText txId with
          | .ok id => (.ok (), (notifyPendingTx D id g1).2)
          | .error _ => (.ok (), g1) := by
      simp only [storeTransactionsRecord]
    rcases insertTransfer_cases L D txId tx .statusPending 0 0 payId g with
      ⟨he, hg⟩ | ⟨c, id, hid, hc, hg, hr⟩
    · obtain ⟨h1, h2⟩ := looseRecord_notify_early L D g txId _ _ key hg he
      exact Or.inr (Or.inl ⟨by simp [Transaction.looseKind?, Transaction.isFoundation,
        Transaction.insertKind?], h1, h2⟩)
    · obtain ⟨h1, h2⟩ := looseRecord_notify L D g c id txId hid _ _ key hg
      refine Or.inr (Or.inr ⟨.transaction, c, id, rfl, hid, hc, ?_, ?_⟩)
      · rw [h1, hr]
        all_goals rfl
      · exact h2

theorem isRecordKind_of_isRecordInsert {c : Call} {kind : InsertKind} {id : String}
    {status : statusType} {bn bo : Nat} {payId : Option String}
    (h : c.isRecordInsert kind id status bn bo payId) : c.isRecordKind = true := by
  have hid := h.2.1
  cases c <;> simp_all [Call.isRecordKind, Call.insertKind?, Call.id?]

/-- A record stored without error makes exactly the calls the specification
names for its variant. -/
theorem storeTransactionsRecord_ok (L : Lib) (D : Database σ) (payId : String)
    (tx : Transaction) (txId : Digest) (g : GlobalData σ)
    (hok : (storeTransactionsRecord L D payId tx txId g).1 = .ok ()) :
    ∃ cs, looseCalls L (tx, txId) cs ∧
      (storeTransactionsRecord L D payId tx txId g).2 = runCalls D cs g := by
  rcases storeTransactionsRecord_cases L D payId tx txId g with
    ⟨hk, hr⟩ | ⟨_, _, hno⟩ | ⟨kind, c, id, hk, hid, hc, h1, h2⟩
  · exact ⟨[], by simp [looseCalls, hk], by rw [hr]; rfl⟩
  · exact absurd hok (hno ())
  · refine ⟨if tx.notifies = true then [c, Call.notifyPendingTx id] else [c], ?_, ?_⟩
    · simp only [looseCalls, hk]
      exact ⟨c, id, hid, ⟨hc.1, hc.2.1, hc.2.2.1, hc.2.2.2.1, hc.2.2.2.2.1, rfl⟩, rfl⟩
    · rw [h2]
      simp only [hok, true_and]

/-- A record that is not stored makes at most one call, an insert, and none
after it. -/
theorem storeTransactionsRecord_err (L : Lib) (D : Database σ) (payId : String)
    (tx : Transaction) (txId : Digest) (g : GlobalData σ)
    (hno : (storeTransactionsRecord L D payId tx txId g).1 ≠ .ok ()) :
    ∃ extra, (extra = [] ∨ ∃ c, extra = [c] ∧ c.isRecordKind = true) ∧
      (storeTransactionsRecord L D payId tx txId g).2 = runCalls D extra g := by
  rcases storeTransactionsRecord_cases L D payId tx txId g with
    ⟨hk, hr⟩ | ⟨_, hg, _⟩ | ⟨kind, c, id, hk, hid, hc, h1, h2⟩
  · rw [hr] at hno
    exact absurd rfl hno
  · exact ⟨[], Or.inl rfl, hg⟩
  · refine ⟨[c], Or.inr ⟨c, rfl, isRecordKind_of_isRecordInsert hc⟩, ?_⟩
    rw [h2]
    simp only [hno, false_and, if_false]

/-- The walk over records that are all stored makes, record by record, the
calls the specification names. -/
theorem walkRecords_ok (L : Lib) (D : Database σ) (payId : String)
    (recs : List (Transaction × Digest)) (g : GlobalData σ)
    (hok : (walkRecords L D payId recs g).1 = .ok ()) :
    ∃ css, List.Forall₂ (looseCalls L) recs css ∧
      (walkRecords L D payId recs g).2 = runCalls D css.flatten g := by
  induction recs generalizing g with
  | nil => exact ⟨[], List.Forall₂.nil, rfl⟩
  | cons r rest ih =>
    obtain ⟨tx, txId⟩ := r
    simp only [walkRecords] at hok ⊢
    rcases hrec : storeTransactionsRecord L D payId tx txId g with ⟨_ | e | msg, g1⟩
    · simp only [hrec] at hok ⊢
      obtain ⟨cs, hcs, hg1⟩ := storeTransactionsRecord_ok L D payId tx txId g (by rw [hrec])
      obtain ⟨css, hcss, hg2⟩ := ih g1 hok
      refine ⟨cs :: css, List.Forall₂.cons hcs hcss, ?_⟩
      rw [hg2, List.flatten_cons, runCalls_append, ← hg1, hrec]
    · simp [hrec] at hok
    · simp [hrec] at hok

/-- The walk stops at the first record that is not stored: the records before
it make their calls, the failing record makes at most one call, and nothing
follows. -/
theorem walkRecords_stop (L : Lib) (D : Database σ) (payId : String)
    (recs : List (Transaction × Digest)) (g : GlobalData σ)
    (hno : (walkRecords L D payId recs g).1 ≠ .ok ()) :
    ∃ done tx txId rest css extra,
      recs = done ++ (tx, txId) :: rest ∧
      List.Forall₂ (looseCalls L) done css ∧
      (storeTransactionsRecord L D payId tx txId (runCalls D css.flatten g)).1 =
        (walkRecords L D payId recs g).1 ∧
      (extra = [] ∨ ∃ c, extra = [c] ∧ c.isRecordKind = true) ∧
      (walkRecords L D payId recs g).2 = runCalls D (css.flatten ++ extra) g := by
  induction recs generalizing g with
  | nil => exact absurd rfl hno
  | cons r rest ih =>
    obtain ⟨tx, txId⟩ := r
    simp only [walkRecords] at hno ⊢
    rcases hrec : storeTransactionsRecord L D payId tx txId g with ⟨_ | e | msg, g1⟩
    · simp only [hrec] at hno ⊢
      obtain ⟨cs, hcs, hg1⟩ := storeTransactionsRecord_ok L D payId tx txId g (by rw [hrec])
      rw [hrec] at hg1
      simp only at hg1
      obtain ⟨done, tx1, txId1, rest1, css, extra, h1, h2, h3, h4, h5⟩ := ih g1 hno
      refine ⟨(tx, txId) :: done, tx1, txId1, rest1, cs :: css, extra, ?_,
        List.Forall₂.cons hcs h2, ?_, h4, ?_⟩
      · rw [h1]; rfl
      · rw [List.flatten_cons, runCalls_append, ← hg1]; exact h3
      · rw [h5, List.flatten_cons, List.append_assoc, runCalls_append D cs, ← hg1]
    · obtain ⟨extra, hex, hg1⟩ := storeTransactionsRecord_err L D payId tx txId g
        (by rw [hrec]; intro h; cases h)
      refine ⟨[], tx, txId, rest, [], extra, rfl, List.Forall₂.nil, ?_, hex, ?_⟩
      · simp only [List.flatten_nil, runCalls, hrec]
      · simp only [hrec, List.flatten_nil, List.nil_append] at hg1 ⊢
        exact hg1
    · obtain ⟨extra, hex, hg1⟩ := storeTransactionsRecord_err L D payId tx txId g
        (by rw [hrec]; intro h; cases h)
      refine ⟨[], tx, txId, rest, [], extra, rfl, List.Forall₂.nil, ?_, hex, ?_⟩
      · simp only [List.flatten_nil, runCalls, hrec]
      · simp only [hrec, List.flatten_nil, List.nil_append] at hg1 ⊢
        exact hg1

/-- The loop of `StoreTransactions` is the walk over the records it unpacks:
an error or panic of the walk ends the loop, and otherwise the loop ends as
the unpacking does. -/
theorem storeTransactionsLoop_eq (L : Lib) (D : Database σ) (payId : String) (fuel : Nat)
    (data : Bytes) (g : GlobalData σ) :
    storeTransactionsLoop L D payId fuel data g =
      match walkRecords L D payId (unpackRecords L fuel data).1 g with
      | (.ok _, gk) => (unpackRecords L fuel data).2.map fun r => (r, gk)
      | (.err e, gk) => some (.err e, gk)
      | (.panic msg, gk) => some (.panic msg, gk) := by
  induction fuel generalizing data g with
  | zero =>
    cases data with
    | nil => rfl
    | cons b bs => rfl
  | succ fuel ih =>
    cases data with
    | nil => rfl
    | cons b bs =>
      simp only [storeTransactionsLoop, unpackRecords]
      cases hU : L.Unpack (b :: bs) L.testnet with
      | error e => rfl
      | ok v =>
        obtain ⟨tx, n⟩ := v
        simp only
        by_cases hn : n > (b :: bs).length
        · simp only [hn, if_true]
          rfl
        · simp only [hn, if_false, walkRecords]
          rcases hrec : storeTransactionsRecord L D payId tx
              (L.MakeLink (List.take n (b :: bs))) g with ⟨_ | e | msg, g1⟩
          · simp only
            exact ih _ g1
          · rfl
          · rfl

/-- C7, evaluated at a failing input: for a payload holding one issue record
the payment identifier is the hex text `09` of the hash of the payload, and the
insert made for the issue carries the empty string as its pay id. -/
theorem C7_issue_pay_id_at_one_issue :
    hexEncode (demoLib.Sum384 [2, 7]) = "09" ∧
    (StoreTransactions demoLib (specDatabase noFaults) 1 [2, 7] demoStore).map
        (fun r => (r.1, callsSince demoStore r.2)) =
      some (.ok (),
        [Call.begin,
         Call.insertTransaction "27" "7" "7" "" (some "7") none .statusPending none "" 0 0,
         Call.notifyPendingTx "27", Call.commit]) ∧
    (Call.insertTransaction "27" "7" "7" "" (some "7") none .statusPending none "" 0 0).payId?
      ≠ some (hexEncode (demoLib.Sum384 [2, 7])) := by
  refine ⟨rfl, rfl, by decide⟩

/-- Witness for C1: an accepted block, whose previous digest is the local
digest of block 8, and a block whose previous digest differs. -/
theorem C1_prefix_consistency_witness :
    (∃ h header digest data,
      (GetBlockHeight demoLib (specDatabase noFaults) demoStore).1 = .ok h ∧
      demoLib.ExtractHeader [2, 9, 72, 15, 5, 1, 1, 9, 4] (addU64 h 1)
        = .ok (header, digest, data) ∧
      (DigestForBlock demoLib (specDatabase noFaults) (subU64 header.Number 1)
        (GetBlockHeight demoLib (specDatabase noFaults) demoStore).2).1
        = .ok header.PreviousBlock) ∧
    ((StoreBlock demoLib (specDatabase noFaults) [0, 9, 99, 0, 5] demoStore).1 ≠ .ok () ∧
      ∀ c ∈ callsSince demoStore
          (StoreBlock demoLib (specDatabase noFaults) [0, 9, 99, 0, 5] demoStore).2,
        c ≠ Call.begin ∧ c.insertKind? ≠ some .block) :=
  ⟨(C1_prefix_consistency demoLib (specDatabase noFaults) [2, 9, 72, 15, 5, 1, 1, 9, 4]
      demoStore).1 rfl,
   (C1_prefix_consistency demoLib (specDatabase noFaults) [0, 9, 99, 0, 5] demoStore).2
      8 ⟨1, 0, 9, [99], [0], 5, 0, 0⟩ [73] [] [72] rfl rfl rfl (by decide)⟩

/-- Witness for C2: an accepted block with the right Merkle root, and the same
block with another root in its header. -/
theorem C2_merkle_soundness_witness :
    (∃ h header digest data txs,
      (GetBlockHeight demoLib (specDatabase noFaults) demoStore).1 = .ok h ∧
      demoLib.ExtractHeader [2, 9, 72, 15, 5, 1, 1, 9, 4] (addU64 h 1)
        = .ok (header, digest, data) ∧
      unpackTransactions demoLib header.TransactionCount data = .ok txs ∧
      txs.length = header.TransactionCount ∧
      (demoLib.FullMerkleTree (txs.map Prod.snd)).getLast? = some header.MerkleRoot) ∧
    (StoreBlock demoLib (specDatabase noFaults) [2, 9, 72, 6, 5, 1, 1, 9, 4] demoStore).1
      = .err .ErrMerkleRootDoesNotMatch :=
  ⟨(C2_merkle_soundness demoLib (specDatabase noFaults) [2, 9, 72, 15, 5, 1, 1, 9, 4]
      demoStore).1 rfl,
   ((C2_merkle_soundness demoLib (specDatabase noFaults) [2, 9, 72, 6, 5, 1, 1, 9, 4]
      demoStore).2 8 ⟨1, 2, 9, [72], [6], 5, 0, 0⟩ [73] [1, 1, 9, 4]
      [(demoRecord 1 1, [1, 1]), (demoRecord 9 4, [9, 4])] [15] rfl rfl rfl rfl
      (by decide)).2.2 rfl rfl⟩

/-- Witness for C3, at a local tip below 5: the blocks 2 and 3 are stored
above the genesis block 1 and block 4 names another previous digest.  The one
delete call carries 18446744073709551614 instead of a revert point, and the
blocks 2 and 3 stay stored, on the model of the server as on a handle that
refuses the argument. -/
theorem C3_revert_on_mismatch_witness :
    ((StoreBlock demoLib (specDatabase noFaults) [0, 4, 99, 0, 5] demoStoreTwo).1
        = .err .ErrPreviousBlockDigestDoesNotMatch ∧
      (callsSince demoStoreTwo
        (StoreBlock demoLib (specDatabase noFaults) [0, 4, 99, 0, 5] demoStoreTwo).2).filter
          Call.isDelete = [Call.deleteDownToBlock (subU64 3 blockRevertLimit)] ∧
      (∀ c ∈ callsSince demoStoreTwo
        (StoreBlock demoLib (specDatabase noFaults) [0, 4, 99, 0, 5] demoStoreTwo).2,
          c.isInsert = false) ∧
      (5 ≤ 3 → subU64 3 blockRevertLimit = 3 - 5) ∧
      (3 < 5 →
        subU64 3 blockRevertLimit = u64 + 3 - 5 ∧
        ((subU64 3 blockRevertLimit : Nat) : Int) ≠ (3 : Int) - 5 ∧
        2 ^ 63 ≤ subU64 3 blockRevertLimit ∧
        (refusesHighBit (specDatabase noFaults) →
          (StoreBlock demoLib (specDatabase noFaults) [0, 4, 99, 0, 5] demoStoreTwo).2.db =
            (DigestForBlock demoLib (specDatabase noFaults) 3
              (GetBlockHeight demoLib (specDatabase noFaults) demoStoreTwo).2).2.db))) ∧
    callsSince demoStoreTwo
      (StoreBlock demoLib (specDatabase noFaults) [0, 4, 99, 0, 5] demoStoreTwo).2 =
      [Call.getBlockHeight, Call.getBlockDigest 3,
       Call.deleteDownToBlock 18446744073709551614] ∧
    (StoreBlock demoLib (specDatabase noFaults) [0, 4, 99, 0, 5] demoStoreTwo).2.db.blocks =
      [(2, "B"), (3, "C")] ∧
    refusesHighBit (checkedArguments (specDatabase noFaults)) ∧
    (StoreBlock demoLib (checkedArguments (specDatabase noFaults)) [0, 4, 99, 0, 5]
      demoStoreTwo).1 = .err .ErrPreviousBlockDigestDoesNotMatch ∧
    (StoreBlock demoLib (checkedArguments (specDatabase noFaults)) [0, 4, 99, 0, 5]
      demoStoreTwo).2.db.blocks = [(2, "B"), (3, "C")] ∧
    (GetBlockHeight demoLib (checkedArguments (specDatabase noFaults))
      (StoreBlock demoLib (checkedArguments (specDatabase noFaults)) [0, 4, 99, 0, 5]
        demoStoreTwo).2).1 = .ok 3 :=
  ⟨C3_revert_on_mismatch demoLib (specDatabase noFaults) [0, 4, 99, 0, 5] demoStoreTwo
    3 ⟨1, 0, 4, [99], [0], 5, 0, 0⟩ [68] [] [67] rfl rfl rfl rfl rfl (by decide),
   by decide, by decide,
   fun _ _ hn => ⟨Error.other "uint64 values with high bit set are not supported", if_pos hn⟩,
   by decide, by decide, by decide⟩

theorem escapeQuotes_eq_flatMap (cs : List Char) :
    escapeQuotes cs =
      cs.flatMap fun c => if c = Char.ofNat 39 then [Char.ofNat 92, Char.ofNat 39] else [c] := by
  induction cs with
  | nil => rfl
  | cons c cs ih =>
    simp only [escapeQuotes, List.flatMap_cons, ih]
    split <;> simp

theorem quote_of_ne (name value : String) (hn : name ≠ "") (hv : value ≠ "") :
    quote name value = specItem name value := by
  have hn1 : ¬ ("" = name) := fun h => hn h.symm
  have hv1 : ¬ ("" = value) := fun h => hv h.symm
  simp [quote, specItem, specEscape, hn1, hv1, escapeQuotes_eq_flatMap]

theorem quote_of_empty (name value : String) (h : name = "" ∨ value = "") :
    quote name value = "" := by
  rcases h with h | h <;> simp [quote, h]

theorem concat_filter_items (l : List (String × String)) (hl : ∀ kv ∈ l, kv.1 ≠ "") :
    concatStrings (l.map fun kv => quote kv.1 kv.2) =
      concatStrings ((l.filter fun kv => decide (kv.2 ≠ "")).map fun kv => specItem kv.1 kv.2) := by
  induction l with
  | nil => rfl
  | cons kv l ih =>
    have hk : kv.1 ≠ "" := hl kv (List.mem_cons_self _ _)
    have ih1 := ih (fun x hx => hl x (List.mem_cons_of_mem _ hx))
    by_cases hv : kv.2 = ""
    · simp only [List.map_cons, concatStrings, List.foldr_cons] at ih1 ⊢
      rw [quote_of_empty _ _ (Or.inr hv)]
      simp [List.filter_cons, hv, ih1]
    · simp only [List.map_cons, concatStrings, List.foldr_cons] at ih1 ⊢
      rw [quote_of_ne _ _ hk hv]
      simp [List.filter_cons, hv, ih1]

/-- C10: `quote` returns the empty string when the name or the value is empty
and otherwise a space, the name, `='`, the value with a backslash before every
single quote, and a closing quote; the connection string is the concatenation,
in the fixed key order, of one such item for each non-empty configuration
value, and it is empty when all values are empty. -/
theorem C10_quote_connection_string :
    (∀ name value : String, name = "" ∨ value = "" → quote name value = "") ∧
    (∀ name value : String, name ≠ "" → value ≠ "" →
      quote name value = specItem name value) ∧
    (∀ c : Configuration,
      connectionString c =
        concatStrings
          (((specKeys c).filter fun kv => decide (kv.2 ≠ "")).map fun kv =>
            specItem kv.1 kv.2)) ∧
    (∀ c : Configuration, (∀ kv ∈ specKeys c, kv.2 = "") → connectionString c = "") := by
  have hkeys : ∀ c : Configuration, ∀ kv ∈ specKeys c, kv.1 ≠ "" := by
    intro c kv hkv
    simp only [specKeys, List.mem_cons, List.mem_singleton, List.not_mem_nil, or_false] at hkv
    rcases hkv with h | h | h | h | h | h | h | h | h | h | h <;> (subst h; simp)
  have hcat : ∀ c : Configuration,
      connectionString c = concatStrings ((specKeys c).map fun kv => quote kv.1 kv.2) := by
    intro c
    simp [connectionString, specKeys, concatStrings, String.append_assoc]
  refine ⟨quote_of_empty, quote_of_ne, ?_, ?_⟩
  · intro c
    rw [hcat c, concat_filter_items _ (hkeys c)]
  · intro c hall
    rw [hcat c, concat_filter_items _ (hkeys c)]
    have : ((specKeys c).filter fun kv => decide (kv.2 ≠ "")) = [] := by
      rw [List.filter_eq_nil_iff]
      intro kv hkv
      simp [hall kv hkv]
    rw [this]
    rfl

/-- Witness for C10: the item for a value holding a single quote, and the
connection string of a configuration with two values set. -/
theorem C10_quote_connection_string_witness :
    quote "host" "o'k" = specItem "host" "o'k" ∧
    quote "host" "" = "" ∧
    connectionString
      { Database := "", User := "", Password := "", Host := "", Port := "", SslMode := "",
        Fallback := "", Timeout := "", SslCert := "", SslKey := "", SslRootCert := "" } = "" :=
  ⟨C10_quote_connection_string.2.1 "host" "o'k" (by decide) (by decide),
   C10_quote_connection_string.1 "host" "" (Or.inr rfl),
   C10_quote_connection_string.2.2.2 _ (by simp [specKeys])⟩

theorem clientOps_refl (w : World σ) : clientOps w w [] := by
  simp [clientOps]

theorem clientOps_trans {w w1 w2 : World σ} {ev1 ev2 : List Event}
    (h1 : clientOps w w1 ev1) (h2 : clientOps w1 w2 ev2) : clientOps w w2 (ev1 ++ ev2) := by
  obtain ⟨a1, a2, a3, a4, a5, a6, a7, a8, a9, a10⟩ := h1
  obtain ⟨b1, b2, b3, b4, b5, b6, b7, b8, b9, b10⟩ := h2
  refine ⟨by rw [b1, a1, List.append_assoc], ?_, by rw [b3, a3], by rw [b4, a4], by rw [b5, a5],
    by rw [b6, a6], by rw [b7, a7], by rw [b8, a8], by rw [b9, a9], by rw [b10, a10]⟩
  intro e he
  rcases List.mem_append.1 he with h | h
  · exact a2 e h
  · exact b2 e h

theorem clientOps_Send (T : Transport) (i : Nat) (command : String) (parameters : List Bytes)
    (w : World σ) :
    clientOps w (Send T i command parameters w).2 [Event.send i command parameters] := by
  simp [clientOps, Send, Event.isClientOp]

theorem clientOps_Receive (T : Transport) (i : Nat) (command : String)
    (parameters : List Bytes) (w : World σ) :
    clientOps w (Receive T i command parameters w).2 [Event.receive i] := by
  simp [clientOps, Receive, Event.isClientOp]

theorem clientOps_Reconnect (T : Transport) (i : Nat) (w : World σ) :
    clientOps w (Reconnect T i w) [Event.reconnect i] := by
  simp [clientOps, Reconnect, Event.isClientOp]

/-- A request: a send that is followed, as far as it gets, by a receive and a
reconnect. -/
theorem clientOps_request (T : Transport) (i : Nat) (command : String)
    (parameters : List Bytes) (w : World σ) :
    (∃ ev, clientOps w (Reconnect T i (Send T i command parameters w).2)
        (Event.send i command parameters :: ev) ∧
      sentParameters command (Event.send i command parameters :: ev) = [parameters]) ∧
    (∃ ev, clientOps w (Reconnect T i
        (Receive T i command parameters (Send T i command parameters w).2).2)
        (Event.send i command parameters :: ev) ∧
      sentParameters command (Event.send i command parameters :: ev) = [parameters]) ∧
    (∃ ev, clientOps w (Receive T i command parameters (Send T i command parameters w).2).2
        (Event.send i command parameters :: ev) ∧
      sentParameters command (Event.send i command parameters :: ev) = [parameters]) := by
  refine ⟨⟨[Event.reconnect i], ?_, ?_⟩, ⟨[Event.receive i, Event.reconnect i], ?_, ?_⟩,
    ⟨[Event.receive i], ?_, ?_⟩⟩
  · exact clientOps_trans (clientOps_Send T i command parameters w) (clientOps_Reconnect T i _)
  · simp [sentParameters]
  · exact clientOps_trans (clientOps_Send T i command parameters w)
      (clientOps_trans (clientOps_Receive T i command parameters _) (clientOps_Reconnect T i _))
  · simp [sentParameters]
  · exact clientOps_trans (clientOps_Send T i command parameters w)
      (clientOps_Receive T i command parameters _)
  · simp [sentParameters]

/-- The function `blockData` through a client sends one request `B` with the
block number and touches nothing but the client. -/
theorem blockData_clientOps (T : Transport) (i blockNumber : Nat) (w : World σ) :
    ∃ ev, clientOps w (blockData T (some i) blockNumber w).2 ev ∧
      sentParameters "B" ev = [[PutUint64 blockNumber]] ∧
      ∀ m, (blockData T (some i) blockNumber w).1 ≠ .panic m := by
  obtain ⟨⟨e1, h1, s1⟩, ⟨e2, h2, s2⟩, ⟨e3, h3, s3⟩⟩ :=
    clientOps_request T i "B" [PutUint64 blockNumber] w
  unfold blockData
  simp only
  rcases hS : Send T i "B" [PutUint64 blockNumber] w with ⟨r, w1⟩
  have hw1 : w1 = (Send T i "B" [PutUint64 blockNumber] w).2 := by rw [hS]
  cases r with
  | some e => exact ⟨_, hw1 ▸ h1, s1, by simp⟩
  | none =>
    simp only
    rcases hR : Receive T i "B" [PutUint64 blockNumber] w1 with ⟨r2, w2⟩
    have hw2 : w2 = (Receive T i "B" [PutUint64 blockNumber]
        (Send T i "B" [PutUint64 blockNumber] w).2).2 := by rw [← hw1, hR]
    cases r2 with
    | error e => exact ⟨_, hw2 ▸ h2, s2, by simp⟩
    | ok data =>
      refine ⟨_, hw2 ▸ h3, s3, ?_⟩
      intro m
      simp only [blockDataReply]
      split
      · split
        · simp
        · split <;> simp
      · simp

/-- The function `blockDigest` through a client sends one request `H` with
the block number and touches nothing but the client. -/
theorem blockDigest_clientOps (P : PeerLib) (T : Transport) (i blockNumber : Nat)
    (w : World σ) :
    ∃ ev, clientOps w (blockDigest P T (some i) blockNumber w).2 ev ∧
      sentParameters "H" ev = [[PutUint64 blockNumber]] ∧
      ∀ m, (blockDigest P T (some i) blockNumber w).1 ≠ .panic m := by
  obtain ⟨⟨e1, h1, s1⟩, ⟨e2, h2, s2⟩, ⟨e3, h3, s3⟩⟩ :=
    clientOps_request T i "H" [PutUint64 blockNumber] w
  unfold blockDigest
  simp only
  rcases hS : Send T i "H" [PutUint64 blockNumber] w with ⟨r, w1⟩
  have hw1 : w1 = (Send T i "H" [PutUint64 blockNumber] w).2 := by rw [hS]
  cases r with
  | some e => exact ⟨_, hw1 ▸ h1, s1, by simp⟩
  | none =>
    simp only
    rcases hR : Receive T i "H" [PutUint64 blockNumber] w1 with ⟨r2, w2⟩
    have hw2 : w2 = (Receive T i "H" [PutUint64 blockNumber]
        (Send T i "H" [PutUint64 blockNumber] w).2).2 := by rw [← hw1, hR]
    cases r2 with
    | error e => exact ⟨_, hw2 ▸ h2, s2, by simp⟩
    | ok data =>
      refine ⟨_, hw2 ▸ h3, s3, ?_⟩
      intro m
      simp only [blockDigestReply]
      split
      · split
        · simp
        · split
          · split
            · split <;> simp
            · simp
          · simp
      · simp

/-- One round of the loop of `highestBlock` touches nothing but the client. -/
theorem highestBlockClient_clientOps (T : Transport) (i h : Nat) (c : Option Nat)
    (w : World σ) : ∃ ev, clientOps w (highestBlockClient T i h c w).2 ev := by
  obtain ⟨⟨e1, h1, _⟩, ⟨e2, h2, _⟩, ⟨e3, h3, _⟩⟩ := clientOps_request T i "N" [] w
  unfold highestBlockClient
  split
  · exact ⟨_, clientOps_refl w⟩
  · rcases hS : Send T i "N" [] w with ⟨r, w1⟩
    have hw1 : w1 = (Send T i "N" [] w).2 := by rw [hS]
    cases r with
    | some e => exact ⟨_, hw1 ▸ h1⟩
    | none =>
      simp only
      rcases hR : Receive T i "N" [] w1 with ⟨r2, w2⟩
      have hw2 : w2 = (Receive T i "N" [] (Send T i "N" [] w).2).2 := by rw [← hw1, hR]
      cases r2 with
      | error e => exact ⟨_, hw2 ▸ h2⟩
      | ok data => exact ⟨_, hw2 ▸ h3⟩

/-- The loop of `highestBlock` touches nothing but the clients. -/
theorem highestBlockLoop_clientOps (T : Transport) (l : List Nat) :
    ∀ (h : Nat) (c : Option Nat) (w : World σ),
      ∃ ev, clientOps w (highestBlockLoop T l h c w).2 ev := by
  induction l with
  | nil => intro h c w; exact ⟨_, clientOps_refl w⟩
  | cons i rest ih =>
    intro h c w
    unfold highestBlockLoop
    obtain ⟨e1, h1⟩ := highestBlockClient_clientOps T i h c w
    rcases hC : highestBlockClient T i h c w with ⟨⟨h2, c2⟩, w1⟩
    rw [hC] at h1
    obtain ⟨e2, h2⟩ := ih h2 c2 w1
    exact ⟨_, clientOps_trans h1 h2⟩

/-- The function `highestBlock` touches nothing but the clients. -/
theorem highestBlock_clientOps (T : Transport) (w : World σ) :
    ∃ ev, clientOps w (highestBlock T w).2 ev :=
  highestBlockLoop_clientOps T _ 0 none w

/-- One round of the loop of `checkNodes` touches nothing but the client. -/
theorem checkNodesClient_clientOps (P : PeerLib) (T : Transport) (i n : Nat)
    (w : World σ) : ∃ ev, clientOps w (checkNodesClient P T i n w).2 ev := by
  obtain ⟨⟨e1, h1, _⟩, ⟨e2, h2, _⟩, ⟨e3, h3, _⟩⟩ := clientOps_request T i "I" [] w
  unfold checkNodesClient
  split
  · exact ⟨_, clientOps_refl w⟩
  · rcases hS : Send T i "I" [] w with ⟨r, w1⟩
    have hw1 : w1 = (Send T i "I" [] w).2 := by rw [hS]
    cases r with
    | some e => exact ⟨_, hw1 ▸ h1⟩
    | none =>
      simp only
      rcases hR : Receive T i "I" [] w1 with ⟨r2, w2⟩
      have hw2 : w2 = (Receive T i "I" [] (Send T i "I" [] w).2).2 := by rw [← hw1, hR]
      cases r2 with
      | error e => exact ⟨_, hw2 ▸ h2⟩
      | ok data => exact ⟨_, hw2 ▸ h3⟩

/-- The loop of `checkNodes` touches nothing but the clients. -/
theorem checkNodesLoop_clientOps (P : PeerLib) (T : Transport) (l : List Nat) :
    ∀ (n : Nat) (w : World σ), ∃ ev, clientOps w (checkNodesLoop P T l n w).2 ev := by
  induction l with
  | nil => intro n w; exact ⟨_, clientOps_refl w⟩
  | cons i rest ih =>
    intro n w
    unfold checkNodesLoop
    obtain ⟨e1, h1⟩ := checkNodesClient_clientOps P T i n w
    rcases hC : checkNodesClient P T i n w with ⟨r, w1⟩
    rw [hC] at h1
    cases r with
    | ok n1 =>
      obtain ⟨e2, h2⟩ := ih n1 w1
      exact ⟨_, clientOps_trans h1 h2⟩
    | err e => exact ⟨_, h1⟩
    | panic m => exact ⟨_, h1⟩

/-- The function `checkNodes` touches nothing but the clients. -/
theorem checkNodes_clientOps (P : PeerLib) (T : Transport) (w : World σ) :
    ∃ ev, clientOps w (checkNodes P T w).2 ev := by
  unfold checkNodes
  obtain ⟨ev, h⟩ := checkNodesLoop_clientOps P T (List.range w.conn.clients.length) 0 w
  rcases hC : checkNodesLoop P T (List.range w.conn.clients.length) 0 w with ⟨r, w1⟩
  rw [hC] at h
  cases r with
  | ok n =>
    simp only
    split <;> exact ⟨_, h⟩
  | err e => exact ⟨_, h⟩
  | panic m => exact ⟨_, h⟩

theorem clientOp_kinds {e : Event} (h : e.isClientOp = true) :
    e.isFailure = false ∧ e.isStoreBlock = false ∧ e.isStoreBlockOk = false ∧
    e.isModeSet = false ∧ e.isForkOp = false := by
  cases e <;> simp_all [Event.isClientOp, Event.isFailure, Event.isStoreBlock,
    Event.isStoreBlockOk, Event.isModeSet, Event.isForkOp]

theorem clientOps_counts {ev : List Event} (h : ∀ e ∈ ev, e.isClientOp = true) :
    storeCalls ev = 0 ∧ storesOk ev = 0 ∧ (∀ e ∈ ev, e.isFailure = false) ∧
    (∀ e ∈ ev, e.isModeSet = false) := by
  refine ⟨?_, ?_, ?_, ?_⟩
  · unfold storeCalls
    rw [List.countP_eq_zero]
    intro e he
    simp [(clientOp_kinds (h e he)).2.1]
  · unfold storesOk
    rw [List.countP_eq_zero]
    intro e he
    simp [(clientOp_kinds (h e he)).2.2.1]
  · intro e he
    exact (clientOp_kinds (h e he)).1
  · intro e he
    exact (clientOp_kinds (h e he)).2.2.2.1

theorem sentParameters_append (command : String) (a b : List Event) :
    sentParameters command (a ++ b) = sentParameters command a ++ sentParameters command b := by
  simp [sentParameters, List.filterMap_append]

theorem storeCalls_append (a b : List Event) :
    storeCalls (a ++ b) = storeCalls a + storeCalls b := by
  simp [storeCalls, List.countP_append]

theorem storesOk_append (a b : List Event) :
    storesOk (a ++ b) = storesOk a + storesOk b := by
  simp [storesOk, List.countP_append]

/-- The call of `blockData` from the connector: the request, then the entry of
the return. -/
theorem callBlockData_cases (T : Transport) (c : Option Nat) (n : Nat) (w : World σ) :
    ∃ evc w1, (callBlockData T c n w).2 =
        logEvent (Event.blockData n (outcomeOk (callBlockData T c n w).1)) w1 ∧
      clientOps w w1 evc ∧
      (sentParameters "B" evc = [[PutUint64 n]] ∨
        (sentParameters "B" evc = [] ∧ ∃ m, (callBlockData T c n w).1 = .panic m)) := by
  cases c with
  | none => exact ⟨[], w, rfl, clientOps_refl w, Or.inr ⟨rfl, _, rfl⟩⟩
  | some i =>
    obtain ⟨ev, h1, h2, -⟩ := blockData_clientOps T i n w
    exact ⟨ev, _, rfl, h1, Or.inl h2⟩

/-- The call of `blockDigest` from the connector: the request, then the entry
of the return. -/
theorem callBlockDigest_cases (P : PeerLib) (T : Transport) (c : Option Nat) (n : Nat)
    (w : World σ) :
    ∃ evc w1, (callBlockDigest P T c n w).2 =
        logEvent (Event.blockDigest n (outcomeOk (callBlockDigest P T c n w).1)) w1 ∧
      clientOps w w1 evc := by
  cases c with
  | none => exact ⟨[], w, rfl, clientOps_refl w⟩
  | some i =>
    obtain ⟨ev, h1, -, -⟩ := blockDigest_clientOps P T i n w
    exact ⟨ev, _, rfl, h1⟩

/-- One round of the loop `fetch_some_blocks`: what it returns, which events
it adds and what it does to the connector record. -/
theorem fetchBlock_cases (L : Lib) (T : Transport) (D : Database σ) (w : World σ) :
    ∃ ev, (fetchBlock L T D w).2.events = w.events ++ ev ∧
      (fetchBlock L T D w).2.conn.highestBlockNumber = w.conn.highestBlockNumber ∧
      (fetchBlock L T D w).2.conn.theClient = w.conn.theClient ∧
      (fetchBlock L T D w).2.mode = w.mode ∧
      (fetchBlock L T D w).2.conn.samples = w.conn.samples ∧
      (∀ e ∈ ev, e.isModeSet = false ∧ e.isForkOp = false) ∧
      (((fetchBlock L T D w).1 = .ok true ∧
          w.conn.startBlockNumber ≤ w.conn.highestBlockNumber ∧
          (fetchBlock L T D w).2.conn.startBlockNumber = addU64 w.conn.startBlockNumber 1 ∧
          (fetchBlock L T D w).2.conn.state = w.conn.state ∧
          sentParameters "B" ev = [[PutUint64 w.conn.startBlockNumber]] ∧
          storeCalls ev = 1 ∧ storesOk ev = 1 ∧ ∀ e ∈ ev, e.isFailure = false) ∨
       ((fetchBlock L T D w).1 = .ok false ∧
          w.conn.highestBlockNumber < w.conn.startBlockNumber ∧ ev = [] ∧
          (fetchBlock L T D w).2.conn.startBlockNumber = w.conn.startBlockNumber ∧
          (fetchBlock L T D w).2.conn.state = cStateHighestBlock) ∨
       ((fetchBlock L T D w).1 = .ok false ∧
          w.conn.startBlockNumber ≤ w.conn.highestBlockNumber ∧
          (fetchBlock L T D w).2.conn.startBlockNumber = w.conn.startBlockNumber ∧
          (fetchBlock L T D w).2.conn.state = cStateHighestBlock ∧
          sentParameters "B" ev = [[PutUint64 w.conn.startBlockNumber]] ∧
          storeCalls ev ≤ 1 ∧ storesOk ev = 0 ∧
          ∃ pre e, ev = pre ++ [e] ∧ e.isFailure = true ∧ (∀ x ∈ pre, x.isFailure = false) ∧
            (e = Event.blockData w.conn.startBlockNumber false ∨
              ∃ p pre2, e = Event.storeBlock p false ∧
                pre = pre2 ++ [Event.blockData w.conn.startBlockNumber true])) ∨
       (∃ m, (fetchBlock L T D w).1 = .panic m ∧
          w.conn.startBlockNumber ≤ w.conn.highestBlockNumber ∧
          (fetchBlock L T D w).2.conn.startBlockNumber = w.conn.startBlockNumber ∧
          ((sentParameters "B" ev = [] ∧ storeCalls ev = 0) ∨
            sentParameters "B" ev = [[PutUint64 w.conn.startBlockNumber]]) ∧
          storeCalls ev ≤ 1 ∧ storesOk ev = 0)) := by
  unfold fetchBlock
  split
  · rename_i hgt
    refine ⟨[], by simp [setState], rfl, rfl, rfl, rfl, by simp, Or.inr (Or.inl ?_)⟩
    exact ⟨rfl, hgt, rfl, rfl, rfl⟩
  · rename_i hle
    have hle2 : w.conn.startBlockNumber ≤ w.conn.highestBlockNumber := Nat.le_of_not_gt hle
    obtain ⟨evc, w1, hw1, hops, hsent⟩ :=
      callBlockData_cases T w.conn.theClient w.conn.startBlockNumber w
    obtain ⟨he, hk, hstore, hmode, hstate, hcl, hstart, hhigh, hsam, -⟩ := hops
    obtain ⟨hc1, hc2, hc3, hc4⟩ := clientOps_counts hk
    have hfork : ∀ e ∈ evc, e.isForkOp = false := fun e h => (clientOp_kinds (hk e h)).2.2.2.2
    rcases hB : callBlockData T w.conn.theClient w.conn.startBlockNumber w with ⟨r, wb⟩
    rw [hB] at hw1 hsent
    simp only at hw1 hsent
    subst hw1
    cases r with
    | panic m =>
      refine ⟨evc ++ [Event.blockData w.conn.startBlockNumber false], ?_, ?_, ?_, ?_, ?_, ?_,
        Or.inr (Or.inr (Or.inr ⟨m, rfl, hle2, ?_, ?_, ?_, ?_⟩))⟩
      · simp [logEvent, he, outcomeOk]
      · simpa [logEvent] using hhigh
      · simpa [logEvent] using hcl
      · simpa [logEvent] using hmode
      · simpa [logEvent] using hsam
      · intro e h
        rcases List.mem_append.1 h with h | h
        · exact ⟨hc4 e h, hfork e h⟩
        · simp at h; subst h; exact ⟨rfl, rfl⟩
      · simpa [logEvent] using hstart
      · rw [sentParameters_append]
        rcases hsent with h | ⟨h, -⟩
        · right; rw [h]; rfl
        · left
          refine ⟨by rw [h]; rfl, ?_⟩
          rw [storeCalls_append, hc1]; simp [storeCalls, Event.isStoreBlock]
      · rw [storeCalls_append, hc1]; simp [storeCalls, Event.isStoreBlock]
      · rw [storesOk_append, hc2]; rfl
    | err e =>
      have hs : sentParameters "B" evc = [[PutUint64 w.conn.startBlockNumber]] := by
        rcases hsent with h | ⟨-, m, h⟩
        · exact h
        · cases h
      refine ⟨evc ++ [Event.blockData w.conn.startBlockNumber false], ?_, ?_, ?_, ?_, ?_, ?_,
        Or.inr (Or.inr (Or.inl ⟨rfl, hle2, ?_, rfl, ?_, ?_, ?_, _, _, rfl, rfl, hc3,
          Or.inl rfl⟩))⟩
      · simp [logEvent, setState, he, outcomeOk]
      · simpa [logEvent, setState] using hhigh
      · simpa [logEvent, setState] using hcl
      · simpa [logEvent, setState] using hmode
      · simpa [logEvent, setState] using hsam
      · intro e h
        rcases List.mem_append.1 h with h | h
        · exact ⟨hc4 e h, hfork e h⟩
        · simp at h; subst h; exact ⟨rfl, rfl⟩
      · simpa [logEvent, setState] using hstart
      · rw [sentParameters_append, hs]; rfl
      · rw [storeCalls_append, hc1]; simp [storeCalls, Event.isStoreBlock]
      · rw [storesOk_append, hc2]; rfl
    | ok packedBlock =>
      have hs : sentParameters "B" evc = [[PutUint64 w.conn.startBlockNumber]] := by
        rcases hsent with h | ⟨-, m, h⟩
        · exact h
        · cases h
      simp only [callStoreBlock, outcomeOk]
      rcases hS : StoreBlock L D packedBlock
          (logEvent (Event.blockData w.conn.startBlockNumber true) w1).store with ⟨r2, g2⟩
      cases r2 with
      | panic m =>
        refine ⟨evc ++ [Event.blockData w.conn.startBlockNumber true,
            Event.storeBlock packedBlock false], ?_, ?_, ?_, ?_, ?_, ?_,
          Or.inr (Or.inr (Or.inr ⟨m, rfl, hle2, ?_, Or.inr ?_, ?_, ?_⟩))⟩
        · simp [logEvent, he, outcomeOk]
        · simpa [logEvent] using hhigh
        · simpa [logEvent] using hcl
        · simpa [logEvent] using hmode
        · simpa [logEvent] using hsam
        · intro e h
          rcases List.mem_append.1 h with h | h
          · exact ⟨hc4 e h, hfork e h⟩
          · simp at h; rcases h with h | h <;> subst h <;> exact ⟨rfl, rfl⟩
        · simpa [logEvent] using hstart
        · rw [sentParameters_append, hs]; rfl
        · rw [storeCalls_append, hc1]; simp [storeCalls, Event.isStoreBlock]
        · rw [storesOk_append, hc2]; rfl
      | err e =>
        refine ⟨evc ++ [Event.blockData w.conn.startBlockNumber true,
            Event.storeBlock packedBlock false], ?_, ?_, ?_, ?_, ?_, ?_,
          Or.inr (Or.inr (Or.inl ⟨rfl, hle2, ?_, rfl, ?_, ?_, ?_,
            evc ++ [Event.blockData w.conn.startBlockNumber true],
            Event.storeBlock packedBlock false, by simp, rfl, ?_,
            Or.inr ⟨packedBlock, evc, rfl, rfl⟩⟩))⟩
        · simp [logEvent, setState, he, outcomeOk]
        · simpa [logEvent, setState] using hhigh
        · simpa [logEvent, setState] using hcl
        · simpa [logEvent, setState] using hmode
        · simpa [logEvent, setState] using hsam
        · intro e h
          rcases List.mem_append.1 h with h | h
          · exact ⟨hc4 e h, hfork e h⟩
          · simp at h; rcases h with h | h <;> subst h <;> exact ⟨rfl, rfl⟩
        · simpa [logEvent, setState] using hstart
        · rw [sentParameters_append, hs]; rfl
        · rw [storeCalls_append, hc1]; simp [storeCalls, Event.isStoreBlock]
        · rw [storesOk_append, hc2]; rfl
        · intro x h
          rcases List.mem_append.1 h with h | h
          · exact hc3 x h
          · simp at h; subst h; rfl
      | ok u =>
        refine ⟨evc ++ [Event.blockData w.conn.startBlockNumber true,
            Event.storeBlock packedBlock true], ?_, ?_, ?_, ?_, ?_, ?_,
          Or.inl ⟨rfl, hle2, ?_, ?_, ?_, ?_, ?_, ?_⟩⟩
        · simp [logEvent, he, outcomeOk]
        · simpa [logEvent] using hhigh
        · simpa [logEvent] using hcl
        · simpa [logEvent] using hmode
        · simpa [logEvent] using hsam
        · intro e h
          rcases List.mem_append.1 h with h | h
          · exact ⟨hc4 e h, hfork e h⟩
          · simp at h; rcases h with h | h <;> subst h <;> exact ⟨rfl, rfl⟩
        · simp [logEvent, hstart]
        · simpa [logEvent] using hstate
        · rw [sentParameters_append, hs]; rfl
        · rw [storeCalls_append, hc1]; simp [storeCalls, Event.isStoreBlock]
        · rw [storesOk_append, hc2]; simp [storesOk, Event.isStoreBlockOk]
        · intro x h
          rcases List.mem_append.1 h with h | h
          · exact hc3 x h
          · simp at h; rcases h with h | h <;> subst h <;> rfl

theorem range_succ_map_shift (f : Nat → List Bytes) (m : Nat) :
    (List.range (m + 1)).map f = f 0 :: (List.range m).map fun j => f (j + 1) := by
  rw [List.range_succ_eq_map, List.map_cons, List.map_map]
  rfl

/-- The loop `fetch_some_blocks` as a run: `m` requests for consecutive block
numbers from the start, of which the first `k` blocks were stored; the run ends
when the iterations are used up, when the start passes the highest block
number, at the first call that returns an error, or in a panic. -/
theorem fetchSomeBlocks_run (L : Lib) (T : Transport) (D : Database σ) :
    ∀ (n : Nat) (w : World σ), w.conn.highestBlockNumber + 1 < u64 →
    ∃ ev m k, (fetchSomeBlocks L T D n w).2.events = w.events ++ ev ∧
      (fetchSomeBlocks L T D n w).2.conn.highestBlockNumber = w.conn.highestBlockNumber ∧
      (fetchSomeBlocks L T D n w).2.conn.theClient = w.conn.theClient ∧
      (fetchSomeBlocks L T D n w).2.mode = w.mode ∧
      (fetchSomeBlocks L T D n w).2.conn.samples = w.conn.samples ∧
      (∀ e ∈ ev, e.isModeSet = false ∧ e.isForkOp = false) ∧
      sentParameters "B" ev =
        (List.range m).map (fun j => [PutUint64 (w.conn.startBlockNumber + j)]) ∧
      m ≤ n ∧ (∀ j, j < m → w.conn.startBlockNumber + j ≤ w.conn.highestBlockNumber) ∧
      storeCalls ev ≤ m ∧ storesOk ev = k ∧ k ≤ m ∧
      (fetchSomeBlocks L T D n w).2.conn.startBlockNumber = w.conn.startBlockNumber + k ∧
      (((fetchSomeBlocks L T D n w).1 = .ok () ∧ (∀ e ∈ ev, e.isFailure = false) ∧ k = m ∧
          ((m = n ∧ (fetchSomeBlocks L T D n w).2.conn.state = w.conn.state) ∨
           (m < n ∧ w.conn.highestBlockNumber < w.conn.startBlockNumber + m ∧
             (fetchSomeBlocks L T D n w).2.conn.state = cStateHighestBlock))) ∨
       ((fetchSomeBlocks L T D n w).1 = .ok () ∧
          (fetchSomeBlocks L T D n w).2.conn.state = cStateHighestBlock ∧ m = k + 1 ∧
          ∃ pre e, ev = pre ++ [e] ∧ e.isFailure = true ∧ (∀ x ∈ pre, x.isFailure = false) ∧
            (e = Event.blockData (w.conn.startBlockNumber + k) false ∨
              ∃ p pre2, e = Event.storeBlock p false ∧
                pre = pre2 ++ [Event.blockData (w.conn.startBlockNumber + k) true])) ∨
       (∃ msg, (fetchSomeBlocks L T D n w).1 = .panic msg)) := by
  intro n
  induction n with
  | zero =>
    intro w _
    refine ⟨[], 0, 0, by simp [fetchSomeBlocks], rfl, rfl, rfl, rfl, by simp, rfl,
      Nat.le_refl 0, fun j hj => absurd hj (Nat.not_lt_zero j), Nat.le_refl 0, rfl,
      Nat.le_refl 0, rfl, Or.inl ⟨rfl, by simp, rfl, Or.inl ⟨rfl, rfl⟩⟩⟩
  | succ n ih =>
    intro w hb
    obtain ⟨ev1, he1, hh1, hc1, hm1, hs1, hk1, hcase⟩ := fetchBlock_cases L T D w
    unfold fetchSomeBlocks
    rcases hF : fetchBlock L T D w with ⟨r, w1⟩
    rw [hF] at he1 hh1 hc1 hm1 hs1 hcase
    simp only at he1 hh1 hc1 hm1 hs1 hcase
    rcases hcase with ⟨hr, hle, hst, hstate, hsent, hsc, hso, hnf⟩ |
      ⟨hr, hlt, hev, hst, hstate⟩ |
      ⟨hr, hle, hst, hstate, hsent, hsc, hso, pre, e, hpe, hfe, hpre, hwhich⟩ |
      ⟨msg, hr, hle, hst, hsent, hsc, hso⟩
    · subst hr
      simp only
      have hst1 : w1.conn.startBlockNumber = w.conn.startBlockNumber + 1 := by
        rw [hst]
        unfold addU64
        exact Nat.mod_eq_of_lt (by omega)
      obtain ⟨ev2, m2, k2, he2, hh2, hc2, hm2, hs2, hk2, hsent2, hmn, hall, hsc2, hso2, hkm,
        hst2, hcase2⟩ := ih w1 (by rw [hh1]; exact hb)
      refine ⟨ev1 ++ ev2, m2 + 1, k2 + 1, by rw [he2, he1, List.append_assoc],
        by rw [hh2, hh1], by rw [hc2, hc1], by rw [hm2, hm1], by rw [hs2, hs1], ?_, ?_,
        Nat.succ_le_succ hmn, ?_, ?_, ?_, Nat.succ_le_succ hkm, ?_, ?_⟩
      · intro x hx
        rcases List.mem_append.1 hx with h | h
        · exact hk1 x h
        · exact hk2 x h
      · rw [sentParameters_append, hsent, hsent2, range_succ_map_shift, hst1]
        simp only [Nat.add_zero, List.singleton_append, List.cons.injEq, true_and]
        apply List.map_congr_left
        intro j _
        rw [Nat.add_assoc, Nat.add_comm 1 j]
      · intro j hj
        cases j with
        | zero => exact hle
        | succ j =>
          have := hall j (by omega)
          rw [hst1, hh1] at this
          omega
      · rw [storeCalls_append, hsc]; omega
      · rw [storesOk_append, hso, hso2]; omega
      · rw [hst2, hst1]; omega
      · rcases hcase2 with ⟨ho, hnf2, hkm2, hfin⟩ | ⟨ho, hhb, hmk, pre, e, hpe, hfe, hpre, hwhich⟩ |
          ⟨msg, ho⟩
        · refine Or.inl ⟨ho, ?_, by rw [hkm2], ?_⟩
          · intro x hx
            rcases List.mem_append.1 hx with h | h
            · exact hnf x h
            · exact hnf2 x h
          · rcases hfin with ⟨h1, h2⟩ | ⟨h1, h2, h3⟩
            · exact Or.inl ⟨by rw [h1], by rw [h2, hstate]⟩
            · refine Or.inr ⟨Nat.succ_lt_succ h1, ?_, h3⟩
              rw [hst1, hh1] at h2
              omega
        · refine Or.inr (Or.inl ⟨ho, hhb, by rw [hmk], ev1 ++ pre, e,
            by rw [hpe, List.append_assoc], hfe, ?_, ?_⟩)
          · intro x hx
            rcases List.mem_append.1 hx with h | h
            · exact hnf x h
            · exact hpre x h
          · have hidx : w1.conn.startBlockNumber + k2 = w.conn.startBlockNumber + (k2 + 1) := by
              rw [hst1]; omega
            rw [hidx] at hwhich
            rcases hwhich with h | ⟨p, pre2, h1, h2⟩
            · exact Or.inl h
            · exact Or.inr ⟨p, ev1 ++ pre2, h1, by rw [h2, List.append_assoc]⟩
        · exact Or.inr (Or.inr ⟨msg, ho⟩)
    · subst hr
      subst hev
      simp only
      refine ⟨[], 0, 0, he1, hh1, hc1, hm1, hs1, by simp, rfl, Nat.zero_le _,
        fun j hj => absurd hj (Nat.not_lt_zero j), Nat.le_refl 0, rfl, Nat.le_refl 0, hst,
        Or.inl ⟨trivial, by simp, rfl, Or.inr ⟨Nat.succ_pos n, hlt, hstate⟩⟩⟩
    · subst hr
      simp only
      refine ⟨ev1, 1, 0, he1, hh1, hc1, hm1, hs1, hk1, ?_, Nat.succ_le_succ (Nat.zero_le n), ?_,
        hsc, hso, Nat.zero_le 1, hst,
        Or.inr (Or.inl ⟨trivial, hstate, rfl, pre, e, hpe, hfe, hpre, hwhich⟩)⟩
      · rw [hsent]; rfl
      · intro j hj
        have : j = 0 := by omega
        subst this
        exact hle
    · subst hr
      simp only
      rcases hsent with ⟨hsent, hsc0⟩ | hsent
      · exact ⟨ev1, 0, 0, he1, hh1, hc1, hm1, hs1, hk1, by rw [hsent]; rfl, Nat.zero_le _,
          fun j hj => absurd hj (Nat.not_lt_zero j), Nat.le_of_eq hsc0, hso, Nat.le_refl 0, hst,
          Or.inr (Or.inr (by simp))⟩
      · refine ⟨ev1, 1, 0, he1, hh1, hc1, hm1, hs1, hk1, by rw [hsent]; rfl,
          Nat.succ_le_succ (Nat.zero_le n), ?_, hsc, hso, Nat.zero_le 1, hst,
          Or.inr (Or.inr (by simp))⟩
        intro j hj
        have : j = 0 := by omega
        subst this
        exact hle

/-- The case of `process` for each state. -/
theorem process_eq (L : Lib) (P : PeerLib) (T : Transport) (D : Database σ) (w : World σ) :
    (w.conn.state = cStateConnecting → process L P T D w = processConnecting P T w) ∧
    (w.conn.state = cStateHighestBlock → process L P T D w = processHighestBlock T w) ∧
    (w.conn.state = cStateForkDetect → process L P T D w = processForkDetect L P T D w) ∧
    (w.conn.state = cStateFetchBlocks → process L P T D w = processFetchBlocks L T D w) ∧
    (w.conn.state = cStateRebuild → process L P T D w = processRebuild w) ∧
    (w.conn.state = cStateSampling → process L P T D w = processSampling L T D w) ∧
    (5 < w.conn.state → process L P T D w = (.ok (), w)) := by
  refine ⟨?_, ?_, ?_, ?_, ?_, ?_, ?_⟩ <;> intro h <;>
    simp only [process, cStateConnecting, cStateHighestBlock, cStateForkDetect,
      cStateFetchBlocks, cStateRebuild, cStateSampling] at h ⊢
  · simp [h]
  · simp [h]
  · simp [h]
  · simp [h]
  · simp [h]
  · simp [h]
  · have key : ∀ s : Nat, 5 < s → s ≠ 0 ∧ s ≠ 1 ∧ s ≠ 2 ∧ s ≠ 3 ∧ s ≠ 4 ∧ s ≠ 5 := by
      intro s hs
      omega
    obtain ⟨h0, h1, h2, h3, h4, h5⟩ := key w.conn.state h
    simp [h0, h1, h2, h3, h4, h5]

/-- The call of `GetBlockHeight` from the connector changes only the store and
the events. -/
theorem callGetBlockHeight_eq (L : Lib) (D : Database σ) (w : World σ) :
    (callGetBlockHeight L D w).1 = (GetBlockHeight L D w.store).1 ∧
    (callGetBlockHeight L D w).2.conn = w.conn ∧
    (callGetBlockHeight L D w).2.mode = w.mode ∧
    (callGetBlockHeight L D w).2.events = w.events ++ [Event.getBlockHeight] :=
  ⟨rfl, rfl, rfl, rfl⟩

theorem Uint64_PutUint64 (n : Nat) (h : n < u64) : Uint64 (PutUint64 n) = n := by
  unfold u64 at h
  simp only [Uint64, PutUint64, List.foldl, Nat.zero_mul, Nat.zero_add, Nat.mod_mod]
  norm_num at h ⊢
  omega

/-- One round of the loop `check_digests`: what it returns, which events it
adds and what it does to the connector record. -/
theorem checkDigest_cases (L : Lib) (P : PeerLib) (T : Transport) (D : Database σ) (h : Nat)
    (w : World σ) :
    ∃ ev, (checkDigest L P T D h w).2.events = w.events ++ ev ∧
      (checkDigest L P T D h w).2.conn.highestBlockNumber = w.conn.highestBlockNumber ∧
      (checkDigest L P T D h w).2.conn.theClient = w.conn.theClient ∧
      (checkDigest L P T D h w).2.mode = w.mode ∧
      (checkDigest L P T D h w).2.conn.samples = w.conn.samples ∧
      (∀ e ∈ ev, e.isModeSet = false ∧ e.isStoreBlock = false) ∧
      (((checkDigest L P T D h w).1 = .ok true ∧
          (checkDigest L P T D h w).2.conn.state = w.conn.state ∧
          (checkDigest L P T D h w).2.conn.startBlockNumber = w.conn.startBlockNumber ∧
          ∀ e ∈ ev, e.isFailure = false) ∨
       ((checkDigest L P T D h w).1 = .ok false ∧
          (checkDigest L P T D h w).2.conn.state = w.conn.state ∧
          (checkDigest L P T D h w).2.conn.startBlockNumber = addU64 h 1 ∧
          ∀ e ∈ ev, e.isFailure = false) ∨
       ((checkDigest L P T D h w).1 = .ok false ∧
          (checkDigest L P T D h w).2.conn.state = cStateHighestBlock ∧
          ∃ pre e, ev = pre ++ [e] ∧ e.isFailure = true ∧ ∀ x ∈ pre, x.isFailure = false) ∨
       (∃ m, (checkDigest L P T D h w).1 = .panic m)) := by
  unfold checkDigest
  rcases hD : DigestForBlock L D h w.store with ⟨r, g1⟩
  simp only [callDigestForBlock, hD]
  cases r with
  | error e =>
    refine ⟨[Event.digestForBlock h false], by simp [setState, exceptOk], rfl, rfl, rfl, rfl,
      by simp [Event.isModeSet, Event.isStoreBlock],
      Or.inr (Or.inr (Or.inl ⟨rfl, rfl, [], _, rfl, rfl, by simp⟩))⟩
  | ok digest =>
    simp only [exceptOk]
    obtain ⟨evc, w1, hw1, hops⟩ := callBlockDigest_cases P T w.conn.theClient h
      ({ w with store := g1, events := w.events ++ [Event.digestForBlock h true] } : World σ)
    obtain ⟨he, hk, hstore, hmode, hstate, hcl, hstart, hhigh, hsam, -⟩ := hops
    obtain ⟨hc1, hc2, hc3, hc4⟩ := clientOps_counts hk
    have hsb : ∀ e ∈ evc, e.isStoreBlock = false := fun e h => (clientOp_kinds (hk e h)).2.1
    simp only at he hstore hmode hstate hcl hstart hhigh hsam
    rcases hB : callBlockDigest P T w.conn.theClient h
      ({ w with store := g1, events := w.events ++ [Event.digestForBlock h true] } : World σ)
      with ⟨r2, wb⟩
    rw [hB] at hw1
    simp only at hw1
    subst hw1
    have hkind1 : ∀ e ∈ Event.digestForBlock h true :: evc,
        e.isModeSet = false ∧ e.isStoreBlock = false := by
      intro e he
      rcases List.mem_cons.1 he with h | h
      · subst h; exact ⟨rfl, rfl⟩
      · exact ⟨hc4 e h, hsb e h⟩
    have hfail1 : ∀ e ∈ Event.digestForBlock h true :: evc, e.isFailure = false := by
      intro e he
      rcases List.mem_cons.1 he with h | h
      · subst h; rfl
      · exact hc3 e h
    cases r2 with
    | panic m => exact ⟨Event.digestForBlock h true :: (evc ++ [Event.blockDigest h false]),
        by simp [logEvent, he, outcomeOk], by simpa [logEvent] using hhigh,
        by simpa [logEvent] using hcl, by simpa [logEvent] using hmode,
        by simpa [logEvent] using hsam,
        by
          intro e hm
          rw [← List.cons_append] at hm
          rcases List.mem_append.1 hm with h | h
          · exact hkind1 e h
          · simp at h; subst h; exact ⟨rfl, rfl⟩,
        Or.inr (Or.inr (Or.inr ⟨m, rfl⟩))⟩
    | err e =>
      refine ⟨Event.digestForBlock h true :: (evc ++ [Event.blockDigest h false]),
        by simp [logEvent, setState, he, outcomeOk], by simpa [logEvent, setState] using hhigh,
        by simpa [logEvent, setState] using hcl, by simpa [logEvent, setState] using hmode,
        by simpa [logEvent, setState] using hsam, ?_,
        Or.inr (Or.inr (Or.inl ⟨rfl, rfl, Event.digestForBlock h true :: evc, _, rfl, rfl,
          hfail1⟩))⟩
      intro e hm
      rw [← List.cons_append] at hm
      rcases List.mem_append.1 hm with h | h
      · exact hkind1 e h
      · simp at h; subst h; exact ⟨rfl, rfl⟩
    | ok remoteDigest =>
      simp only [outcomeOk]
      by_cases heq : remoteDigest = digest
      · rw [if_pos heq]
        simp only [callDeleteDownToBlock]
        rcases hX : DeleteDownToBlock D (addU64 h 1)
          (logEvent (Event.blockDigest h true) w1).store with ⟨r3, g3⟩
        cases r3 with
        | some e =>
          refine ⟨Event.digestForBlock h true :: (evc ++ [Event.blockDigest h true,
              Event.deleteDownToBlock (addU64 h 1) false]),
            by simp [logEvent, setState, he, noError, hX],
            by simpa [logEvent, setState] using hhigh,
            by simpa [logEvent, setState] using hcl, by simpa [logEvent, setState] using hmode,
            by simpa [logEvent, setState] using hsam, ?_,
            Or.inr (Or.inr (Or.inl ⟨rfl, rfl,
              Event.digestForBlock h true :: (evc ++ [Event.blockDigest h true]),
              Event.deleteDownToBlock (addU64 h 1) false, by simp, rfl, ?_⟩))⟩
          · intro e hm
            rw [← List.cons_append] at hm
            rcases List.mem_append.1 hm with h | h
            · exact hkind1 e h
            · simp at h; rcases h with h | h <;> subst h <;> exact ⟨rfl, rfl⟩
          · intro e hm
            rw [← List.cons_append] at hm
            rcases List.mem_append.1 hm with h | h
            · exact hfail1 e h
            · simp at h; subst h; rfl
        | none =>
          refine ⟨Event.digestForBlock h true :: (evc ++ [Event.blockDigest h true,
              Event.deleteDownToBlock (addU64 h 1) true]),
            by simp [logEvent, he, noError, hX],
            by simpa [logEvent] using hhigh,
            by simpa [logEvent] using hcl, by simpa [logEvent] using hmode,
            by simpa [logEvent] using hsam, ?_,
            Or.inr (Or.inl ⟨rfl, by simpa [logEvent] using hstate, rfl, ?_⟩)⟩
          · intro e hm
            rw [← List.cons_append] at hm
            rcases List.mem_append.1 hm with h | h
            · exact hkind1 e h
            · simp at h; rcases h with h | h <;> subst h <;> exact ⟨rfl, rfl⟩
          · intro e hm
            rw [← List.cons_append] at hm
            rcases List.mem_append.1 hm with h | h
            · exact hfail1 e h
            · simp at h; rcases h with h | h <;> subst h <;> rfl
      · rw [if_neg heq]
        refine ⟨Event.digestForBlock h true :: (evc ++ [Event.blockDigest h true]),
          by simp [logEvent, he],
          by simpa [logEvent] using hhigh,
          by simpa [logEvent] using hcl, by simpa [logEvent] using hmode,
          by simpa [logEvent] using hsam, ?_,
          Or.inl ⟨rfl, by simpa [logEvent] using hstate, by simpa [logEvent] using hstart, ?_⟩⟩
        · intro e hm
          rw [← List.cons_append] at hm
          rcases List.mem_append.1 hm with h | h
          · exact hkind1 e h
          · simp at h; subst h; exact ⟨rfl, rfl⟩
        · intro e hm
          rw [← List.cons_append] at hm
          rcases List.mem_append.1 hm with h | h
          · exact hfail1 e h
          · simp at h; subst h; rfl

/-- The loop `check_digests` as a run: it ends without a failure in the state
it started in, or at the first call that returns an error in state
HighestBlock, or in a panic. -/
theorem checkDigests_run (L : Lib) (P : PeerLib) (T : Transport) (D : Database σ) :
    ∀ (h : Nat) (w : World σ),
    ∃ ev, (checkDigests L P T D h w).2.events = w.events ++ ev ∧
      (checkDigests L P T D h w).2.conn.highestBlockNumber = w.conn.highestBlockNumber ∧
      (checkDigests L P T D h w).2.conn.theClient = w.conn.theClient ∧
      (checkDigests L P T D h w).2.mode = w.mode ∧
      (checkDigests L P T D h w).2.conn.samples = w.conn.samples ∧
      (∀ e ∈ ev, e.isModeSet = false ∧ e.isStoreBlock = false) ∧
      (((checkDigests L P T D h w).1 = .ok () ∧
          (checkDigests L P T D h w).2.conn.state = w.conn.state ∧
          ∀ e ∈ ev, e.isFailure = false) ∨
       ((checkDigests L P T D h w).1 = .ok () ∧
          (checkDigests L P T D h w).2.conn.state = cStateHighestBlock ∧
          ∃ pre e, ev = pre ++ [e] ∧ e.isFailure = true ∧ ∀ x ∈ pre, x.isFailure = false) ∨
       (∃ m, (checkDigests L P T D h w).1 = .panic m)) := by
  intro h
  induction h with
  | zero =>
    intro w
    exact ⟨[], by simp [checkDigests], rfl, rfl, rfl, rfl, by simp, Or.inl ⟨rfl, rfl, by simp⟩⟩
  | succ h ih =>
    intro w
    unfold checkDigests
    split
    · obtain ⟨ev1, he1, hh1, hc1, hm1, hs1, hk1, hcase⟩ := checkDigest_cases L P T D (h + 1) w
      rcases hF : checkDigest L P T D (h + 1) w with ⟨r, w1⟩
      rw [hF] at he1 hh1 hc1 hm1 hs1 hcase
      simp only at he1 hh1 hc1 hm1 hs1 hcase
      rcases hcase with ⟨hr, hstate, -, hnf⟩ | ⟨hr, hstate, -, hnf⟩ |
        ⟨hr, hstate, pre, e, hpe, hfe, hpre⟩ | ⟨msg, hr⟩
      · subst hr
        simp only
        obtain ⟨ev2, he2, hh2, hc2, hm2, hs2, hk2, hcase2⟩ := ih w1
        refine ⟨ev1 ++ ev2, by rw [he2, he1, List.append_assoc], by rw [hh2, hh1],
          by rw [hc2, hc1], by rw [hm2, hm1], by rw [hs2, hs1], ?_, ?_⟩
        · intro x hx
          rcases List.mem_append.1 hx with h | h
          · exact hk1 x h
          · exact hk2 x h
        · rcases hcase2 with ⟨ho, hst2, hnf2⟩ | ⟨ho, hst2, pre, e, hpe, hfe, hpre⟩ | ⟨msg, ho⟩
          · refine Or.inl ⟨ho, by rw [hst2, hstate], ?_⟩
            intro x hx
            rcases List.mem_append.1 hx with h | h
            · exact hnf x h
            · exact hnf2 x h
          · refine Or.inr (Or.inl ⟨ho, hst2, ev1 ++ pre, e, by rw [hpe, List.append_assoc],
              hfe, ?_⟩)
            intro x hx
            rcases List.mem_append.1 hx with h | h
            · exact hnf x h
            · exact hpre x h
          · exact Or.inr (Or.inr ⟨msg, ho⟩)
      · subst hr
        exact ⟨ev1, he1, hh1, hc1, hm1, hs1, hk1, Or.inl ⟨rfl, hstate, hnf⟩⟩
      · subst hr
        exact ⟨ev1, he1, hh1, hc1, hm1, hs1, hk1,
          Or.inr (Or.inl ⟨rfl, hstate, pre, e, hpe, hfe, hpre⟩)⟩
      · subst hr
        exact ⟨ev1, he1, hh1, hc1, hm1, hs1, hk1, Or.inr (Or.inr ⟨msg, rfl⟩)⟩
    · exact ⟨[], by simp, rfl, rfl, rfl, rfl, by simp, Or.inl ⟨rfl, rfl, by simp⟩⟩

/-- The eight bytes written for a number depend only on its value modulo two
to the 64. -/
theorem PutUint64_mod (n : Nat) : PutUint64 (n % u64) = PutUint64 n := by
  unfold u64
  simp only [PutUint64]
  have e1 : n % 2 ^ 64 / 256 ^ 7 % 256 = n / 256 ^ 7 % 256 := by norm_num; omega
  have e2 : n % 2 ^ 64 / 256 ^ 6 % 256 = n / 256 ^ 6 % 256 := by norm_num; omega
  have e3 : n % 2 ^ 64 / 256 ^ 5 % 256 = n / 256 ^ 5 % 256 := by norm_num; omega
  have e4 : n % 2 ^ 64 / 256 ^ 4 % 256 = n / 256 ^ 4 % 256 := by norm_num; omega
  have e5 : n % 2 ^ 64 / 256 ^ 3 % 256 = n / 256 ^ 3 % 256 := by norm_num; omega
  have e6 : n % 2 ^ 64 / 256 ^ 2 % 256 = n / 256 ^ 2 % 256 := by norm_num; omega
  have e7 : n % 2 ^ 64 / 256 % 256 = n / 256 % 256 := by norm_num; omega
  have e8 : n % 2 ^ 64 % 256 = n % 256 := by norm_num
  rw [e1, e2, e3, e4, e5, e6, e7, e8]

/-- Reading back the eight bytes written for a number gives the number modulo
two to the 64. -/
theorem Uint64_PutUint64_mod (n : Nat) : Uint64 (PutUint64 n) = n % u64 := by
  rw [← PutUint64_mod]
  exact Uint64_PutUint64 _ (Nat.mod_lt _ (by unfold u64; norm_num))

/-- The loop `fetch_some_blocks` as a run, whatever the highest block number:
`m` requests, the request with index `j` for the block number `start + j`
modulo two to the 64, of which the first `k` blocks were stored; the run ends
when the iterations are used up, when the start passes the highest block
number, at the first call that returns an error, or in a panic. -/
theorem fetchSomeBlocks_wrap (L : Lib) (T : Transport) (D : Database σ) :
    ∀ (n : Nat) (w : World σ),
    ∃ ev m k, (fetchSomeBlocks L T D n w).2.events = w.events ++ ev ∧
      sentParameters "B" ev =
        (List.range m).map (fun j => [PutUint64 (w.conn.startBlockNumber + j)]) ∧
      m ≤ n ∧ (0 < m → w.conn.startBlockNumber ≤ w.conn.highestBlockNumber) ∧
      (∀ j, j < m → (w.conn.startBlockNumber + j) % u64 ≤ w.conn.highestBlockNumber) ∧
      storeCalls ev ≤ m ∧ storesOk ev = k ∧ k ≤ m ∧
      (k = 0 →
        (fetchSomeBlocks L T D n w).2.conn.startBlockNumber = w.conn.startBlockNumber) ∧
      (0 < k →
        (fetchSomeBlocks L T D n w).2.conn.startBlockNumber =
          (w.conn.startBlockNumber + k) % u64) ∧
      (((fetchSomeBlocks L T D n w).1 = .ok () ∧ (∀ e ∈ ev, e.isFailure = false) ∧ k = m ∧
          ((m = n ∧ (fetchSomeBlocks L T D n w).2.conn.state = w.conn.state) ∨
           (m < n ∧
             w.conn.highestBlockNumber < (fetchSomeBlocks L T D n w).2.conn.startBlockNumber ∧
             (fetchSomeBlocks L T D n w).2.conn.state = cStateHighestBlock))) ∨
       ((fetchSomeBlocks L T D n w).1 = .ok () ∧
          (fetchSomeBlocks L T D n w).2.conn.state = cStateHighestBlock ∧
          ∃ e ∈ ev, e.isFailure = true) ∨
       (∃ msg, (fetchSomeBlocks L T D n w).1 = .panic msg)) := by
  intro n
  induction n with
  | zero =>
    intro w
    refine ⟨[], 0, 0, by simp [fetchSomeBlocks], rfl, Nat.le_refl 0,
      fun h => absurd h (Nat.lt_irrefl 0), fun j hj => absurd hj (Nat.not_lt_zero j),
      Nat.le_refl 0, rfl, Nat.le_refl 0, fun _ => rfl, fun h => absurd h (Nat.lt_irrefl 0),
      Or.inl ⟨rfl, by simp, rfl, Or.inl ⟨rfl, rfl⟩⟩⟩
  | succ n ih =>
    intro w
    obtain ⟨ev1, he1, hh1, hc1, hm1, hs1, hk1, hcase⟩ := fetchBlock_cases L T D w
    unfold fetchSomeBlocks
    rcases hF : fetchBlock L T D w with ⟨r, w1⟩
    rw [hF] at he1 hh1 hc1 hm1 hs1 hcase
    simp only at he1 hh1 hc1 hm1 hs1 hcase
    rcases hcase with ⟨hr, hle, hst, hstate, hsent, hsc, hso, hnf⟩ |
      ⟨hr, hlt, hev, hst, hstate⟩ |
      ⟨hr, hle, hst, hstate, hsent, hsc, hso, pre, e, hpe, hfe, hpre, hwhich⟩ |
      ⟨msg, hr, hle, hst, hsent, hsc, hso⟩
    · subst hr
      simp only
      have hst1 : w1.conn.startBlockNumber = (w.conn.startBlockNumber + 1) % u64 := hst
      obtain ⟨ev2, m2, k2, he2, hsent2, hmn, -, hall, hsc2, hso2, hkm, hz2, hp2, hcase2⟩ := ih w1
      have hshift : ∀ j, (w1.conn.startBlockNumber + j) % u64 =
          (w.conn.startBlockNumber + (j + 1)) % u64 := by
        intro j
        rw [hst1, Nat.mod_add_mod]
        congr 1
        omega
      refine ⟨ev1 ++ ev2, m2 + 1, k2 + 1, by rw [he2, he1, List.append_assoc], ?_,
        Nat.succ_le_succ hmn, fun _ => hle, ?_, ?_, ?_, Nat.succ_le_succ hkm,
        fun h => absurd h (Nat.succ_ne_zero k2), ?_, ?_⟩
      · rw [sentParameters_append, hsent, hsent2, range_succ_map_shift]
        simp only [Nat.add_zero, List.singleton_append, List.cons.injEq, true_and]
        apply List.map_congr_left
        intro j _
        rw [← PutUint64_mod (w1.conn.startBlockNumber + j), hshift, PutUint64_mod]
      · intro j hj
        cases j with
        | zero => exact Nat.le_trans (Nat.mod_le _ _) hle
        | succ j =>
          have := hall j (by omega)
          rw [hshift, hh1] at this
          exact this
      · rw [storeCalls_append, hsc]; omega
      · rw [storesOk_append, hso, hso2]; omega
      · intro _
        rcases Nat.eq_zero_or_pos k2 with hk0 | hkp
        · rw [hz2 hk0, hst1, hk0]
        · rw [hp2 hkp, hshift]
      · rcases hcase2 with ⟨ho, hnf2, hkm2, hfin⟩ | ⟨ho, hhb, e, hem, hfe⟩ | ⟨msg, ho⟩
        · refine Or.inl ⟨ho, ?_, by rw [hkm2], ?_⟩
          · intro x hx
            rcases List.mem_append.1 hx with h | h
            · exact hnf x h
            · exact hnf2 x h
          · rcases hfin with ⟨h1, h2⟩ | ⟨h1, h2, h3⟩
            · exact Or.inl ⟨by rw [h1], by rw [h2, hstate]⟩
            · exact Or.inr ⟨Nat.succ_lt_succ h1, by rw [← hh1]; exact h2, h3⟩
        · exact Or.inr (Or.inl ⟨ho, hhb, e, List.mem_append_right _ hem, hfe⟩)
        · exact Or.inr (Or.inr ⟨msg, ho⟩)
    · subst hr
      subst hev
      simp only
      refine ⟨[], 0, 0, he1, rfl, Nat.zero_le _, fun h => absurd h (Nat.lt_irrefl 0),
        fun j hj => absurd hj (Nat.not_lt_zero j), Nat.le_refl 0, rfl, Nat.le_refl 0,
        fun _ => hst, fun h => absurd h (Nat.lt_irrefl 0),
        Or.inl ⟨trivial, by simp, rfl, Or.inr ⟨Nat.succ_pos n, by rw [hst]; exact hlt, hstate⟩⟩⟩
    · subst hr
      simp only
      refine ⟨ev1, 1, 0, he1, by rw [hsent]; rfl, Nat.succ_le_succ (Nat.zero_le n),
        fun _ => hle, ?_, hsc, hso, Nat.zero_le 1, fun _ => hst,
        fun h => absurd h (Nat.lt_irrefl 0),
        Or.inr (Or.inl ⟨trivial, hstate, e, by rw [hpe]; simp, hfe⟩)⟩
      intro j hj
      have : j = 0 := by omega
      subst this
      exact Nat.le_trans (Nat.mod_le _ _) hle
    · subst hr
      simp only
      rcases hsent with ⟨hsent, hsc0⟩ | hsent
      · exact ⟨ev1, 0, 0, he1, by rw [hsent]; rfl, Nat.zero_le _,
          fun h => absurd h (Nat.lt_irrefl 0), fun j hj => absurd hj (Nat.not_lt_zero j),
          Nat.le_of_eq hsc0, hso, Nat.le_refl 0, fun _ => hst,
          fun h => absurd h (Nat.lt_irrefl 0), Or.inr (Or.inr (by simp))⟩
      · refine ⟨ev1, 1, 0, he1, by rw [hsent]; rfl, Nat.succ_le_succ (Nat.zero_le n),
          fun _ => hle, ?_, hsc, hso, Nat.zero_le 1, fun _ => hst,
          fun h => absurd h (Nat.lt_irrefl 0), Or.inr (Or.inr (by simp))⟩
        intro j hj
        have : j = 0 := by omega
        subst this
        exact Nat.le_trans (Nat.mod_le _ _) hle

/-- C16: a single process call in state FetchBlocks sends `m ≤ 500` requests
`B` and makes at most 500 calls of StoreBlock, whatever the remote tip (the
highest block number) is.  The block numbers requested are those of start,
start + 1, ..., start + m - 1 in that order, as `uint64` values (the eight bytes
sent hold `start + j` modulo two to the 64), none exceeds the remote tip, and
at the end start is its initial value plus the number of calls of StoreBlock
that succeeded, as a `uint64` value.  When the remote tip is below two to the
64 minus one, or start is more than 500 below two to the 64, no sum wraps: the
numbers requested are `start + j` and the final start is the initial value plus
the number of stored blocks. -/
theorem C16_fetch_blocks_pacing (L : Lib) (P : PeerLib) (T : Transport) (D : Database σ)
    (w : World σ) (hs : w.conn.state = cStateFetchBlocks) :
    ∃ ev m, (process L P T D w).2.events = w.events ++ ev ∧
      sentParameters "B" ev =
        (List.range m).map (fun j => [PutUint64 (w.conn.startBlockNumber + j)]) ∧
      (sentParameters "B" ev).map (List.map Uint64) =
        (List.range m).map (fun j => [(w.conn.startBlockNumber + j) % u64]) ∧
      m ≤ 500 ∧ storeCalls ev ≤ 500 ∧
      (∀ j, j < m → (w.conn.startBlockNumber + j) % u64 ≤ w.conn.highestBlockNumber) ∧
      (process L P T D w).2.conn.startBlockNumber % u64 =
        (w.conn.startBlockNumber + storesOk ev) % u64 ∧
      ((w.conn.highestBlockNumber + 1 < u64 ∨ w.conn.startBlockNumber + 500 < u64) →
        (sentParameters "B" ev).map (List.map Uint64) =
          (List.range m).map (fun j => [w.conn.startBlockNumber + j]) ∧
        (∀ j, j < m → w.conn.startBlockNumber + j ≤ w.conn.highestBlockNumber) ∧
        (process L P T D w).2.conn.startBlockNumber =
          w.conn.startBlockNumber + storesOk ev) := by
  rw [(process_eq L P T D w).2.2.2.1 hs]
  unfold processFetchBlocks
  obtain ⟨ev, m, k, he, hsent, hmn, hpos, hall, hsc, hso, hkm, hz, hp, -⟩ :=
    fetchSomeBlocks_wrap L T D fetchBlocksPerCycle w
  have hm : m ≤ 500 := hmn
  have hmapped : (sentParameters "B" ev).map (List.map Uint64) =
      (List.range m).map (fun j => [(w.conn.startBlockNumber + j) % u64]) := by
    rw [hsent, List.map_map]
    apply List.map_congr_left
    intro j _
    simp only [Function.comp, List.map]
    rw [Uint64_PutUint64_mod]
  have hfinal : (fetchSomeBlocks L T D fetchBlocksPerCycle w).2.conn.startBlockNumber % u64 =
      (w.conn.startBlockNumber + storesOk ev) % u64 := by
    rw [hso]
    rcases Nat.eq_zero_or_pos k with hk0 | hkp
    · rw [hz hk0, hk0, Nat.add_zero]
    · rw [hp hkp, Nat.mod_mod]
  refine ⟨ev, m, he, hsent, hmapped, hm, Nat.le_trans hsc hm, hall, hfinal, ?_⟩
  intro hcond
  have hsmall : ∀ j, j < m → w.conn.startBlockNumber + j < u64 ∧
      w.conn.startBlockNumber + j ≤ w.conn.highestBlockNumber := by
    intro j
    induction j with
    | zero =>
      intro hj
      have h0 := hpos hj
      have h1 := hall 0 hj
      rcases hcond with hc | hc
      · exact ⟨by omega, h0⟩
      · exact ⟨by omega, h0⟩
    | succ j ih =>
      intro hj
      obtain ⟨ih1, ih2⟩ := ih (by omega)
      have h1 := hall (j + 1) hj
      have hlt : w.conn.startBlockNumber + (j + 1) < u64 := by
        rcases hcond with hc | hc
        · omega
        · omega
      rw [Nat.mod_eq_of_lt hlt] at h1
      exact ⟨hlt, h1⟩
  refine ⟨?_, fun j hj => (hsmall j hj).2, ?_⟩
  · rw [hmapped]
    apply List.map_congr_left
    intro j hj
    rw [Nat.mod_eq_of_lt (hsmall j (List.mem_range.1 hj)).1]
  · rw [hso]
    rcases Nat.eq_zero_or_pos k with hk0 | hkp
    · rw [hz hk0, hk0, Nat.add_zero]
    · rw [hp hkp]
      apply Nat.mod_eq_of_lt
      have h1 := (hsmall (k - 1) (by omega)).1
      have h2 := (hsmall (k - 1) (by omega)).2
      rcases hcond with hc | hc
      · omega
      · omega

/-- C17 (amended): at the end of an error-free process call in state
FetchBlocks, for a remote tip below two to the 64 minus one: the state is still
FetchBlocks if 500 or more blocks remained to fetch at the beginning (then
start has advanced by 500, which is past the remote tip when exactly 500
remained), and it is HighestBlock, with start past the remote tip, if fewer
than 500 remained.  For the remote tip two to the 64 minus one no start is past
the tip: the call makes 500 rounds, the state is still FetchBlocks and start
has advanced by 500 modulo two to the 64. -/
theorem C17_fetch_blocks_completion_amended (L : Lib) (P : PeerLib) (T : Transport)
    (D : Database σ) (w : World σ) (hs : w.conn.state = cStateFetchBlocks)
    (ev : List Event)
    (hev : (process L P T D w).2.events = w.events ++ ev)
    (hok : (process L P T D w).1 = .ok ()) (hnf : ∀ e ∈ ev, e.isFailure = false) :
    (w.conn.highestBlockNumber + 1 < u64 →
      (w.conn.startBlockNumber + 500 ≤ w.conn.highestBlockNumber + 1 →
        (process L P T D w).2.conn.state = cStateFetchBlocks ∧
        (process L P T D w).2.conn.startBlockNumber = w.conn.startBlockNumber + 500) ∧
      (w.conn.highestBlockNumber + 1 < w.conn.startBlockNumber + 500 →
        (process L P T D w).2.conn.state = cStateHighestBlock ∧
        (process L P T D w).2.conn.startBlockNumber =
          max w.conn.startBlockNumber (w.conn.highestBlockNumber + 1) ∧
        w.conn.highestBlockNumber < (process L P T D w).2.conn.startBlockNumber)) ∧
    (u64 ≤ w.conn.highestBlockNumber + 1 →
      (w.conn.startBlockNumber ≤ w.conn.highestBlockNumber →
        (process L P T D w).2.conn.state = cStateFetchBlocks ∧
        (process L P T D w).2.conn.startBlockNumber = (w.conn.startBlockNumber + 500) % u64 ∧
        storesOk ev = 500) ∧
      (w.conn.highestBlockNumber < w.conn.startBlockNumber →
        (process L P T D w).2.conn.state = cStateHighestBlock ∧
        (process L P T D w).2.conn.startBlockNumber = w.conn.startBlockNumber)) := by
  rw [(process_eq L P T D w).2.2.2.1 hs] at hev hok ⊢
  unfold processFetchBlocks at hev hok ⊢
  obtain ⟨ev2, m, k, he, -, hmn, hpos, hall, -, hso, -, hz, hp, hcase⟩ :=
    fetchSomeBlocks_wrap L T D fetchBlocksPerCycle w
  have hevs : ev2 = ev := List.append_cancel_left (he.symm.trans hev)
  subst hevs
  have h500 : fetchBlocksPerCycle = 500 := rfl
  have hu : 0 < u64 := by unfold u64; norm_num
  rcases hcase with ⟨-, -, hkm, hfin⟩ | ⟨-, -, e, hem, hfe⟩ | ⟨msg, hpn⟩
  · subst hkm
    refine ⟨fun hb => ?_, fun hb => ?_⟩
    · have hsmall : ∀ j, j < k → w.conn.startBlockNumber + j ≤ w.conn.highestBlockNumber := by
        intro j
        induction j with
        | zero => exact fun hj => hpos hj
        | succ j ih =>
          intro hj
          have ih1 := ih (by omega)
          have h1 := hall (j + 1) hj
          rw [Nat.mod_eq_of_lt (by omega)] at h1
          exact h1
      have hfinal : (fetchSomeBlocks L T D fetchBlocksPerCycle w).2.conn.startBlockNumber =
          w.conn.startBlockNumber + k := by
        rcases Nat.eq_zero_or_pos k with hk0 | hkp
        · rw [hz hk0, hk0, Nat.add_zero]
        · rw [hp hkp]
          apply Nat.mod_eq_of_lt
          have := hsmall (k - 1) (by omega)
          omega
      rw [hfinal]
      rcases hfin with ⟨h1, h2⟩ | ⟨h1, h2, h3⟩
      · rw [h500] at h1
        subst h1
        have h499 := hsmall 499 (by omega)
        exact ⟨fun _ => ⟨by rw [h2, hs], rfl⟩, fun h => absurd h (by omega)⟩
      · rw [h500] at h1
        rw [hfinal] at h2
        refine ⟨fun h => absurd h (by omega), fun _ => ⟨h3, ?_, h2⟩⟩
        cases k with
        | zero =>
          rw [Nat.add_zero] at h2 ⊢
          rw [Nat.max_eq_left (by omega)]
        | succ k =>
          have := hsmall k (by omega)
          rw [Nat.max_eq_right (by omega)]
          omega
    · rcases hfin with ⟨h1, h2⟩ | ⟨h1, h2, h3⟩
      · rw [h500] at h1
        subst h1
        refine ⟨fun _ => ⟨by rw [h2, hs], hp (by omega), hso⟩, fun h => ?_⟩
        have := hpos (by omega)
        omega
      · rcases Nat.eq_zero_or_pos k with hk0 | hkp
        · rw [hz hk0] at h2 ⊢
          exact ⟨fun h => absurd h (by omega), fun _ => ⟨h3, rfl⟩⟩
        · rw [hp hkp] at h2
          have := Nat.mod_lt (w.conn.startBlockNumber + k) hu
          omega
  · have := hnf e hem
    rw [this] at hfe
    cases hfe
  · rw [hpn] at hok
    cases hok

/-- Witness for C16: the cycle from start 9 with remote tip 10. -/
theorem C16_fetch_blocks_pacing_witness :
    ∃ ev m, (process demoLib demoPeerLib (demoForkPeer 12) (specDatabase noFaults)
        demoFetchTwo).2.events = demoFetchTwo.events ++ ev ∧
      sentParameters "B" ev =
        (List.range m).map (fun j => [PutUint64 (demoFetchTwo.conn.startBlockNumber + j)]) ∧
      (sentParameters "B" ev).map (List.map Uint64) =
        (List.range m).map (fun j => [(demoFetchTwo.conn.startBlockNumber + j) % u64]) ∧
      m ≤ 500 ∧ storeCalls ev ≤ 500 ∧
      (∀ j, j < m →
        (demoFetchTwo.conn.startBlockNumber + j) % u64 ≤
          demoFetchTwo.conn.highestBlockNumber) ∧
      (process demoLib demoPeerLib (demoForkPeer 12) (specDatabase noFaults)
        demoFetchTwo).2.conn.startBlockNumber % u64
          = (demoFetchTwo.conn.startBlockNumber + storesOk ev) % u64 ∧
      ((demoFetchTwo.conn.highestBlockNumber + 1 < u64 ∨
          demoFetchTwo.conn.startBlockNumber + 500 < u64) →
        (sentParameters "B" ev).map (List.map Uint64) =
          (List.range m).map (fun j => [demoFetchTwo.conn.startBlockNumber + j]) ∧
        (∀ j, j < m →
          demoFetchTwo.conn.startBlockNumber + j ≤ demoFetchTwo.conn.highestBlockNumber) ∧
        (process demoLib demoPeerLib (demoForkPeer 12) (specDatabase noFaults)
          demoFetchTwo).2.conn.startBlockNumber =
            demoFetchTwo.conn.startBlockNumber + storesOk ev) :=
  C16_fetch_blocks_pacing demoLib demoPeerLib (demoForkPeer 12) (specDatabase noFaults)
    demoFetchTwo rfl

/-- The outcome, the state and the start after a process call on
`demoFetchMax`. -/
theorem demoFetchMax_result :
    ((process demoWideLib demoPeerLib demoWidePeer heightDatabase demoFetchMax).1,
     (process demoWideLib demoPeerLib demoWidePeer heightDatabase demoFetchMax).2.conn.state,
     (process demoWideLib demoPeerLib demoWidePeer heightDatabase
        demoFetchMax).2.conn.startBlockNumber)
      = (.ok (), cStateFetchBlocks, 509) := by
  decide!

/-- The process call on `demoFetchMax` returns normally and meets no
failure. -/
theorem demoFetchMax_clean :
    (process demoWideLib demoPeerLib demoWidePeer heightDatabase demoFetchMax).1 = .ok () ∧
    ∃ ev, (process demoWideLib demoPeerLib demoWidePeer heightDatabase demoFetchMax).2.events =
        demoFetchMax.events ++ ev ∧ ∀ e ∈ ev, e.isFailure = false := by
  have key := demoFetchMax_result
  simp only [Prod.mk.injEq] at key
  obtain ⟨k1, k2, -⟩ := key
  refine ⟨k1, ?_⟩
  have hp := (process_eq demoWideLib demoPeerLib demoWidePeer heightDatabase
    demoFetchMax).2.2.2.1 rfl
  obtain ⟨ev, m, k, he, -, -, -, -, -, -, -, -, -, hcase⟩ :=
    fetchSomeBlocks_wrap demoWideLib demoWidePeer heightDatabase fetchBlocksPerCycle
      demoFetchMax
  rw [hp] at k1 k2 ⊢
  unfold processFetchBlocks at k1 k2 ⊢
  refine ⟨ev, he, ?_⟩
  rcases hcase with ⟨-, hnf, -, -⟩ | ⟨-, hst, -⟩ | ⟨msg, hpn⟩
  · exact hnf
  · rw [k2] at hst
    cases hst
  · rw [hpn] at k1
    cases k1

/-- Witness for C17 (amended): from start 9 with remote tip 10 two blocks
remain, and the error-free cycle ends in HighestBlock with start 11; from start
9 with the remote tip two to the 64 minus one the error-free cycle stores 500
blocks and ends in FetchBlocks with start 509. -/
theorem C17_fetch_blocks_completion_amended_witness :
    ((process demoLib demoPeerLib (demoForkPeer 12) (specDatabase noFaults)
        demoFetchTwo).2.conn.state = cStateHighestBlock ∧
      (process demoLib demoPeerLib (demoForkPeer 12) (specDatabase noFaults)
        demoFetchTwo).2.conn.startBlockNumber = max 9 (10 + 1) ∧
      10 < (process demoLib demoPeerLib (demoForkPeer 12) (specDatabase noFaults)
        demoFetchTwo).2.conn.startBlockNumber) ∧
    u64 ≤ demoFetchMax.conn.highestBlockNumber + 1 ∧
    (process demoWideLib demoPeerLib demoWidePeer heightDatabase demoFetchMax).2.conn.state =
      cStateFetchBlocks ∧
    (process demoWideLib demoPeerLib demoWidePeer heightDatabase
      demoFetchMax).2.conn.startBlockNumber = (9 + 500) % u64 :=
  ⟨((C17_fetch_blocks_completion_amended demoLib demoPeerLib (demoForkPeer 12)
      (specDatabase noFaults) demoFetchTwo rfl
      (process demoLib demoPeerLib (demoForkPeer 12) (specDatabase noFaults)
        demoFetchTwo).2.events
      rfl (by decide) (by decide)).1 (by decide)).2 (by decide),
   by decide,
   match demoFetchMax_clean with
   | ⟨hok, ev, he, hnf⟩ =>
     match ((C17_fetch_blocks_completion_amended demoWideLib demoPeerLib demoWidePeer
       heightDatabase demoFetchMax rfl ev he hok hnf).2 (by decide)).1 (by decide) with
     | ⟨h1, h2, _⟩ => ⟨h1, h2⟩⟩

/-- The outcome, the state and the start after a process call on
`demoFetchWorld`. -/
theorem demoFetchWorld_result :
    ((process demoWideLib demoPeerLib demoWidePeer heightDatabase demoFetchWorld).1,
     (process demoWideLib demoPeerLib demoWidePeer heightDatabase demoFetchWorld).2.conn.state,
     (process demoWideLib demoPeerLib demoWidePeer heightDatabase
        demoFetchWorld).2.conn.startBlockNumber)
      = (.ok (), cStateFetchBlocks, 509) := by
  decide!

/-- C17, counterexample: with local tip 8, start 9 and remote tip 508 exactly
500 blocks remain to fetch.  The process call fetches and stores all of them
without an error and ends with start 509 above the remote tip 508, but the
state is still FetchBlocks, not HighestBlock. -/
theorem C17_exactly_500_counterexample :
    demoFetchWorld.conn.state = cStateFetchBlocks ∧
    demoFetchWorld.conn.highestBlockNumber + 1 = demoFetchWorld.conn.startBlockNumber + 500 ∧
    (process demoWideLib demoPeerLib demoWidePeer heightDatabase demoFetchWorld).1 = .ok () ∧
    (∀ e ∈ (process demoWideLib demoPeerLib demoWidePeer heightDatabase
        demoFetchWorld).2.events, e.isFailure = false) ∧
    (process demoWideLib demoPeerLib demoWidePeer heightDatabase
        demoFetchWorld).2.conn.highestBlockNumber
      < (process demoWideLib demoPeerLib demoWidePeer heightDatabase
        demoFetchWorld).2.conn.startBlockNumber ∧
    (process demoWideLib demoPeerLib demoWidePeer heightDatabase
        demoFetchWorld).2.conn.state ≠ cStateHighestBlock := by
  have key := demoFetchWorld_result
  simp only [Prod.mk.injEq] at key
  obtain ⟨k1, k2, k3⟩ := key
  have hp := (process_eq demoWideLib demoPeerLib demoWidePeer heightDatabase
    demoFetchWorld).2.2.2.1 rfl
  obtain ⟨ev, m, k, he, hh, -, -, -, -, -, -, -, -, -, -, -, hcase⟩ :=
    fetchSomeBlocks_run demoWideLib demoWidePeer heightDatabase fetchBlocksPerCycle
      demoFetchWorld (by decide)
  rw [hp] at k1 k2 k3 ⊢
  unfold processFetchBlocks at k1 k2 k3 ⊢
  refine ⟨rfl, rfl, k1, ?_, ?_, ?_⟩
  · rcases hcase with ⟨-, hnf, -, -⟩ | ⟨-, hst, -⟩ | ⟨msg, hpn⟩
    · have he2 : (fetchSomeBlocks demoWideLib demoWidePeer heightDatabase fetchBlocksPerCycle
          demoFetchWorld).2.events = ev := by
        rw [he]
        rfl
      rw [he2]
      exact hnf
    · rw [k2] at hst
      cases hst
    · rw [hpn] at k1
      cases k1
  · rw [hh, k3]
    decide
  · rw [k2]
    decide

/-- One round of the loop `fetch_some_blocks` leaves the state as it is or sets
it to HighestBlock. -/
theorem fetchBlock_state (L : Lib) (T : Transport) (D : Database σ) (w : World σ) :
    (fetchBlock L T D w).2.conn.state = w.conn.state ∨
      (fetchBlock L T D w).2.conn.state = cStateHighestBlock := by
  unfold fetchBlock
  split
  · exact Or.inr rfl
  · obtain ⟨evc, w1, hw1, hops, -⟩ :=
      callBlockData_cases T w.conn.theClient w.conn.startBlockNumber w
    obtain ⟨-, -, -, -, hstate, -⟩ := hops
    rcases hB : callBlockData T w.conn.theClient w.conn.startBlockNumber w with ⟨r, wb⟩
    rw [hB] at hw1
    simp only at hw1
    subst hw1
    cases r with
    | panic m => exact Or.inl (by simpa [logEvent] using hstate)
    | err e => exact Or.inr rfl
    | ok packedBlock =>
      simp only [callStoreBlock]
      rcases hS : StoreBlock L D packedBlock
          (logEvent (Event.blockData w.conn.startBlockNumber (outcomeOk (Outcome.ok packedBlock)))
            w1).store with ⟨r2, g2⟩
      cases r2 with
      | panic m => exact Or.inl (by simpa [logEvent] using hstate)
      | err e => exact Or.inr rfl
      | ok u => exact Or.inl (by simpa [logEvent] using hstate)

/-- One round of the loop `check_digests` leaves the state as it is or sets it
to HighestBlock. -/
theorem checkDigest_state (L : Lib) (P : PeerLib) (T : Transport) (D : Database σ) (h : Nat)
    (w : World σ) :
    (checkDigest L P T D h w).2.conn.state = w.conn.state ∨
      (checkDigest L P T D h w).2.conn.state = cStateHighestBlock := by
  unfold checkDigest
  have hc0 : (callDigestForBlock L D h w).2.conn = w.conn := rfl
  rcases hD : callDigestForBlock L D h w with ⟨r, w0⟩
  rw [hD] at hc0
  simp only at hc0
  cases r with
  | error e => exact Or.inr rfl
  | ok digest =>
    simp only
    obtain ⟨evc, w1, hw1, hops⟩ := callBlockDigest_cases P T w0.conn.theClient h w0
    obtain ⟨-, -, -, -, hstate, -⟩ := hops
    rw [hc0] at hstate
    rcases hB : callBlockDigest P T w0.conn.theClient h w0 with ⟨r2, wb⟩
    rw [hB] at hw1
    simp only at hw1
    subst hw1
    cases r2 with
    | panic m2 => exact Or.inl (by simpa [logEvent] using hstate)
    | err e => exact Or.inr rfl
    | ok remoteDigest =>
      simp only
      split
      · simp only [callDeleteDownToBlock]
        split
        · exact Or.inr rfl
        · rename_i heq
          have := congrArg (fun x => x.2.conn.state) heq
          simp only [logEvent] at this
          rw [← this]
          exact Or.inl hstate
      · exact Or.inl (by simpa [logEvent] using hstate)

/-- The loop `fetch_some_blocks` writes no mode and makes no call of a fork
detection, and it leaves the state as it is or sets it to HighestBlock. -/
theorem fetchSomeBlocks_frame (L : Lib) (T : Transport) (D : Database σ) :
    ∀ (n : Nat) (w : World σ),
    ∃ ev, (fetchSomeBlocks L T D n w).2.events = w.events ++ ev ∧
      (fetchSomeBlocks L T D n w).2.mode = w.mode ∧
      (∀ e ∈ ev, e.isModeSet = false ∧ e.isForkOp = false) ∧
      ((fetchSomeBlocks L T D n w).2.conn.state = w.conn.state ∨
        (fetchSomeBlocks L T D n w).2.conn.state = cStateHighestBlock) := by
  intro n
  induction n with
  | zero => intro w; exact ⟨[], by simp [fetchSomeBlocks], rfl, by simp, Or.inl rfl⟩
  | succ n ih =>
    intro w
    obtain ⟨ev1, he1, -, -, hm1, -, hk1, hcase⟩ := fetchBlock_cases L T D w
    unfold fetchSomeBlocks
    rcases hF : fetchBlock L T D w with ⟨r, w1⟩
    rw [hF] at he1 hm1 hcase
    simp only at he1 hm1 hcase
    rcases hcase with ⟨hr, -, -, hstate, -⟩ | ⟨hr, -, -, -, hstate⟩ |
      ⟨hr, -, -, hstate, -⟩ | ⟨msg, hr, -⟩
    · subst hr
      simp only
      obtain ⟨ev2, he2, hm2, hk2, hst2⟩ := ih w1
      refine ⟨ev1 ++ ev2, by rw [he2, he1, List.append_assoc], by rw [hm2, hm1], ?_, ?_⟩
      · intro x hx
        rcases List.mem_append.1 hx with h | h
        · exact hk1 x h
        · exact hk2 x h
      · rw [hstate] at hst2
        exact hst2
    · subst hr
      exact ⟨ev1, he1, hm1, hk1, Or.inr hstate⟩
    · subst hr
      exact ⟨ev1, he1, hm1, hk1, Or.inr hstate⟩
    · subst hr
      have hstate : w1.conn.state = w.conn.state ∨ w1.conn.state = cStateHighestBlock := by
        have h2 := fetchBlock_state L T D w
        rw [hF] at h2
        exact h2
      exact ⟨ev1, he1, hm1, hk1, hstate⟩

/-- The loop `check_digests` leaves the state as it is or sets it to
HighestBlock. -/
theorem checkDigests_state (L : Lib) (P : PeerLib) (T : Transport) (D : Database σ) :
    ∀ (h : Nat) (w : World σ),
      (checkDigests L P T D h w).2.conn.state = w.conn.state ∨
        (checkDigests L P T D h w).2.conn.state = cStateHighestBlock := by
  intro h
  induction h with
  | zero => intro w; exact Or.inl rfl
  | succ h ih =>
    intro w
    unfold checkDigests
    split
    · have h1 := checkDigest_state L P T D (h + 1) w
      rcases hF : checkDigest L P T D (h + 1) w with ⟨r, w1⟩
      rw [hF] at h1
      simp only at h1
      cases r with
      | ok b =>
        cases b with
        | true =>
          simp only
          rcases ih w1 with h2 | h2
          · rcases h1 with h1 | h1
            · exact Or.inl (h2.trans h1)
            · exact Or.inr (h2.trans h1)
          · exact Or.inr h2
        | false => exact h1
      | err e => exact h1
      | panic m => exact h1
    · exact Or.inl rfl

/-- What a process call in a state other than Rebuild adds to the events holds
no write of the mode Normal, and the call does not end in state Rebuild unless
it is a fork detection that found the remote tip not above the local tip and
then did nothing else. -/
theorem process_summary (L : Lib) (P : PeerLib) (T : Transport) (D : Database σ)
    (w : World σ) (hne : w.conn.state ≠ cStateRebuild) :
    ∃ ev, (process L P T D w).2.events = w.events ++ ev ∧
      Event.modeSet Mode.Normal ∉ ev ∧
      ((process L P T D w).2.conn.state = cStateRebuild →
        w.conn.state = cStateForkDetect ∧
        ∃ h, (GetBlockHeight L D w.store).1 = .ok h ∧ w.conn.highestBlockNumber ≤ h ∧
          ev = [Event.getBlockHeight]) := by
  have hstates : w.conn.state = cStateConnecting ∨ w.conn.state = cStateHighestBlock ∨
      w.conn.state = cStateForkDetect ∨ w.conn.state = cStateFetchBlocks ∨
      w.conn.state = cStateSampling ∨ 5 < w.conn.state := by
    have key : ∀ s : Nat, s ≠ 4 → s = 0 ∨ s = 1 ∨ s = 2 ∨ s = 3 ∨ s = 5 ∨ 5 < s := by
      intro s hs
      omega
    exact key w.conn.state hne
  have hnum : ∀ a b : Nat, a = b → b ≠ 4 → a = cStateRebuild → False := by
    intro a b hab hb ha
    rw [hab] at ha
    exact hb ha
  rcases hstates with hs | hs | hs | hs | hs | hs
  · -- Connecting
    rw [(process_eq L P T D w).1 hs]
    unfold processConnecting
    obtain ⟨evc, he, hk, -, -, hstate, -⟩ := checkNodes_clientOps P T (modeSet .Resynchronise w)
    rcases hC : checkNodes P T (modeSet .Resynchronise w) with ⟨r, w1⟩
    rw [hC] at he hstate
    simp only [modeSet] at he hstate
    have hmem : Event.modeSet Mode.Normal ∉ Event.modeSet Mode.Resynchronise :: evc := by
      intro hm
      rcases List.mem_cons.1 hm with h | h
      · cases h
      · have := hk _ h
        cases this
    cases r with
    | ok u =>
      refine ⟨Event.modeSet Mode.Resynchronise :: evc, by simp [setState, he], hmem, ?_⟩
      intro h4
      simp only [setState, hstate, hs] at h4
      cases h4
    | err e =>
      refine ⟨Event.modeSet Mode.Resynchronise :: evc, by simp [he], hmem, ?_⟩
      intro h4
      simp only [hstate, hs] at h4
      cases h4
    | panic m =>
      refine ⟨Event.modeSet Mode.Resynchronise :: evc, by simp [he], hmem, ?_⟩
      intro h4
      simp only [hstate, hs] at h4
      cases h4
  · -- HighestBlock
    rw [(process_eq L P T D w).2.1 hs]
    unfold processHighestBlock
    obtain ⟨evc, he, hk, -, -, hstate, -⟩ := highestBlock_clientOps T w
    rcases hC : highestBlock T w with ⟨⟨h, c⟩, w1⟩
    rw [hC] at he hstate
    simp only at he hstate ⊢
    have hmem : Event.modeSet Mode.Normal ∉ evc := by
      intro hm
      have := hk _ hm
      cases this
    split
    · refine ⟨evc, by simp [setState, he], hmem, ?_⟩
      intro h4
      simp only [setState, hstate, hs] at h4
      cases h4
    · refine ⟨evc, he, hmem, ?_⟩
      intro h4
      simp only [hstate, hs] at h4
      cases h4
  · -- ForkDetect
    rw [(process_eq L P T D w).2.2.1 hs]
    unfold processForkDetect
    obtain ⟨hr, hconn, -, hev⟩ := callGetBlockHeight_eq L D w
    rcases hC : callGetBlockHeight L D w with ⟨r, w1⟩
    rw [hC] at hr hconn hev
    simp only at hr hconn hev
    cases r with
    | error e =>
      refine ⟨[Event.getBlockHeight], hev, by simp, ?_⟩
      intro h4
      simp only [hconn, hs] at h4
      cases h4
    | ok h =>
      simp only
      split
      · rename_i hle
        rw [hconn] at hle
        exact ⟨[Event.getBlockHeight], by simp [setState, hev], by simp,
          fun _ => ⟨hs, h, hr.symm, hle, rfl⟩⟩
      · generalize hw2 : ({ w1 with conn := { w1.conn with
              startBlockNumber := addU64 L.genesisBlockNumber 1,
              state := w1.conn.state + 1 } } : World σ) = w2
        have hw2e : w2.events = w1.events := by rw [← hw2]
        have hw2s : w2.conn.state = w1.conn.state + 1 := by rw [← hw2]
        obtain ⟨ev2, he2, -, -, -, -, hk2, -⟩ := checkDigests_run L P T D h w2
        have hst2 := checkDigests_state L P T D h w2
        rw [hw2s, hconn, hs] at hst2
        refine ⟨Event.getBlockHeight :: ev2, by rw [he2, hw2e, hev]; simp, ?_, ?_⟩
        · intro hm
          rcases List.mem_cons.1 hm with h | h
          · cases h
          · have := (hk2 _ h).1
            cases this
        · intro h4
          rcases hst2 with h5 | h5
          · rw [h5] at h4; cases h4
          · rw [h5] at h4; cases h4
  · -- FetchBlocks
    rw [(process_eq L P T D w).2.2.2.1 hs]
    unfold processFetchBlocks
    obtain ⟨ev, he, -, hk, hst⟩ := fetchSomeBlocks_frame L T D fetchBlocksPerCycle w
    refine ⟨ev, he, ?_, ?_⟩
    · intro hm
      have := (hk _ hm).1
      cases this
    · intro h4
      rcases hst with h5 | h5
      · rw [h5, hs] at h4; cases h4
      · rw [h5] at h4; cases h4
  · -- Sampling
    rw [(process_eq L P T D w).2.2.2.2.2.1 hs]
    unfold processSampling
    obtain ⟨evc, he, hk, -, -, hstate, -⟩ := highestBlock_clientOps T w
    rcases hC : highestBlock T w with ⟨⟨r, c⟩, w1⟩
    rw [hC] at he hstate
    simp only at he hstate ⊢
    have hmem : Event.modeSet Mode.Normal ∉ evc := by
      intro hm
      have := hk _ hm
      cases this
    split
    · refine ⟨evc, by simp [setState, he], hmem, ?_⟩
      intro h4
      cases h4
    · obtain ⟨-, hconn, -, hev⟩ := callGetBlockHeight_eq L D
        ({ w1 with conn := { w1.conn with highestBlockNumber := r, theClient := c } } : World σ)
      rcases hG : callGetBlockHeight L D
        ({ w1 with conn := { w1.conn with highestBlockNumber := r, theClient := c } } : World σ)
        with ⟨r2, w3⟩
      rw [hG] at hconn hev
      simp only at hconn hev
      have hmem2 : Event.modeSet Mode.Normal ∉ evc ++ [Event.getBlockHeight] := by
        intro hm
        rcases List.mem_append.1 hm with h | h
        · exact hmem h
        · simp at h
      have hev2 : w3.events = w.events ++ (evc ++ [Event.getBlockHeight]) := by
        rw [hev, he, List.append_assoc]
      have hst3 : w3.conn.state = cStateSampling := by
        rw [hconn]
        simp only [hstate, hs]
      cases r2 with
      | error e =>
        refine ⟨_, hev2, hmem2, ?_⟩
        intro h4
        rw [hst3] at h4
        cases h4
      | ok height =>
        simp only
        refine ⟨_, ?_, hmem2, ?_⟩
        · split
          · split
            · simpa [setState] using hev2
            · split
              · simpa [setState] using hev2
              · simpa using hev2
          · exact hev2
        · intro h4
          revert h4
          split
          · split
            · intro h4; cases h4
            · split
              · intro h4; cases h4
              · simp only [hst3]
                intro h4; cases h4
          · rw [hst3]
            intro h4; cases h4
  · -- no state of the machine
    rw [(process_eq L P T D w).2.2.2.2.2.2 hs]
    refine ⟨[], by simp, by simp, ?_⟩
    intro h4
    simp only at h4
    rw [h4] at hs
    exact absurd hs (by decide)

/-- C19: the only connector step that writes Mode = Normal is Rebuild, which
also moves to Sampling and resets samples to 0; and the state Rebuild is
entered only by a ForkDetect step that observed the remote tip not above the
local tip, in which case that step reads the local height and does nothing
else: no digest comparison and no delete. -/
theorem C19_mode_normal_only_in_rebuild (L : Lib) (P : PeerLib) (T : Transport)
    (D : Database σ) (w : World σ) :
    (∀ ev, (process L P T D w).2.events = w.events ++ ev →
      Event.modeSet Mode.Normal ∈ ev → w.conn.state = cStateRebuild) ∧
    (w.conn.state = cStateRebuild →
      (process L P T D w).1 = .ok () ∧
      (process L P T D w).2.events = w.events ++ [Event.modeSet Mode.Normal] ∧
      (process L P T D w).2.mode = Mode.Normal ∧
      (process L P T D w).2.conn.state = cStateSampling ∧
      (process L P T D w).2.conn.samples = 0) ∧
    ((process L P T D w).2.conn.state = cStateRebuild →
      w.conn.state = cStateForkDetect ∧
      ∃ h, (GetBlockHeight L D w.store).1 = .ok h ∧ w.conn.highestBlockNumber ≤ h ∧
        (process L P T D w).2.events = w.events ++ [Event.getBlockHeight]) := by
  have hreb : w.conn.state = cStateRebuild →
      (process L P T D w).1 = .ok () ∧
      (process L P T D w).2.events = w.events ++ [Event.modeSet Mode.Normal] ∧
      (process L P T D w).2.mode = Mode.Normal ∧
      (process L P T D w).2.conn.state = cStateSampling ∧
      (process L P T D w).2.conn.samples = 0 := by
    intro hs
    rw [(process_eq L P T D w).2.2.2.2.1 hs]
    simp [processRebuild, modeSet, hs, cStateRebuild, cStateSampling]
  refine ⟨?_, hreb, ?_⟩
  · intro ev hev hm
    by_contra hne
    obtain ⟨ev2, he2, hno, -⟩ := process_summary L P T D w hne
    have : ev2 = ev := List.append_cancel_left (he2.symm.trans hev)
    subst this
    exact hno hm
  · intro h4
    by_cases hne : w.conn.state = cStateRebuild
    · rw [(hreb hne).2.2.2.1] at h4
      cases h4
    · obtain ⟨ev2, he2, -, hent⟩ := process_summary L P T D w hne
      obtain ⟨hs, h, hh, hle, hev⟩ := hent h4
      exact ⟨hs, h, hh, hle, by rw [he2, hev]⟩

/-- The loop `fetch_some_blocks` and its first failure: either no call fails,
or the call that fails is the last event, the state is HighestBlock and start
is the number of the block whose request or store failed, or the loop
panics. -/
theorem fetchSomeBlocks_failure (L : Lib) (T : Transport) (D : Database σ) :
    ∀ (n : Nat) (w : World σ),
    ∃ ev, (fetchSomeBlocks L T D n w).2.events = w.events ++ ev ∧
      ((∀ e ∈ ev, e.isFailure = false) ∨
       ((fetchSomeBlocks L T D n w).1 = .ok () ∧
          (fetchSomeBlocks L T D n w).2.conn.state = cStateHighestBlock ∧
          ∃ pre e, ev = pre ++ [e] ∧ e.isFailure = true ∧ (∀ x ∈ pre, x.isFailure = false) ∧
            (e = Event.blockData (fetchSomeBlocks L T D n w).2.conn.startBlockNumber false ∨
              ∃ p pre2, e = Event.storeBlock p false ∧
                pre = pre2 ++
                  [Event.blockData (fetchSomeBlocks L T D n w).2.conn.startBlockNumber true])) ∨
       (∃ msg, (fetchSomeBlocks L T D n w).1 = .panic msg)) := by
  intro n
  induction n with
  | zero =>
    intro w
    exact ⟨[], by simp [fetchSomeBlocks], Or.inl (by simp)⟩
  | succ n ih =>
    intro w
    obtain ⟨ev1, he1, -, -, -, -, -, hcase⟩ := fetchBlock_cases L T D w
    unfold fetchSomeBlocks
    rcases hF : fetchBlock L T D w with ⟨r, w1⟩
    rw [hF] at he1 hcase
    simp only at he1 hcase
    rcases hcase with ⟨hr, -, -, -, -, -, -, hnf⟩ | ⟨hr, -, hev, -, -⟩ |
      ⟨hr, -, hst, hstate, -, -, -, pre, e, hpe, hfe, hpre, hwhich⟩ | ⟨msg, hr, -⟩
    · subst hr
      simp only
      obtain ⟨ev2, he2, hcase2⟩ := ih w1
      refine ⟨ev1 ++ ev2, by rw [he2, he1, List.append_assoc], ?_⟩
      rcases hcase2 with hnf2 | ⟨ho, hhb, pre, e, hpe, hfe, hpre, hwhich⟩ | ⟨msg, ho⟩
      · left
        intro x hx
        rcases List.mem_append.1 hx with h | h
        · exact hnf x h
        · exact hnf2 x h
      · refine Or.inr (Or.inl ⟨ho, hhb, ev1 ++ pre, e, by rw [hpe, List.append_assoc], hfe,
          ?_, ?_⟩)
        · intro x hx
          rcases List.mem_append.1 hx with h | h
          · exact hnf x h
          · exact hpre x h
        · rcases hwhich with h | ⟨p, pre2, h1, h2⟩
          · exact Or.inl h
          · exact Or.inr ⟨p, ev1 ++ pre2, h1, by rw [h2, List.append_assoc]⟩
      · exact Or.inr (Or.inr ⟨msg, ho⟩)
    · subst hr
      subst hev
      exact ⟨[], he1, Or.inl (by simp)⟩
    · subst hr
      simp only
      refine ⟨ev1, he1, Or.inr (Or.inl ⟨trivial, hstate, pre, e, hpe, hfe, hpre, ?_⟩)⟩
      rw [hst]
      exact hwhich
    · subst hr
      exact ⟨ev1, he1, Or.inr (Or.inr ⟨msg, rfl⟩)⟩

/-- C18: if during a ForkDetect step a local digest lookup, a remote digest
request or the delete returns an error, or during a FetchBlocks step a block
request or StoreBlock returns an error, then that call is the last thing the
step does and no call before it returned an error, and the state at the end is
HighestBlock; in FetchBlocks start is left at the number of the block that
failed. -/
theorem C18_transient_error_recovery (L : Lib) (P : PeerLib) (T : Transport)
    (D : Database σ) (w : World σ)
    (hs : w.conn.state = cStateForkDetect ∨ w.conn.state = cStateFetchBlocks)
    (hok : (process L P T D w).1 = .ok ()) (ev : List Event)
    (hev : (process L P T D w).2.events = w.events ++ ev)
    (e : Event) (he : e ∈ ev) (hf : e.isFailure = true) :
    (∃ pre, ev = pre ++ [e] ∧ ∀ x ∈ pre, x.isFailure = false) ∧
    (process L P T D w).2.conn.state = cStateHighestBlock ∧
    (w.conn.state = cStateFetchBlocks →
      e = Event.blockData (process L P T D w).2.conn.startBlockNumber false ∨
      ∃ p pre2, e = Event.storeBlock p false ∧
        ev = pre2 ++ [Event.blockData (process L P T D w).2.conn.startBlockNumber true, e]) := by
  have huniq : ∀ (pre : List Event) (e2 : Event), ev = pre ++ [e2] →
      (∀ x ∈ pre, x.isFailure = false) → e = e2 := by
    intro pre e2 hpe hpre
    rw [hpe] at he
    rcases List.mem_append.1 he with h | h
    · rw [hpre e h] at hf
      cases hf
    · simpa using h
  rcases hs with hs | hs
  · have hnf : w.conn.state ≠ cStateFetchBlocks := by rw [hs]; decide
    rw [(process_eq L P T D w).2.2.1 hs] at hok hev ⊢
    unfold processForkDetect at hok hev ⊢
    obtain ⟨-, hconn, -, hev1⟩ := callGetBlockHeight_eq L D w
    rcases hC : callGetBlockHeight L D w with ⟨r, w1⟩
    rw [hC] at hconn hev1 hok hev
    simp only at hconn hev1 hok hev ⊢
    cases r with
    | error e1 => cases hok
    | ok h =>
      simp only at hok hev ⊢
      by_cases hle : w1.conn.highestBlockNumber ≤ h
      · rw [if_pos hle] at hev
        simp only [setState, hev1] at hev
        have : ev = [Event.getBlockHeight] := (List.append_cancel_left hev).symm
        rw [this] at he
        simp at he
        rw [he] at hf
        cases hf
      · rw [if_neg hle] at hok hev ⊢
        generalize hw2 : ({ w1 with conn := { w1.conn with
              startBlockNumber := addU64 L.genesisBlockNumber 1,
              state := w1.conn.state + 1 } } : World σ) = w2 at hok hev ⊢
        have hw2e : w2.events = w1.events := by rw [← hw2]
        obtain ⟨ev2, he2, -, -, -, -, -, hcase⟩ := checkDigests_run L P T D h w2
        have hev3 : ev = Event.getBlockHeight :: ev2 := by
          rw [he2, hw2e, hev1, List.append_assoc] at hev
          exact (List.append_cancel_left hev).symm
        rcases hcase with ⟨-, -, hnone⟩ | ⟨-, hst, pre, e2, hpe, hfe, hpre⟩ | ⟨m, hp⟩
        · rw [hev3] at he
          rcases List.mem_cons.1 he with h1 | h1
          · rw [h1] at hf; cases hf
          · rw [hnone e h1] at hf; cases hf
        · have hpre2 : ∀ x ∈ Event.getBlockHeight :: pre, x.isFailure = false := by
            intro x hx
            rcases List.mem_cons.1 hx with h1 | h1
            · rw [h1]; rfl
            · exact hpre x h1
          have hee : e = e2 := huniq (Event.getBlockHeight :: pre) e2
            (by rw [hev3, hpe]; rfl) hpre2
          subst hee
          exact ⟨⟨Event.getBlockHeight :: pre, by rw [hev3, hpe]; rfl, hpre2⟩, hst,
            fun h => absurd h hnf⟩
        · rw [hp] at hok
          cases hok
  · rw [(process_eq L P T D w).2.2.2.1 hs] at hok hev ⊢
    unfold processFetchBlocks at hok hev ⊢
    obtain ⟨ev2, he2, hcase⟩ := fetchSomeBlocks_failure L T D fetchBlocksPerCycle w
    have hevs : ev2 = ev := List.append_cancel_left (he2.symm.trans hev)
    subst hevs
    rcases hcase with hnone | ⟨-, hstate, pre, e2, hpe, hfe, hpre, hwhich⟩ | ⟨msg, hp⟩
    · rw [hnone e he] at hf
      cases hf
    · have hee : e = e2 := huniq pre e2 hpe hpre
      subst hee
      refine ⟨⟨pre, hpe, hpre⟩, hstate, fun _ => ?_⟩
      rcases hwhich with h1 | ⟨p, pre2, h1, h2⟩
      · exact Or.inl h1
      · refine Or.inr ⟨p, pre2, h1, ?_⟩
        rw [hpe, h2, List.append_assoc]
        rfl
    · rw [hp] at hok
      cases hok

/-- Witness for C19: the Rebuild step over `demoRebuildWorld`, and the
ForkDetect step over `demoLevelWorld`, where the remote tip 8 is the local
tip. -/
theorem C19_mode_normal_only_in_rebuild_witness :
    demoRebuildWorld.conn.state = cStateRebuild ∧
    ((process demoLib demoPeerLib demoAheadPeer (specDatabase noFaults) demoRebuildWorld).1
        = .ok () ∧
      (process demoLib demoPeerLib demoAheadPeer (specDatabase noFaults)
        demoRebuildWorld).2.events = demoRebuildWorld.events ++ [Event.modeSet Mode.Normal] ∧
      (process demoLib demoPeerLib demoAheadPeer (specDatabase noFaults)
        demoRebuildWorld).2.mode = Mode.Normal ∧
      (process demoLib demoPeerLib demoAheadPeer (specDatabase noFaults)
        demoRebuildWorld).2.conn.state = cStateSampling ∧
      (process demoLib demoPeerLib demoAheadPeer (specDatabase noFaults)
        demoRebuildWorld).2.conn.samples = 0) ∧
    (demoLevelWorld.conn.state = cStateForkDetect ∧
      ∃ h, (GetBlockHeight demoLib (specDatabase noFaults) demoLevelWorld.store).1 = .ok h ∧
        demoLevelWorld.conn.highestBlockNumber ≤ h ∧
        (process demoLib demoPeerLib demoAheadPeer (specDatabase noFaults)
          demoLevelWorld).2.events = demoLevelWorld.events ++ [Event.getBlockHeight]) :=
  ⟨(C19_mode_normal_only_in_rebuild demoLib demoPeerLib demoAheadPeer (specDatabase noFaults)
      demoRebuildWorld).1 [Event.modeSet Mode.Normal] (by decide) (by decide),
   (C19_mode_normal_only_in_rebuild demoLib demoPeerLib demoAheadPeer (specDatabase noFaults)
      demoRebuildWorld).2.1 rfl,
   (C19_mode_normal_only_in_rebuild demoLib demoPeerLib demoAheadPeer (specDatabase noFaults)
      demoLevelWorld).2.2 (by decide)⟩

/-- Witness for C18: the peer answers the request for block 9 with an error
reply; the cycle stops there in state HighestBlock with start 9. -/
theorem C18_transient_error_recovery_witness :
    (∃ pre, (process demoLib demoPeerLib demoErrorPeer (specDatabase noFaults)
        demoFetchTwo).2.events = pre ++ [Event.blockData 9 false] ∧
      ∀ x ∈ pre, x.isFailure = false) ∧
    (process demoLib demoPeerLib demoErrorPeer (specDatabase noFaults)
        demoFetchTwo).2.conn.state = cStateHighestBlock ∧
    (demoFetchTwo.conn.state = cStateFetchBlocks →
      Event.blockData 9 false = Event.blockData (process demoLib demoPeerLib demoErrorPeer
        (specDatabase noFaults) demoFetchTwo).2.conn.startBlockNumber false ∨
      ∃ p pre2, Event.blockData 9 false = Event.storeBlock p false ∧
        (process demoLib demoPeerLib demoErrorPeer (specDatabase noFaults)
          demoFetchTwo).2.events =
          pre2 ++ [Event.blockData (process demoLib demoPeerLib demoErrorPeer
            (specDatabase noFaults) demoFetchTwo).2.conn.startBlockNumber true,
            Event.blockData 9 false]) :=
  C18_transient_error_recovery demoLib demoPeerLib demoErrorPeer (specDatabase noFaults)
    demoFetchTwo (Or.inr rfl) (by decide)
    (process demoLib demoPeerLib demoErrorPeer (specDatabase noFaults) demoFetchTwo).2.events
    rfl (Event.blockData 9 false) (by decide) rfl

theorem wellFormedN_iff (data : List Bytes) (n : Nat) :
    wellFormedN data = some n ↔ ∃ d1, data = [frameN, d1] ∧ d1.length = 8 ∧ Uint64 d1 = n := by
  unfold wellFormedN
  split
  · rename_i d0 d1
    by_cases h : d0 = frameN ∧ d1.length = 8
    · rw [if_pos h]
      constructor
      · intro hn
        exact ⟨d1, by rw [h.1], h.2, Option.some.inj hn⟩
      · rintro ⟨d, hd, -, hu⟩
        simp only [List.cons.injEq, and_true] at hd
        rw [hd.2, hu]
    · rw [if_neg h]
      constructor
      · intro hn; cases hn
      · rintro ⟨d, hd, hl, -⟩
        simp only [List.cons.injEq, and_true] at hd
        exact absurd ⟨hd.1, by rw [hd.2]; exact hl⟩ h
  · rename_i hne
    constructor
    · intro hn; cases hn
    · rintro ⟨d, hd, -, -⟩
      exact absurd hd (hne frameN d)

theorem highestBlockReply_eq (data : List Bytes) (i h : Nat) (c : Option Nat) :
    highestBlockReply data i h c =
      match wellFormedN data with
      | some n => pick (h, c) (i, n)
      | none => (h, c) := by
  have hne : ¬ frameE = frameN := by decide
  have hne2 : ¬ frameN = frameE := by decide
  unfold highestBlockReply wellFormedN pick
  split
  · rename_i d0 d1
    by_cases hE : d0 = frameE
    · subst hE
      simp [hne]
    · by_cases hN : d0 = frameN
      · subst hN
        by_cases hl : d1.length = 8
        · simp [hne2, hl]
        · simp [hne2, hl]
      · simp [hE, hN]
  · rfl

/-- One round of the loop of `highestBlock` is one report. -/
theorem highestBlockClient_eq (T : Transport) (i h : Nat) (c : Option Nat) (w : World σ) :
    highestBlockClient T i h c w =
      ((match (report T i w).1 with
        | some n => pick (h, c) (i, n)
        | none => (h, c)), (report T i w).2) := by
  unfold highestBlockClient report
  by_cases hcon : IsConnected w i = false
  · rw [if_pos hcon, if_pos hcon]
  · rw [if_neg hcon, if_neg hcon]
    rcases hS : Send T i "N" [] w with ⟨r, w1⟩
    cases r with
    | some e => simp
    | none =>
      simp only [ne_eq, not_true_eq_false, if_false]
      rcases hR : Receive T i "N" [] w1 with ⟨r2, w2⟩
      cases r2 with
      | error e => rfl
      | ok data =>
        simp only
        rw [highestBlockReply_eq]

/-- The loop of `highestBlock` folds the reports. -/
theorem highestBlockLoop_eq (T : Transport) (l : List Nat) :
    ∀ (h : Nat) (c : Option Nat) (w : World σ),
      highestBlockLoop T l h c w = ((reports T l w).foldl pick (h, c), asked T l w) := by
  induction l with
  | nil => intro h c w; rfl
  | cons i rest ih =>
    intro h c w
    unfold highestBlockLoop reports asked
    rw [highestBlockClient_eq]
    cases hr : (report T i w).1 with
    | none =>
      simp only
      rw [ih]
    | some n =>
      simp only
      rcases hp : pick (h, c) (i, n) with ⟨h1, c1⟩
      simp only
      rw [ih, List.foldl_cons, hp]

theorem maxReport_cons (r : Nat × Nat) (rs : List (Nat × Nat)) :
    maxReport (r :: rs) = max r.2 (maxReport rs) := rfl

theorem firstWith_cons (n : Nat) (r : Nat × Nat) (rs : List (Nat × Nat)) :
    firstWith n (r :: rs) = if r.2 = n then some r.1 else firstWith n rs := by
  unfold firstWith
  by_cases h : r.2 = n
  · simp [List.find?_cons, h]
  · simp [List.find?_cons, h]

/-- Folding the reports gives the highest number and the first client that
reported it, unless no report is above the number held before. -/
theorem foldl_pick (rs : List (Nat × Nat)) :
    ∀ (h : Nat) (c : Option Nat),
      rs.foldl pick (h, c) =
        (max h (maxReport rs),
         if maxReport rs ≤ h then c else firstWith (maxReport rs) rs) := by
  induction rs with
  | nil =>
    intro h c
    simp [maxReport]
  | cons r rest ih =>
    intro h c
    rw [List.foldl_cons, maxReport_cons, firstWith_cons]
    have hp : pick (h, c) r = if r.2 > h then (r.2, some r.1) else (h, c) := rfl
    rw [hp]
    by_cases hgt : r.2 > h
    · simp only [hgt, if_true]
      rw [ih]
      by_cases hm : maxReport rest ≤ r.2
      · have h1 : max r.2 (maxReport rest) = r.2 := Nat.max_eq_left hm
        have h2 : ¬ r.2 ≤ h := by omega
        simp [hm, h1, h2]
        omega
      · have h1 : max r.2 (maxReport rest) = maxReport rest := Nat.max_eq_right (by omega)
        have h2 : ¬ maxReport rest ≤ h := by omega
        have h3 : ¬ r.2 = maxReport rest := by omega
        simp [hm, h1, h2, h3]
        omega
    · simp only [hgt, if_false]
      rw [ih]
      by_cases hm : maxReport rest ≤ h
      · have h1 : max r.2 (maxReport rest) ≤ h := Nat.max_le.2 ⟨by omega, hm⟩
        simp [hm, h1]
      · have h1 : max r.2 (maxReport rest) = maxReport rest := Nat.max_eq_right (by omega)
        have h2 : ¬ r.2 = maxReport rest := by omega
        simp [hm, h1, h2]

theorem firstWith_mem (n : Nat) (rs : List (Nat × Nat)) (i : Nat)
    (h : firstWith n rs = some i) : (i, n) ∈ rs := by
  unfold firstWith at h
  cases hf : rs.find? (fun r => decide (r.2 = n)) with
  | none => rw [hf] at h; cases h
  | some r =>
    rw [hf] at h
    simp only [Option.map_some', Option.some.injEq] at h
    have h1 := List.find?_some hf
    have h2 := List.mem_of_find?_eq_some hf
    simp only [decide_eq_true_eq] at h1
    rw [← h, ← h1]
    exact h2

theorem maxReport_mem (rs : List (Nat × Nat)) (h : 0 < maxReport rs) :
    ∃ i, firstWith (maxReport rs) rs = some i := by
  induction rs with
  | nil => simp [maxReport] at h
  | cons r rest ih =>
    rw [maxReport_cons] at h ⊢
    rw [firstWith_cons]
    by_cases h1 : r.2 = max r.2 (maxReport rest)
    · exact ⟨r.1, by rw [if_pos h1]⟩
    · rw [if_neg h1]
      have h2 : max r.2 (maxReport rest) = maxReport rest := by omega
      rw [h2]
      exact ih (by omega)

/-- C13 (amended): `highestBlock` asks every connected client in pool order
(`reports`); a reply counts only if it is well formed (two frames, the first
`N`, the second exactly 8 bytes read as a big-endian number).  The returned
number is the maximum of the block numbers reported, zero if there is none.
When that maximum is positive the returned client is the first client that
reported it; when it is zero, because no client gave a well-formed reply or
because every well-formed reply carries zero, no client is returned.  The
HighestBlock step records both and moves to ForkDetect when the maximum is
positive, else it leaves the state at HighestBlock. -/
theorem C13_highest_block_amended (T : Transport) (w : World σ) :
    (∀ data n, wellFormedN data = some n ↔
      ∃ d1, data = [frameN, d1] ∧ d1.length = 8 ∧ Uint64 d1 = n) ∧
    (highestBlock T w).1.1 = maxReport (reports T (List.range w.conn.clients.length) w) ∧
    (0 < maxReport (reports T (List.range w.conn.clients.length) w) →
      (highestBlock T w).1.2 =
        firstWith (maxReport (reports T (List.range w.conn.clients.length) w))
          (reports T (List.range w.conn.clients.length) w) ∧
      ∃ i, (highestBlock T w).1.2 = some i ∧
        (i, maxReport (reports T (List.range w.conn.clients.length) w)) ∈
          reports T (List.range w.conn.clients.length) w) ∧
    (maxReport (reports T (List.range w.conn.clients.length) w) = 0 →
      (highestBlock T w).1 = (0, none)) ∧
    (reports T (List.range w.conn.clients.length) w = [] →
      (highestBlock T w).1 = (0, none)) ∧
    ∀ (L : Lib) (P : PeerLib) (D : Database σ), w.conn.state = cStateHighestBlock →
      (process L P T D w).1 = .ok () ∧
      (process L P T D w).2.conn.highestBlockNumber = (highestBlock T w).1.1 ∧
      (process L P T D w).2.conn.theClient = (highestBlock T w).1.2 ∧
      (0 < maxReport (reports T (List.range w.conn.clients.length) w) →
        (process L P T D w).2.conn.state = cStateForkDetect) ∧
      (maxReport (reports T (List.range w.conn.clients.length) w) = 0 →
        (process L P T D w).2.conn.state = cStateHighestBlock) := by
  have hb : (highestBlock T w).1 =
      (maxReport (reports T (List.range w.conn.clients.length) w),
       if maxReport (reports T (List.range w.conn.clients.length) w) ≤ 0 then none
       else firstWith (maxReport (reports T (List.range w.conn.clients.length) w))
         (reports T (List.range w.conn.clients.length) w)) := by
    unfold highestBlock
    rw [highestBlockLoop_eq, foldl_pick]
    simp
  have hpos : 0 < maxReport (reports T (List.range w.conn.clients.length) w) →
      (highestBlock T w).1.2 =
        firstWith (maxReport (reports T (List.range w.conn.clients.length) w))
          (reports T (List.range w.conn.clients.length) w) := by
    intro h
    rw [hb]
    simp only
    rw [if_neg (by omega)]
  have hzero : maxReport (reports T (List.range w.conn.clients.length) w) = 0 →
      (highestBlock T w).1 = (0, none) := by
    intro h
    rw [hb, h]
    rfl
  refine ⟨wellFormedN_iff, by rw [hb], ?_, hzero, ?_, ?_⟩
  · intro h
    refine ⟨hpos h, ?_⟩
    obtain ⟨i, hi⟩ := maxReport_mem _ h
    exact ⟨i, by rw [hpos h, hi], firstWith_mem _ _ i hi⟩
  · intro h
    apply hzero
    rw [h]
    rfl
  · intro L P D hs
    rw [(process_eq L P T D w).2.1 hs]
    obtain ⟨ev, -, -, -, -, hstate, -⟩ := highestBlock_clientOps T w
    unfold processHighestBlock
    rcases hH : highestBlock T w with ⟨⟨h, c⟩, w1⟩
    rw [hH] at hb hpos hzero hstate
    simp only at hb hpos hzero hstate ⊢
    refine ⟨?_, ?_, ?_, ?_, ?_⟩
    · split <;> rfl
    · split <;> rfl
    · split <;> rfl
    · intro hm
      obtain ⟨i, hi⟩ := maxReport_mem _ hm
      have hc : c = some i := by rw [hpos hm, hi]
      have hh : h = maxReport (reports T (List.range w.conn.clients.length) w) :=
        (Prod.mk.inj hb).1
      have hcond : h > 0 ∧ c ≠ none := ⟨by rw [hh]; exact hm, by rw [hc]; simp⟩
      rw [if_pos hcond]
      simp [setState, hstate, hs, cStateHighestBlock, cStateForkDetect]
    · intro hm
      have hh : h = 0 := (Prod.mk.inj (hzero hm)).1
      have hcond : ¬ (h > 0 ∧ c ≠ none) := by
        rw [hh]
        simp
      rw [if_neg hcond]
      simp [hstate, hs]

/-- C13, counterexample: the one connected client gives a well-formed reply
that carries block number 0, so the maximum of the numbers reported is 0 and
client 0 reported it; `highestBlock` returns no client. -/
theorem C13_zero_report_counterexample :
    reports demoZeroPeer (List.range demoHighestWorld.conn.clients.length) demoHighestWorld
      = [(0, 0)] ∧
    maxReport [(0, 0)] = 0 ∧
    (highestBlock demoZeroPeer demoHighestWorld).1 = (0, none) := by
  decide

/-- Witness for C13 (amended): a peer that reports block 3 is returned and
the step moves to ForkDetect; a peer that reports block 0 is not returned. -/
theorem C13_highest_block_amended_witness :
    ((highestBlock demoTwoChains demoHighestWorld).1.2 =
        firstWith (maxReport (reports demoTwoChains
            (List.range demoHighestWorld.conn.clients.length) demoHighestWorld))
          (reports demoTwoChains (List.range demoHighestWorld.conn.clients.length)
            demoHighestWorld) ∧
      ∃ i, (highestBlock demoTwoChains demoHighestWorld).1.2 = some i ∧
        (i, maxReport (reports demoTwoChains
            (List.range demoHighestWorld.conn.clients.length) demoHighestWorld)) ∈
          reports demoTwoChains (List.range demoHighestWorld.conn.clients.length)
            demoHighestWorld) ∧
    (highestBlock demoZeroPeer demoHighestWorld).1 = (0, none) ∧
    (process demoLib demoPeerLib demoTwoChains (specDatabase noFaults)
      demoHighestWorld).2.conn.state = cStateForkDetect :=
  ⟨(C13_highest_block_amended demoTwoChains demoHighestWorld).2.2.1 (by decide),
   (C13_highest_block_amended demoZeroPeer demoHighestWorld).2.2.2.1 (by decide),
   ((C13_highest_block_amended demoTwoChains demoHighestWorld).2.2.2.2.2
      demoLib demoPeerLib (specDatabase noFaults) rfl).2.2.2.1 (by decide)⟩

/-- The loop of `connector.initialise` up to the first peer with the local
public key. -/
theorem initialiseLoop_self (P : PeerLib) (T : Transport) (publicKey : Bytes)
    (addr : Connection → String) (key : Connection → Bytes) (own : Connection)
    (post : List Connection)
    (hown : P.NewConnection own.Connect = .ok (addr own) ∧
      P.DecodeString own.PublicKey = .ok publicKey) :
    ∀ (pre : List Connection) (i : Nat) (clients : List Nat) (ev : List SocketEvent),
      (∀ c ∈ pre, P.NewConnection c.Connect = .ok (addr c) ∧
        P.DecodeString c.PublicKey = .ok (key c) ∧ key c ≠ publicKey) →
      (∀ j, i ≤ j → j < i + pre.length → T.newClient j = none ∧ T.connect j = none) →
      initialiseLoop P T publicKey (pre ++ own :: post) i clients ev =
        (some .ErrConnectingToSelfForbidden, clients ++ List.range' i pre.length,
         ev ++ connectEvents addr key i pre) := by
  intro pre
  induction pre with
  | nil =>
    intro i clients ev _ _
    simp [initialiseLoop, hown.1, hown.2, connectEvents]
  | cons c rest ih =>
    intro i clients ev hpre hnew
    obtain ⟨h1, h2, h3⟩ := hpre c (List.mem_cons_self c rest)
    obtain ⟨h4, h5⟩ := hnew i (Nat.le_refl i) (by simp)
    have h3b : ¬ publicKey = key c := fun h => h3 h.symm
    rw [List.cons_append]
    unfold initialiseLoop
    simp only [h1, h2, h3b, if_false, h4, h5]
    rw [ih (i + 1) (clients ++ [i]) _ (fun d hd => hpre d (List.mem_cons_of_mem c hd))
      (fun j hj1 hj2 => hnew j (by omega) (by simp only [List.length_cons]; omega))]
    simp [connectEvents, List.range'_succ]

/-- C11 (amended): if the addresses and keys of the peers up to the first peer
whose public key equals the local public key parse, and creating and
connecting a client succeeds for each peer listed before that peer, then
connector initialisation returns ErrConnectingToSelfForbidden; a client is
created and connected, in list order, for each peer listed before the
self-peer and for no other peer, and these clients are closed before the
error is returned.  When the self-peer is first in the list no client is
created or connected at all. -/
theorem C11_self_peering_amended (P : PeerLib) (T : Transport) (publicKey : Bytes)
    (addr : Connection → String) (key : Connection → Bytes)
    (pre : List Connection) (own : Connection) (post : List Connection) (conn : connector)
    (hpre : ∀ c ∈ pre, P.NewConnection c.Connect = .ok (addr c) ∧
      P.DecodeString c.PublicKey = .ok (key c) ∧ key c ≠ publicKey)
    (hnew : ∀ j, j < pre.length → T.newClient j = none ∧ T.connect j = none)
    (hown : P.NewConnection own.Connect = .ok (addr own) ∧
      P.DecodeString own.PublicKey = .ok publicKey) :
    initialise P T publicKey (pre ++ own :: post) conn =
      (some .ErrConnectingToSelfForbidden, conn,
       connectEvents addr key 0 pre ++ [SocketEvent.closeClients (List.range pre.length)]) ∧
    (pre = [] → (initialise P T publicKey (pre ++ own :: post) conn).2.2 =
      [SocketEvent.closeClients []]) := by
  have h := initialiseLoop_self P T publicKey addr key own post hown pre 0 [] [] hpre
    (fun j _ hj => hnew j (by omega))
  have hlen : ¬ (pre ++ own :: post).length = 0 := by simp
  have hmain : initialise P T publicKey (pre ++ own :: post) conn =
      (some .ErrConnectingToSelfForbidden, conn,
       connectEvents addr key 0 pre ++ [SocketEvent.closeClients (List.range pre.length)]) := by
    unfold initialise
    rw [if_neg hlen, h]
    simp [List.range_eq_range']
  refine ⟨hmain, ?_⟩
  intro hnil
  rw [hmain, hnil]
  rfl

/-- C11, counterexample: the addresses and keys of both peers parse and the
second peer has the local public key.  Initialisation returns
ErrConnectingToSelfForbidden, but before that a client is created and
connected for the first peer; it is closed afterwards. -/
theorem C11_self_peer_second_counterexample :
    demoPeerLib.DecodeString "K" = .ok [75] ∧
    initialise demoPeerLib demoZeroPeer [75]
        [⟨"A", "sub-a", "host-a"⟩, ⟨"K", "sub-k", "host-k"⟩] demoConnector =
      (some .ErrConnectingToSelfForbidden, demoConnector,
       [SocketEvent.newClient 0, SocketEvent.connect 0 "host-a" [65],
        SocketEvent.closeClients [0]]) := by
  decide

/-- Witness for C11 (amended): the self-peer is second of three peers; one
client is created, connected and closed. -/
theorem C11_self_peering_amended_witness :
    initialise demoPeerLib demoZeroPeer [75]
        ([⟨"A", "sub-a", "host-a"⟩] ++ ⟨"K", "sub-k", "host-k"⟩ :: [⟨"B", "sub-b", "host-b"⟩])
        demoConnector =
      (some .ErrConnectingToSelfForbidden, demoConnector,
       connectEvents Connection.Connect (fun c => c.PublicKey.data.map Char.toNat) 0
           [⟨"A", "sub-a", "host-a"⟩] ++
         [SocketEvent.closeClients (List.range [(⟨"A", "sub-a", "host-a"⟩ : Connection)].length)]) :=
  (C11_self_peering_amended demoPeerLib demoZeroPeer [75] Connection.Connect
    (fun c => c.PublicKey.data.map Char.toNat) [⟨"A", "sub-a", "host-a"⟩]
    ⟨"K", "sub-k", "host-k"⟩ [⟨"B", "sub-b", "host-b"⟩] demoConnector
    (by decide) (by decide) (by decide)).1

theorem descending_self (k : Nat) : descending k k = [k] := by
  unfold descending
  rw [Nat.add_sub_cancel_left]
  rfl

theorem descending_succ (j k : Nat) (h : k ≤ j) :
    descending (j + 1) k = (j + 1) :: descending j k := by
  unfold descending
  have h1 : j + 1 + 1 - k = (j + 1 - k) + 1 := by omega
  rw [h1, List.range_succ_eq_map, List.map_cons, List.map_map]
  simp only [Nat.sub_zero, List.cons.injEq, true_and]
  apply List.map_congr_left
  intro m _
  simp only [Function.comp, Nat.succ_eq_add_one]
  omega

/-- A digest lookup above the genesis block that the database answers. -/
theorem DigestForBlock_ok (L : Lib) (D : Database σ) (j : Nat) (g : GlobalData σ)
    (txt : String) (d : Digest) (hj : L.genesisBlockNumber < j)
    (hq : (D.queryDigest g.db j).1 = .ok txt) (hscan : L.Sscan txt = (1, d, none)) :
    (DigestForBlock L D j g).1 = .ok d ∧
    (DigestForBlock L D j g).2.db = (D.queryDigest g.db j).2 := by
  unfold DigestForBlock
  rw [if_neg (by omega)]
  simp only [hq, hscan]
  exact ⟨rfl, rfl⟩

/-- A digest request that the peer answers with a digest. -/
theorem blockDigest_ok (P : PeerLib) (T : Transport) (c j : Nat) (w : World σ)
    (b : Bytes) (d : Digest) (hsend : T.send w.clock c "H" [PutUint64 j] = none)
    (hrecv : T.receive (w.clock + 1) c "H" [PutUint64 j] = .ok [frameH, b])
    (hlen : b.length = digestLength) (hd : P.DigestFromBytes b = .ok d) :
    blockDigest P T (some c) j w =
      (.ok d, { w with clock := w.clock + 1 + 1,
                       events := w.events ++ [Event.send c "H" [PutUint64 j]] ++
                         [Event.receive c] }) := by
  have hne : ¬ frameH = frameE := by decide
  simp [blockDigest, Send, Receive, hsend, hrecv, blockDigestReply, hne, hlen, hd]

/-- One round of the loop `check_digests` at a height where both digests are
obtained: the events, and the world up to the comparison. -/
theorem checkDigest_compare (L : Lib) (P : PeerLib) (T : Transport) (D : Database σ)
    (I : σ → Prop) (c h k : Nat) (loc rem : Nat → Digest)
    (hw : WalkOk L P T D I c h k loc rem) (hgen : L.genesisBlockNumber < k)
    (j : Nat) (hkj : k ≤ j) (hjh : j ≤ h) (w : World σ)
    (hc : w.conn.theClient = some c) (hI : I w.store.db) :
    ∃ w2 : World σ, w2.events = w.events ++ compareEvents c j ∧ w2.conn = w.conn ∧
      I w2.store.db ∧
      checkDigest L P T D j w =
        if rem j = loc j then
          match callDeleteDownToBlock D (addU64 j 1)
              { w2 with conn := { w2.conn with startBlockNumber := addU64 j 1 } } with
          | (some _, w4) => (.ok false, setState cStateHighestBlock w4)
          | (none, w4) => (.ok false, w4)
        else (.ok true, w2) := by
  obtain ⟨⟨txt, hq, hscan⟩, hI2⟩ := hw.localDigest w.store.db j hI hkj hjh
  obtain ⟨hd1, hd2⟩ := DigestForBlock_ok L D j w.store txt (loc j) (by omega) hq hscan
  obtain ⟨b, hrecv, hlen, hdig⟩ := hw.receive (w.clock + 1) j hkj hjh
  have hsend := hw.send w.clock j hkj hjh
  refine ⟨{ w with store := (DigestForBlock L D j w.store).2
                   clock := w.clock + 1 + 1
                   events := w.events ++ compareEvents c j }, rfl, rfl, ?_, ?_⟩
  · show I (DigestForBlock L D j w.store).2.db
    rw [hd2]
    exact hI2
  · unfold checkDigest
    rcases hD : DigestForBlock L D j w.store with ⟨r, g1⟩
    rw [hD] at hd1
    simp only at hd1
    subst hd1
    simp only [callDigestForBlock, hD, exceptOk, callBlockDigest, hc]
    have hbd := blockDigest_ok P T c j
      ({ w with store := g1, events := w.events ++ [Event.digestForBlock j true] } : World σ)
      b (rem j) hsend hrecv hlen hdig
    rw [hbd]
    simp only [outcomeOk, logEvent, compareEvents, hc, List.append_assoc, List.singleton_append,
      List.cons_append, List.nil_append]

theorem checkDigests_continue (L : Lib) (P : PeerLib) (T : Transport) (D : Database σ)
    (j : Nat) (w w1 : World σ) (hj : L.genesisBlockNumber < j + 1)
    (h : checkDigest L P T D (j + 1) w = (.ok true, w1)) :
    checkDigests L P T D (j + 1) w = checkDigests L P T D j w1 := by
  rw [checkDigests, if_pos hj, h]

theorem checkDigests_leave (L : Lib) (P : PeerLib) (T : Transport) (D : Database σ)
    (j : Nat) (w w1 : World σ) (hj : L.genesisBlockNumber < j + 1)
    (h : checkDigest L P T D (j + 1) w = (.ok false, w1)) :
    checkDigests L P T D (j + 1) w = (.ok (), w1) := by
  rw [checkDigests, if_pos hj, h]

theorem GetBlockHeight_ok (L : Lib) (D : Database σ) (g : GlobalData σ) (h : Nat)
    (hq : (D.queryHeight g.db).1 = .ok h) (hgen : L.genesisBlockNumber < h) :
    (GetBlockHeight L D g).1 = .ok h ∧ (GetBlockHeight L D g).2.db = (D.queryHeight g.db).2 := by
  unfold GetBlockHeight
  simp only [hq]
  rw [if_neg (by omega)]
  exact ⟨rfl, rfl⟩

theorem sentParameters_compare (c : Nat) (l : List Nat) :
    sentParameters "H" (l.flatMap (compareEvents c)) = l.map fun j => [PutUint64 j] := by
  induction l with
  | nil => rfl
  | cons j rest ih =>
    rw [List.flatMap_cons, sentParameters_append, ih]
    rfl

/-- C15, evaluation at the failing input: the local blocks 2 and 3 both differ
from the blocks of the peer `demoForkPeer 1`, which shares only the genesis
block.  The ForkDetect step compares the digests at the heights 3 and 2,
finds no match and ends without error in FetchBlocks with start 2; it never
calls `delete_down_to_block`, so the blocks 2 and 3 remain stored although
their digests are not the digests of the peer. -/
theorem C15_no_match_keeps_local_blocks :
    (process demoLib demoPeerLib (demoForkPeer 1) (specDatabase noFaults)
      demoDivergedWorld).1 = .ok () ∧
    (process demoLib demoPeerLib (demoForkPeer 1) (specDatabase noFaults)
      demoDivergedWorld).2.conn.state = cStateFetchBlocks ∧
    (process demoLib demoPeerLib (demoForkPeer 1) (specDatabase noFaults)
      demoDivergedWorld).2.conn.startBlockNumber = 2 ∧
    (process demoLib demoPeerLib (demoForkPeer 1) (specDatabase noFaults)
      demoDivergedWorld).2.events =
      [Event.getBlockHeight] ++ compareEvents 0 3 ++ compareEvents 0 2 ∧
    (process demoLib demoPeerLib (demoForkPeer 1) (specDatabase noFaults)
      demoDivergedWorld).2.store.db.blocks = [(2, "B"), (3, "C")] ∧
    (DigestForBlock demoLib (specDatabase noFaults) 2 demoDivergedWorld.store).1 = .ok [66] ∧
    (blockDigest demoPeerLib (demoForkPeer 1) (some 0) 2 demoDivergedWorld).1 = .ok [130] ∧
    (DigestForBlock demoLib (specDatabase noFaults) 3 demoDivergedWorld.store).1 = .ok [67] ∧
    (blockDigest demoPeerLib (demoForkPeer 1) (some 0) 3 demoDivergedWorld).1 = .ok [131] := by
  decide

/-- The loop `check_digests` from a height `k + n` at or below the local tip,
when `k` is the largest height with equal digests and no digest query fails;
`ok` tells whether the delete reported no error. -/
theorem checkDigests_walk (L : Lib) (P : PeerLib) (T : Transport) (D : Database σ)
    (I : σ → Prop) (c h k : Nat) (loc rem : Nat → Digest)
    (hw : WalkOk L P T D I c h k loc rem) (hgen : L.genesisBlockNumber < k)
    (hu : h + 1 < u64)
    (hmis : ∀ j, k < j → j ≤ h → rem j ≠ loc j) (hmatch : rem k = loc k) :
    ∀ (n : Nat) (w : World σ), k + n ≤ h → w.conn.theClient = some c → I w.store.db →
      ∃ ok : Bool,
      (checkDigests L P T D (k + n) w).1 = .ok () ∧
      (checkDigests L P T D (k + n) w).2.events =
        w.events ++ ((descending (k + n) k).flatMap (compareEvents c) ++
          [Event.deleteDownToBlock (k + 1) ok]) ∧
      (checkDigests L P T D (k + n) w).2.conn =
        { w.conn with startBlockNumber := k + 1,
                      state := if ok = true then w.conn.state else cStateHighestBlock } ∧
      ((∀ s, I s → (D.exec s (Call.deleteDownToBlock (k + 1))).1 = none) → ok = true) ∧
      ((∀ s, I s → (D.exec s (Call.deleteDownToBlock (k + 1))).1 ≠ none) → ok = false) := by
  intro n
  induction n with
  | zero =>
    intro w hle hc hI
    obtain ⟨k1, hk1⟩ : ∃ k1, k = k1 + 1 := ⟨k - 1, by omega⟩
    obtain ⟨w2, he2, hc2, hI2, heq⟩ :=
      checkDigest_compare L P T D I c h k loc rem hw hgen k (Nat.le_refl k) hle w hc hI
    have hadd : addU64 k 1 = k + 1 := by
      unfold addU64
      exact Nat.mod_eq_of_lt (by omega)
    rw [if_pos hmatch, hadd] at heq
    have hx1 : (callDeleteDownToBlock D (k + 1)
        { w2 with conn := { w2.conn with startBlockNumber := k + 1 } }).1 =
        (D.exec w2.store.db (Call.deleteDownToBlock (k + 1))).1 := rfl
    have hx2 : (callDeleteDownToBlock D (k + 1)
        { w2 with conn := { w2.conn with startBlockNumber := k + 1 } }).2.events =
        w2.events ++ [Event.deleteDownToBlock (k + 1) (noError (callDeleteDownToBlock D (k + 1)
          { w2 with conn := { w2.conn with startBlockNumber := k + 1 } }).1)] := rfl
    have hx3 : (callDeleteDownToBlock D (k + 1)
        { w2 with conn := { w2.conn with startBlockNumber := k + 1 } }).2.conn =
        { w2.conn with startBlockNumber := k + 1 } := rfl
    rcases hX : callDeleteDownToBlock D (k + 1)
        { w2 with conn := { w2.conn with startBlockNumber := k + 1 } } with ⟨r, w4⟩
    rw [hX] at heq hx1 hx2 hx3
    simp only at hx1 hx2 hx3
    have hgen2 : L.genesisBlockNumber < k1 + 1 := by omega
    cases r with
    | none =>
      simp only at heq
      have hres : checkDigests L P T D (k + 0) w = (.ok (), w4) := by
        rw [Nat.add_zero]
        rw [hk1] at heq ⊢
        exact checkDigests_leave L P T D k1 w w4 hgen2 heq
      rw [hres]
      refine ⟨true, rfl, ?_, ?_, fun _ => rfl, ?_⟩
      · simp only
        rw [hx2, he2]
        simp [noError, descending_self]
      · simp only
        rw [hx3, hc2]
        simp
      · intro hall
        exact absurd hx1.symm (hall _ hI2)
    | some e =>
      simp only at heq
      have hres : checkDigests L P T D (k + 0) w = (.ok (), setState cStateHighestBlock w4) := by
        rw [Nat.add_zero]
        rw [hk1] at heq ⊢
        exact checkDigests_leave L P T D k1 w _ hgen2 heq
      rw [hres]
      refine ⟨false, rfl, ?_, ?_, ?_, fun _ => rfl⟩
      · simp only [setState]
        rw [hx2, he2]
        simp [noError, descending_self]
      · simp only [setState]
        rw [hx3, hc2]
        simp
      · intro hall
        rw [hall _ hI2] at hx1
        cases hx1
  | succ n ih =>
    intro w hle hc hI
    obtain ⟨w2, he2, hc2, hI2, heq⟩ :=
      checkDigest_compare L P T D I c h k loc rem hw hgen (k + (n + 1)) (by omega) hle w hc hI
    have hne : ¬ rem (k + (n + 1)) = loc (k + (n + 1)) := hmis _ (by omega) hle
    rw [if_neg hne] at heq
    have hstep : checkDigests L P T D (k + (n + 1)) w = checkDigests L P T D (k + n) w2 := by
      rw [← Nat.add_assoc] at heq ⊢
      exact checkDigests_continue L P T D (k + n) w w2 (by omega) heq
    rw [hstep]
    obtain ⟨ok, h1, h2, h3, h4, h5⟩ := ih w2 (by omega) (by rw [hc2]; exact hc) hI2
    refine ⟨ok, h1, ?_, by rw [h3, hc2], h4, h5⟩
    rw [h2, he2, ← Nat.add_assoc, descending_succ (k + n) k (by omega)]
    simp [List.flatMap_cons]

/-- C14 (amended): in state ForkDetect, with local tip `h` above the genesis
block, the remote tip above `h` and error-free digest queries, if `k` is the
largest height from genesis + 1 to `h` at which the local digest equals the
remote digest, then the step compares the digests at the heights h, h - 1,
..., k in that order and at no lower height, sets start to `k + 1` and calls
`delete_down_to_block(k + 1)` once, after the comparisons.  It ends in
FetchBlocks if that delete reports no error, and in HighestBlock if the delete
reports an error. -/
theorem C14_fork_detect_walk_amended (L : Lib) (P : PeerLib) (T : Transport)
    (D : Database σ) (I : σ → Prop) (c h k : Nat) (loc rem : Nat → Digest) (w : World σ)
    (hs : w.conn.state = cStateForkDetect) (hc : w.conn.theClient = some c)
    (hI : I w.store.db) (hw : WalkOk L P T D I c h k loc rem)
    (hgen : L.genesisBlockNumber < k) (hkh : k ≤ h) (hhigh : h < w.conn.highestBlockNumber)
    (hu : h + 1 < u64)
    (hmis : ∀ j, k < j → j ≤ h → rem j ≠ loc j) (hmatch : rem k = loc k) :
    ∃ ok : Bool,
    (process L P T D w).1 = .ok () ∧
    (process L P T D w).2.events =
      w.events ++ Event.getBlockHeight :: ((descending h k).flatMap (compareEvents c) ++
        [Event.deleteDownToBlock (k + 1) ok]) ∧
    sentParameters "H" (Event.getBlockHeight :: ((descending h k).flatMap (compareEvents c) ++
        [Event.deleteDownToBlock (k + 1) ok])) = (descending h k).map (fun j => [PutUint64 j]) ∧
    (process L P T D w).2.conn.startBlockNumber = k + 1 ∧
    (process L P T D w).2.conn.state =
      (if ok = true then cStateFetchBlocks else cStateHighestBlock) ∧
    ((∀ s, I s → (D.exec s (Call.deleteDownToBlock (k + 1))).1 = none) → ok = true) ∧
    ((∀ s, I s → (D.exec s (Call.deleteDownToBlock (k + 1))).1 ≠ none) → ok = false) := by
  rw [(process_eq L P T D w).2.2.1 hs]
  unfold processForkDetect
  obtain ⟨hq, hI1⟩ := hw.height w.store.db hI
  obtain ⟨hg1, hg2⟩ := GetBlockHeight_ok L D w.store h hq (by omega)
  obtain ⟨hr, hconn, -, hev⟩ := callGetBlockHeight_eq L D w
  have hst : (callGetBlockHeight L D w).2.store = (GetBlockHeight L D w.store).2 := rfl
  rcases hC : callGetBlockHeight L D w with ⟨r, w1⟩
  rw [hC] at hr hconn hev hst
  simp only at hr hconn hev hst
  rw [hg1] at hr
  subst hr
  simp only
  rw [if_neg (by rw [hconn]; omega)]
  generalize hw2 : ({ w1 with conn := { w1.conn with
        startBlockNumber := addU64 L.genesisBlockNumber 1,
        state := w1.conn.state + 1 } } : World σ) = w2
  have hw2e : w2.events = w1.events := by rw [← hw2]
  have hw2s : w2.conn.state = w1.conn.state + 1 := by rw [← hw2]
  have hw2c : w2.conn.theClient = w1.conn.theClient := by rw [← hw2]
  have hw2d : w2.store = w1.store := by rw [← hw2]
  have hkn : h = k + (h - k) := by omega
  obtain ⟨ok, h1, h2, h3, h4, h5⟩ := checkDigests_walk L P T D I c h k loc rem hw hgen hu hmis
    hmatch (h - k) w2 (by omega) (by rw [hw2c, hconn, hc])
    (by rw [hw2d, hst, hg2]; exact hI1)
  rw [← hkn] at h1 h2 h3
  refine ⟨ok, h1, ?_, ?_, by rw [h3], ?_, h4, h5⟩
  · rw [h2, hw2e, hev, List.append_assoc]
    rfl
  · have : Event.getBlockHeight :: ((descending h k).flatMap (compareEvents c) ++
        [Event.deleteDownToBlock (k + 1) ok]) =
        [Event.getBlockHeight] ++ ((descending h k).flatMap (compareEvents c) ++
          [Event.deleteDownToBlock (k + 1) ok]) := rfl
    rw [this, sentParameters_append, sentParameters_append, sentParameters_compare]
    simp [sentParameters]
  · rw [h3]
    simp only
    rw [hw2s, hconn, hs]
    cases ok <;> rfl

/-- C14, counterexample: local tip 10, remote tip 12, mismatches at 10, 9 and
8 and a match at 7, all digest queries without error; the database reports an
error for the sixth statement, which is `delete_down_to_block(8)`.  The step
ends in HighestBlock, not in FetchBlocks. -/
theorem C14_failing_delete_counterexample :
    (process demoLib demoPeerLib (demoForkPeer 7) (specDatabase (faultAt 5 (.other "db")))
      demoForkWorld).1 = .ok () ∧
    (process demoLib demoPeerLib (demoForkPeer 7) (specDatabase (faultAt 5 (.other "db")))
      demoForkWorld).2.events =
      Event.getBlockHeight :: ((descending 10 7).flatMap (compareEvents 0) ++
        [Event.deleteDownToBlock 8 false]) ∧
    (process demoLib demoPeerLib (demoForkPeer 7) (specDatabase (faultAt 5 (.other "db")))
      demoForkWorld).2.conn.startBlockNumber = 8 ∧
    (process demoLib demoPeerLib (demoForkPeer 7) (specDatabase (faultAt 5 (.other "db")))
      demoForkWorld).2.conn.state = cStateHighestBlock := by
  decide

/-- Witness for C14 (amended): local tip 10, remote tip 12, mismatches at 10,
9 and 8 and a match at 7, on a database without failures: digests are
compared at 10, 9, 8, 7, start becomes 8, `delete_down_to_block(8)` is called
and the step ends in FetchBlocks. -/
theorem C14_fork_detect_walk_amended_witness :
    ∃ ok : Bool,
    (process demoLib demoPeerLib (demoForkPeer 7) (specDatabase noFaults) demoForkWorld).1
      = .ok () ∧
    (process demoLib demoPeerLib (demoForkPeer 7) (specDatabase noFaults) demoForkWorld).2.events =
      demoForkWorld.events ++ Event.getBlockHeight ::
        ((descending 10 7).flatMap (compareEvents 0) ++ [Event.deleteDownToBlock (7 + 1) ok]) ∧
    sentParameters "H" (Event.getBlockHeight ::
        ((descending 10 7).flatMap (compareEvents 0) ++ [Event.deleteDownToBlock (7 + 1) ok]))
      = (descending 10 7).map (fun j => [PutUint64 j]) ∧
    (process demoLib demoPeerLib (demoForkPeer 7) (specDatabase noFaults)
      demoForkWorld).2.conn.startBlockNumber = 7 + 1 ∧
    (process demoLib demoPeerLib (demoForkPeer 7) (specDatabase noFaults)
      demoForkWorld).2.conn.state = (if ok = true then cStateFetchBlocks else cStateHighestBlock) ∧
    ((∀ s : Server, s.blocks = demoServerTen.blocks →
      ((specDatabase noFaults).exec s (Call.deleteDownToBlock (7 + 1))).1 = none) → ok = true) ∧
    ((∀ s : Server, s.blocks = demoServerTen.blocks →
      ((specDatabase noFaults).exec s (Call.deleteDownToBlock (7 + 1))).1 ≠ none) → ok = false) :=
  C14_fork_detect_walk_amended demoLib demoPeerLib (demoForkPeer 7) (specDatabase noFaults)
    (fun s => s.blocks = demoServerTen.blocks) 0 10 7 (fun j => [j + 64])
    (fun j => if j ≤ 7 then [j + 64] else [j + 128]) demoForkWorld rfl rfl rfl
    { height := by
        intro s hs
        simp [specDatabase, noFaults, Server.height, hs, demoServerTen]
      localDigest := by
        intro s j hs h1 h2
        interval_cases j <;>
          simp [specDatabase, noFaults, hs, demoServerTen, demoLib]
      send := by
        intro t j _ _
        rfl
      receive := by
        intro t j h1 h2
        interval_cases j <;> exact ⟨_, rfl, by decide, by decide⟩ }
    (by decide) (by decide) (by decide) (by decide)
    (by
      intro j h1 h2
      interval_cases j <;> decide)
    (by decide)

/-- The category frames are the bytes of the category literals. -/
theorem frames_eq :
    stringBytes "block" = frameBlock ∧ stringBytes "assets" = frameAssets ∧
    stringBytes "issues" = frameIssues ∧ stringBytes "transfer" = frameTransfer ∧
    stringBytes "heart" = frameHeart := by
  decide

/-- A message that carries the local chain name goes to `process`. -/
theorem subscriberReceive_chain (L : Lib) (P : PeerLib) (D : Database σ) (fuel : Nat)
    (rest : List Bytes) (w : World σ) :
    subscriberReceive L P D fuel (stringBytes P.ChainName :: rest) w =
      subscriberProcess L D fuel rest w := by
  simp [subscriberReceive]

/-- C22 (live-ingest gating): while the mode is not Normal, a `block` broadcast
changes nothing: `process`, and the receiving step of the poll loop for a
message of the local chain, return with the world as it was, so there is no
call of `StoreBlock` (no event, no statement in the trace of the store), the
mode is the same and the connector record is the same.  This also holds for a
`block` message without payload frame, which ends in a panic of the index. -/
theorem C22_live_ingest_gating (L : Lib) (P : PeerLib) (D : Database σ) (fuel : Nat)
    (payload : Bytes) (more : List Bytes) (w : World σ) (hm : w.mode ≠ Mode.Normal) :
    subscriberProcess L D fuel (frameBlock :: payload :: more) w = some (.ok (), w) ∧
    subscriberReceive L P D fuel (stringBytes P.ChainName :: frameBlock :: payload :: more) w =
      some (.ok (), w) ∧
    subscriberProcess L D fuel [frameBlock] w = some (.panic "index out of range", w) := by
  refine ⟨?_, ?_, ?_⟩
  · simp [subscriberProcess, hm]
  · rw [subscriberReceive_chain]
    simp [subscriberProcess, hm]
  · simp [subscriberProcess]

/-- Witness for C22: in mode Resynchronise a broadcast of block 9, which fits
the local tip 8, is dropped. -/
theorem C22_live_ingest_gating_witness :
    subscriberProcess demoLib (specDatabase noFaults) 0 [frameBlock, [0, 9, 72, 0, 0]]
        demoHighestWorld = some (.ok (), demoHighestWorld) ∧
    subscriberReceive demoLib demoPeerLib (specDatabase noFaults) 0
        [stringBytes demoPeerLib.ChainName, frameBlock, [0, 9, 72, 0, 0]] demoHighestWorld =
      some (.ok (), demoHighestWorld) ∧
    subscriberProcess demoLib (specDatabase noFaults) 0 [frameBlock] demoHighestWorld =
      some (.panic "index out of range", demoHighestWorld) :=
  C22_live_ingest_gating demoLib demoPeerLib (specDatabase noFaults) 0 [0, 9, 72, 0, 0] []
    demoHighestWorld (by decide)

/-- The case `block` of `process` in mode Normal. -/
theorem subscriberProcess_block (L : Lib) (D : Database σ) (fuel : Nat)
    (payload : Bytes) (more : List Bytes) (w : World σ) (hm : w.mode = Mode.Normal) :
    ∃ r w1, subscriberProcess L D fuel (frameBlock :: payload :: more) w = some (r, w1) ∧
      r = logged (StoreBlock L D payload w.store).1 ∧
      w1.store = (StoreBlock L D payload w.store).2 ∧
      ((StoreBlock L D payload w.store).1 = .err .ErrPreviousBlockDigestDoesNotMatch →
        w1.mode = Mode.Resynchronise ∧ w1.conn = { w.conn with state := cStateHighestBlock } ∧
        w1.events = w.events ++ [Event.storeBlock payload false,
          Event.modeSet Mode.Resynchronise]) ∧
      ((StoreBlock L D payload w.store).1 ≠ .err .ErrPreviousBlockDigestDoesNotMatch →
        w1.mode = w.mode ∧ w1.conn = w.conn ∧
        w1.events = w.events ++
          [Event.storeBlock payload (outcomeOk (StoreBlock L D payload w.store).1)]) := by
  simp only [subscriberProcess, if_true, callStoreBlock]
  rw [if_pos hm]
  rcases hS : StoreBlock L D payload w.store with ⟨r, g⟩
  cases r with
  | ok u =>
    exact ⟨_, _, rfl, rfl, rfl, fun h => (by cases h), fun _ => ⟨rfl, rfl, rfl⟩⟩
  | panic m =>
    exact ⟨_, _, rfl, rfl, rfl, fun h => (by cases h), fun _ => ⟨rfl, rfl, rfl⟩⟩
  | err e =>
    by_cases he : e = .ErrPreviousBlockDigestDoesNotMatch
    · subst he
      refine ⟨_, _, rfl, rfl, rfl, fun _ => ⟨rfl, rfl, ?_⟩, fun h => absurd rfl h⟩
      simp [setState, modeSet, outcomeOk]
    · simp only [he, if_false]
      refine ⟨_, _, rfl, rfl, rfl, fun h => ?_, fun _ => ⟨rfl, rfl, rfl⟩⟩
      exact absurd (Outcome.err.inj h) he

/-- The cases `assets`, `issues` and `transfer` of `process`. -/
theorem subscriberProcess_transactions (L : Lib) (D : Database σ) (fuel : Nat)
    (rest : List Bytes) (w : World σ) :
    subscriberProcess L D fuel (frameAssets :: rest) w = processTransactions L D fuel rest w ∧
    subscriberProcess L D fuel (frameIssues :: rest) w = processTransactions L D fuel rest w ∧
    subscriberProcess L D fuel (frameTransfer :: rest) w =
      processTransactions L D fuel rest w := by
  have h1 : ¬ frameAssets = frameBlock := by decide
  have h2 : ¬ frameIssues = frameBlock := by decide
  have h3 : ¬ frameIssues = frameAssets := by decide
  have h4 : ¬ frameTransfer = frameBlock := by decide
  have h5 : ¬ frameTransfer = frameAssets := by decide
  have h6 : ¬ frameTransfer = frameIssues := by decide
  refine ⟨?_, ?_, ?_⟩ <;> simp [subscriberProcess, h1, h2, h3, h4, h5, h6]

/-- C23 (cross-component resync signal): for a `block` broadcast handled in mode
Normal, `process` calls `StoreBlock` once with the payload; it sets the mode to
Resynchronise and the connector state to HighestBlock if and only if
`StoreBlock` returned ErrPreviousBlockDigestDoesNotMatch, and with any other
result (success, another error, a panic) the mode and the connector record are
as before.  For an `assets`, `issues` or `transfer` broadcast, in every mode,
the result is that of `StoreTransactions` on the payload with its error
dropped, and whatever it returns only the store differs: the mode, the
connector record and the events are as before; a `heart` broadcast, in every
mode, changes nothing. -/
theorem C23_resync_signal (L : Lib) (D : Database σ) (fuel : Nat)
    (payload : Bytes) (more : List Bytes) (w : World σ) :
    (w.mode = Mode.Normal →
      ∃ r w1, subscriberProcess L D fuel (frameBlock :: payload :: more) w = some (r, w1) ∧
        w1.store = (StoreBlock L D payload w.store).2 ∧
        storeCalls w1.events = storeCalls w.events + 1 ∧
        ((w1.mode = Mode.Resynchronise ∧ w1.conn.state = cStateHighestBlock) ↔
          (StoreBlock L D payload w.store).1 = .err .ErrPreviousBlockDigestDoesNotMatch) ∧
        ((StoreBlock L D payload w.store).1 = .err .ErrPreviousBlockDigestDoesNotMatch →
          w1.conn = { w.conn with state := cStateHighestBlock }) ∧
        ((StoreBlock L D payload w.store).1 ≠ .err .ErrPreviousBlockDigestDoesNotMatch →
          w1.mode = w.mode ∧ w1.conn = w.conn)) ∧
    (∀ category ∈ [frameAssets, frameIssues, frameTransfer],
      subscriberProcess L D fuel (category :: payload :: more) w =
        ((StoreTransactions L D fuel payload w.store).map fun x =>
          (logged x.1, { w with store := x.2 })) ∧
      ∀ r w1, subscriberProcess L D fuel (category :: payload :: more) w = some (r, w1) →
        w1.mode = w.mode ∧ w1.conn = w.conn ∧ w1.events = w.events) ∧
    subscriberProcess L D fuel (frameHeart :: payload :: more) w = some (.ok (), w) := by
  refine ⟨?_, ?_, ?_⟩
  · intro hm
    obtain ⟨r, w1, h1, -, h3, h4, h5⟩ := subscriberProcess_block L D fuel payload more w hm
    refine ⟨r, w1, h1, h3, ?_, ⟨?_, ?_⟩, fun h => (h4 h).2.1, fun h => ⟨(h5 h).1, (h5 h).2.1⟩⟩
    · by_cases h : (StoreBlock L D payload w.store).1 = .err .ErrPreviousBlockDigestDoesNotMatch
      · rw [(h4 h).2.2]
        simp [storeCalls, List.countP_append, Event.isStoreBlock]
      · rw [(h5 h).2.2]
        simp [storeCalls, List.countP_append, Event.isStoreBlock]
    · rintro ⟨hmode, -⟩
      by_contra h
      rw [(h5 h).1, hm] at hmode
      cases hmode
    · intro h
      obtain ⟨a, b, -⟩ := h4 h
      exact ⟨a, by rw [b]⟩
  · intro category hc
    simp only [List.mem_cons, List.mem_singleton, List.not_mem_nil, or_false] at hc
    obtain ⟨a, b, c⟩ := subscriberProcess_transactions L D fuel (payload :: more) w
    have key : subscriberProcess L D fuel (category :: payload :: more) w =
        ((StoreTransactions L D fuel payload w.store).map fun x =>
          (logged x.1, { w with store := x.2 })) := by
      rcases hc with rfl | rfl | rfl
      · rw [a]; rfl
      · rw [b]; rfl
      · rw [c]; rfl
    refine ⟨key, ?_⟩
    intro r w1 h
    rw [key] at h
    cases hS : StoreTransactions L D fuel payload w.store with
    | none =>
      rw [hS] at h
      cases h
    | some x =>
      rw [hS] at h
      simp only [Option.map_some', Option.some.injEq, Prod.mk.injEq] at h
      obtain ⟨-, rfl⟩ := h
      exact ⟨rfl, rfl, rfl⟩
  · have h1 : ¬ frameHeart = frameBlock := by decide
    have h2 : ¬ frameHeart = frameAssets := by decide
    have h3 : ¬ frameHeart = frameIssues := by decide
    have h4 : ¬ frameHeart = frameTransfer := by decide
    simp [subscriberProcess, h1, h2, h3, h4]

/-- Witness for C23: in mode Normal a broadcast of a block numbered 9 whose
previous digest is not that of the local block 8 sets the mode to Resynchronise
and the connector state to HighestBlock; and in mode Resynchronise an `issues`
broadcast is stored and leaves the mode and the connector state as they were. -/
theorem C23_resync_signal_witness :
    (StoreBlock demoLib (specDatabase noFaults) [0, 9, 99, 0, 0] demoNormalWorld.store).1 =
      .err .ErrPreviousBlockDigestDoesNotMatch ∧
    (subscriberProcess demoLib (specDatabase noFaults) 1 (frameBlock :: [0, 9, 99, 0, 0] :: [])
        demoNormalWorld).map (fun x => (x.1, x.2.mode, x.2.conn.state)) =
      some (.ok (), Mode.Resynchronise, cStateHighestBlock) ∧
    demoHighestWorld.mode = Mode.Resynchronise ∧
    (subscriberProcess demoLib (specDatabase noFaults) 1 (frameIssues :: [2, 7] :: [])
        demoHighestWorld).map (fun x => (x.1, x.2.mode, x.2.conn.state,
          callsSince demoHighestWorld.store x.2.store)) =
      some (.ok (), Mode.Resynchronise, cStateHighestBlock,
        [Call.begin,
         Call.insertTransaction "27" "7" "7" "" (some "7") none .statusPending none "" 0 0,
         Call.notifyPendingTx "27", Call.commit]) ∧
    ∃ r w1, subscriberProcess demoLib (specDatabase noFaults) 1
        (frameBlock :: [0, 9, 99, 0, 0] :: []) demoNormalWorld = some (r, w1) ∧
      w1.store = (StoreBlock demoLib (specDatabase noFaults) [0, 9, 99, 0, 0]
        demoNormalWorld.store).2 ∧
      storeCalls w1.events = storeCalls demoNormalWorld.events + 1 ∧
      ((w1.mode = Mode.Resynchronise ∧ w1.conn.state = cStateHighestBlock) ↔
        (StoreBlock demoLib (specDatabase noFaults) [0, 9, 99, 0, 0] demoNormalWorld.store).1 =
          .err .ErrPreviousBlockDigestDoesNotMatch) ∧
      ((StoreBlock demoLib (specDatabase noFaults) [0, 9, 99, 0, 0] demoNormalWorld.store).1 =
          .err .ErrPreviousBlockDigestDoesNotMatch →
        w1.conn = { demoNormalWorld.conn with state := cStateHighestBlock }) ∧
      ((StoreBlock demoLib (specDatabase noFaults) [0, 9, 99, 0, 0] demoNormalWorld.store).1 ≠
          .err .ErrPreviousBlockDigestDoesNotMatch →
        w1.mode = demoNormalWorld.mode ∧ w1.conn = demoNormalWorld.conn) :=
  ⟨by decide, by decide, by decide, by decide,
   (C23_resync_signal demoLib (specDatabase noFaults) 1 [0, 9, 99, 0, 0] [] demoNormalWorld).1
    rfl⟩

/-- A category frame without a payload frame: `process` indexes the payload
frame for its log line and panics. -/
theorem subscriberProcess_short (L : Lib) (D : Database σ) (fuel : Nat) (w : World σ)
    (category : Bytes)
    (hc : category ∈ [frameBlock, frameAssets, frameIssues, frameTransfer, frameHeart]) :
    subscriberProcess L D fuel [category] w = some (.panic "index out of range", w) := by
  have h1 : ¬ frameAssets = frameBlock := by decide
  have h2 : ¬ frameIssues = frameBlock := by decide
  have h3 : ¬ frameIssues = frameAssets := by decide
  have h4 : ¬ frameTransfer = frameBlock := by decide
  have h5 : ¬ frameTransfer = frameAssets := by decide
  have h6 : ¬ frameTransfer = frameIssues := by decide
  have h7 : ¬ frameHeart = frameBlock := by decide
  have h8 : ¬ frameHeart = frameAssets := by decide
  have h9 : ¬ frameHeart = frameIssues := by decide
  have h10 : ¬ frameHeart = frameTransfer := by decide
  simp only [List.mem_cons, List.mem_singleton, List.not_mem_nil, or_false] at hc
  rcases hc with rfl | rfl | rfl | rfl | rfl <;>
    simp [subscriberProcess, processTransactions, h1, h2, h3, h4, h5, h6, h7, h8, h9, h10]

/-- C24, at the failing inputs: a broadcast that holds only the chain name, or
the chain name and a category without payload, makes the subscriber index a
frame that is not there, which panics; and so does `checkNodes` for every reply
of one frame, since it does not test the number of frames as `highestBlock`,
`blockDigest` and `blockData` do (a Connecting step with such a peer panics).
The other protocol errors are ignored as claimed: a message for another chain
and an unknown category leave the world as it was; `highestBlock` keeps its
result for a reply with another number of frames or another command;
`blockDigest` and `blockData` return ErrInvalidPeerResponse for these;
`checkNodes` does not count a reply of two or more frames with another command
or another chain; and the four request functions touch nothing but the
clients. -/
theorem C24_short_message_panics (L : Lib) (P : PeerLib) (T : Transport) (D : Database σ)
    (fuel : Nat) (w : World σ) :
    subscriberReceive L P D fuel [stringBytes P.ChainName] w =
      some (.panic "index out of range", w) ∧
    (∀ category ∈ [frameBlock, frameAssets, frameIssues, frameTransfer, frameHeart],
      subscriberReceive L P D fuel [stringBytes P.ChainName, category] w =
        some (.panic "index out of range", w)) ∧
    (∀ d0 n, checkNodesReply P [d0] n = .panic "index out of range") ∧
    (process demoLib demoPeerLib demoShortPeer (specDatabase noFaults) demoPairWorld).1 =
      .panic "index out of range" ∧
    (∀ d0 rest, d0 ≠ stringBytes P.ChainName →
      subscriberReceive L P D fuel (d0 :: rest) w = some (.ok (), w)) ∧
    (∀ d0 rest, d0 ∉ [frameBlock, frameAssets, frameIssues, frameTransfer, frameHeart] →
      subscriberProcess L D fuel (d0 :: rest) w = some (.ok (), w)) ∧
    (∀ data i h c, data.length ≠ 2 → highestBlockReply data i h c = (h, c)) ∧
    (∀ d0 d1 i h c, d0 ≠ frameE → d0 ≠ frameN → highestBlockReply [d0, d1] i h c = (h, c)) ∧
    (∀ data, data.length ≠ 2 →
      blockDigestReply P data = .err .ErrInvalidPeerResponse ∧
      blockDataReply data = .err .ErrInvalidPeerResponse) ∧
    (∀ d0 d1, d0 ≠ frameE →
      (d0 ≠ frameH → blockDigestReply P [d0, d1] = .err .ErrInvalidPeerResponse) ∧
      (d0 ≠ frameB → blockDataReply [d0, d1] = .err .ErrInvalidPeerResponse)) ∧
    (∀ d0 d1 rest n, d0 ≠ frameE → d0 ≠ frameI → checkNodesReply P (d0 :: d1 :: rest) n = .ok n) ∧
    (∀ d1 rest info n, P.Unmarshal d1 = .ok info → info.Chain ≠ P.ChainName →
      checkNodesReply P (frameI :: d1 :: rest) n = .ok n) ∧
    (∃ ev, clientOps w (checkNodes P T w).2 ev) ∧
    (∃ ev, clientOps w (highestBlock T w).2 ev) ∧
    (∀ i n, (∃ ev, clientOps w (blockDigest P T (some i) n w).2 ev) ∧
      ∃ ev, clientOps w (blockData T (some i) n w).2 ev) := by
  refine ⟨?_, ?_, ?_, by decide, ?_, ?_, ?_, ?_, ?_, ?_, ?_, ?_, checkNodes_clientOps P T w,
    highestBlock_clientOps T w, ?_⟩
  · rw [subscriberReceive_chain]
    rfl
  · intro category hc
    rw [subscriberReceive_chain]
    exact subscriberProcess_short L D fuel w category hc
  · intro d0 n
    rfl
  · intro d0 rest h
    simp [subscriberReceive, h]
  · intro d0 rest h
    simp only [List.mem_cons, List.mem_singleton, List.not_mem_nil, or_false, not_or] at h
    obtain ⟨h1, h2, h3, h4, h5⟩ := h
    simp [subscriberProcess, h1, h2, h3, h4, h5]
  · intro data i h c hl
    unfold highestBlockReply
    split
    · simp at hl
    · rfl
  · intro d0 d1 i h c h1 h2
    simp [highestBlockReply, h1, h2]
  · intro data hl
    constructor
    · unfold blockDigestReply
      split
      · simp at hl
      · rfl
    · unfold blockDataReply
      split
      · simp at hl
      · rfl
  · intro d0 d1 h1
    constructor
    · intro h2
      simp [blockDigestReply, h1, h2]
    · intro h2
      simp [blockDataReply, h1, h2]
  · intro d0 d1 rest n h1 h2
    simp [checkNodesReply, h1, h2]
  · intro d1 rest info n hu hc
    have hne : ¬ frameI = frameE := by decide
    simp [checkNodesReply, hne, hu, hc]
  · intro i n
    obtain ⟨e1, h1, -⟩ := blockDigest_clientOps P T i n w
    obtain ⟨e2, h2, -⟩ := blockData_clientOps T i n w
    exact ⟨⟨e1, h1⟩, ⟨e2, h2⟩⟩

/-- A step in state Connecting: the mode is written once, first, and the step
ends in HighestBlock or panics in Connecting. -/
theorem step_connecting (L : Lib) (P : PeerLib) (T : Transport) (D : Database σ)
    (w : World σ) (hs : w.conn.state = cStateConnecting) :
    ∃ evc, (process L P T D w).2.events = w.events ++ Event.modeSet .Resynchronise :: evc ∧
      (∀ e ∈ evc, e.isClientOp = true) ∧
      (process L P T D w).2.mode = Mode.Resynchronise ∧
      (((process L P T D w).1 = .ok () ∧
          (process L P T D w).2.conn.state = cStateHighestBlock) ∨
        ((∃ m, (process L P T D w).1 = .panic m) ∧
          (process L P T D w).2.conn.state = cStateConnecting)) := by
  rw [(process_eq L P T D w).1 hs]
  unfold processConnecting
  obtain ⟨evc, he, hk, -, hmode, hstate, -⟩ := checkNodes_clientOps P T (modeSet .Resynchronise w)
  rcases hC : checkNodes P T (modeSet .Resynchronise w) with ⟨r, w1⟩
  rw [hC] at he hstate hmode
  simp only [modeSet] at he hstate hmode
  cases r with
  | ok u =>
    refine ⟨evc, by simp [setState, he], hk, hmode, Or.inl ⟨rfl, ?_⟩⟩
    simp only [setState, hstate, hs]
    rfl
  | err e =>
    exact ⟨evc, by simp [he], hk, hmode, Or.inr ⟨⟨_, rfl⟩, by simp only [hstate, hs]⟩⟩
  | panic m =>
    exact ⟨evc, by simp [he], hk, hmode, Or.inr ⟨⟨_, rfl⟩, by simp only [hstate, hs]⟩⟩

/-- A step in state HighestBlock. -/
theorem step_highest (L : Lib) (P : PeerLib) (T : Transport) (D : Database σ)
    (w : World σ) (hs : w.conn.state = cStateHighestBlock) :
    ∃ ev, (process L P T D w).2.events = w.events ++ ev ∧
      (∀ e ∈ ev, e.isClientOp = true) ∧
      (process L P T D w).2.mode = w.mode ∧ (process L P T D w).1 = .ok () ∧
      ((process L P T D w).2.conn.state = cStateHighestBlock ∨
        (process L P T D w).2.conn.state = cStateForkDetect) := by
  rw [(process_eq L P T D w).2.1 hs]
  unfold processHighestBlock
  obtain ⟨evc, he, hk, -, hmode, hstate, -⟩ := highestBlock_clientOps T w
  rcases hC : highestBlock T w with ⟨⟨h, c⟩, w1⟩
  rw [hC] at he hstate hmode
  simp only at he hstate hmode ⊢
  split
  · refine ⟨evc, by simp [setState, he], hk, hmode, rfl, Or.inr ?_⟩
    simp only [setState, hstate, hs]
    rfl
  · exact ⟨evc, he, hk, hmode, rfl, Or.inl (by simp only [hstate, hs])⟩

/-- A step in state ForkDetect. -/
theorem step_fork (L : Lib) (P : PeerLib) (T : Transport) (D : Database σ)
    (w : World σ) (hs : w.conn.state = cStateForkDetect) :
    ∃ ev, (process L P T D w).2.events = w.events ++ ev ∧
      (∀ e ∈ ev, e.isModeSet = false) ∧
      (process L P T D w).2.mode = w.mode ∧
      (((process L P T D w).2.conn.state = cStateForkDetect ∧
          ∃ m, (process L P T D w).1 = .panic m) ∨
        (process L P T D w).2.conn.state = cStateRebuild ∨
        (process L P T D w).2.conn.state = cStateFetchBlocks ∨
        (process L P T D w).2.conn.state = cStateHighestBlock) := by
  rw [(process_eq L P T D w).2.2.1 hs]
  unfold processForkDetect
  obtain ⟨hr, hconn, hmode, hev⟩ := callGetBlockHeight_eq L D w
  rcases hC : callGetBlockHeight L D w with ⟨r, w1⟩
  rw [hC] at hr hconn hev hmode
  simp only at hr hconn hev hmode
  cases r with
  | error e =>
    exact ⟨[Event.getBlockHeight], hev, by simp [Event.isModeSet], hmode,
      Or.inl ⟨by simp only [hconn, hs], _, rfl⟩⟩
  | ok h =>
    simp only
    split
    · exact ⟨[Event.getBlockHeight], by simp [setState, hev], by simp [Event.isModeSet],
        hmode, Or.inr (Or.inl rfl)⟩
    · generalize hw2 : ({ w1 with conn := { w1.conn with
            startBlockNumber := addU64 L.genesisBlockNumber 1,
            state := w1.conn.state + 1 } } : World σ) = w2
      have hw2e : w2.events = w1.events := by rw [← hw2]
      have hw2m : w2.mode = w1.mode := by rw [← hw2]
      have hw2s : w2.conn.state = w1.conn.state + 1 := by rw [← hw2]
      obtain ⟨ev2, he2, -, -, hm2, -, hk2, -⟩ := checkDigests_run L P T D h w2
      have hst2 := checkDigests_state L P T D h w2
      rw [hw2s, hconn, hs] at hst2
      refine ⟨Event.getBlockHeight :: ev2, by rw [he2, hw2e, hev]; simp, ?_,
        by rw [hm2, hw2m, hmode], ?_⟩
      · intro e he
        rcases List.mem_cons.1 he with h | h
        · subst h; rfl
        · exact (hk2 _ h).1
      · rcases hst2 with h5 | h5
        · exact Or.inr (Or.inr (Or.inl h5))
        · exact Or.inr (Or.inr (Or.inr h5))

/-- A step in state FetchBlocks. -/
theorem step_fetch (L : Lib) (P : PeerLib) (T : Transport) (D : Database σ)
    (w : World σ) (hs : w.conn.state = cStateFetchBlocks) :
    ∃ ev, (process L P T D w).2.events = w.events ++ ev ∧
      (∀ e ∈ ev, e.isModeSet = false) ∧
      (process L P T D w).2.mode = w.mode ∧
      ((process L P T D w).2.conn.state = cStateFetchBlocks ∨
        (process L P T D w).2.conn.state = cStateHighestBlock) := by
  rw [(process_eq L P T D w).2.2.2.1 hs]
  unfold processFetchBlocks
  obtain ⟨ev, he, hm, hk, hst⟩ := fetchSomeBlocks_frame L T D fetchBlocksPerCycle w
  refine ⟨ev, he, fun e h => (hk e h).1, hm, ?_⟩
  rcases hst with h5 | h5
  · exact Or.inl (by rw [h5, hs])
  · exact Or.inr h5

/-- A step in state Rebuild. -/
theorem step_rebuild (L : Lib) (P : PeerLib) (T : Transport) (D : Database σ)
    (w : World σ) (hs : w.conn.state = cStateRebuild) :
    (process L P T D w).1 = .ok () ∧
    (process L P T D w).2.events = w.events ++ [Event.modeSet Mode.Normal] ∧
    (process L P T D w).2.mode = Mode.Normal ∧
    (process L P T D w).2.conn.state = cStateSampling := by
  rw [(process_eq L P T D w).2.2.2.2.1 hs]
  simp [processRebuild, modeSet, hs, cStateRebuild, cStateSampling]

/-- A step in state Sampling. -/
theorem step_sampling (L : Lib) (P : PeerLib) (T : Transport) (D : Database σ)
    (w : World σ) (hs : w.conn.state = cStateSampling) :
    ∃ ev, (process L P T D w).2.events = w.events ++ ev ∧
      (∀ e ∈ ev, e.isModeSet = false) ∧
      (process L P T D w).2.mode = w.mode ∧
      ((process L P T D w).2.conn.state = cStateSampling ∨
        (process L P T D w).2.conn.state = cStateHighestBlock ∨
        (process L P T D w).2.conn.state = cStateForkDetect) := by
  rw [(process_eq L P T D w).2.2.2.2.2.1 hs]
  unfold processSampling
  obtain ⟨evc, he, hk, -, hmode, hstate, -⟩ := highestBlock_clientOps T w
  rcases hC : highestBlock T w with ⟨⟨r, c⟩, w1⟩
  rw [hC] at he hstate hmode
  simp only at he hstate hmode ⊢
  have hkm : ∀ e ∈ evc, e.isModeSet = false := fun e h => (clientOp_kinds (hk e h)).2.2.2.1
  split
  · exact ⟨evc, by simp [setState, he], hkm, hmode, Or.inr (Or.inl rfl)⟩
  · obtain ⟨-, hconn, hmode3, hev⟩ := callGetBlockHeight_eq L D
      ({ w1 with conn := { w1.conn with highestBlockNumber := r, theClient := c } } : World σ)
    rcases hG : callGetBlockHeight L D
      ({ w1 with conn := { w1.conn with highestBlockNumber := r, theClient := c } } : World σ)
      with ⟨r2, w3⟩
    rw [hG] at hconn hev hmode3
    simp only at hconn hev hmode3
    have hkm2 : ∀ e ∈ evc ++ [Event.getBlockHeight], e.isModeSet = false := by
      intro e h
      rcases List.mem_append.1 h with h | h
      · exact hkm e h
      · simp at h; subst h; rfl
    have hev2 : w3.events = w.events ++ (evc ++ [Event.getBlockHeight]) := by
      rw [hev, he, List.append_assoc]
    have hst3 : w3.conn.state = cStateSampling := by
      rw [hconn]
      simp only [hstate, hs]
    have hm3 : w3.mode = w.mode := by rw [hmode3, hmode]
    cases r2 with
    | error e => exact ⟨_, hev2, hkm2, hm3, Or.inl hst3⟩
    | ok height =>
      simp only
      split
      · split
        · exact ⟨_, by simpa [setState] using hev2, hkm2, hm3, Or.inr (Or.inr rfl)⟩
        · split
          · exact ⟨_, by simpa [setState] using hev2, hkm2, hm3, Or.inr (Or.inr rfl)⟩
          · exact ⟨_, by simpa using hev2, hkm2, hm3, Or.inl hst3⟩
      · exact ⟨_, hev2, hkm2, hm3, Or.inl hst3⟩

/-- The values of the connector state. -/
theorem state_cases (s : connectorState) :
    s = cStateConnecting ∨ s = cStateHighestBlock ∨ s = cStateForkDetect ∨
    s = cStateFetchBlocks ∨ s = cStateRebuild ∨ s = cStateSampling ∨ 5 < s := by
  have key : ∀ s : Nat, s = 0 ∨ s = 1 ∨ s = 2 ∨ s = 3 ∨ s = 4 ∨ s = 5 ∨ 5 < s := by
    intro s
    omega
  exact key s

/-- One call of `process`: the state it ends in and the mode it leaves. -/
theorem process_step (L : Lib) (P : PeerLib) (T : Transport) (D : Database σ) (w : World σ) :
    ((process L P T D w).2.conn.state = w.conn.state ∨
      (w.conn.state, (process L P T D w).2.conn.state) ∈ transitions) ∧
    (w.conn.state = cStateConnecting → (process L P T D w).1 = .ok () →
      (process L P T D w).2.conn.state = cStateHighestBlock) ∧
    (process L P T D w).2.mode =
      (if w.conn.state = cStateConnecting then Mode.Resynchronise
       else if w.conn.state = cStateRebuild then Mode.Normal else w.mode) ∧
    ∃ ev, (process L P T D w).2.events = w.events ++ ev ∧
      ev.filter Event.isModeSet =
        (if w.conn.state = cStateConnecting then [Event.modeSet Mode.Resynchronise]
         else if w.conn.state = cStateRebuild then [Event.modeSet Mode.Normal] else []) := by
  have hfil : ∀ ev : List Event, (∀ e ∈ ev, e.isModeSet = false) →
      ev.filter Event.isModeSet = [] := by
    intro ev h
    rw [List.filter_eq_nil_iff]
    intro e he
    simp [h e he]
  rcases state_cases w.conn.state with hs | hs | hs | hs | hs | hs | hs
  · obtain ⟨evc, he, hk, hm, hst⟩ := step_connecting L P T D w hs
    refine ⟨?_, ?_, by rw [hm, if_pos hs], _, he, ?_⟩
    · rcases hst with ⟨-, h⟩ | ⟨-, h⟩
      · refine Or.inr ?_
        rw [h, hs]
        decide
      · exact Or.inl (by rw [h, hs])
    · intro _ hok
      rcases hst with ⟨-, h⟩ | ⟨⟨m, hp⟩, -⟩
      · exact h
      · rw [hp] at hok; cases hok
    · rw [if_pos hs, List.filter_cons]
      simp only [Event.isModeSet, if_true]
      rw [hfil evc (fun e h => (clientOp_kinds (hk e h)).2.2.2.1)]
  · obtain ⟨ev, he, hk, hm, -, hst⟩ := step_highest L P T D w hs
    have h0 : ¬ w.conn.state = cStateConnecting := by rw [hs]; decide
    have h4 : ¬ w.conn.state = cStateRebuild := by rw [hs]; decide
    refine ⟨?_, fun h => absurd h h0, by rw [hm, if_neg h0, if_neg h4], ev, he, ?_⟩
    · rcases hst with h | h
      · exact Or.inl (by rw [h, hs])
      · refine Or.inr ?_
        rw [h, hs]
        decide
    · rw [if_neg h0, if_neg h4]
      exact hfil ev (fun e h => (clientOp_kinds (hk e h)).2.2.2.1)
  · obtain ⟨ev, he, hk, hm, hst⟩ := step_fork L P T D w hs
    have h0 : ¬ w.conn.state = cStateConnecting := by rw [hs]; decide
    have h4 : ¬ w.conn.state = cStateRebuild := by rw [hs]; decide
    refine ⟨?_, fun h => absurd h h0, by rw [hm, if_neg h0, if_neg h4], ev, he, ?_⟩
    · rcases hst with ⟨h, -⟩ | h | h | h
      · exact Or.inl (by rw [h, hs])
      · refine Or.inr ?_
        rw [h, hs]
        decide
      · refine Or.inr ?_
        rw [h, hs]
        decide
      · refine Or.inr ?_
        rw [h, hs]
        decide
    · rw [if_neg h0, if_neg h4]
      exact hfil ev hk
  · obtain ⟨ev, he, hk, hm, hst⟩ := step_fetch L P T D w hs
    have h0 : ¬ w.conn.state = cStateConnecting := by rw [hs]; decide
    have h4 : ¬ w.conn.state = cStateRebuild := by rw [hs]; decide
    refine ⟨?_, fun h => absurd h h0, by rw [hm, if_neg h0, if_neg h4], ev, he, ?_⟩
    · rcases hst with h | h
      · exact Or.inl (by rw [h, hs])
      · refine Or.inr ?_
        rw [h, hs]
        decide
    · rw [if_neg h0, if_neg h4]
      exact hfil ev hk
  · obtain ⟨-, he, hm, hst⟩ := step_rebuild L P T D w hs
    have h0 : ¬ w.conn.state = cStateConnecting := by rw [hs]; decide
    refine ⟨?_, fun h => absurd h h0, by rw [hm, if_neg h0, if_pos hs], _, he, ?_⟩
    · refine Or.inr ?_
      rw [hst, hs]
      decide
    · rw [if_neg h0, if_pos hs]
      rfl
  · obtain ⟨ev, he, hk, hm, hst⟩ := step_sampling L P T D w hs
    have h0 : ¬ w.conn.state = cStateConnecting := by rw [hs]; decide
    have h4 : ¬ w.conn.state = cStateRebuild := by rw [hs]; decide
    refine ⟨?_, fun h => absurd h h0, by rw [hm, if_neg h0, if_neg h4], ev, he, ?_⟩
    · rcases hst with h | h | h
      · exact Or.inl (by rw [h, hs])
      · refine Or.inr ?_
        rw [h, hs]
        decide
      · refine Or.inr ?_
        rw [h, hs]
        decide
    · rw [if_neg h0, if_neg h4]
      exact hfil ev hk
  · have key : ∀ s : Nat, 5 < s → s ≠ 0 ∧ s ≠ 4 := by
      intro s h
      omega
    have h0 : ¬ w.conn.state = cStateConnecting := (key w.conn.state hs).1
    have h4 : ¬ w.conn.state = cStateRebuild := (key w.conn.state hs).2
    rw [(process_eq L P T D w).2.2.2.2.2.2 hs]
    refine ⟨Or.inl rfl, fun h => absurd h h0, ?_, [], by simp, ?_⟩
    · rw [if_neg h0, if_neg h4]
    · rw [if_neg h0, if_neg h4]
      rfl

/-- C25 (state-machine closure): from a state of the machine every call of
`process`, whatever the peers and the store answer and also when it panics,
ends in a state of the machine; the state is the same as before or the change
is one of Connecting to HighestBlock, HighestBlock to ForkDetect, ForkDetect to
Rebuild, FetchBlocks or HighestBlock, FetchBlocks to HighestBlock, Rebuild to
Sampling, Sampling to ForkDetect or HighestBlock.  These are changes that the
claim lists (the claim also lists FetchBlocks to Rebuild, which no call makes).
No call returns to Connecting: a call that ends in Connecting started there and
did not return normally. -/
theorem C25_state_machine_closure (L : Lib) (P : PeerLib) (T : Transport) (D : Database σ)
    (w : World σ) (hs : w.conn.state ≤ cStateSampling) :
    (process L P T D w).2.conn.state ≤ cStateSampling ∧
    ((process L P T D w).2.conn.state = w.conn.state ∨
      (w.conn.state, (process L P T D w).2.conn.state) ∈ transitions) ∧
    (∀ p ∈ transitions, p ∈ claimedTransitions) ∧
    ((process L P T D w).2.conn.state = cStateConnecting →
      w.conn.state = cStateConnecting ∧ (process L P T D w).1 ≠ .ok ()) := by
  obtain ⟨hst, hcon, -, -⟩ := process_step L P T D w
  have hto : ∀ p ∈ transitions, p.2 ≤ cStateSampling ∧ p.2 ≠ cStateConnecting := by decide
  refine ⟨?_, hst, by decide, ?_⟩
  · rcases hst with h | h
    · rw [h]; exact hs
    · exact (hto _ h).1
  · intro h0
    have hs0 : w.conn.state = cStateConnecting := by
      rcases hst with h | h
      · rw [← h]; exact h0
      · exact absurd h0 (hto _ h).2
    refine ⟨hs0, fun hok => ?_⟩
    have := hcon hs0 hok
    rw [h0] at this
    cases this

/-- Witness for C25: a Sampling step over the demo store with a peer one block
ahead. -/
theorem C25_state_machine_closure_witness :
    (process demoLib demoPeerLib demoAheadPeer (specDatabase noFaults)
      demoSamplingWorld).2.conn.state ≤ cStateSampling ∧
    ((process demoLib demoPeerLib demoAheadPeer (specDatabase noFaults)
        demoSamplingWorld).2.conn.state = demoSamplingWorld.conn.state ∨
      (demoSamplingWorld.conn.state,
        (process demoLib demoPeerLib demoAheadPeer (specDatabase noFaults)
          demoSamplingWorld).2.conn.state) ∈ transitions) ∧
    (∀ p ∈ transitions, p ∈ claimedTransitions) ∧
    ((process demoLib demoPeerLib demoAheadPeer (specDatabase noFaults)
        demoSamplingWorld).2.conn.state = cStateConnecting →
      demoSamplingWorld.conn.state = cStateConnecting ∧
        (process demoLib demoPeerLib demoAheadPeer (specDatabase noFaults)
          demoSamplingWorld).1 ≠ .ok ()) :=
  C25_state_machine_closure demoLib demoPeerLib demoAheadPeer (specDatabase noFaults)
    demoSamplingWorld (by decide)

/-- Cycles that start in mode Normal outside the state Connecting stay in mode
Normal and outside Connecting. -/
theorem cycles_normal (L : Lib) (P : PeerLib) (T : Transport) (D : Database σ) :
    ∀ (n : Nat) (w : World σ), w.mode = Mode.Normal → w.conn.state ≠ cStateConnecting →
      (cycles L P T D n w).2.mode = Mode.Normal ∧
      (cycles L P T D n w).2.conn.state ≠ cStateConnecting := by
  intro n
  induction n with
  | zero => intro w hm hs; exact ⟨hm, hs⟩
  | succ n ih =>
    intro w hm hs
    obtain ⟨hst, -, hmode, -⟩ := process_step L P T D w
    have hto : ∀ p ∈ transitions, p.2 ≠ cStateConnecting := by decide
    have h1 : (process L P T D w).2.mode = Mode.Normal := by
      rw [hmode, if_neg hs]
      split
      · rfl
      · exact hm
    have h2 : (process L P T D w).2.conn.state ≠ cStateConnecting := by
      rcases hst with h | h
      · rw [h]; exact hs
      · exact hto _ h
    rcases hP : process L P T D w with ⟨r, w1⟩
    rw [hP] at h1 h2
    simp only [cycles, hP]
    cases r with
    | ok u => exact ih w1 h1 h2
    | err e => exact ⟨h1, h2⟩
    | panic m => exact ⟨h1, h2⟩

/-- C29: a call of `process` writes the mode at most once: Resynchronise in
state Connecting, Normal in state Rebuild, and nothing in any other state, so
that the mode after a call in another state is the mode before it.  As no call
returns to Connecting, cycles that start in mode Normal outside Connecting keep
the mode Normal through every step, the ForkDetect and FetchBlocks steps of a
re-synchronisation from Sampling included; a `block` broadcast handled after
any number of such cycles is therefore not gated: `process` of the subscriber
calls `StoreBlock` with the payload. -/
theorem C29_mode_written_in_two_steps (L : Lib) (P : PeerLib) (T : Transport)
    (D : Database σ) (w : World σ) :
    (∃ ev, (process L P T D w).2.events = w.events ++ ev ∧
      ev.filter Event.isModeSet =
        (if w.conn.state = cStateConnecting then [Event.modeSet Mode.Resynchronise]
         else if w.conn.state = cStateRebuild then [Event.modeSet Mode.Normal] else []) ∧
      ev.countP Event.isModeSet ≤ 1) ∧
    (process L P T D w).2.mode =
      (if w.conn.state = cStateConnecting then Mode.Resynchronise
       else if w.conn.state = cStateRebuild then Mode.Normal else w.mode) ∧
    (w.mode = Mode.Normal → w.conn.state ≠ cStateConnecting →
      ∀ n, (cycles L P T D n w).2.mode = Mode.Normal ∧
        (cycles L P T D n w).2.conn.state ≠ cStateConnecting ∧
        ∀ fuel payload more, ∃ r w1,
          subscriberProcess L D fuel (frameBlock :: payload :: more) (cycles L P T D n w).2 =
            some (r, w1) ∧
          w1.store = (StoreBlock L D payload (cycles L P T D n w).2.store).2 ∧
          w1.events.countP Event.isStoreBlock =
            (cycles L P T D n w).2.events.countP Event.isStoreBlock + 1) := by
  obtain ⟨-, -, hmode, ev, he, hf⟩ := process_step L P T D w
  refine ⟨⟨ev, he, hf, ?_⟩, hmode, ?_⟩
  · rw [List.countP_eq_length_filter, hf]
    split
    · simp
    · split <;> simp
  · intro hm hs n
    obtain ⟨h1, h2⟩ := cycles_normal L P T D n w hm hs
    refine ⟨h1, h2, ?_⟩
    intro fuel payload more
    obtain ⟨r, w1, ha, -, hb, hc, hd⟩ :=
      subscriberProcess_block L D fuel payload more (cycles L P T D n w).2 h1
    refine ⟨r, w1, ha, hb, ?_⟩
    by_cases h : (StoreBlock L D payload (cycles L P T D n w).2.store).1 =
        .err .ErrPreviousBlockDigestDoesNotMatch
    · rw [(hc h).2.2]
      simp [List.countP_append, Event.isStoreBlock]
    · rw [(hd h).2.2]
      simp [List.countP_append, Event.isStoreBlock]

/-- Witness for C29: from Sampling in mode Normal, with the peer four blocks
ahead, the connector goes to ForkDetect and then to FetchBlocks and the mode is
Normal throughout. -/
theorem C29_mode_written_in_two_steps_witness :
    (cycles demoLib demoPeerLib (demoForkPeer 8) (specDatabase noFaults) 1
      demoNormalWorld).2.conn.state = cStateForkDetect ∧
    (cycles demoLib demoPeerLib (demoForkPeer 8) (specDatabase noFaults) 2
      demoNormalWorld).2.conn.state = cStateFetchBlocks ∧
    ∀ n, (cycles demoLib demoPeerLib (demoForkPeer 8) (specDatabase noFaults) n
        demoNormalWorld).2.mode = Mode.Normal :=
  ⟨by decide, by decide, fun n =>
    ((C29_mode_written_in_two_steps demoLib demoPeerLib (demoForkPeer 8)
      (specDatabase noFaults) demoNormalWorld).2.2 rfl (by decide) n).1⟩

/-- A further cycle runs `process` on the world the cycles before it left. -/
theorem cycles_succ_last (L : Lib) (P : PeerLib) (T : Transport) (D : Database σ) :
    ∀ (n : Nat) (w : World σ), (cycles L P T D n w).1 = .ok () →
      cycles L P T D (n + 1) w = process L P T D (cycles L P T D n w).2 := by
  intro n
  induction n with
  | zero =>
    intro w _
    simp only [cycles]
    rcases process L P T D w with ⟨r, w1⟩
    cases r <;> rfl
  | succ n ih =>
    intro w h
    rcases hP : process L P T D w with ⟨r, w1⟩
    cases r with
    | ok u =>
      have h1 : cycles L P T D (n + 1) w = cycles L P T D n w1 := by simp only [cycles, hP]
      have h2 : cycles L P T D (n + 1 + 1) w = cycles L P T D (n + 1) w1 := by
        simp only [cycles, hP]
      rw [h1] at h ⊢
      rw [h2]
      exact ih w1 h
    | err e =>
      have h1 : cycles L P T D (n + 1) w = (.err e, w1) := by simp only [cycles, hP]
      rw [h1] at h
      cases h
    | panic m =>
      have h1 : cycles L P T D (n + 1) w = (.panic m, w1) := by simp only [cycles, hP]
      rw [h1] at h
      cases h

/-- The function `checkNodes` with one connected client whose reply to `I`
names the local chain. -/
theorem processConnecting_one (P : PeerLib) (T : Transport) (w : World σ)
    (hc : w.conn.clients = [⟨true⟩]) (hsend : T.send w.clock 0 "I" [] = none)
    (d : Bytes) (info : serverInfo)
    (hrecv : T.receive (w.clock + 1) 0 "I" [] = .ok [frameI, d])
    (hun : P.Unmarshal d = .ok info) (hch : info.Chain = P.ChainName) :
    (processConnecting P T w).1 = .ok () ∧
    (processConnecting P T w).2.conn = { w.conn with state := w.conn.state + 1 } ∧
    (processConnecting P T w).2.mode = Mode.Resynchronise ∧
    (processConnecting P T w).2.store = w.store := by
  have hr : List.range 1 = [0] := rfl
  have hne : ¬ frameI = frameE := by decide
  simp [processConnecting, checkNodes, modeSet, hc, hr, checkNodesLoop, checkNodesClient,
    IsConnected, Send, Receive, hsend, hrecv, checkNodesReply, hne, hun, hch, setState]

/-- The function `highestBlock` with one connected client that reports the
block number `tip`. -/
theorem highestBlock_one (T : Transport) (w : World σ) (tip : Nat)
    (hc : w.conn.clients = [⟨true⟩]) (hpos : 0 < tip) (hu : tip < u64)
    (hsend : T.send w.clock 0 "N" [] = none)
    (hrecv : T.receive (w.clock + 1) 0 "N" [] = .ok [frameN, PutUint64 tip]) :
    (highestBlock T w).1 = (tip, some 0) ∧ (highestBlock T w).2.conn = w.conn ∧
    (highestBlock T w).2.mode = w.mode ∧ (highestBlock T w).2.store = w.store := by
  have hr : List.range 1 = [0] := rfl
  have hne : ¬ frameN = frameE := by decide
  have hlen : (PutUint64 tip).length = 8 := rfl
  simp [highestBlock, hc, hr, highestBlockLoop, highestBlockClient, IsConnected, Send, Receive,
    hsend, hrecv, highestBlockReply, hne, hlen, Uint64_PutUint64 tip hu, hpos]

/-- A HighestBlock step with one connected client that reports the block
number `tip`. -/
theorem processHighestBlock_one (T : Transport) (w : World σ) (tip : Nat)
    (hc : w.conn.clients = [⟨true⟩]) (hpos : 0 < tip) (hu : tip < u64)
    (hsend : T.send w.clock 0 "N" [] = none)
    (hrecv : T.receive (w.clock + 1) 0 "N" [] = .ok [frameN, PutUint64 tip]) :
    (processHighestBlock T w).1 = .ok () ∧
    (processHighestBlock T w).2.conn =
      { w.conn with highestBlockNumber := tip, theClient := some 0,
                    state := w.conn.state + 1 } ∧
    (processHighestBlock T w).2.mode = w.mode ∧
    (processHighestBlock T w).2.store = w.store := by
  obtain ⟨h1, h2, h3, h4⟩ := highestBlock_one T w tip hc hpos hu hsend hrecv
  unfold processHighestBlock
  rcases hH : highestBlock T w with ⟨⟨h, c⟩, w1⟩
  rw [hH] at h1 h2 h3 h4
  simp only at h1 h2 h3 h4
  cases h1
  simp [hpos, setState, h2, h3, h4]

/-- The loop `check_digests` does nothing from a height that is not above the
genesis block. -/
theorem checkDigests_low (L : Lib) (P : PeerLib) (T : Transport) (D : Database σ)
    (h : Nat) (w : World σ) (hle : h ≤ L.genesisBlockNumber) :
    checkDigests L P T D h w = (.ok (), w) := by
  cases h with
  | zero => rfl
  | succ h =>
    unfold checkDigests
    rw [if_neg (by omega)]

/-- A ForkDetect step when the local tip is the genesis block and the remote
tip is above it: no digest is compared. -/
theorem processForkDetect_low (L : Lib) (P : PeerLib) (T : Transport) (D : Database σ)
    (w : World σ) (h : Nat) (hh : (GetBlockHeight L D w.store).1 = .ok h)
    (hle : h ≤ L.genesisBlockNumber) (hlt : h < w.conn.highestBlockNumber) :
    (processForkDetect L P T D w).1 = .ok () ∧
    (processForkDetect L P T D w).2.conn =
      { w.conn with startBlockNumber := addU64 L.genesisBlockNumber 1,
                    state := w.conn.state + 1 } ∧
    (processForkDetect L P T D w).2.mode = w.mode ∧
    (processForkDetect L P T D w).2.store = (GetBlockHeight L D w.store).2 := by
  unfold processForkDetect callGetBlockHeight
  rw [hh]
  simp only
  rw [if_neg (by omega), checkDigests_low L P T D h _ hle]
  exact ⟨rfl, rfl, rfl, rfl⟩

/-- A ForkDetect step when the remote tip is not above the local tip. -/
theorem processForkDetect_level (L : Lib) (P : PeerLib) (T : Transport) (D : Database σ)
    (w : World σ) (h : Nat) (hh : (GetBlockHeight L D w.store).1 = .ok h)
    (hle : w.conn.highestBlockNumber ≤ h) :
    (processForkDetect L P T D w).1 = .ok () ∧
    (processForkDetect L P T D w).2.conn = { w.conn with state := cStateRebuild } ∧
    (processForkDetect L P T D w).2.mode = w.mode ∧
    (processForkDetect L P T D w).2.store = (GetBlockHeight L D w.store).2 := by
  unfold processForkDetect callGetBlockHeight
  rw [hh]
  simp only
  rw [if_pos hle]
  exact ⟨rfl, rfl, rfl, rfl⟩

/-- The loop `fetch_some_blocks` when the peer sends every block from the start
to the remote tip, every block is stored, and fewer blocks remain than the loop
has rounds: the blocks are stored in order and the loop ends in HighestBlock
with the start above the remote tip. -/
theorem fetchSomeBlocks_fresh (L : Lib) (T : Transport) (D : Database σ)
    (H : Nat → GlobalData σ → Prop) (tip : Nat) (blk : Nat → Bytes) (hu : tip + 1 < u64)
    (hsend : ∀ t command parameters, T.send t 0 command parameters = none)
    (hblock : ∀ t n, L.genesisBlockNumber < n → n ≤ tip →
      T.receive t 0 "B" [PutUint64 n] = .ok [frameB, blk n])
    (hstore : ∀ n g, L.genesisBlockNumber ≤ n → n < tip → H n g →
      (StoreBlock L D (blk (n + 1)) g).1 = .ok () ∧ H (n + 1) (StoreBlock L D (blk (n + 1)) g).2) :
    ∀ (m fuel n : Nat) (w : World σ), m < fuel → n + m = tip → L.genesisBlockNumber ≤ n →
      w.conn.startBlockNumber = n + 1 → w.conn.highestBlockNumber = tip →
      w.conn.theClient = some 0 → H n w.store →
      (fetchSomeBlocks L T D fuel w).1 = .ok () ∧
      (fetchSomeBlocks L T D fuel w).2.conn =
        { w.conn with startBlockNumber := tip + 1, state := cStateHighestBlock } ∧
      (fetchSomeBlocks L T D fuel w).2.mode = w.mode ∧
      H tip (fetchSomeBlocks L T D fuel w).2.store := by
  intro m
  induction m with
  | zero =>
    intro fuel n w hf hn hg hstart hhigh hcl hH
    obtain ⟨f, rfl⟩ : ∃ f, fuel = f + 1 := ⟨fuel - 1, by omega⟩
    have hn' : n = tip := by omega
    subst hn'
    have hgt : w.conn.startBlockNumber > w.conn.highestBlockNumber := by omega
    have hF : fetchSomeBlocks L T D (f + 1) w = (.ok (), setState cStateHighestBlock w) := by
      simp only [fetchSomeBlocks, fetchBlock, if_pos hgt]
    rw [hF]
    refine ⟨rfl, ?_, rfl, hH⟩
    simp only [setState]
    rw [← hstart]
  | succ m ih =>
    intro fuel n w hf hn hg hstart hhigh hcl hH
    obtain ⟨f, rfl⟩ : ∃ f, fuel = f + 1 := ⟨fuel - 1, by omega⟩
    have hle : ¬ w.conn.startBlockNumber > w.conn.highestBlockNumber := by omega
    have hrecv := hblock (w.clock + 1) (n + 1) (by omega) (by omega)
    obtain ⟨hs1, hs2⟩ := hstore n w.store hg (by omega) hH
    have hne : ¬ frameB = frameE := by decide
    have hadd : addU64 (n + 1) 1 = n + 1 + 1 := by
      unfold addU64
      exact Nat.mod_eq_of_lt (by omega)
    have hle2 : n + 1 ≤ tip := by omega
    obtain ⟨w2, hF, hc2, hm2, hst2⟩ : ∃ w2 : World σ, fetchBlock L T D w = (.ok true, w2) ∧
        w2.conn = { w.conn with startBlockNumber := n + 1 + 1 } ∧ w2.mode = w.mode ∧
        w2.store = (StoreBlock L D (blk (n + 1)) w.store).2 := by
      refine ⟨{ w with conn := { w.conn with startBlockNumber := n + 1 + 1 }
                       store := (StoreBlock L D (blk (n + 1)) w.store).2
                       clock := w.clock + 1 + 1
                       events := w.events ++ [Event.send 0 "B" [PutUint64 (n + 1)],
                         Event.receive 0, Event.blockData (n + 1) true,
                         Event.storeBlock (blk (n + 1)) true] },
        ?_, rfl, rfl, rfl⟩
      rcases hS : StoreBlock L D (blk (n + 1)) w.store with ⟨r, g⟩
      rw [hS] at hs1
      simp only at hs1
      subst hs1
      simp [fetchBlock, callBlockData, blockData, hcl, hstart, hhigh, hle2, Send, Receive, hsend,
        hrecv, blockDataReply, hne, logEvent, outcomeOk, callStoreBlock, hS, hadd]
    simp only [fetchSomeBlocks, hF]
    have hstart2 : w2.conn.startBlockNumber = n + 1 + 1 := by rw [hc2]
    have hhigh2 : w2.conn.highestBlockNumber = tip := by rw [hc2]; exact hhigh
    have hcl2 : w2.conn.theClient = some 0 := by rw [hc2]; exact hcl
    obtain ⟨a, b, c, d⟩ := ih f (n + 1) w2 (by omega) (by omega) (by omega) hstart2 hhigh2 hcl2
      (by rw [hst2]; exact hs2)
    exact ⟨a, by rw [b, hc2], by rw [c, hm2], d⟩

/-- C21 (amended): in the scenario of a fresh synchronisation (state
Connecting, one connected peer that names the local chain, reports the block
number `tip` above the genesis block and sends blocks that are all stored,
fewer than 500 of them, local tip the genesis block) seven calls of `process`
return normally and the states are Connecting, HighestBlock, ForkDetect,
FetchBlocks, HighestBlock, ForkDetect, Rebuild, Sampling: one change of state
per cycle.  The first ForkDetect step sets start to genesis + 1 and leaves the
store at the genesis block; after the fourth cycle the local tip is `tip`, the
state is HighestBlock and the mode is still Resynchronise, as it is after each
of the first six cycles; after the seventh cycle the mode is Normal and
`GetBlockHeight` returns `tip`. -/
theorem C21_fresh_sync_amended (L : Lib) (P : PeerLib) (T : Transport) (D : Database σ)
    (H : Nat → GlobalData σ → Prop) (tip : Nat) (blk : Nat → Bytes) (w : World σ)
    (hf : FreshSync L P T D H tip blk)
    (hg : L.genesisBlockNumber < tip) (hn : tip < L.genesisBlockNumber + fetchBlocksPerCycle)
    (hu : tip + 1 < u64)
    (hc : w.conn.clients = [⟨true⟩]) (hs : w.conn.state = cStateConnecting)
    (h0 : H L.genesisBlockNumber w.store) :
    (∀ n, n ≤ 7 → (cycles L P T D n w).1 = .ok ()) ∧
    (List.range 8).map (fun n => (cycles L P T D n w).2.conn.state) =
      [cStateConnecting, cStateHighestBlock, cStateForkDetect, cStateFetchBlocks,
       cStateHighestBlock, cStateForkDetect, cStateRebuild, cStateSampling] ∧
    (cycles L P T D 3 w).2.conn.startBlockNumber = L.genesisBlockNumber + 1 ∧
    H L.genesisBlockNumber (cycles L P T D 3 w).2.store ∧
    H tip (cycles L P T D 4 w).2.store ∧
    (∀ n, 1 ≤ n → n ≤ 6 → (cycles L P T D n w).2.mode = Mode.Resynchronise) ∧
    (cycles L P T D 7 w).2.mode = Mode.Normal ∧
    (GetBlockHeight L D (cycles L P T D 7 w).2.store).1 = .ok tip := by
  have hpos : 0 < tip := by omega
  have htip : tip < u64 := by omega
  -- cycle 1: Connecting
  have f1 : (cycles L P T D 1 w).1 = .ok () ∧
      (cycles L P T D 1 w).2.conn = { w.conn with state := cStateHighestBlock } ∧
      (cycles L P T D 1 w).2.mode = Mode.Resynchronise ∧
      (cycles L P T D 1 w).2.store = w.store := by
    have e0 : (cycles L P T D 0 w).2 = w := rfl
    rw [cycles_succ_last L P T D 0 w rfl, e0, (process_eq L P T D w).1 hs]
    obtain ⟨d, info, h1, h2, h3⟩ := hf.info (w.clock + 1)
    obtain ⟨a, b, c, e⟩ := processConnecting_one P T w hc (hf.send _ _ _) d info h1 h2 h3
    refine ⟨a, ?_, c, e⟩
    rw [b, hs]
    rfl
  obtain ⟨ok1, c1, m1, s1⟩ := f1
  -- cycle 2: HighestBlock
  have f2 : (cycles L P T D 2 w).1 = .ok () ∧
      (cycles L P T D 2 w).2.conn =
        { w.conn with state := cStateForkDetect, highestBlockNumber := tip,
                      theClient := some 0 } ∧
      (cycles L P T D 2 w).2.mode = Mode.Resynchronise ∧
      (cycles L P T D 2 w).2.store = w.store := by
    rw [cycles_succ_last L P T D 1 w ok1]
    have hst : (cycles L P T D 1 w).2.conn.state = cStateHighestBlock := by rw [c1]
    have hcl : (cycles L P T D 1 w).2.conn.clients = [⟨true⟩] := by rw [c1]; exact hc
    rw [(process_eq L P T D _).2.1 hst]
    obtain ⟨a, b, c, e⟩ := processHighestBlock_one T (cycles L P T D 1 w).2 tip hcl hpos htip
      (hf.send _ _ _) (hf.number _)
    refine ⟨a, ?_, by rw [c, m1], by rw [e, s1]⟩
    rw [b, c1]
    rfl
  obtain ⟨ok2, c2, m2, s2⟩ := f2
  -- cycle 3: ForkDetect at the genesis block
  have f3 : (cycles L P T D 3 w).1 = .ok () ∧
      (cycles L P T D 3 w).2.conn =
        { w.conn with state := cStateFetchBlocks, highestBlockNumber := tip,
                      theClient := some 0,
                      startBlockNumber := L.genesisBlockNumber + 1 } ∧
      (cycles L P T D 3 w).2.mode = Mode.Resynchronise ∧
      H L.genesisBlockNumber (cycles L P T D 3 w).2.store := by
    rw [cycles_succ_last L P T D 2 w ok2]
    have hst : (cycles L P T D 2 w).2.conn.state = cStateForkDetect := by rw [c2]
    have hhi : (cycles L P T D 2 w).2.conn.highestBlockNumber = tip := by rw [c2]
    rw [(process_eq L P T D _).2.2.1 hst]
    have hH : H L.genesisBlockNumber (cycles L P T D 2 w).2.store := by rw [s2]; exact h0
    obtain ⟨hh1, hh2⟩ := hf.height _ _ hH
    obtain ⟨a, b, c, e⟩ := processForkDetect_low L P T D (cycles L P T D 2 w).2
      L.genesisBlockNumber hh1 (Nat.le_refl _) (by rw [hhi]; exact hg)
    have hadd : addU64 L.genesisBlockNumber 1 = L.genesisBlockNumber + 1 := by
      unfold addU64
      exact Nat.mod_eq_of_lt (by omega)
    refine ⟨a, ?_, by rw [c, m2], by rw [e]; exact hh2⟩
    rw [b, c2, hadd]
    rfl
  obtain ⟨ok3, c3, m3, s3⟩ := f3
  -- cycle 4: FetchBlocks
  have f4 : (cycles L P T D 4 w).1 = .ok () ∧
      (cycles L P T D 4 w).2.conn =
        { w.conn with state := cStateHighestBlock, highestBlockNumber := tip,
                      theClient := some 0, startBlockNumber := tip + 1 } ∧
      (cycles L P T D 4 w).2.mode = Mode.Resynchronise ∧
      H tip (cycles L P T D 4 w).2.store := by
    rw [cycles_succ_last L P T D 3 w ok3]
    have hst : (cycles L P T D 3 w).2.conn.state = cStateFetchBlocks := by rw [c3]
    rw [(process_eq L P T D _).2.2.2.1 hst]
    unfold processFetchBlocks
    obtain ⟨a, b, c, e⟩ := fetchSomeBlocks_fresh L T D H tip blk hu hf.send hf.block hf.store
      (tip - L.genesisBlockNumber) fetchBlocksPerCycle L.genesisBlockNumber
      (cycles L P T D 3 w).2 (by omega) (by omega) (Nat.le_refl _) (by rw [c3]) (by rw [c3])
      (by rw [c3]) s3
    refine ⟨a, ?_, by rw [c, m3], e⟩
    rw [b, c3]
  obtain ⟨ok4, c4, m4, s4⟩ := f4
  -- cycle 5: HighestBlock
  have f5 : (cycles L P T D 5 w).1 = .ok () ∧
      (cycles L P T D 5 w).2.conn =
        { w.conn with state := cStateForkDetect, highestBlockNumber := tip,
                      theClient := some 0, startBlockNumber := tip + 1 } ∧
      (cycles L P T D 5 w).2.mode = Mode.Resynchronise ∧
      H tip (cycles L P T D 5 w).2.store := by
    rw [cycles_succ_last L P T D 4 w ok4]
    have hst : (cycles L P T D 4 w).2.conn.state = cStateHighestBlock := by rw [c4]
    have hcl : (cycles L P T D 4 w).2.conn.clients = [⟨true⟩] := by rw [c4]; exact hc
    rw [(process_eq L P T D _).2.1 hst]
    obtain ⟨a, b, c, e⟩ := processHighestBlock_one T (cycles L P T D 4 w).2 tip hcl hpos htip
      (hf.send _ _ _) (hf.number _)
    refine ⟨a, ?_, by rw [c, m4], by rw [e]; exact s4⟩
    rw [b, c4]
    rfl
  obtain ⟨ok5, c5, m5, s5⟩ := f5
  -- cycle 6: ForkDetect at the remote tip
  have f6 : (cycles L P T D 6 w).1 = .ok () ∧
      (cycles L P T D 6 w).2.conn =
        { w.conn with state := cStateRebuild, highestBlockNumber := tip,
                      theClient := some 0, startBlockNumber := tip + 1 } ∧
      (cycles L P T D 6 w).2.mode = Mode.Resynchronise ∧
      H tip (cycles L P T D 6 w).2.store := by
    rw [cycles_succ_last L P T D 5 w ok5]
    have hst : (cycles L P T D 5 w).2.conn.state = cStateForkDetect := by rw [c5]
    have hhi : (cycles L P T D 5 w).2.conn.highestBlockNumber = tip := by rw [c5]
    rw [(process_eq L P T D _).2.2.1 hst]
    obtain ⟨hh1, hh2⟩ := hf.height _ _ s5
    obtain ⟨a, b, c, e⟩ := processForkDetect_level L P T D (cycles L P T D 5 w).2 tip hh1
      (by rw [hhi])
    refine ⟨a, ?_, by rw [c, m5], by rw [e]; exact hh2⟩
    rw [b, c5]
  obtain ⟨ok6, c6, m6, s6⟩ := f6
  -- cycle 7: Rebuild
  have f7 : (cycles L P T D 7 w).1 = .ok () ∧
      (cycles L P T D 7 w).2.conn.state = cStateSampling ∧
      (cycles L P T D 7 w).2.mode = Mode.Normal ∧
      H tip (cycles L P T D 7 w).2.store := by
    rw [cycles_succ_last L P T D 6 w ok6]
    have hst : (cycles L P T D 6 w).2.conn.state = cStateRebuild := by rw [c6]
    rw [(process_eq L P T D _).2.2.2.2.1 hst]
    refine ⟨rfl, ?_, rfl, s6⟩
    simp only [processRebuild, modeSet, hst]
    rfl
  obtain ⟨ok7, c7, m7, s7⟩ := f7
  refine ⟨?_, ?_, by rw [c3], s3, s4, ?_, m7, (hf.height _ _ s7).1⟩
  · intro n hn7
    have : n = 0 ∨ n = 1 ∨ n = 2 ∨ n = 3 ∨ n = 4 ∨ n = 5 ∨ n = 6 ∨ n = 7 := by omega
    rcases this with rfl | rfl | rfl | rfl | rfl | rfl | rfl | rfl
    · rfl
    · exact ok1
    · exact ok2
    · exact ok3
    · exact ok4
    · exact ok5
    · exact ok6
    · exact ok7
  · have e0 : (cycles L P T D 0 w).2.conn.state = cStateConnecting := hs
    have e1 : (cycles L P T D 1 w).2.conn.state = cStateHighestBlock := by rw [c1]
    have e2 : (cycles L P T D 2 w).2.conn.state = cStateForkDetect := by rw [c2]
    have e3 : (cycles L P T D 3 w).2.conn.state = cStateFetchBlocks := by rw [c3]
    have e4 : (cycles L P T D 4 w).2.conn.state = cStateHighestBlock := by rw [c4]
    have e5 : (cycles L P T D 5 w).2.conn.state = cStateForkDetect := by rw [c5]
    have e6 : (cycles L P T D 6 w).2.conn.state = cStateRebuild := by rw [c6]
    simp only [List.range, List.range.loop, List.map_cons, List.map_nil, e0, e1, e2, e3, e4, e5,
      e6, c7]
  · intro n h1 h6
    have : n = 1 ∨ n = 2 ∨ n = 3 ∨ n = 4 ∨ n = 5 ∨ n = 6 := by omega
    rcases this with rfl | rfl | rfl | rfl | rfl | rfl
    · exact m1
    · exact m2
    · exact m3
    · exact m4
    · exact m5
    · exact m6

/-- The demo peer and the model of the server form a scenario of a fresh
synchronisation up to block 3. -/
theorem demoFresh_scenario :
    FreshSync demoLib demoPeerLib demoFreshPeer (specDatabase noFaults) demoFreshAt 3
      demoFreshBlock where
  send := fun _ _ _ => rfl
  info := fun _ => ⟨[1], ⟨"v", "testing", true, 0⟩, rfl, rfl, rfl⟩
  number := fun _ => rfl
  block := by
    intro t n h1 h2
    have h1' : 1 < n := h1
    have : n = 2 ∨ n = 3 := by omega
    rcases this with rfl | rfl <;> rfl
  height := by
    rintro n ⟨i, ⟨blocks, pending, clock⟩, trace⟩ ⟨hi, hp, hb⟩
    simp only at hi hp hb
    subst hi hp
    rcases hb with ⟨rfl, rfl⟩ | ⟨rfl, rfl⟩ | ⟨rfl, rfl⟩
    · exact ⟨rfl, rfl, rfl, Or.inl ⟨rfl, rfl⟩⟩
    · exact ⟨rfl, rfl, rfl, Or.inr (Or.inl ⟨rfl, rfl⟩)⟩
    · exact ⟨rfl, rfl, rfl, Or.inr (Or.inr ⟨rfl, rfl⟩)⟩
  store := by
    rintro n ⟨i, ⟨blocks, pending, clock⟩, trace⟩ h1 h2 ⟨hi, hp, hb⟩
    simp only at hi hp hb
    subst hi hp
    rcases hb with ⟨rfl, rfl⟩ | ⟨rfl, rfl⟩ | ⟨rfl, rfl⟩
    · exact ⟨rfl, rfl, rfl, Or.inr (Or.inl ⟨rfl, rfl⟩)⟩
    · exact ⟨rfl, rfl, rfl, Or.inr (Or.inr ⟨rfl, rfl⟩)⟩
    · exact absurd h2 (by decide)

/-- C21, counterexample: one peer on the local chain reports block 3 in reply
to `N` and sends blocks 2 and 3, which are stored above the genesis block 1.
After four cycles the local tip is 3, but the state is HighestBlock and the
mode is Resynchronise; the states of the first seven cycles are Connecting,
HighestBlock, ForkDetect, FetchBlocks, HighestBlock, ForkDetect, Rebuild,
Sampling, with a second ForkDetect step between HighestBlock and Rebuild, and
the mode is Normal only after the seventh cycle. -/
theorem C21_four_cycles_counterexample :
    demoFreshPeer.receive 0 0 "N" [] = .ok [frameN, PutUint64 3] ∧
    (GetBlockHeight demoLib (specDatabase noFaults) demoFreshWorld.store).1 =
      .ok demoLib.genesisBlockNumber ∧
    (cycles demoLib demoPeerLib demoFreshPeer (specDatabase noFaults) 4 demoFreshWorld).1 =
      .ok () ∧
    (cycles demoLib demoPeerLib demoFreshPeer (specDatabase noFaults) 4
      demoFreshWorld).2.conn.state = cStateHighestBlock ∧
    (cycles demoLib demoPeerLib demoFreshPeer (specDatabase noFaults) 4
      demoFreshWorld).2.mode = Mode.Resynchronise ∧
    (GetBlockHeight demoLib (specDatabase noFaults)
      (cycles demoLib demoPeerLib demoFreshPeer (specDatabase noFaults) 4
        demoFreshWorld).2.store).1 = .ok 3 ∧
    (List.range 8).map (fun n =>
      (cycles demoLib demoPeerLib demoFreshPeer (specDatabase noFaults) n
        demoFreshWorld).2.conn.state) =
      [cStateConnecting, cStateHighestBlock, cStateForkDetect, cStateFetchBlocks,
       cStateHighestBlock, cStateForkDetect, cStateRebuild, cStateSampling] ∧
    (List.range 8).map (fun n =>
      (cycles demoLib demoPeerLib demoFreshPeer (specDatabase noFaults) n
        demoFreshWorld).2.mode) =
      [Mode.Resynchronise, Mode.Resynchronise, Mode.Resynchronise, Mode.Resynchronise,
       Mode.Resynchronise, Mode.Resynchronise, Mode.Resynchronise, Mode.Normal] := by
  decide

/-- Witness for C21 as amended: the demo peer with tip 3 over the model of the
server, from the genesis block 1. -/
theorem C21_fresh_sync_amended_witness :
    (∀ n, n ≤ 7 →
      (cycles demoLib demoPeerLib demoFreshPeer (specDatabase noFaults) n demoFreshWorld).1 =
        .ok ()) ∧
    (List.range 8).map (fun n =>
      (cycles demoLib demoPeerLib demoFreshPeer (specDatabase noFaults) n
        demoFreshWorld).2.conn.state) =
      [cStateConnecting, cStateHighestBlock, cStateForkDetect, cStateFetchBlocks,
       cStateHighestBlock, cStateForkDetect, cStateRebuild, cStateSampling] ∧
    (cycles demoLib demoPeerLib demoFreshPeer (specDatabase noFaults) 3
      demoFreshWorld).2.conn.startBlockNumber = demoLib.genesisBlockNumber + 1 ∧
    demoFreshAt demoLib.genesisBlockNumber
      (cycles demoLib demoPeerLib demoFreshPeer (specDatabase noFaults) 3
        demoFreshWorld).2.store ∧
    demoFreshAt 3
      (cycles demoLib demoPeerLib demoFreshPeer (specDatabase noFaults) 4
        demoFreshWorld).2.store ∧
    (∀ n, 1 ≤ n → n ≤ 6 →
      (cycles demoLib demoPeerLib demoFreshPeer (specDatabase noFaults) n
        demoFreshWorld).2.mode = Mode.Resynchronise) ∧
    (cycles demoLib demoPeerLib demoFreshPeer (specDatabase noFaults) 7
      demoFreshWorld).2.mode = Mode.Normal ∧
    (GetBlockHeight demoLib (specDatabase noFaults)
      (cycles demoLib demoPeerLib demoFreshPeer (specDatabase noFaults) 7
        demoFreshWorld).2.store).1 = .ok 3 :=
  C21_fresh_sync_amended demoLib demoPeerLib demoFreshPeer (specDatabase noFaults) demoFreshAt
    3 demoFreshBlock demoFreshWorld demoFresh_scenario (by decide) (by decide) (by decide)
    rfl rfl ⟨rfl, rfl, Or.inl ⟨rfl, rfl⟩⟩

theorem notBlock_of_isRecordKind {c : Call} (h : c.isRecordKind = true) :
    c.insertKind? ≠ some InsertKind.block := by
  intro heq
  simp [Call.isRecordKind, heq] at h

theorem notBlock_of_isNotify {c : Call} (h : c.isNotify = true) :
    c.insertKind? ≠ some InsertKind.block := by
  cases c <;> simp_all [Call.isNotify, Call.insertKind?]

/-- The calls of `StoreBlock` from `Begin` on, whatever the outcome: `Begin`
alone, or `Begin` and one `insert_block` with the number, the digest text and
the timestamp of the header, followed by calls that are not `insert_block`. -/
theorem storeBlockWrite_calls (L : Lib) (D : Database σ) (header : Header) (digest : Digest)
    (txs : List (Transaction × Digest)) (g : GlobalData σ) :
    ∃ cs, (storeBlockWrite L D header digest txs g).2 = runCalls D (Call.begin :: cs) g ∧
      (cs = [] ∨ ∃ tail,
        cs = Call.insertBlock header.Number (L.blockDigestString digest) header.Timestamp ::
          tail ∧
        ∀ c ∈ tail, c.insertKind? ≠ some InsertKind.block) := by
  have hlit : ∀ c ∈ [Call.updateEditions header.Number, Call.commit, Call.rollback],
      c.insertKind? ≠ some InsertKind.block := by
    intro c hc
    simp only [List.mem_cons, List.mem_singleton, List.not_mem_nil, or_false] at hc
    rcases hc with rfl | rfl | rfl <;> simp [Call.insertKind?]
  have hue0 := hlit _ (List.mem_cons_self _ _)
  have hcm0 := hlit Call.commit (by simp)
  have hrb0 := hlit Call.rollback (by simp)
  unfold storeBlockWrite
  simp only [blockStatus_eq]
  rcases hb : execCall D Call.begin g with ⟨_ | e1, g1⟩
  swap
  · exact ⟨[], by simp [runCalls, hb], Or.inl rfl⟩
  simp only
  have hg1 : g1 = runCalls D [Call.begin] g := by simp [runCalls, hb]
  rcases hib : insertBlock L D header.Number digest header.Timestamp g1 with ⟨_ | e1, g2⟩
  all_goals
    have hg2 : g2 = runCalls D [Call.begin, Call.insertBlock header.Number
        (L.blockDigestString digest) header.Timestamp] g := by
      have hg2a : g2 = runCalls D [Call.insertBlock header.Number
          (L.blockDigestString digest) header.Timestamp] g1 := by
        simp only [insertBlock] at hib
        simp [runCalls, hib]
      rw [hg2a, hg1]
      simp [runCalls]
  swap
  · refine ⟨_, ?_, Or.inr ⟨[Call.rollback], rfl, ?_⟩⟩
    · simp only [rollback]
      rw [hg2]
      simp [runCalls]
    · intro c hc
      simp only [List.mem_singleton] at hc
      subst hc
      exact hrb0
  simp only
  obtain ⟨synth, hs1, hs2, -, -⟩ := storeBlockOldBase_cases L D header digest txs g2
  rcases hob : storeBlockOldBase L D (L.FoundationTxId header digest)
      (blockStatus header.Number) header.Number txs g2 with ⟨r3, g3⟩
  rw [hob] at hs1
  simp only at hs1
  have hp3 : ∀ c ∈ synth, c.insertKind? ≠ some InsertKind.block :=
    fun c hc => notBlock_of_isRecordKind (hs2 c hc)
  have hg3 : g3 = runCalls D ([Call.begin, Call.insertBlock header.Number
      (L.blockDigestString digest) header.Timestamp] ++ synth) g := by
    rw [hs1, hg2, ← runCalls_append]
  cases r3 with
  | err e1 =>
    refine ⟨_, ?_, Or.inr ⟨synth ++ [Call.rollback], rfl, ?_⟩⟩
    · show (execCall D Call.rollback g3).2 = _
      rw [hg3]
      simp [runCalls_append, runCalls]
    · intro c hc
      rcases List.mem_append.1 hc with h | h
      · exact hp3 c h
      · simp only [List.mem_singleton] at h
        subst h
        exact hrb0
  | panic msg =>
    refine ⟨_, ?_, Or.inr ⟨synth, rfl, hp3⟩⟩
    show g3 = _
    rw [hg3]
    simp [runCalls_append, runCalls]
  | ok a =>
    simp only
    obtain ⟨recs, hr1, hr2, -⟩ := storeBlockRecords_calls L D (L.FoundationTxId header digest)
      (blockStatus header.Number) header.Number txs 0 ⟨[], [], []⟩ g3
    rcases hrec : storeBlockRecords L D (L.FoundationTxId header digest)
        (blockStatus header.Number) (blockStatus header.Number) header.Number txs 0
        ⟨[], [], []⟩ g3 with ⟨r4, g4⟩
    rw [hrec] at hr1
    simp only at hr1
    have hp4 : ∀ c ∈ synth ++ recs, c.insertKind? ≠ some InsertKind.block := by
      intro c hc
      rcases List.mem_append.1 hc with h | h
      · exact hp3 c h
      · exact notBlock_of_isRecordKind (hr2 c h)
    have hg4 : g4 = runCalls D ([Call.begin, Call.insertBlock header.Number
        (L.blockDigestString digest) header.Timestamp] ++ (synth ++ recs)) g := by
      rw [hr1, hg3, ← runCalls_append, List.append_assoc]
    cases r4 with
    | err e1 =>
      refine ⟨_, ?_, Or.inr ⟨(synth ++ recs) ++ [Call.rollback], rfl, ?_⟩⟩
      · show (execCall D Call.rollback g4).2 = _
        rw [hg4]
        simp [runCalls_append, runCalls]
      · intro c hc
        rcases List.mem_append.1 hc with h | h
        · exact hp4 c h
        · simp only [List.mem_singleton] at h
          subst h
          exact hrb0
    | panic msg =>
      refine ⟨_, ?_, Or.inr ⟨synth ++ recs, rfl, hp4⟩⟩
      show g4 = _
      rw [hg4]
      simp [runCalls_append, runCalls]
    | ok ids =>
      simp only
      rcases hue : updateEditions D header.Number g4 with ⟨_ | e1, g5⟩
      all_goals
        have hg5 : g5 = runCalls D ([Call.begin, Call.insertBlock header.Number
            (L.blockDigestString digest) header.Timestamp] ++ ((synth ++ recs) ++
            [Call.updateEditions header.Number])) g := by
          simp only [updateEditions] at hue
          rw [← List.append_assoc, runCalls_append, ← hg4]
          simp [runCalls, hue]
        have hp5 : ∀ c ∈ (synth ++ recs) ++ [Call.updateEditions header.Number],
            c.insertKind? ≠ some InsertKind.block := by
          intro c hc
          rcases List.mem_append.1 hc with h | h
          · exact hp4 c h
          · simp only [List.mem_singleton] at h
            subst h
            exact hue0
      swap
      · refine ⟨_, ?_, Or.inr ⟨((synth ++ recs) ++ [Call.updateEditions header.Number]) ++
          [Call.rollback], rfl, ?_⟩⟩
        · show (execCall D Call.rollback g5).2 = _
          rw [hg5]
          simp [runCalls_append, runCalls]
        · intro c hc
          rcases List.mem_append.1 hc with h | h
          · exact hp5 c h
          · simp only [List.mem_singleton] at h
            subst h
            exact hrb0
      simp only
      rcases hcm : execCall D Call.commit g5 with ⟨_ | e1, g6⟩
      all_goals
        have hg6 : g6 = runCalls D ([Call.begin, Call.insertBlock header.Number
            (L.blockDigestString digest) header.Timestamp] ++ (((synth ++ recs) ++
            [Call.updateEditions header.Number]) ++ [Call.commit])) g := by
          rw [← List.append_assoc, runCalls_append, ← hg5]
          simp [runCalls, hcm]
        have hp6 : ∀ c ∈ ((synth ++ recs) ++ [Call.updateEditions header.Number]) ++
            [Call.commit], c.insertKind? ≠ some InsertKind.block := by
          intro c hc
          rcases List.mem_append.1 hc with h | h
          · exact hp5 c h
          · simp only [List.mem_singleton] at h
            subst h
            exact hcm0
      swap
      · refine ⟨_, ?_, Or.inr ⟨(((synth ++ recs) ++ [Call.updateEditions header.Number]) ++
          [Call.commit]) ++ [Call.rollback], rfl, ?_⟩⟩
        · show (execCall D Call.rollback g6).2 = _
          rw [hg6]
          simp [runCalls_append, runCalls]
        · intro c hc
          rcases List.mem_append.1 hc with h | h
          · exact hp6 c h
          · simp only [List.mem_singleton] at h
            subst h
            exact hrb0
      simp only
      split
      · obtain ⟨notes, hn1, hn2⟩ := storeBlockNotify_calls D header.Number ids g6
        refine ⟨_, ?_, Or.inr ⟨(((synth ++ recs) ++ [Call.updateEditions header.Number]) ++
          [Call.commit]) ++ notes, rfl, ?_⟩⟩
        · show storeBlockNotify D header.Number ids g6 = _
          rw [hn1, hg6]
          simp [runCalls_append, runCalls]
        · intro c hc
          rcases List.mem_append.1 hc with h | h
          · exact hp6 c h
          · exact notBlock_of_isNotify (hn2 c h)
      · refine ⟨_, ?_, Or.inr ⟨((synth ++ recs) ++ [Call.updateEditions header.Number]) ++
          [Call.commit], rfl, hp6⟩⟩
        show g6 = _
        rw [hg6]
        simp [runCalls_append, runCalls]

/-- Before `Begin` the calls of `StoreBlock` are queries and at most one
`delete_down_to_block`: none of them is an insert. -/
theorem queries_notBlock (L : Lib) (n m : Nat) (extra : List Call)
    (he : extra = [] ∨ extra = [Call.deleteDownToBlock m]) :
    ∀ c ∈ [Call.getBlockHeight] ++
        (if n ≤ L.genesisBlockNumber then [] else [Call.getBlockDigest n]) ++ extra,
      c.insertKind? = none := by
  intro c hc
  simp only [List.mem_append, List.mem_singleton] at hc
  rcases hc with (rfl | hc) | hc
  · rfl
  · split at hc
    · cases hc
    · simp only [List.mem_singleton] at hc
      subst hc
      rfl
  · rcases he with rfl | rfl
    · cases hc
    · simp only [List.mem_singleton] at hc
      subst hc
      rfl

/-- Every `insert_block` that `StoreBlock` calls carries the number of the
header, the text of the block digest and the clamped timestamp of the header. -/
theorem StoreBlock_insertBlock (L : Lib) (D : Database σ) (packedBlock : Bytes)
    (g : GlobalData σ) (c : Call) (hc : c ∈ callsSince g (StoreBlock L D packedBlock g).2)
    (hk : c.insertKind? = some InsertKind.block) :
    ∃ h header digest data, (GetBlockHeight L D g).1 = .ok h ∧
      L.ExtractHeader packedBlock (addU64 h 1) = .ok (header, digest, data) ∧
      c = Call.insertBlock header.Number (L.blockDigestString digest)
        (clampTimestamp header.Timestamp) := by
  have hno : ∀ cs : List Call, (∀ x ∈ cs, x.insertKind? = none) →
      callsSince g (StoreBlock L D packedBlock g).2 = cs → False := by
    intro cs h1 h2
    rw [h2] at hc
    rw [h1 c hc] at hk
    cases hk
  rcases StoreBlock_cases L D packedBlock g with ⟨_, hS⟩ | ⟨_, e, _, hS⟩ | ⟨_, h, hH, hrest⟩
  · exact (hno [] (by simp) (by rw [hS]; exact callsSince_self g)).elim
  · refine (hno [Call.getBlockHeight] (by simp [Call.insertKind?]) ?_).elim
    apply callsSince_of_trace
    rw [hS, GetBlockHeight_trace]
  · rcases hrest with ⟨e, _, hS⟩ | ⟨header, digest, data, hE, hrest⟩
    · refine (hno [Call.getBlockHeight] (by simp [Call.insertKind?]) ?_).elim
      apply callsSince_of_trace
      rw [hS, GetBlockHeight_trace]
    · have hq := queries_notBlock L (subU64 header.Number 1) (subU64 h blockRevertLimit)
      have hq0 : ∀ x ∈ [Call.getBlockHeight] ++
          (if subU64 header.Number 1 ≤ L.genesisBlockNumber then []
            else [Call.getBlockDigest (subU64 header.Number 1)]), x.insertKind? = none := by
        intro x hx
        exact hq [] (Or.inl rfl) x (by simpa using hx)
      have htr : (DigestForBlock L D (subU64 header.Number 1) (GetBlockHeight L D g).2).2.trace =
          g.trace ++ ([Call.getBlockHeight] ++
            (if subU64 header.Number 1 ≤ L.genesisBlockNumber then []
              else [Call.getBlockDigest (subU64 header.Number 1)])) := by
        rw [DigestForBlock_trace, GetBlockHeight_trace, List.append_assoc]
      rcases hrest with ⟨e, _, hS⟩ | ⟨previousBlock, hD, hrest⟩
      · refine (hno _ hq0 ?_).elim
        apply callsSince_of_trace
        rw [hS, htr]
      · rcases hrest with ⟨_, hS⟩ | ⟨heq, hS⟩
        · refine (hno _ (hq _ (Or.inr rfl)) ?_).elim
          apply callsSince_of_trace
          rw [hS]
          simp only [DeleteDownToBlock, execCall_trace, htr, List.append_assoc]
        · rcases storeBlockVerify_cases L D header digest data
              (DigestForBlock L D (subU64 header.Number 1) (GetBlockHeight L D g).2).2 with
            ⟨e, _, hV⟩ | ⟨msg, _, hV⟩ | ⟨txs, hU, ⟨_, hV⟩ | ⟨root, hR, ⟨_, hV⟩ | ⟨hroot, hV⟩⟩⟩
          · refine (hno _ hq0 ?_).elim
            apply callsSince_of_trace
            rw [hS, hV, htr]
          · refine (hno _ hq0 ?_).elim
            apply callsSince_of_trace
            rw [hS, hV, htr]
          · refine (hno _ hq0 ?_).elim
            apply callsSince_of_trace
            rw [hS, hV, htr]
          · refine (hno _ hq0 ?_).elim
            apply callsSince_of_trace
            rw [hS, hV, htr]
          · obtain ⟨cs, hW, hcs⟩ := storeBlockWrite_calls L D
              { header with Timestamp := clampTimestamp header.Timestamp } digest txs
              (DigestForBlock L D (subU64 header.Number 1) (GetBlockHeight L D g).2).2
            have hcalls : callsSince g (StoreBlock L D packedBlock g).2 =
                ([Call.getBlockHeight] ++
                  (if subU64 header.Number 1 ≤ L.genesisBlockNumber then []
                    else [Call.getBlockDigest (subU64 header.Number 1)])) ++
                  (Call.begin :: cs) := by
              apply callsSince_of_trace
              rw [hS, hV, hW, runCalls_trace, htr, List.append_assoc]
            rw [hcalls] at hc
            rcases List.mem_append.1 hc with hc1 | hc1
            · rw [hq0 c hc1] at hk
              cases hk
            · rcases List.mem_cons.1 hc1 with rfl | hc2
              · cases hk
              · rcases hcs with rfl | ⟨tail, rfl, htail⟩
                · cases hc2
                · rcases List.mem_cons.1 hc2 with rfl | hc3
                  · exact ⟨h, header, digest, data, hH, hE, rfl⟩
                  · exact absurd hk (htail c hc3)

/-- C27 (timestamp clamp): every `insert_block` that `StoreBlock` calls, on any
path, carries as `created_on` the second count `min(t, 9224318015999)` of the
timestamp `t` of the header that `ExtractHeader` returned (with the number of
the header and the text of the block digest), and an accepted block has such a
call.  The value is at most 9224318015999, it is `t` when `t` is at most
9224318015999, and the conversion `int64` of the clamped value is the value
itself, without wrapping. -/
theorem C27_timestamp_clamp (L : Lib) (D : Database σ) (packedBlock : Bytes)
    (g : GlobalData σ) :
    (∀ n hash createdOn,
      Call.insertBlock n hash createdOn ∈ callsSince g (StoreBlock L D packedBlock g).2 →
      ∃ h header digest data, (GetBlockHeight L D g).1 = .ok h ∧
        L.ExtractHeader packedBlock (addU64 h 1) = .ok (header, digest, data) ∧
        n = header.Number ∧ hash = L.blockDigestString digest ∧
        createdOn = min header.Timestamp 9224318015999) ∧
    ((StoreBlock L D packedBlock g).1 = .ok () →
      ∃ n hash createdOn,
        Call.insertBlock n hash createdOn ∈ callsSince g (StoreBlock L D packedBlock g).2) ∧
    (∀ t : Nat, clampTimestamp t = min t 9224318015999 ∧
      min t 9224318015999 ≤ 9224318015999 ∧
      (t ≤ 9224318015999 → min t 9224318015999 = t) ∧
      int64 (min t 9224318015999) = ((min t 9224318015999 : Nat) : Int) ∧
      int64 (min t 9224318015999) < 2 ^ 63) := by
  have hclamp : ∀ t : Nat, clampTimestamp t = min t 9224318015999 := by
    intro t
    unfold clampTimestamp
    split <;> omega
  refine ⟨?_, ?_, ?_⟩
  · intro n hash createdOn hc
    obtain ⟨h, header, digest, data, hH, hE, heq⟩ :=
      StoreBlock_insertBlock L D packedBlock g _ hc rfl
    simp only [Call.insertBlock.injEq] at heq
    exact ⟨h, header, digest, data, hH, hE, heq.1, heq.2.1, by rw [heq.2.2, hclamp]⟩
  · intro hok
    rcases StoreBlock_cases L D packedBlock g with ⟨_, hS⟩ | ⟨_, e, _, hS⟩ | ⟨_, h, hH, hrest⟩
    · rw [hS] at hok; cases hok
    · rw [hS] at hok; cases hok
    · rcases hrest with ⟨e, _, hS⟩ | ⟨header, digest, data, hE, hrest⟩
      · rw [hS] at hok; cases hok
      · rcases hrest with ⟨e, _, hS⟩ | ⟨previousBlock, hD, hrest⟩
        · rw [hS] at hok; cases hok
        · rcases hrest with ⟨_, hS⟩ | ⟨heq, hS⟩
          · rw [hS] at hok; cases hok
          · rw [hS] at hok
            rcases storeBlockVerify_cases L D header digest data
                (DigestForBlock L D (subU64 header.Number 1) (GetBlockHeight L D g).2).2 with
              ⟨e, _, hV⟩ | ⟨msg, _, hV⟩ | ⟨txs, hU, ⟨_, hV⟩ | ⟨root, hR, ⟨_, hV⟩ | ⟨hroot, hV⟩⟩⟩
            · rw [hV] at hok; cases hok
            · rw [hV] at hok; cases hok
            · rw [hV] at hok; cases hok
            · rw [hV] at hok; cases hok
            · rw [hV] at hok
              obtain ⟨synth, recs, notes, hW, -⟩ := storeBlockWrite_ok L D _ digest txs _ hok
              refine ⟨header.Number, L.blockDigestString digest,
                clampTimestamp header.Timestamp, ?_⟩
              have htr : (StoreBlock L D packedBlock g).2.trace = g.trace ++
                  (([Call.getBlockHeight] ++
                    (if subU64 header.Number 1 ≤ L.genesisBlockNumber then []
                      else [Call.getBlockDigest (subU64 header.Number 1)])) ++
                    ([Call.begin, Call.insertBlock header.Number (L.blockDigestString digest)
                      (clampTimestamp header.Timestamp)] ++ synth ++ recs ++
                      [Call.updateEditions header.Number, Call.commit] ++ notes)) := by
                rw [hS, hV, hW, runCalls_trace, DigestForBlock_trace, GetBlockHeight_trace]
                simp only [List.append_assoc]
              rw [callsSince_of_trace htr]
              simp
  · intro t
    have h1 : min t 9224318015999 ≤ 9224318015999 := Nat.min_le_right _ _
    refine ⟨hclamp t, h1, fun h => Nat.min_eq_left h, ?_, ?_⟩
    · unfold int64
      rw [if_pos (by omega)]
    · unfold int64
      rw [if_pos (by omega)]
      omega

/-- Witness for C27: the demo store accepts a block 9 whose header carries the
timestamp 9224318016000; the `insert_block` call carries 9224318015999. -/
theorem C27_timestamp_clamp_witness :
    Call.insertBlock 9 "I" 9224318015999 ∈ callsSince demoStore
      (StoreBlock demoLib (specDatabase noFaults) [0, 9, 72, 0, 9224318016000] demoStore).2 ∧
    ∃ h header digest data,
      (GetBlockHeight demoLib (specDatabase noFaults) demoStore).1 = .ok h ∧
      demoLib.ExtractHeader [0, 9, 72, 0, 9224318016000] (addU64 h 1) =
        .ok (header, digest, data) ∧
      9 = header.Number ∧ "I" = demoLib.blockDigestString digest ∧
      9224318015999 = min header.Timestamp 9224318015999 :=
  ⟨by decide, (C27_timestamp_clamp demoLib (specDatabase noFaults)
    [0, 9, 72, 0, 9224318016000] demoStore).1 9 "I" 9224318015999 (by decide)⟩

theorem issueBatch_zero (l : List String) : issueBatch l 0 = l.take 20 := by
  simp [issueBatch]

theorem issueBatch_succ (l : List String) (k : Nat) :
    issueBatch l (k + 1) = issueBatch (l.drop 20) k := by
  simp only [issueBatch, List.drop_drop]
  congr 2
  omega

theorem issueCalls_succ (l : List String) (n : Nat) :
    issueCalls l (n + 1) =
      Call.notifyIssue (joinComma (l.take 20)) :: issueCalls (l.drop 20) n := by
  simp only [issueCalls, List.range_succ_eq_map, List.map_cons, List.map_map, issueBatch_zero]
  congr 1
  apply List.map_congr_left
  intro k _
  simp [issueBatch_succ]

theorem issueReport_succ (D : Database σ) (l : List String) (g : GlobalData σ) (k : Nat) :
    issueReport D l g (k + 1) =
      issueReport D (l.drop 20) (execCall D (Call.notifyIssue (joinComma (l.take 20))) g).2 k := by
  simp only [issueReport, issueCalls_succ, issueBatch_succ, runCalls]

/-- The loop of `notifyIssue` as a run: either every round is made and none of
its calls fails, or the rounds up to the first call that fails are made and
the error of that call is returned. -/
theorem notifyIssueLoop_run (D : Database σ) :
    ∀ (fuel : Nat) (l : List String) (g : GlobalData σ), l.length ≤ fuel →
      ((notifyIssueLoop D fuel l g).1 = none ∧
        (notifyIssueLoop D fuel l g).2 = runCalls D (issueCalls l ((l.length + 19) / 20)) g ∧
        ∀ k, k < (l.length + 19) / 20 → issueReport D l g k = none) ∨
      (∃ j e, j < (l.length + 19) / 20 ∧ (notifyIssueLoop D fuel l g).1 = some e ∧
        (notifyIssueLoop D fuel l g).2 = runCalls D (issueCalls l (j + 1)) g ∧
        issueReport D l g j = some e ∧ ∀ k, k < j → issueReport D l g k = none) := by
  intro fuel
  induction fuel with
  | zero =>
    intro l g hl
    have : l = [] := List.length_eq_zero.1 (by omega)
    subst this
    exact Or.inl ⟨rfl, rfl, fun k hk => absurd hk (by simp)⟩
  | succ fuel ih =>
    intro l g hl
    cases l with
    | nil => exact Or.inl ⟨rfl, rfl, fun k hk => absurd hk (by simp)⟩
    | cons a rest =>
      have hN : ((a :: rest).length + 19) / 20 = (((a :: rest).drop 20).length + 19) / 20 + 1 := by
        simp only [List.length_cons, List.length_drop]
        omega
      have hlen : ((a :: rest).drop 20).length ≤ fuel := by
        simp only [List.length_cons, List.length_drop] at hl ⊢
        omega
      have hr0 : issueReport D (a :: rest) g 0 =
          (execCall D (Call.notifyIssue (joinComma ((a :: rest).take 20))) g).1 := by
        simp [issueReport, issueCalls, issueBatch_zero, runCalls]
      have hloop1 : ∀ g1, execCall D (Call.notifyIssue (joinComma ((a :: rest).take 20))) g =
          (none, g1) →
          notifyIssueLoop D (fuel + 1) (a :: rest) g =
            notifyIssueLoop D fuel ((a :: rest).drop 20) g1 := by
        intro g1 h
        rw [notifyIssueLoop]
        simp only [List.isEmpty_cons, Bool.false_eq_true, if_false]
        rw [h]
      have hloop2 : ∀ e g1, execCall D (Call.notifyIssue (joinComma ((a :: rest).take 20))) g =
          (some e, g1) → notifyIssueLoop D (fuel + 1) (a :: rest) g = (some e, g1) := by
        intro e g1 h
        rw [notifyIssueLoop]
        simp only [List.isEmpty_cons, Bool.false_eq_true, if_false]
        rw [h]
      rw [hN]
      rcases hx : execCall D (Call.notifyIssue (joinComma ((a :: rest).take 20))) g with
        ⟨_ | e, g1⟩
      · have hg1 : g1 = (execCall D (Call.notifyIssue (joinComma ((a :: rest).take 20))) g).2 := by
          rw [hx]
        rw [hx] at hr0
        simp only at hr0
        rw [hloop1 g1 hx]
        rcases ih ((a :: rest).drop 20) g1 hlen with ⟨h1, h2, h3⟩ | ⟨j, e, h1, h2, h3, h4, h5⟩
        · refine Or.inl ⟨h1, ?_, ?_⟩
          · rw [h2, issueCalls_succ, runCalls, ← hg1]
          · intro k hk
            cases k with
            | zero => exact hr0
            | succ k =>
              rw [issueReport_succ, ← hg1]
              exact h3 k (by omega)
        · refine Or.inr ⟨j + 1, e, by omega, h2, ?_, ?_, ?_⟩
          · rw [h3, issueCalls_succ (a :: rest), runCalls, ← hg1]
          · rw [issueReport_succ, ← hg1]
            exact h4
          · intro k hk
            cases k with
            | zero => exact hr0
            | succ k =>
              rw [issueReport_succ, ← hg1]
              exact h5 k (by omega)
      · rw [hx] at hr0
        simp only at hr0
        rw [hloop2 e g1 hx]
        refine Or.inr ⟨0, e, by omega, rfl, ?_, hr0, fun k hk => absurd hk (by simp)⟩
        have hc1 : issueCalls (a :: rest) (0 + 1) =
            [Call.notifyIssue (joinComma ((a :: rest).take 20))] := by
          rw [issueCalls_succ]
          rfl
        rw [hc1, runCalls_singleton, hx]

/-- The batches of `notifyIssue`: there are `(length + 19) / 20` of them, each
holds between 1 and 20 ids, every batch but the last holds 20, and together,
in order, they are the list of ids. -/
theorem issueBatch_partition (l : List String) :
    (∀ k, k < (l.length + 19) / 20 →
      1 ≤ (issueBatch l k).length ∧ (issueBatch l k).length ≤ 20 ∧
      (k + 1 < (l.length + 19) / 20 → (issueBatch l k).length = 20)) ∧
    (List.range ((l.length + 19) / 20)).flatMap (issueBatch l) = l := by
  constructor
  · intro k hk
    simp only [issueBatch, List.length_take, List.length_drop]
    omega
  · generalize hn : (l.length + 19) / 20 = n
    induction n generalizing l with
    | zero =>
      have : l = [] := List.length_eq_zero.1 (by omega)
      subst this
      rfl
    | succ n ih =>
      have hd : ((l.drop 20).length + 19) / 20 = n := by
        simp only [List.length_drop]
        omega
      have := ih (l.drop 20) hd
      rw [List.range_succ_eq_map, List.flatMap_cons, List.flatMap_map, issueBatch_zero]
      have hf : (List.range n).flatMap (fun k => issueBatch l (k + 1)) =
          (List.range n).flatMap (issueBatch (l.drop 20)) := by
        congr 1
        funext k
        exact issueBatch_succ l k
      show List.take 20 l ++ (List.range n).flatMap (fun k => issueBatch l (k + 1)) = l
      rw [hf, this, List.take_append_drop]

/-- C28 (issue-notification batching): `notifyIssue` makes its calls in
rounds; the call of round `k` carries the ids at the positions `20 * k` up to
`20 * k + 20` joined by commas.  Either all `(L + 19) / 20` rounds are made, none
of the calls fails and the result is nil, or the rounds up to the first call
that fails are made, the error of that call is returned and no further batch
is sent; so when no call fails there are exactly `(L + 19) / 20` calls, the
least number `n` with `L ≤ 20 * n`.  Each batch holds between 1 and 20 ids,
every batch but the last holds 20, and the batches in order make up the list
of ids. -/
theorem C28_issue_batching (D : Database σ) (issueIds : List String) (g : GlobalData σ) :
    (((notifyIssue D issueIds g).1 = none ∧
        callsSince g (notifyIssue D issueIds g).2 =
          issueCalls issueIds ((issueIds.length + 19) / 20) ∧
        ∀ k, k < (issueIds.length + 19) / 20 → issueReport D issueIds g k = none) ∨
      (∃ j e, j < (issueIds.length + 19) / 20 ∧ (notifyIssue D issueIds g).1 = some e ∧
        callsSince g (notifyIssue D issueIds g).2 = issueCalls issueIds (j + 1) ∧
        issueReport D issueIds g j = some e ∧ ∀ k, k < j → issueReport D issueIds g k = none)) ∧
    ((∀ k, k < (issueIds.length + 19) / 20 → issueReport D issueIds g k = none) →
      (notifyIssue D issueIds g).1 = none ∧
      callsSince g (notifyIssue D issueIds g).2 =
        issueCalls issueIds ((issueIds.length + 19) / 20) ∧
      (callsSince g (notifyIssue D issueIds g).2).length = (issueIds.length + 19) / 20) ∧
    (issueIds.length ≤ 20 * ((issueIds.length + 19) / 20) ∧
      20 * ((issueIds.length + 19) / 20) < issueIds.length + 20) ∧
    (∀ k, k < (issueIds.length + 19) / 20 →
      1 ≤ (issueBatch issueIds k).length ∧ (issueBatch issueIds k).length ≤ 20 ∧
      (k + 1 < (issueIds.length + 19) / 20 → (issueBatch issueIds k).length = 20)) ∧
    (List.range ((issueIds.length + 19) / 20)).flatMap (issueBatch issueIds) = issueIds := by
  have hrun := notifyIssueLoop_run D issueIds.length issueIds g (Nat.le_refl _)
  have hrun2 : ((notifyIssue D issueIds g).1 = none ∧
        callsSince g (notifyIssue D issueIds g).2 =
          issueCalls issueIds ((issueIds.length + 19) / 20) ∧
        ∀ k, k < (issueIds.length + 19) / 20 → issueReport D issueIds g k = none) ∨
      (∃ j e, j < (issueIds.length + 19) / 20 ∧ (notifyIssue D issueIds g).1 = some e ∧
        callsSince g (notifyIssue D issueIds g).2 = issueCalls issueIds (j + 1) ∧
        issueReport D issueIds g j = some e ∧
        ∀ k, k < j → issueReport D issueIds g k = none) := by
    unfold notifyIssue
    rcases hrun with ⟨h1, h2, h3⟩ | ⟨j, e, h1, h2, h3, h4, h5⟩
    · exact Or.inl ⟨h1, by rw [h2]; exact callsSince_runCalls D _ g, h3⟩
    · exact Or.inr ⟨j, e, h1, h2, by rw [h3]; exact callsSince_runCalls D _ g, h4, h5⟩
  obtain ⟨hb1, hb2⟩ := issueBatch_partition issueIds
  refine ⟨hrun2, ?_, by omega, hb1, hb2⟩
  intro hall
  rcases hrun2 with ⟨h1, h2, -⟩ | ⟨j, e, h1, -, -, h4, -⟩
  · exact ⟨h1, h2, by rw [h2]; simp [issueCalls]⟩
  · rw [hall j h1] at h4
    cases h4

/-- Witness for C28: 45 ids on a server without failures give three calls,
with 20, 20 and 5 ids. -/
theorem C28_issue_batching_witness :
    (notifyIssue (specDatabase noFaults) demoIssueIds demoStore).1 = none ∧
    callsSince demoStore (notifyIssue (specDatabase noFaults) demoIssueIds demoStore).2 =
      issueCalls demoIssueIds ((demoIssueIds.length + 19) / 20) ∧
    (callsSince demoStore (notifyIssue (specDatabase noFaults) demoIssueIds demoStore).2).length =
      (demoIssueIds.length + 19) / 20 ∧
    (List.range 3).map (fun k => (issueBatch demoIssueIds k).length) = [20, 20, 5] :=
  ⟨((C28_issue_batching (specDatabase noFaults) demoIssueIds demoStore).2.1
      (fun _ _ => rfl)).1,
   ((C28_issue_batching (specDatabase noFaults) demoIssueIds demoStore).2.1
      (fun _ _ => rfl)).2.1,
   ((C28_issue_batching (specDatabase noFaults) demoIssueIds demoStore).2.1
      (fun _ _ => rfl)).2.2, by decide⟩

theorem mapGet_mapSet (m : List (String × String)) (k v k1 : String) :
    mapGet (mapSet m k v) k1 = if k = k1 then some v else mapGet m k1 := by
  induction m with
  | nil => simp [mapSet, mapGet]
  | cons p rest ih =>
    obtain ⟨a, b⟩ := p
    simp only [mapSet]
    by_cases h : a = k
    · subst h
      simp only [if_true, mapGet]
      by_cases h1 : a = k1 <;> simp [h1]
    · simp only [h, if_false, mapGet, ih]
      by_cases h1 : a = k1
      · subst h1
        have h2 : ¬ k = a := fun x => h x.symm
        simp [h2]
      · simp [h1]

/-- The payments that the scan of old base records collects: for each currency
the address of the last record of the run with that currency, else what the
map held before. -/
theorem mapGet_foldl (run : List OldBaseData) :
    ∀ (m : List (String × String)) (currency : String),
      (∀ a, lastAddress run currency = some a →
        mapGet (run.foldl (fun m tx => mapSet m tx.Currency tx.PaymentAddress) m) currency =
          some a) ∧
      (lastAddress run currency = none →
        mapGet (run.foldl (fun m tx => mapSet m tx.Currency tx.PaymentAddress) m) currency =
          mapGet m currency) := by
  induction run with
  | nil =>
    intro m currency
    exact ⟨fun a h => (by cases h), fun _ => rfl⟩
  | cons tx run ih =>
    intro m currency
    obtain ⟨h1, h2⟩ := ih (mapSet m tx.Currency tx.PaymentAddress) currency
    simp only [List.foldl_cons, lastAddress]
    cases hl : lastAddress run currency with
    | some y =>
      simp only
      exact ⟨fun a ha => by rw [← Option.some.inj ha]; exact h1 y hl, fun h => (by cases h)⟩
    | none =>
      simp only
      rw [h2 hl, mapGet_mapSet]
      by_cases hc : tx.Currency = currency
      · simp [hc]
      · simp [hc]

theorem scanOldBase_fold (txs : List (Transaction × Digest)) :
    ∀ f : BlockFoundation, scanOldBase txs (some f) =
      some { f with
        Payments := (leadingOldBase txs).foldl
                      (fun m tx => mapSet m tx.Currency tx.PaymentAddress) f.Payments } := by
  induction txs with
  | nil => intro f; rfl
  | cons p rest ih =>
    intro f
    obtain ⟨item, txId⟩ := p
    cases item with
    | OldBaseData tx =>
      simp only [scanOldBase, leadingOldBase, List.foldl_cons]
      rw [ih]
    | _ => rfl

/-- The record that the scan builds when the first record is an old base
record. -/
theorem scanOldBase_first (first : OldBaseData) (d : Digest)
    (rest : List (Transaction × Digest)) :
    ∃ f, scanOldBase ((.OldBaseData first, d) :: rest) none = some f ∧
      f.Version = 0 ∧ f.Owner = first.Owner ∧ f.Nonce = first.Nonce ∧
      f.Signature = first.Signature ∧
      ∀ currency, mapGet f.Payments currency =
        lastAddress (leadingOldBase ((.OldBaseData first, d) :: rest)) currency := by
  refine ⟨{ Version := 0
            Payments := (first :: leadingOldBase rest).foldl
                          (fun m tx => mapSet m tx.Currency tx.PaymentAddress) []
            Owner := first.Owner
            Nonce := first.Nonce
            Signature := first.Signature }, ?_, rfl, rfl, rfl, rfl, ?_⟩
  · simp only [scanOldBase]
    rw [scanOldBase_fold]
    rfl
  · intro currency
    obtain ⟨h1, h2⟩ := mapGet_foldl (first :: leadingOldBase rest) [] currency
    show mapGet ((first :: leadingOldBase rest).foldl
      (fun m tx => mapSet m tx.Currency tx.PaymentAddress) []) currency =
      lastAddress (first :: leadingOldBase rest) currency
    cases hl : lastAddress (first :: leadingOldBase rest) currency with
    | some a => exact h1 a hl
    | none => rw [h2 hl]; rfl

/-- A foundation record that is stored makes the one insert named for it. -/
theorem insertFoundation_ok (L : Lib) (D : Database σ) (txId : Digest) (f : BlockFoundation)
    (status : statusType) (blockNumber blockOffset : Nat) (payId : String) (g : GlobalData σ)
    (a : String)
    (h : (insertFoundation L D txId f status blockNumber blockOffset payId g).1 = .ok a) :
    ∃ id signature currencies, L.digestMarshalText txId = .ok id ∧
      L.signatureMarshalText f.Signature = .ok signature ∧
      L.jsonMarshalMap f.Payments = .ok currencies ∧
      (insertFoundation L D txId f status blockNumber blockOffset payId g).2 =
        runCalls D [Call.insertTransaction id (L.accountString f.Owner) signature "" none none
          status (some currencies) payId blockNumber blockOffset] g := by
  unfold insertFoundation at h ⊢
  cases h1 : L.digestMarshalText txId with
  | error e => simp [h1] at h
  | ok id =>
    cases h2 : L.signatureMarshalText f.Signature with
    | error e => simp [h1, h2] at h
    | ok signature =>
      cases h3 : L.jsonMarshalMap f.Payments with
      | error e => simp [h1, h2, h3] at h
      | ok currencies =>
        refine ⟨id, signature, currencies, rfl, rfl, rfl, ?_⟩
        simp only [runCalls]
        split <;> simp_all

/-- The block `extract data from old base records` when it succeeds: the calls
are those of the synthesised foundation record. -/
theorem storeBlockOldBase_ok (L : Lib) (D : Database σ) (header : Header) (digest : Digest)
    (txs : List (Transaction × Digest)) (g : GlobalData σ) (a : String)
    (h : (storeBlockOldBase L D (L.FoundationTxId header digest) (blockStatus header.Number)
      header.Number txs g).1 = .ok a) :
    ∃ synth, (storeBlockOldBase L D (L.FoundationTxId header digest)
        (blockStatus header.Number) header.Number txs g).2 = runCalls D synth g ∧
      foundationCalls L header digest txs synth := by
  have hnone : ∀ t : List (Transaction × Digest), startsWithOldBase t = false →
      (storeBlockOldBase L D (L.FoundationTxId header digest) (blockStatus header.Number)
        header.Number t g).2 = runCalls D [] g := by
    intro t ht
    unfold storeBlockOldBase
    rw [(scanOldBase_none_iff t).2 ht]
    rfl
  cases txs with
  | nil => exact ⟨[], hnone [] rfl, rfl⟩
  | cons p rest =>
    obtain ⟨item, d⟩ := p
    cases item with
    | OldBaseData first =>
      obtain ⟨f, hf, h1, h2, h3, h4, h5⟩ := scanOldBase_first first d rest
      unfold storeBlockOldBase at h ⊢
      rw [hf] at h ⊢
      simp only at h ⊢
      obtain ⟨id, signature, currencies, hi, hs, hc, hg⟩ :=
        insertFoundation_ok L D _ f _ _ _ _ g a h
      exact ⟨_, hg, f, id, signature, currencies, h1, h2, h3, h4, h5, hi, hs, hc, rfl⟩
    | _ => exact ⟨[], hnone _ rfl, rfl⟩

/-- The calls of an accepted block from `Begin` on, with the insert of the
synthesised foundation record spelled out. -/
theorem storeBlockWrite_synth (L : Lib) (D : Database σ) (header : Header) (digest : Digest)
    (txs : List (Transaction × Digest)) (g : GlobalData σ)
    (hok : (storeBlockWrite L D header digest txs g).1 = .ok ()) :
    ∃ synth recs notes,
      (storeBlockWrite L D header digest txs g).2 =
        runCalls D
          ([Call.begin,
            Call.insertBlock header.Number (L.blockDigestString digest) header.Timestamp] ++
            synth ++ recs ++ [Call.updateEditions header.Number, Call.commit] ++ notes) g ∧
      foundationCalls L header digest txs synth ∧
      matchRecords storedOffset L (blockStatus header.Number) header.Number
        (L.FoundationTxId header digest) txs 0 recs = some [] ∧
      (∀ c ∈ recs, c.isRecordKind = true) ∧
      (∀ c ∈ notes, c.isNotify = true) := by
  unfold storeBlockWrite at hok ⊢
  simp only [blockStatus_eq] at hok ⊢
  rcases hb : execCall D Call.begin g with ⟨_ | e, g1⟩
  swap
  · simp [hb] at hok
  simp only [hb] at hok ⊢
  have hg1 : g1 = runCalls D [Call.begin] g := by simp [runCalls, hb]
  rcases hib : insertBlock L D header.Number digest header.Timestamp g1 with ⟨_ | e, g2⟩
  swap
  · simp [hib, rollback] at hok
  simp only [hib] at hok ⊢
  have hg2 : g2 = runCalls D [Call.insertBlock header.Number (L.blockDigestString digest)
      header.Timestamp] g1 := by
    simp only [insertBlock] at hib
    simp [runCalls, hib]
  rcases hob : storeBlockOldBase L D (L.FoundationTxId header digest)
      (blockStatus header.Number) header.Number txs g2 with ⟨r3, g3⟩
  simp only [hob] at hok ⊢
  cases r3 with
  | err e => simp [rollback] at hok
  | panic msg => simp at hok
  | ok a =>
    obtain ⟨synth, hs1, hsynth⟩ := storeBlockOldBase_ok L D header digest txs g2 a (by rw [hob])
    rw [hob] at hs1
    simp only at hok hs1 ⊢
    obtain ⟨recs, hr1, hr2, hr3⟩ := storeBlockRecords_calls L D (L.FoundationTxId header digest)
      (blockStatus header.Number) header.Number txs 0 ⟨[], [], []⟩ g3
    rcases hrec : storeBlockRecords L D (L.FoundationTxId header digest)
        (blockStatus header.Number) (blockStatus header.Number) header.Number txs 0
        ⟨[], [], []⟩ g3 with ⟨r4, g4⟩
    rw [hrec] at hr1 hr3
    simp only [hrec] at hok ⊢
    cases r4 with
    | err e => simp [rollback] at hok
    | panic msg => simp at hok
    | ok ids =>
      simp only at hok hr1 ⊢
      have hmatch := hr3 ⟨ids, rfl⟩ []
      simp only [List.append_nil] at hmatch
      rcases hue : updateEditions D header.Number g4 with ⟨_ | e, g5⟩
      swap
      · simp [hue, rollback] at hok
      simp only [hue] at hok ⊢
      have hg5 : g5 = runCalls D [Call.updateEditions header.Number] g4 := by
        simp only [updateEditions] at hue
        simp [runCalls, hue]
      rcases hcm : execCall D Call.commit g5 with ⟨_ | e, g6⟩
      swap
      · simp [hcm, rollback] at hok
      simp only [hcm] at hok ⊢
      have hg6 : g6 = runCalls D [Call.commit] g5 := by simp [runCalls, hcm]
      have hall : g6 = runCalls D ([Call.begin,
            Call.insertBlock header.Number (L.blockDigestString digest) header.Timestamp] ++
            synth ++ recs ++ [Call.updateEditions header.Number, Call.commit]) g := by
        rw [hg6, hg5, hr1, hs1, hg2, hg1]
        simp [runCalls_append, runCalls]
      split
      · obtain ⟨notes, hn1, hn2⟩ := storeBlockNotify_calls D header.Number ids g6
        refine ⟨synth, recs, notes, ?_, hsynth, hmatch, hr2, hn2⟩
        show storeBlockNotify D header.Number ids g6 = _
        rw [hn1, hall, ← runCalls_append]
      · refine ⟨synth, recs, [], ?_, hsynth, hmatch, hr2, by simp⟩
        show g6 = _
        rw [hall, List.append_nil]

/-- The calls matched against the records are as many as there are records
other than old base records. -/
theorem matchRecords_length (offsetOf : Transaction → Nat → Nat) (L : Lib) (status : statusType)
    (blockNumber : Nat) (foundationTxId : Digest) (txs : List (Transaction × Digest)) :
    ∀ (i : Nat) (cs : List Call),
      matchRecords offsetOf L status blockNumber foundationTxId txs i cs = some [] →
      cs.length = (txs.filter fun p => !p.1.isOldBase).length := by
  induction txs with
  | nil =>
    intro i cs h
    simp only [matchRecords, Option.some.injEq] at h
    subst h
    rfl
  | cons p rest ih =>
    intro i cs h
    obtain ⟨item, txId⟩ := p
    simp only [matchRecords] at h
    cases hk : item.insertKind? with
    | none =>
      have hob : item.isOldBase = true := by
        cases item <;> simp_all [Transaction.insertKind?, Transaction.isOldBase]
      rw [hk] at h
      simp only at h
      rw [ih (i + 1) cs h]
      simp [List.filter_cons, hob]
    | some kind =>
      have hob : item.isOldBase = false := by
        cases item <;> simp_all [Transaction.insertKind?, Transaction.isOldBase]
      rw [hk] at h
      simp only at h
      cases cs with
      | nil => simp at h
      | cons c cs1 =>
        simp only at h
        split at h
        · rw [List.length_cons, ih (i + 1) cs1 h]
          simp [List.filter_cons, hob]
        · cases h

/-- C26 (foundation synthesis): for every block that `StoreBlock` accepts, with
records `txs`, the calls are queries, then `Begin` and `insert_block`, then the
calls `synth` for the synthesised foundation record, then the inserts `recs` of
the records, then `update_editions`, `Commit` and notifications.  When the
first record is an old base record, `synth` is exactly one
`insert_transaction` with the text of `FoundationTxId(header, digest)` as id
(the header as `StoreBlock` holds it then, its timestamp clamped), block offset
0, and the owner, the signature and the payments of a foundation record with
version 0, owner, nonce and signature of the first old base record, and
payments that give for each currency the address of the last record of the
leading run with that currency (and nothing for another currency).  When the
first record is not an old base record `synth` is empty.  The inserts `recs`
match the records in order with none for an old base record: they are as many
as the records that are not old base records. -/
theorem C26_foundation_synthesis (L : Lib) (D : Database σ) (packedBlock : Bytes)
    (g : GlobalData σ) (hok : (StoreBlock L D packedBlock g).1 = .ok ()) :
    ∃ h header digest data txs pre synth recs notes,
      (GetBlockHeight L D g).1 = .ok h ∧
      L.ExtractHeader packedBlock (addU64 h 1) = .ok (header, digest, data) ∧
      unpackTransactions L header.TransactionCount data = .ok txs ∧
      callsSince g (StoreBlock L D packedBlock g).2 =
        pre ++ [Call.begin, Call.insertBlock header.Number (L.blockDigestString digest)
          (clampTimestamp header.Timestamp)] ++ synth ++ recs ++
          [Call.updateEditions header.Number, Call.commit] ++ notes ∧
      (∀ c ∈ pre, c.isInsert = false) ∧ (∀ c ∈ notes, c.isNotify = true) ∧
      foundationCalls L { header with Timestamp := clampTimestamp header.Timestamp } digest
        txs synth ∧
      (startsWithOldBase txs = true → synth.length = 1) ∧
      (startsWithOldBase txs = false → synth = []) ∧
      matchRecords storedOffset L (blockStatus header.Number) header.Number
        (L.FoundationTxId { header with Timestamp := clampTimestamp header.Timestamp } digest)
        txs 0 recs = some [] ∧
      recs.length = (txs.filter fun p => !p.1.isOldBase).length := by
  rcases StoreBlock_cases L D packedBlock g with ⟨_, hS⟩ | ⟨_, e, _, hS⟩ | ⟨_, h, hH, hrest⟩
  · rw [hS] at hok; cases hok
  · rw [hS] at hok; cases hok
  · rcases hrest with ⟨e, _, hS⟩ | ⟨header, digest, data, hE, hrest⟩
    · rw [hS] at hok; cases hok
    · rcases hrest with ⟨e, _, hS⟩ | ⟨previousBlock, hD, hrest⟩
      · rw [hS] at hok; cases hok
      · rcases hrest with ⟨_, hS⟩ | ⟨heq, hS⟩
        · rw [hS] at hok; cases hok
        · rw [hS] at hok
          rcases storeBlockVerify_cases L D header digest data
              (DigestForBlock L D (subU64 header.Number 1) (GetBlockHeight L D g).2).2 with
            ⟨e, _, hV⟩ | ⟨msg, _, hV⟩ | ⟨txs, hU, ⟨_, hV⟩ | ⟨root, hR, ⟨_, hV⟩ | ⟨hroot, hV⟩⟩⟩
          · rw [hV] at hok; cases hok
          · rw [hV] at hok; cases hok
          · rw [hV] at hok; cases hok
          · rw [hV] at hok; cases hok
          · rw [hV] at hok
            obtain ⟨synth, recs, notes, hW, hsy, hm, _, hn⟩ :=
              storeBlockWrite_synth L D _ digest txs _ hok
            refine ⟨h, header, digest, data, txs,
              [Call.getBlockHeight] ++
                (if subU64 header.Number 1 ≤ L.genesisBlockNumber then []
                  else [Call.getBlockDigest (subU64 header.Number 1)]),
              synth, recs, notes, hH, hE, hU, ?_, ?_, hn, hsy, ?_, ?_, hm,
              matchRecords_length _ _ _ _ _ _ _ _ hm⟩
            · apply callsSince_of_trace
              rw [hS, hV, hW, runCalls_trace, DigestForBlock_trace, GetBlockHeight_trace]
              simp only [List.append_assoc]
            · intro c hc
              simp only [List.mem_append, List.mem_singleton] at hc
              rcases hc with rfl | hc
              · rfl
              · split at hc
                · cases hc
                · simp only [List.mem_singleton] at hc
                  subst hc
                  rfl
            · intro hst
              cases txs with
              | nil => cases hst
              | cons p rest =>
                obtain ⟨item, d⟩ := p
                cases item with
                | OldBaseData first =>
                  obtain ⟨f, id, signature, currencies, -, -, -, -, -, -, -, -, hs⟩ := hsy
                  rw [hs]
                  rfl
                | _ => cases hst
            · intro hst
              cases txs with
              | nil => exact hsy
              | cons p rest =>
                obtain ⟨item, d⟩ := p
                cases item with
                | OldBaseData first => cases hst
                | _ => exact hsy

/-- Witness for C26: a block of two old base records (owners 5 and 6 with the
payment addresses of the same texts, both for the currency BTC) and an issue is
accepted; the one synthesised insert carries the foundation id, the owner and
the signature of the first record and the address of the last, and the only
other insert is that of the issue. -/
theorem C26_foundation_synthesis_witness :
    (StoreBlock demoBaseLib (specDatabase noFaults) [3, 9, 72, 16, 0, 0, 5, 0, 6, 2, 3]
      demoStore).1 = .ok () ∧
    (∃ h header digest data txs pre synth recs notes,
      (GetBlockHeight demoBaseLib (specDatabase noFaults) demoStore).1 = .ok h ∧
      demoBaseLib.ExtractHeader [3, 9, 72, 16, 0, 0, 5, 0, 6, 2, 3] (addU64 h 1)
        = .ok (header, digest, data) ∧
      unpackTransactions demoBaseLib header.TransactionCount data = .ok txs ∧
      callsSince demoStore
        (StoreBlock demoBaseLib (specDatabase noFaults) [3, 9, 72, 16, 0, 0, 5, 0, 6, 2, 3]
          demoStore).2 =
        pre ++ [Call.begin, Call.insertBlock header.Number
          (demoBaseLib.blockDigestString digest) (clampTimestamp header.Timestamp)] ++
          synth ++ recs ++ [Call.updateEditions header.Number, Call.commit] ++ notes ∧
      (∀ c ∈ pre, c.isInsert = false) ∧ (∀ c ∈ notes, c.isNotify = true) ∧
      foundationCalls demoBaseLib { header with Timestamp := clampTimestamp header.Timestamp }
        digest txs synth ∧
      (startsWithOldBase txs = true → synth.length = 1) ∧
      (startsWithOldBase txs = false → synth = []) ∧
      matchRecords storedOffset demoBaseLib (blockStatus header.Number) header.Number
        (demoBaseLib.FoundationTxId
          { header with Timestamp := clampTimestamp header.Timestamp } digest)
        txs 0 recs = some [] ∧
      recs.length = (txs.filter fun p => !p.1.isOldBase).length) ∧
    callsSince demoStore
      (StoreBlock demoBaseLib (specDatabase noFaults) [3, 9, 72, 16, 0, 0, 5, 0, 6, 2, 3]
        demoStore).2 =
      [Call.getBlockHeight, Call.getBlockDigest 8, Call.begin, Call.insertBlock 9 "I" 0,
       Call.insertTransaction "9v" "5" "5" "" none none .statusConfirmed (some "BTC:6;") "" 9 0,
       Call.insertTransaction "23" "3" "3" "" (some "3") none .statusConfirmed none "" 9 2,
       Call.updateEditions 9, Call.commit, Call.notifyIssue "23", Call.notifyBlock "9"] :=
  ⟨by decide,
   C26_foundation_synthesis demoBaseLib (specDatabase noFaults)
     [3, 9, 72, 16, 0, 0, 5, 0, 6, 2, 3] demoStore (by decide),
   by decide⟩

/-- The storing of one record does not depend on what
`notify_pending_transaction` reports. -/
theorem storeTransactionsRecord_mute (L : Lib) (D : Database σ) (payId : String)
    (tx : Transaction) (txId : Digest) (g : GlobalData σ) :
    storeTransactionsRecord L (muteNotify D) payId tx txId g =
      storeTransactionsRecord L D payId tx txId g := by
  cases tx <;> rfl

/-- The loop of `StoreTransactions` does not depend on what
`notify_pending_transaction` reports. -/
theorem storeTransactionsLoop_mute (L : Lib) (D : Database σ) (payId : String) (fuel : Nat)
    (data : Bytes) (g : GlobalData σ) :
    storeTransactionsLoop L (muteNotify D) payId fuel data g =
      storeTransactionsLoop L D payId fuel data g := by
  induction fuel generalizing data g with
  | zero =>
    cases data with
    | nil => rfl
    | cons b bs => rfl
  | succ fuel ih =>
    cases data with
    | nil => rfl
    | cons b bs =>
      simp only [storeTransactionsLoop, storeTransactionsRecord_mute, ih]

/-- The function `StoreTransactions` does not depend on what
`notify_pending_transaction` reports. -/
theorem StoreTransactions_mute (L : Lib) (D : Database σ) (fuel : Nat) (payload : Bytes)
    (g : GlobalData σ) :
    StoreTransactions L (muteNotify D) fuel payload g = StoreTransactions L D fuel payload g := by
  have hx : ∀ (c : Call) (g1 : GlobalData σ), (∀ id, c ≠ Call.notifyPendingTx id) →
      execCall (muteNotify D) c g1 = execCall D c g1 := by
    intro c g1 hc
    cases c <;> first | rfl | exact absurd rfl (hc _)
  simp only [StoreTransactions, storeTransactionsLoop_mute, rollback,
    hx Call.begin _ (fun _ h => (by cases h)), hx Call.commit _ (fun _ h => (by cases h)),
    hx Call.rollback _ (fun _ h => (by cases h))]

/-- The calls of stored records hold, for each issue and transfer among them,
the insert and right after it the notification of the pending transaction. -/
theorem looseCalls_notify (L : Lib) (stored : List (Transaction × Digest))
    (css : List (List Call)) (h : List.Forall₂ (looseCalls L) stored css) :
    ∀ r ∈ stored, r.1.notifies = true →
      ∃ c id, recordId L [] r.1 r.2 = .ok id ∧ c.id? = some id ∧
        [c, Call.notifyPendingTx id] <:+: css.flatten := by
  induction h with
  | nil =>
    intro r hr
    cases hr
  | cons hcs _ ih =>
    rename_i r0 cs rest css1
    intro r hr hn
    rcases List.mem_cons.1 hr with rfl | hr
    · simp only [looseCalls] at hcs
      cases hk : r.1.looseKind? with
      | none =>
        exfalso
        obtain ⟨tx, txId⟩ := r
        cases tx <;> simp_all [Transaction.looseKind?, Transaction.notifies,
          Transaction.isIssue, Transaction.isTransfer, Transaction.isFoundation,
          Transaction.insertKind?]
      | some kind =>
        rw [hk] at hcs
        obtain ⟨c, id, hid, hc, hcs⟩ := hcs
        rw [if_pos hn] at hcs
        refine ⟨c, id, hid, hc.2.1, ?_⟩
        rw [List.flatten_cons, hcs]
        exact (List.prefix_append _ _).isInfix
    · obtain ⟨c, id, hid, hc, hin⟩ := ih r hr hn
      refine ⟨c, id, hid, hc, ?_⟩
      rw [List.flatten_cons]
      exact hin.trans (List.suffix_append _ _).isInfix

/-- A call that carries the id of a record is sent on the transaction. -/
theorem handle_of_id {c : Call} {id : String} (h : c.id? = some id) :
    c.handle = Handle.transaction := by
  cases c <;> first | rfl | cases h

/-- How `StoreTransactions` ends after the walk over the records, when `Begin`
succeeds. -/
theorem StoreTransactions_after_walk (L : Lib) (D : Database σ) (fuel : Nat)
    (payload : Bytes) (g : GlobalData σ) (recs : List (Transaction × Digest))
    (ending : Outcome Unit) (hi : g.initialised = true)
    (hU : unpackRecords L fuel payload = (recs, some ending))
    (hb : (execCall D Call.begin g).1 = none) :
    (∀ e, (looseWalk L D payload recs g).1 = .err e →
      StoreTransactions L D fuel payload g =
        some (.err e, (execCall D Call.rollback (looseWalk L D payload recs g).2).2)) ∧
    (∀ msg, (looseWalk L D payload recs g).1 = .panic msg →
      StoreTransactions L D fuel payload g =
        some (.panic msg, (looseWalk L D payload recs g).2)) ∧
    ((looseWalk L D payload recs g).1 = .ok () →
      (∀ e, ending = .err e →
        StoreTransactions L D fuel payload g =
          some (.err e, (execCall D Call.rollback (looseWalk L D payload recs g).2).2)) ∧
      (ending = .ok () →
        (∀ e, (execCall D Call.commit (looseWalk L D payload recs g).2).1 = some e →
          StoreTransactions L D fuel payload g =
            some (.err e, (execCall D Call.rollback
              (execCall D Call.commit (looseWalk L D payload recs g).2).2).2)) ∧
        ((execCall D Call.commit (looseWalk L D payload recs g).2).1 = none →
          StoreTransactions L D fuel payload g =
            some (.ok (), (execCall D Call.commit (looseWalk L D payload recs g).2).2)))) := by
  have hi' : ¬ g.initialised = false := by simp [hi]
  unfold StoreTransactions looseWalk
  rw [if_neg hi']
  rcases hx : execCall D Call.begin g with ⟨rb, gb⟩
  rw [hx] at hb
  simp only at hb
  subst hb
  simp only
  rw [storeTransactionsLoop_eq, hU]
  simp only
  rcases hw : walkRecords L D (hexEncode (L.Sum384 payload)) recs gb with ⟨r, gk⟩
  cases r with
  | ok u =>
    refine ⟨fun e h => (by cases h), fun msg h => (by cases h), fun _ => ⟨?_, ?_⟩⟩
    · intro e he
      subst he
      rfl
    · intro he
      subst he
      simp only [Option.map_some']
      rcases hc : execCall D Call.commit gk with ⟨_ | e, gc⟩
      · exact ⟨fun e h => (by cases h), fun _ => rfl⟩
      · refine ⟨fun e1 h => ?_, fun h => (by cases h)⟩
        cases h
        rfl
  | err e =>
    refine ⟨fun e1 h => ?_, fun msg h => (by cases h), fun h => (by cases h)⟩
    cases h
    rfl
  | panic msg =>
    refine ⟨fun e h => (by cases h), fun msg1 h => ?_, fun h => (by cases h)⟩
    cases h
    rfl

/-- The calls of a walk that stored every record. -/
theorem looseWalk_ok (L : Lib) (D : Database σ) (payload : Bytes)
    (recs : List (Transaction × Digest)) (g : GlobalData σ)
    (hok : (looseWalk L D payload recs g).1 = .ok ()) :
    ∃ css, List.Forall₂ (looseCalls L) recs css ∧
      (looseWalk L D payload recs g).2.trace = g.trace ++ ([Call.begin] ++ css.flatten) := by
  obtain ⟨css, hcss, hg⟩ := walkRecords_ok L D _ recs _ hok
  refine ⟨css, hcss, ?_⟩
  have hgb : (execCall D Call.begin g).2 = runCalls D [Call.begin] g := rfl
  show (walkRecords L D _ recs _).2.trace = _
  rw [hg, runCalls_trace, hgb, runCalls_trace, List.append_assoc]

/-- The calls of a walk that stopped at a record: the records before it and at
most one insert of that record. -/
theorem looseWalk_stop (L : Lib) (D : Database σ) (payload : Bytes)
    (recs : List (Transaction × Digest)) (g : GlobalData σ)
    (hno : (looseWalk L D payload recs g).1 ≠ .ok ()) :
    ∃ stored failing rest css extra,
      recs = stored ++ failing :: rest ∧ List.Forall₂ (looseCalls L) stored css ∧
      (extra = [] ∨ ∃ c, extra = [c] ∧ c.isRecordKind = true) ∧
      (looseWalk L D payload recs g).2.trace =
        g.trace ++ ([Call.begin] ++ css.flatten ++ extra) := by
  obtain ⟨done, tx, txId, rest, css, extra, h1, h2, _, h4, h5⟩ :=
    walkRecords_stop L D _ recs _ hno
  refine ⟨done, (tx, txId), rest, css, extra, h1, h2, h4, ?_⟩
  have hgb : (execCall D Call.begin g).2 = runCalls D [Call.begin] g := rfl
  show (walkRecords L D _ recs _).2.trace = _
  rw [h5, runCalls_trace, hgb, runCalls_trace]
  simp only [List.append_assoc]

/-- C30, as amended: in `StoreTransactions` with a successful `Begin`, for a
payload that unpacks into the records `recs`, the notification of the pending
transaction of every stored issue or transfer is in the calls right after the
insert of that record, sent on the database handle while the inserts, `Commit`
and `Rollback` go to the transaction.  When the storing of a record returns
an error, or all records are stored and `Unpack` or `Commit` reports an error,
`StoreTransactions` returns that error and its last call is `Rollback`, after
the notifications of the records stored before.  When the storing of a record
panics the panic is passed on without `Rollback`, also after the notifications
of the records stored before.  What a notification reports has no influence:
with every report of `notify_pending_transaction` replaced by success the
result and the calls of `StoreTransactions` are the same. -/
theorem C30_pending_notification_amended (L : Lib) (D : Database σ) (fuel : Nat)
    (payload : Bytes) (g : GlobalData σ) (recs : List (Transaction × Digest))
    (ending : Outcome Unit) (hi : g.initialised = true)
    (hU : unpackRecords L fuel payload = (recs, some ending))
    (hb : (execCall D Call.begin g).1 = none) :
    (∀ e, (looseWalk L D payload recs g).1 = .err e →
      ∃ g1 stored failing rest extra,
        StoreTransactions L D fuel payload g = some (.err e, g1) ∧
        recs = stored ++ failing :: rest ∧
        (extra = [] ∨ ∃ c, extra = [c] ∧ c.isRecordKind = true) ∧
        storedCalls L stored extra g g1 [Call.rollback]) ∧
    (∀ e, (looseWalk L D payload recs g).1 = .ok () → ending = .err e →
      ∃ g1, StoreTransactions L D fuel payload g = some (.err e, g1) ∧
        storedCalls L recs [] g g1 [Call.rollback]) ∧
    (∀ e, (looseWalk L D payload recs g).1 = .ok () → ending = .ok () →
      (execCall D Call.commit (looseWalk L D payload recs g).2).1 = some e →
      ∃ g1, StoreTransactions L D fuel payload g = some (.err e, g1) ∧
        storedCalls L recs [] g g1 [Call.commit, Call.rollback]) ∧
    (∀ msg, (looseWalk L D payload recs g).1 = .panic msg →
      ∃ g1 stored failing rest extra,
        StoreTransactions L D fuel payload g = some (.panic msg, g1) ∧
        recs = stored ++ failing :: rest ∧
        (extra = [] ∨ ∃ c, extra = [c] ∧ c.isRecordKind = true) ∧
        storedCalls L stored extra g g1 []) ∧
    StoreTransactions L (muteNotify D) fuel payload g = StoreTransactions L D fuel payload g ∧
    (∀ id, (Call.notifyPendingTx id).handle = Handle.database) ∧
    (∀ (c : Call) (id : String), c.id? = some id → c.handle = Handle.transaction) ∧
    Call.commit.handle = Handle.transaction ∧ Call.rollback.handle = Handle.transaction := by
  obtain ⟨hA, hD, hBC⟩ := StoreTransactions_after_walk L D fuel payload g recs ending hi hU hb
  refine ⟨?_, ?_, ?_, ?_, StoreTransactions_mute L D fuel payload g, fun _ => rfl,
    fun c id h => handle_of_id h, rfl, rfl⟩
  · intro e he
    obtain ⟨stored, failing, rest, css, extra, h1, h2, h4, h5⟩ :=
      looseWalk_stop L D payload recs g (by rw [he]; intro h; cases h)
    refine ⟨_, stored, failing, rest, extra, hA e he, h1, h4, css, h2, ?_,
      looseCalls_notify L stored css h2⟩
    apply callsSince_of_trace
    rw [execCall_trace, h5]
    simp only [List.append_assoc]
  · intro e hok he
    obtain ⟨css, h2, h5⟩ := looseWalk_ok L D payload recs g hok
    refine ⟨_, (hBC hok).1 e he, css, h2, ?_, looseCalls_notify L recs css h2⟩
    apply callsSince_of_trace
    rw [execCall_trace, h5]
    simp only [List.append_assoc, List.append_nil, List.nil_append]
  · intro e hok he hc
    obtain ⟨css, h2, h5⟩ := looseWalk_ok L D payload recs g hok
    refine ⟨_, ((hBC hok).2 he).1 e hc, css, h2, ?_, looseCalls_notify L recs css h2⟩
    apply callsSince_of_trace
    rw [execCall_trace, execCall_trace, h5]
    simp only [List.append_assoc, List.append_nil, List.nil_append, List.cons_append]
  · intro msg he
    obtain ⟨stored, failing, rest, css, extra, h1, h2, h4, h5⟩ :=
      looseWalk_stop L D payload recs g (by rw [he]; intro h; cases h)
    refine ⟨_, stored, failing, rest, extra, hD msg he, h1, h4, css, h2, ?_,
      looseCalls_notify L stored css h2⟩
    apply callsSince_of_trace
    rw [h5]
    simp only [List.append_assoc, List.append_nil]

/-- Witness for C30 as amended: an issue followed by a share whose insert
reports an error.  The error is returned after `Rollback`, and the
notification of the issue is among the calls, right after its insert.  And a
payload of one issue whose notification reports an error is stored and
committed. -/
theorem C30_pending_notification_amended_witness :
    (∃ g1 stored failing rest extra,
      StoreTransactions demoLib (specDatabase (faultAt 3 (.pq "unique_violation"))) 2
        [2, 7, 6, 1] demoStore = some (.err (.pq "unique_violation"), g1) ∧
      [(demoRecord 2 7, [2, 7]), (demoRecord 6 1, [6, 1])] = stored ++ failing :: rest ∧
      (extra = [] ∨ ∃ c, extra = [c] ∧ c.isRecordKind = true) ∧
      storedCalls demoLib stored extra demoStore g1 [Call.rollback]) ∧
    (StoreTransactions demoLib (specDatabase (faultAt 3 (.pq "unique_violation"))) 2
        [2, 7, 6, 1] demoStore).map (fun r => (r.1, callsSince demoStore r.2)) =
      some (.err (.pq "unique_violation"),
        [Call.begin,
         Call.insertTransaction "27" "7" "7" "" (some "7") none .statusPending none "" 0 0,
         Call.notifyPendingTx "27",
         Call.insertShare "61" 1 "1" "1" "10" .statusPending 0 0,
         Call.rollback]) ∧
    (StoreTransactions demoLib (specDatabase (faultAt 2 (.pq "unique_violation"))) 1
        [2, 7] demoStore).map (fun r => (r.1, callsSince demoStore r.2)) =
      some (.ok (),
        [Call.begin,
         Call.insertTransaction "27" "7" "7" "" (some "7") none .statusPending none "" 0 0,
         Call.notifyPendingTx "27", Call.commit]) :=
  ⟨(C30_pending_notification_amended demoLib
      (specDatabase (faultAt 3 (.pq "unique_violation"))) 2 [2, 7, 6, 1] demoStore
      [(demoRecord 2 7, [2, 7]), (demoRecord 6 1, [6, 1])] (.ok ()) rfl rfl rfl).1
      (.pq "unique_violation") rfl,
   rfl, rfl⟩

/-- C30 fails as stated: an issue followed by a transfer whose insert reports a
not-null violation.  The notification of the issue has been sent, and
`StoreTransactions` panics: it returns no error and calls no `Rollback`. -/
theorem C30_insert_panic_counterexample :
    (StoreTransactions demoLib (specDatabase (faultAt 3 (.pq "not_null_violation"))) 2
        [2, 7, 3, 5] demoStore).map (fun r => (r.1, callsSince demoStore r.2)) =
      some (.panic "Database is corrupt",
        [Call.begin,
         Call.insertTransaction "27" "7" "7" "" (some "7") none .statusPending none "" 0 0,
         Call.notifyPendingTx "27",
         Call.insertTransaction "35" "5" "5" "" none (some "5") .statusPending none "11" 0 0]) ∧
    (specDatabase (faultAt 3 (.pq "not_null_violation"))).exec
        (runCalls (specDatabase (faultAt 3 (.pq "not_null_violation")))
          [Call.begin,
           Call.insertTransaction "27" "7" "7" "" (some "7") none .statusPending none "" 0 0,
           Call.notifyPendingTx "27"] demoStore).db
        (Call.insertTransaction "35" "5" "5" "" none (some "5") .statusPending none "11" 0 0)
      = (some (.pq "not_null_violation"),
          { blocks := demoServer.blocks, pending := some [], clock := 4 }) := by
  refine ⟨rfl, rfl⟩

/-- Adding one to a Go `int` below the highest value gives the sum. -/
theorem addInt_one (s : Int) (h1 : -(2 ^ 63) ≤ s) (h2 : s < 2 ^ 63 - 1) :
    addInt s 1 = s + 1 := by
  unfold addInt
  omega

/-- What a step in state Sampling does to the counter: nothing, or one is added
and the step leaves for ForkDetect unless the new value is at most 10. -/
theorem processSampling_samples (L : Lib) (T : Transport) (D : Database σ) (w : World σ) :
    (processSampling L T D w).2.conn.samples = w.conn.samples ∨
    ((processSampling L T D w).2.conn.samples = addInt w.conn.samples 1 ∧
      ((processSampling L T D w).2.conn.state = cStateForkDetect ∨
        (processSampling L T D w).2.conn.samples ≤ 10)) := by
  unfold processSampling
  obtain ⟨ev, -, -, -, -, -, -, -, -, hsam, -⟩ := highestBlock_clientOps T w
  rcases hH : highestBlock T w with ⟨⟨r, c⟩, w1⟩
  rw [hH] at hsam
  simp only at hsam ⊢
  split
  · exact Or.inl (by simp [setState, hsam])
  · have hconn := (callGetBlockHeight_eq L D
      ({ w1 with conn := { w1.conn with highestBlockNumber := r, theClient := c } } :
        World σ)).2.1
    rcases hC : callGetBlockHeight L D
        ({ w1 with conn := { w1.conn with highestBlockNumber := r, theClient := c } } :
          World σ) with ⟨res, w3⟩
    rw [hC] at hconn
    simp only at hconn
    have hs3 : w3.conn.samples = w.conn.samples := by rw [hconn]; exact hsam
    cases res with
    | error e => exact Or.inl hs3
    | ok height =>
      simp only
      split
      · split
        · exact Or.inl (by simp [setState, hs3])
        · split
          · refine Or.inr ⟨by simp [setState, hs3], Or.inl rfl⟩
          · rename_i hle
            refine Or.inr ⟨by simp [hs3], Or.inr ?_⟩
            simp only [samplelingLimit] at hle
            exact Int.not_lt.1 hle
      · exact Or.inl hs3

/-- One call of `process` keeps the counter between 0 and 10 in state
Sampling. -/
theorem process_samples_bound (L : Lib) (P : PeerLib) (T : Transport) (D : Database σ)
    (w : World σ)
    (hI : w.conn.state = cStateSampling → 0 ≤ w.conn.samples ∧ w.conn.samples ≤ 10)
    (h5 : (process L P T D w).2.conn.state = cStateSampling) :
    0 ≤ (process L P T D w).2.conn.samples ∧ (process L P T D w).2.conn.samples ≤ 10 := by
  have hstep := (process_step L P T D w).1
  rw [h5] at hstep
  have key : ∀ s : Nat, s ≠ 4 → s ≠ 5 →
      ¬ (cStateSampling = s ∨ (s, cStateSampling) ∈ transitions) := by
    intro s h4 h5 h
    rcases h with h | h
    · exact h5 h.symm
    · simp [transitions, cStateConnecting, cStateHighestBlock, cStateForkDetect,
        cStateFetchBlocks, cStateRebuild, cStateSampling] at h
      exact h4 h
  by_cases hr : w.conn.state = cStateRebuild
  · rw [(process_eq L P T D w).2.2.2.2.1 hr]
    simp [processRebuild, modeSet]
  · by_cases hs : w.conn.state = cStateSampling
    · obtain ⟨b1, b2⟩ := hI hs
      rw [(process_eq L P T D w).2.2.2.2.2.1 hs] at h5 ⊢
      rcases processSampling_samples L T D w with h | ⟨h, hf | hle⟩
      · rw [h]
        exact ⟨b1, b2⟩
      · rw [h5] at hf
        cases hf
      · rw [h] at hle ⊢
        rw [addInt_one _ (by omega) (by omega)] at hle ⊢
        exact ⟨by omega, hle⟩
    · exact absurd hstep (key w.conn.state hr hs)

/-- In every run of cycles the counter is between 0 and 10 whenever the state
is Sampling, if it is so at the start. -/
theorem cycles_samples_bound (L : Lib) (P : PeerLib) (T : Transport) (D : Database σ) :
    ∀ (n : Nat) (w : World σ),
      (w.conn.state = cStateSampling → 0 ≤ w.conn.samples ∧ w.conn.samples ≤ 10) →
      (cycles L P T D n w).2.conn.state = cStateSampling →
      0 ≤ (cycles L P T D n w).2.conn.samples ∧ (cycles L P T D n w).2.conn.samples ≤ 10 := by
  intro n
  induction n with
  | zero =>
    intro w hI h5
    exact hI h5
  | succ n ih =>
    intro w hI
    have hstep := process_samples_bound L P T D w hI
    simp only [cycles]
    rcases hP : process L P T D w with ⟨r, w1⟩
    rw [hP] at hstep
    simp only at hstep
    cases r with
    | ok u => exact ih w1 hstep
    | err e => exact hstep
    | panic m => exact hstep

/-- What the subscriber does to the connector record: nothing, or it sets the
state to HighestBlock. -/
theorem subscriberReceive_conn (L : Lib) (P : PeerLib) (D : Database σ) (fuel : Nat)
    (data : List Bytes) (w : World σ) (r : Outcome Unit) (w1 : World σ)
    (h : subscriberReceive L P D fuel data w = some (r, w1)) :
    w1.conn = w.conn ∨ w1.conn = { w.conn with state := cStateHighestBlock } := by
  have htx : ∀ rest, processTransactions L D fuel rest w = some (r, w1) → w1.conn = w.conn := by
    intro rest h
    cases rest with
    | nil =>
      simp only [processTransactions, Option.some.injEq, Prod.mk.injEq] at h
      rw [← h.2]
    | cons d1 more =>
      simp only [processTransactions] at h
      cases hS : StoreTransactions L D fuel d1 w.store with
      | none => rw [hS] at h; cases h
      | some x =>
        rw [hS] at h
        simp only [Option.map_some', Option.some.injEq, Prod.mk.injEq] at h
        rw [← h.2]
  cases data with
  | nil =>
    simp only [subscriberReceive, Option.some.injEq, Prod.mk.injEq] at h
    exact Or.inl (by rw [← h.2])
  | cons d0 rest =>
    simp only [subscriberReceive] at h
    split at h
    · simp only [Option.some.injEq, Prod.mk.injEq] at h
      exact Or.inl (by rw [← h.2])
    · cases rest with
      | nil =>
        simp only [subscriberProcess, Option.some.injEq, Prod.mk.injEq] at h
        exact Or.inl (by rw [← h.2])
      | cons c0 rest2 =>
        simp only [subscriberProcess] at h
        split at h
        · cases rest2 with
          | nil =>
            simp only [Option.some.injEq, Prod.mk.injEq] at h
            exact Or.inl (by rw [← h.2])
          | cons d1 more =>
            simp only at h
            split at h
            · simp only [callStoreBlock] at h
              rcases hS : StoreBlock L D d1 w.store with ⟨rs, g⟩
              rw [hS] at h
              cases rs with
              | ok u =>
                simp only [Option.some.injEq, Prod.mk.injEq] at h
                exact Or.inl (by rw [← h.2])
              | panic m =>
                simp only [Option.some.injEq, Prod.mk.injEq] at h
                exact Or.inl (by rw [← h.2])
              | err e =>
                simp only at h
                split at h
                · simp only [Option.some.injEq, Prod.mk.injEq] at h
                  exact Or.inr (by rw [← h.2]; rfl)
                · simp only [Option.some.injEq, Prod.mk.injEq] at h
                  exact Or.inl (by rw [← h.2])
            · simp only [Option.some.injEq, Prod.mk.injEq] at h
              exact Or.inl (by rw [← h.2])
        · split at h
          · exact Or.inl (htx _ h)
          · split at h
            · exact Or.inl (htx _ h)
            · split at h
              · exact Or.inl (htx _ h)
              · split at h
                · cases rest2 with
                  | nil =>
                    simp only [Option.some.injEq, Prod.mk.injEq] at h
                    exact Or.inl (by rw [← h.2])
                  | cons d1 more =>
                    simp only [Option.some.injEq, Prod.mk.injEq] at h
                    exact Or.inl (by rw [← h.2])
                · simp only [Option.some.injEq, Prod.mk.injEq] at h
                  exact Or.inl (by rw [← h.2])

/-- The subscriber keeps the counter between 0 and 10 in state Sampling. -/
theorem subscriberReceive_samples_bound (L : Lib) (P : PeerLib) (D : Database σ) (fuel : Nat)
    (data : List Bytes) (w : World σ) (r : Outcome Unit) (w1 : World σ)
    (hI : w.conn.state = cStateSampling → 0 ≤ w.conn.samples ∧ w.conn.samples ≤ 10)
    (h : subscriberReceive L P D fuel data w = some (r, w1))
    (h5 : w1.conn.state = cStateSampling) :
    0 ≤ w1.conn.samples ∧ w1.conn.samples ≤ 10 := by
  rcases subscriberReceive_conn L P D fuel data w r w1 h with hc | hc
  · rw [hc] at h5 ⊢
    exact hI h5
  · rw [hc] at h5
    cases h5

/-- C20: a process call in state Sampling asks the peers with `highestBlock`,
which gives the remote tip `r` and a client.  With no live peer (no client)
the state becomes HighestBlock.  Otherwise, with local tip `l`: if `r - l ≥ 2`
the state becomes ForkDetect and samples is unchanged; if `r = l + 1` one is
added to samples as a Go `int` and the state becomes ForkDetect iff the new
value is above 10, else stays Sampling; if `r ≤ l` the state stays Sampling and
samples is unchanged.  For every counter value `s` but the highest `int` the
new value is `s + 1`; the highest `int`, two to the 63 minus one, wraps to minus
two to the 63.  That value is never met: in every run of cycles that starts
outside Sampling, or in Sampling with a counter from 0 to 10, the counter is
between 0 and 10 whenever the state is Sampling, and the subscriber, which runs
between the cycles, keeps it so: it leaves the connector record alone or sets
the state to HighestBlock. -/
theorem C20_sampling_step (L : Lib) (P : PeerLib) (T : Transport) (D : Database σ)
    (w : World σ) (hs : w.conn.state = cStateSampling) :
    ((highestBlock T w).1.2 = none →
      (process L P T D w).1 = .ok () ∧
      (process L P T D w).2.conn.state = cStateHighestBlock) ∧
    (∀ l, (highestBlock T w).1.2 ≠ none → (GetBlockHeight L D w.store).1 = .ok l →
      (process L P T D w).1 = .ok () ∧
      (l + 2 ≤ (highestBlock T w).1.1 →
        (process L P T D w).2.conn.state = cStateForkDetect ∧
        (process L P T D w).2.conn.samples = w.conn.samples) ∧
      ((highestBlock T w).1.1 = l + 1 →
        (process L P T D w).2.conn.samples = addInt w.conn.samples 1 ∧
        (addInt w.conn.samples 1 > 10 →
          (process L P T D w).2.conn.state = cStateForkDetect) ∧
        (¬ addInt w.conn.samples 1 > 10 →
          (process L P T D w).2.conn.state = cStateSampling) ∧
        (-(2 ^ 63) ≤ w.conn.samples → w.conn.samples < 2 ^ 63 - 1 →
          (process L P T D w).2.conn.samples = w.conn.samples + 1 ∧
          (w.conn.samples + 1 > 10 → (process L P T D w).2.conn.state = cStateForkDetect) ∧
          (¬ w.conn.samples + 1 > 10 →
            (process L P T D w).2.conn.state = cStateSampling))) ∧
      ((highestBlock T w).1.1 ≤ l →
        (process L P T D w).2.conn.state = cStateSampling ∧
        (process L P T D w).2.conn.samples = w.conn.samples)) ∧
    addInt (2 ^ 63 - 1) 1 = -(2 ^ 63) ∧
    (∀ (w0 : World σ) (n : Nat),
      (w0.conn.state = cStateSampling → 0 ≤ w0.conn.samples ∧ w0.conn.samples ≤ 10) →
      (cycles L P T D n w0).2.conn.state = cStateSampling →
      0 ≤ (cycles L P T D n w0).2.conn.samples ∧
        (cycles L P T D n w0).2.conn.samples ≤ 10) ∧
    (∀ (w0 : World σ) (fuel : Nat) (data : List Bytes) (r : Outcome Unit) (w1 : World σ),
      (w0.conn.state = cStateSampling → 0 ≤ w0.conn.samples ∧ w0.conn.samples ≤ 10) →
      subscriberReceive L P D fuel data w0 = some (r, w1) →
      w1.conn.state = cStateSampling →
      0 ≤ w1.conn.samples ∧ w1.conn.samples ≤ 10) := by
  refine ⟨?_, ?_, by decide, fun w0 n => cycles_samples_bound L P T D n w0,
    fun w0 fuel data r w1 hI h h5 =>
      subscriberReceive_samples_bound L P D fuel data w0 r w1 hI h h5⟩
  · rw [(process_eq L P T D w).2.2.2.2.2.1 hs]
    unfold processSampling
    rcases hH : highestBlock T w with ⟨⟨r, c⟩, w1⟩
    intro hc
    simp only at hc ⊢
    simp [hc, setState]
  · rw [(process_eq L P T D w).2.2.2.2.2.1 hs]
    obtain ⟨ev, -, -, hst, -, hstate, -, -, -, hsam, -⟩ := highestBlock_clientOps T w
    unfold processSampling
    rcases hH : highestBlock T w with ⟨⟨r, c⟩, w1⟩
    rw [hH] at hst hstate hsam
    simp only at hst hstate hsam ⊢
    intro l hc hl
    rw [if_neg hc]
    have hg : (callGetBlockHeight L D
        { w1 with conn := { w1.conn with highestBlockNumber := r, theClient := c } }).1
          = .ok l := by
      rw [(callGetBlockHeight_eq L D _).1]
      simp only [hst, hl]
    rcases hC : callGetBlockHeight L D
        { w1 with conn := { w1.conn with highestBlockNumber := r, theClient := c } }
      with ⟨res, w3⟩
    have hconn : w3.conn = { w1.conn with highestBlockNumber := r, theClient := c } := by
      have := (callGetBlockHeight_eq L D
        { w1 with conn := { w1.conn with highestBlockNumber := r, theClient := c } }).2.1
      rw [hC] at this
      exact this
    rw [hC] at hg
    simp only at hg
    subst hg
    simp only [hconn, samplelingLimit]
    refine ⟨?_, ?_, ?_, ?_⟩
    · split
      · split
        · rfl
        · split <;> rfl
      · rfl
    · intro h2
      have h3 : r > l := by omega
      have h4 : subU64 r l ≥ 2 := by
        unfold subU64
        rw [if_pos (by omega)]
        omega
      simp [h3, h4, setState, hconn, hsam, cStateForkDetect]
    · intro h2
      have h3 : r > l := by omega
      have h4 : ¬ subU64 r l ≥ 2 := by
        unfold subU64
        rw [if_pos (by omega)]
        omega
      rw [if_pos h3, if_neg h4]
      have e1 : (if addInt w1.conn.samples 1 > 10 then
            ((Outcome.ok (), setState cStateForkDetect
              { w3 with conn := { w3.conn with samples := addInt w1.conn.samples 1 } }) :
              Outcome Unit × World σ)
          else (Outcome.ok (),
              { w3 with conn := { w3.conn with samples := addInt w1.conn.samples 1 } })
          ).2.conn.samples = addInt w.conn.samples 1 := by
        split <;> simp [setState, hsam]
      have e2 : addInt w.conn.samples 1 > 10 →
          (if addInt w1.conn.samples 1 > 10 then
            ((Outcome.ok (), setState cStateForkDetect
              { w3 with conn := { w3.conn with samples := addInt w1.conn.samples 1 } }) :
              Outcome Unit × World σ)
          else (Outcome.ok (),
              { w3 with conn := { w3.conn with samples := addInt w1.conn.samples 1 } })
          ).2.conn.state = cStateForkDetect := by
        intro h5
        have h6 : addInt w1.conn.samples 1 > 10 := by rw [hsam]; exact h5
        rw [if_pos h6]
        simp [setState, cStateForkDetect]
      have e3 : ¬ addInt w.conn.samples 1 > 10 →
          (if addInt w1.conn.samples 1 > 10 then
            ((Outcome.ok (), setState cStateForkDetect
              { w3 with conn := { w3.conn with samples := addInt w1.conn.samples 1 } }) :
              Outcome Unit × World σ)
          else (Outcome.ok (),
              { w3 with conn := { w3.conn with samples := addInt w1.conn.samples 1 } })
          ).2.conn.state = cStateSampling := by
        intro h5
        have h6 : ¬ addInt w1.conn.samples 1 > 10 := by rw [hsam]; exact h5
        rw [if_neg h6]
        simp [hconn, hstate, hs]
      simp only [hconn] at e1 e2 e3
      refine ⟨e1, e2, e3, ?_⟩
      intro b1 b2
      have ha := addInt_one w.conn.samples b1 b2
      rw [ha] at e1 e2 e3
      exact ⟨e1, e2, e3⟩
    · intro h2
      have h3 : ¬ r > l := by omega
      rw [if_neg h3]
      simp [hconn, hstate, hs, hsam]

/-- Witness for C20: with the peer one block ahead of the local tip 8 and
samples 0, one cycle gives samples 1 in state Sampling; the first 10 cycles
stay in Sampling and the 11th moves to ForkDetect. -/
theorem C20_sampling_step_witness :
    (process demoLib demoPeerLib demoAheadPeer (specDatabase noFaults)
        demoSamplingWorld).2.conn.samples = 0 + 1 ∧
    (process demoLib demoPeerLib demoAheadPeer (specDatabase noFaults)
        demoSamplingWorld).2.conn.state = cStateSampling ∧
    (cycles demoLib demoPeerLib demoAheadPeer (specDatabase noFaults) 10
        demoSamplingWorld).2.conn.state = cStateSampling ∧
    (cycles demoLib demoPeerLib demoAheadPeer (specDatabase noFaults) 10
        demoSamplingWorld).2.conn.samples = 10 ∧
    (cycles demoLib demoPeerLib demoAheadPeer (specDatabase noFaults) 11
        demoSamplingWorld).2.conn.state = cStateForkDetect ∧
    (cycles demoLib demoPeerLib demoAheadPeer (specDatabase noFaults) 11
        demoSamplingWorld).2.conn.samples = 11 :=
  ⟨((((C20_sampling_step demoLib demoPeerLib demoAheadPeer (specDatabase noFaults)
        demoSamplingWorld rfl).2.1 8 (by decide) rfl).2.2.1 rfl).2.2.2
        (by decide) (by decide)).1,
   ((((C20_sampling_step demoLib demoPeerLib demoAheadPeer (specDatabase noFaults)
        demoSamplingWorld rfl).2.1 8 (by decide) rfl).2.2.1 rfl).2.2.2
        (by decide) (by decide)).2.2 (by decide),
   by decide, by decide, by decide, by decide⟩

end Updaterd
